import Mathlib

/-! # Exif segment reader / writer (`exif.c`): a shallow embedding

The C sources are modelled by pure functions.

* A `FILE*` opened for reading is the list of its bytes together with positions that
  are passed explicitly; an output file is the list of bytes written to it.
* The null-terminated `void **ifdTableArray` is the list of the IFD tables that
  precede the terminating `NULL`.
* The doubly linked `TagNode` list of an IFD is a `List TagNode`; a `NULL` buffer
  is `none`.
* `uint16_t` / `unsigned int` values are natural numbers, reduced modulo `2 ^ 16` /
  `2 ^ 32` at the places where the C code truncates.
* Reading a buffer through a `NULL` pointer or past its end is undefined in C. The
  functions below read `0` there, so they describe the C code only where it has defined
  behaviour: the predicates `tagReadDefined`, `parseIFDDefined` and
  `fillIfdTableArrayDefined` say where that is for the parser, `setThumbnailDefined`
  for `setThumbnailDataOnIfdTableArray`, `fixPassDefined` and `fixLoopDefined` for
  `fixLengthAndOffsetInIfdTables`.
* The count of a tag is taken to be below `2 ^ 31`, where the casts `(int)tag->count` of
  the loops over a payload change nothing.
-/

set_option autoImplicit false

namespace Exif

/-! ## Constants of `exif.h` -/

/-- Modelled from the spec: `exif.h` is not among the sources; the spec numbers the ten
value types 1..10 in the order BYTE, ASCII, SHORT, LONG, RATIONAL, SBYTE, UNDEFINED,
SSHORT, SLONG, SRATIONAL. -/
def TYPE_BYTE : Nat := 1
/-- Modelled from the spec: value type 2 (see `TYPE_BYTE`). -/
def TYPE_ASCII : Nat := 2
/-- Modelled from the spec: value type 3 (see `TYPE_BYTE`). -/
def TYPE_SHORT : Nat := 3
/-- Modelled from the spec: value type 4 (see `TYPE_BYTE`). -/
def TYPE_LONG : Nat := 4
/-- Modelled from the spec: value type 5 (see `TYPE_BYTE`). -/
def TYPE_RATIONAL : Nat := 5
/-- Modelled from the spec: value type 6 (see `TYPE_BYTE`). -/
def TYPE_SBYTE : Nat := 6
/-- Modelled from the spec: value type 7 (see `TYPE_BYTE`). -/
def TYPE_UNDEFINED : Nat := 7
/-- Modelled from the spec: value type 8 (see `TYPE_BYTE`). -/
def TYPE_SSHORT : Nat := 8
/-- Modelled from the spec: value type 9 (see `TYPE_BYTE`). -/
def TYPE_SLONG : Nat := 9
/-- Modelled from the spec: value type 10 (see `TYPE_BYTE`). -/
def TYPE_SRATIONAL : Nat := 10

/-- Modelled from the spec: `exif.h` is not among the sources; the spec names the pointer
tag `ExifIFDPointer`, its id is the one of the Exif standard. -/
def TAG_ExifIFDPointer : Nat := 0x8769
/-- Modelled from the spec: the id of `GPSInfoIFDPointer` (see `TAG_ExifIFDPointer`). -/
def TAG_GPSInfoIFDPointer : Nat := 0x8825
/-- Modelled from the spec: the id of `InteroperabilityIFDPointer`
(see `TAG_ExifIFDPointer`). -/
def TAG_InteroperabilityIFDPointer : Nat := 0xA005
/-- Modelled from the spec: the id of `JPEGInterchangeFormat` (see `TAG_ExifIFDPointer`). -/
def TAG_JPEGInterchangeFormat : Nat := 0x0201
/-- Modelled from the spec: the id of `JPEGInterchangeFormatLength`
(see `TAG_ExifIFDPointer`). -/
def TAG_JPEGInterchangeFormatLength : Nat := 0x0202

/-- Modelled from the spec: `exif.h` is not among the sources; the spec lists the status
kinds and says that they are negative. The numbers follow the order of that list. -/
def ERR_READ_FILE : Int := -1
/-- Modelled from the spec: status kind WriteFile (see `ERR_READ_FILE`). -/
def ERR_WRITE_FILE : Int := -2
/-- Modelled from the spec: status kind InvalidJpeg (see `ERR_READ_FILE`). -/
def ERR_INVALID_JPEG : Int := -3
/-- Modelled from the spec: status kind InvalidApp1Header (see `ERR_READ_FILE`). -/
def ERR_INVALID_APP1HEADER : Int := -4
/-- Modelled from the spec: status kind InvalidIfd (see `ERR_READ_FILE`). -/
def ERR_INVALID_IFD : Int := -5
/-- Modelled from the spec: status kind InvalidPointer (see `ERR_READ_FILE`). -/
def ERR_INVALID_POINTER : Int := -6
/-- Modelled from the spec: status kind InvalidType (see `ERR_READ_FILE`). -/
def ERR_INVALID_TYPE : Int := -7
/-- Modelled from the spec: status kind InvalidCount (see `ERR_READ_FILE`). -/
def ERR_INVALID_COUNT : Int := -8
/-- Modelled from the spec: status kind MemAlloc (see `ERR_READ_FILE`). -/
def ERR_MEMALLOC : Int := -9
/-- Modelled from the spec: status kind NotExist (see `ERR_READ_FILE`). -/
def ERR_NOT_EXIST : Int := -10
/-- Modelled from the spec: status kind AlreadyExist (see `ERR_READ_FILE`). -/
def ERR_ALREADY_EXIST : Int := -11
/-- Modelled from the spec: status kind Unknown (see `ERR_READ_FILE`). -/
def ERR_UNKNOWN : Int := -12

/-- Modelled from the spec: the enumeration `IFD_TYPE` of `exif.h` (not among the
sources), one constant per IFD kind. -/
inductive IFD_TYPE where
  | IFD_UNKNOWN
  | IFD_0TH
  | IFD_1ST
  | IFD_EXIF
  | IFD_GPS
  | IFD_IO
  deriving DecidableEq, Repr

open IFD_TYPE

/-! ## Data model -/

/-- The struct `_tagNode` without its list links. -/
structure TagNode where
  tagId : Nat
  type : Nat
  count : Nat
  numData : Option (List Nat)
  byteData : Option (List Nat)
  error : Nat
  deriving DecidableEq, Repr

/-- The struct `_ifdTable`; `p` is the thumbnail buffer. -/
structure IfdTable where
  ifdType : IFD_TYPE
  tagCount : Nat
  tags : List TagNode
  nextIfdOffset : Nat
  offset : Nat
  length : Nat
  p : Option (List Nat)
  deriving DecidableEq, Repr

/-- The value `tag->numData[i]` where the buffer has a cell `i`. Where `numData` is
`NULL` or the buffer is shorter, the C code reads through the pointer all the same; the
value is 0 here, and the predicates `thumbnailReadsDefined`, `pointerReadDefined`,
`calcIfdSizeDefined`, `fix1stDefined` and `pointerSetDefined` say for each read of
`numData[0]` in the parser and in the fixer whether the cell exists. -/
def TagNode.num (t : TagNode) (i : Nat) : Nat := (t.numData.getD []).getD i 0

/-- The value `tag->byteData[i]`. -/
def TagNode.byte (t : TagNode) (i : Nat) : Nat := (t.byteData.getD []).getD i 0

/-- The first `n` cells of a source buffer, as copied by a `for` loop or `memcpy`. -/
def copyCells (n : Nat) (src : List Nat) : List Nat :=
  (List.range n).map (fun i => src.getD i 0)

/-- The function `createIfdTable`: `memset` to zero, then the three fields. -/
def createIfdTable (IfdType : IFD_TYPE) (tagCount : Nat) (nextOfs : Nat) : IfdTable :=
  { ifdType := IfdType, tagCount := tagCount, tags := [], nextIfdOffset := nextOfs,
    offset := 0, length := 0, p := none }

/-- The tag node built by `addTagNodeToIfd` before it is linked to the list. -/
def newTagNode (tagId type count : Nat) (numData byteData : Option (List Nat)) : TagNode :=
  if 0 < count then
    match numData, byteData with
    | some nd, _ =>
        let num := if type = TYPE_RATIONAL ∨ type = TYPE_SRATIONAL then count * 2 else count
        { tagId := tagId, type := type, count := count,
          numData := some (copyCells num nd), byteData := none, error := 0 }
    | none, some bd =>
        { tagId := tagId, type := type, count := count,
          numData := none, byteData := some (copyCells count bd), error := 0 }
    | none, none =>
        { tagId := tagId, type := type, count := count,
          numData := none, byteData := none, error := 1 }
  else
    { tagId := tagId, type := type, count := count,
      numData := none, byteData := none, error := 1 }

/-- The function `addTagNodeToIfd`: the new node goes to the tail of the list. -/
def addTagNodeToIfd (ifd : IfdTable) (tagId type count : Nat)
    (numData byteData : Option (List Nat)) : IfdTable :=
  { ifd with tags := ifd.tags ++ [newTagNode tagId type count numData byteData] }

/-- The function `getTagNodePtrFromIfd`: the first node with the id. -/
def getTagNodePtrFromIfd (ifd : IfdTable) (tagId : Nat) : Option TagNode :=
  ifd.tags.find? (fun t => t.tagId == tagId)

/-- The function `getIfdTableFromIfdTableArray`: the first table of the kind. -/
def getIfdTableFromIfdTableArray (ifdTableArray : List IfdTable) (ifdType : IFD_TYPE) :
    Option IfdTable :=
  ifdTableArray.find? (fun ifd => ifd.ifdType == ifdType)

/-- The function `countIfdTableOnIfdTableArray`. -/
def countIfdTableOnIfdTableArray (ifdTableArray : List IfdTable) : Nat :=
  ifdTableArray.length

/-- The effect of `setSingleNumDataToTag` on the node (the node is left alone unless
its type is one of the six integer types). A buffer of one cell is allocated when
`numData` is `NULL`; otherwise the C code writes `tag->numData[0]` in the buffer there
is, and `setSingleNumDataDefined` says when that buffer has a cell 0. -/
def setSingleNumDataToTag (tag : TagNode) (value : Nat) : TagNode :=
  if tag.type ≠ TYPE_BYTE ∧ tag.type ≠ TYPE_SHORT ∧ tag.type ≠ TYPE_LONG ∧
     tag.type ≠ TYPE_SBYTE ∧ tag.type ≠ TYPE_SSHORT ∧ tag.type ≠ TYPE_SLONG then tag
  else
    { tag with
      count := 1
      numData := some (match tag.numData with
                       | some nd => value :: nd.tail
                       | none => [value])
      error := 0 }

/-- A write through the pointer returned by `getTagNodePtrFromIfd`: the first node with
the id is replaced by `f` of it. -/
def modifyTag (tags : List TagNode) (tagId : Nat) (f : TagNode → TagNode) : List TagNode :=
  match tags with
  | [] => []
  | t :: ts => if t.tagId == tagId then f t :: ts else t :: modifyTag ts tagId f

/-- A write through the pointer returned by `getIfdTableFromIfdTableArray`: the first
table of the kind is replaced. -/
def putIfd (arr : List IfdTable) (ifdType : IFD_TYPE) (new : IfdTable) : List IfdTable :=
  match arr with
  | [] => []
  | x :: xs => if x.ifdType == ifdType then new :: xs else x :: putIfd xs ifdType new

/-! ## OffsetFixer: `calcIfdSize` and `fixLengthAndOffsetInIfdTables` -/

/-- The bytes the `switch` of `calcIfdSize` adds to `size` for one tag without error. -/
def tagValueSize (tag : TagNode) : Nat :=
  if tag.type = TYPE_ASCII ∨ tag.type = TYPE_UNDEFINED ∨
     tag.type = TYPE_BYTE ∨ tag.type = TYPE_SBYTE then
    if tag.count > 4 then tag.count + (if tag.count % 2 ≠ 0 then 1 else 0) else 0
  else if tag.type = TYPE_SHORT ∨ tag.type = TYPE_SSHORT then
    if tag.count > 2 then tag.count * 2 else 0
  else if tag.type = TYPE_LONG ∨ tag.type = TYPE_SLONG then
    if tag.count > 1 then tag.count * 4 else 0
  else if tag.type = TYPE_RATIONAL ∨ tag.type = TYPE_SRATIONAL then
    if tag.count > 0 then tag.count * 8 else 0
  else 0

/-- The tags of a list whose error flag is not set. -/
def liveTags (tags : List TagNode) : List TagNode := tags.filter (fun t => t.error == 0)

/-- The thumbnail length `calcIfdSize` adds: `numData[0]` of `JPEGInterchangeFormatLength`
for a 1st IFD that owns a thumbnail buffer. The C code reads the cell without testing
`numData`; `calcIfdSizeDefined` says when the cell exists. -/
def thumbnailSize (ifd : IfdTable) : Nat :=
  if ifd.ifdType = IFD_1ST ∧ ifd.p.isSome then
    match getTagNodePtrFromIfd ifd TAG_JPEGInterchangeFormatLength with
    | some tag => tag.num 0
    | none => 0
  else 0

/-- The value of `size` at the end of `calcIfdSize`, before the cast to `uint16_t`
(the additions are `unsigned int` additions; modulo `2 ^ 16` the wrap at `2 ^ 32` is
invisible). -/
def ifdSizeExact (ifd : IfdTable) : Nat :=
  2 + 12 * (liveTags ifd.tags).length + 4 + thumbnailSize ifd +
    ((liveTags ifd.tags).map tagValueSize).sum

/-- The function `calcIfdSize`. -/
def calcIfdSize (ifd : IfdTable) : Nat := ifdSizeExact ifd % 65536

/-- The body of the first `for` loop of `fixLengthAndOffsetInIfdTables` for one table:
error tags are unlinked, then `tagCount`, `length` and `nextIfdOffset` are set. -/
def refreshIfd (ifd : IfdTable) : IfdTable :=
  let ifd1 := { ifd with tags := liveTags ifd.tags,
                         tagCount := (liveTags ifd.tags).length % 65536 }
  { ifd1 with length := calcIfdSize ifd1, nextIfdOffset := 0 }

/-- The expression `(ifd) ? ifd->length : 0`. -/
def lengthOr0 (ifd : Option IfdTable) : Nat :=
  match ifd with
  | some i => i.length
  | none => 0

/-- The local variables of `fixLengthAndOffsetInIfdTables` after the five look-ups. -/
structure FixState where
  ifd0th : IfdTable
  ifdExif : Option IfdTable
  ifdIo : Option IfdTable
  ifdGps : Option IfdTable
  ifd1st : Option IfdTable
  again : Bool
  deriving DecidableEq, Repr

/-- The statement `setSingleNumDataToTag(tag, value)` for the tag found under `tagId`. -/
def setTagValue (ifd : IfdTable) (tagId value : Nat) : IfdTable :=
  { ifd with tags := modifyTag ifd.tags tagId (fun t => setSingleNumDataToTag t value) }

/-- The statement `addTagNodeToIfd(ifd, tagId, TYPE_LONG, 1, &dummy, NULL)`. -/
def addDummyTag (ifd : IfdTable) (tagId : Nat) : IfdTable :=
  addTagNodeToIfd ifd tagId TYPE_LONG 1 (some [0]) none

/-- The block on the 1st IFD: the link from the 0th IFD and the thumbnail offset. The
C code reads `len = tag->numData[0]` without testing `numData`; `fix1stDefined` says
when the cell exists. -/
def fix1st (s : FixState) : FixState :=
  match s.ifd1st with
  | some f0 =>
      let next := 8 + s.ifd0th.length + lengthOr0 s.ifdExif + lengthOr0 s.ifdIo +
                    lengthOr0 s.ifdGps
      let z := { s.ifd0th with nextIfdOffset := next }
      let f := { f0 with offset := next % 65536 }
      match f.p with
      | some _ =>
          match getTagNodePtrFromIfd f TAG_JPEGInterchangeFormatLength with
          | some tagLen =>
              let len := tagLen.num 0
              match getTagNodePtrFromIfd f TAG_JPEGInterchangeFormat with
              | some _ =>
                  { s with ifd0th := z,
                           ifd1st := some (setTagValue f TAG_JPEGInterchangeFormat
                             ((f.offset + f.length + (4294967296 - len % 4294967296))
                                % 4294967296)) }
              | none =>
                  { s with ifd0th := z,
                           ifd1st := some (addDummyTag f TAG_JPEGInterchangeFormat),
                           again := true }
          | none =>
              match getTagNodePtrFromIfd f TAG_JPEGInterchangeFormat with
              | some _ =>
                  { s with ifd0th := z,
                           ifd1st := some (setTagValue f TAG_JPEGInterchangeFormat 0) }
              | none => { s with ifd0th := z, ifd1st := some f }
      | none => { s with ifd0th := z, ifd1st := some f }
  | none => { s with ifd0th := { s.ifd0th with nextIfdOffset := 0 } }

/-- The block on `InteroperabilityIFDPointer`, run when the Exif IFD `e` exists. The C
code reads `tag->numData[0]` after `setSingleNumDataToTag`, which leaves a node of
another type than the six integer types as it is; `fixExifDefined` says when the cell
exists. -/
def fixIo (s : FixState) (e : IfdTable) : FixState :=
  match s.ifdIo with
  | some io =>
      match getTagNodePtrFromIfd e TAG_InteroperabilityIFDPointer with
      | some tag =>
          let value := 8 + s.ifd0th.length + e.length
          { s with ifdExif := some (setTagValue e TAG_InteroperabilityIFDPointer value),
                   ifdIo := some { io with
                     offset := (setSingleNumDataToTag tag value).num 0 % 65536 } }
      | none =>
          { s with ifdExif := some (addDummyTag e TAG_InteroperabilityIFDPointer),
                   again := true }
  | none =>
      match getTagNodePtrFromIfd e TAG_InteroperabilityIFDPointer with
      | some _ => { s with ifdExif := some (setTagValue e TAG_InteroperabilityIFDPointer 0) }
      | none => s

/-- The block on `ExifIFDPointer` (and, inside it, on `InteroperabilityIFDPointer`). The
C code reads `tag->numData[0]` after `setSingleNumDataToTag`, which leaves a node of
another type than the six integer types as it is; `fixExifDefined` says when the cell
exists. -/
def fixExif (s : FixState) : FixState :=
  match s.ifdExif with
  | some e0 =>
      match getTagNodePtrFromIfd s.ifd0th TAG_ExifIFDPointer with
      | some tag =>
          let value := 8 + s.ifd0th.length
          let e := { e0 with offset := (setSingleNumDataToTag tag value).num 0 % 65536 }
          fixIo { s with ifd0th := setTagValue s.ifd0th TAG_ExifIFDPointer value,
                         ifdExif := some e } e
      | none =>
          fixIo { s with ifd0th := addDummyTag s.ifd0th TAG_ExifIFDPointer,
                         again := true } e0
  | none =>
      match getTagNodePtrFromIfd s.ifd0th TAG_ExifIFDPointer with
      | some _ => { s with ifd0th := setTagValue s.ifd0th TAG_ExifIFDPointer 0 }
      | none => s

/-- The block on `GPSInfoIFDPointer`. The C code reads `tag->numData[0]` after
`setSingleNumDataToTag`, which leaves a node of another type than the six integer types
as it is; `fixGpsDefined` says when the cell exists. -/
def fixGps (s : FixState) : FixState :=
  match s.ifdGps with
  | some g =>
      match getTagNodePtrFromIfd s.ifd0th TAG_GPSInfoIFDPointer with
      | some tag =>
          let value := 8 + s.ifd0th.length + lengthOr0 s.ifdExif + lengthOr0 s.ifdIo
          { s with ifd0th := setTagValue s.ifd0th TAG_GPSInfoIFDPointer value,
                   ifdGps := some { g with
                     offset := (setSingleNumDataToTag tag value).num 0 % 65536 } }
      | none =>
          { s with ifd0th := addDummyTag s.ifd0th TAG_GPSInfoIFDPointer, again := true }
  | none =>
      match getTagNodePtrFromIfd s.ifd0th TAG_GPSInfoIFDPointer with
      | some _ => { s with ifd0th := setTagValue s.ifd0th TAG_GPSInfoIFDPointer 0 }
      | none => s

/-- The array after the writes through one of the five table pointers. -/
def putOpt (arr : List IfdTable) (ifdType : IFD_TYPE) (ifd : Option IfdTable) :
    List IfdTable :=
  match ifd with
  | some i => putIfd arr ifdType i
  | none => arr

/-- The array once all writes through the local table pointers have been made. -/
def writeBack (arr : List IfdTable) (s : FixState) : List IfdTable :=
  putOpt (putOpt (putOpt (putOpt (putIfd arr IFD_0TH s.ifd0th) IFD_EXIF s.ifdExif)
    IFD_IO s.ifdIo) IFD_GPS s.ifdGps) IFD_1ST s.ifd1st

/-- How one pass from the label `AGAIN` ends: with a `return`, or with `goto AGAIN`. -/
inductive FixPass where
  | ret (sts : Int) (arr : List IfdTable)
  | again (arr : List IfdTable)
  deriving DecidableEq, Repr

/-- One pass of `fixLengthAndOffsetInIfdTables`, from the label `AGAIN` to the end. -/
def fixPass (ifdTableArray : List IfdTable) : FixPass :=
  let arr := ifdTableArray.map refreshIfd
  match getIfdTableFromIfdTableArray arr IFD_0TH with
  | none => FixPass.ret 0 arr
  | some ifd0th =>
      let s0 : FixState :=
        { ifd0th := { ifd0th with offset := 8 },
          ifdExif := getIfdTableFromIfdTableArray arr IFD_EXIF,
          ifdIo := getIfdTableFromIfdTableArray arr IFD_IO,
          ifdGps := getIfdTableFromIfdTableArray arr IFD_GPS,
          ifd1st := getIfdTableFromIfdTableArray arr IFD_1ST,
          again := false }
      let s := fixGps (fixExif (fix1st s0))
      if s.again then FixPass.again (writeBack arr s) else FixPass.ret 0 (writeBack arr s)

/-- The passes of `fixLengthAndOffsetInIfdTables`; `none` when `fuel` passes did not
reach a `return`. -/
def fixLoop (fuel : Nat) (ifdTableArray : List IfdTable) : Option (Int × List IfdTable) :=
  match fuel with
  | 0 => none
  | n + 1 =>
      match fixPass ifdTableArray with
      | FixPass.ret sts arr => some (sts, arr)
      | FixPass.again arr => fixLoop n arr

/-- The function `fixLengthAndOffsetInIfdTables` on an array that is not `NULL`
(the caller `updateExifSegmentInJPEGFile` below handles the `NULL` array). -/
def fixLengthAndOffsetInIfdTables (fuel : Nat) (ifdTableArray : List IfdTable) :
    Option (Int × List IfdTable) :=
  fixLoop fuel ifdTableArray

/-! ## ByteOrder: host memory, `swab16`, `swab32`, `fix_short`, `fix_int` -/

/-- The struct `_tiff_Header`, as held in memory (host byte order). -/
structure TIFF_HEADER where
  byteOrder : Nat
  reserved : Nat
  Ifd0thOffset : Nat
  deriving DecidableEq, Repr

/-- The struct `_App1_Header`, as held in memory (host byte order); `id` are its six
identifier bytes. -/
structure APP1_HEADER where
  marker : Nat
  length : Nat
  id : List Nat
  tiff : TIFF_HEADER
  deriving DecidableEq, Repr

/-- The function `swab16` on a 16-bit value: the two bytes change places. -/
def swab16 (us : Nat) : Nat := (us % 256) * 256 + (us / 256) % 256

/-- The function `swab32` on a 32-bit value: the four bytes are reversed. -/
def swab32 (ui : Nat) : Nat :=
  (ui % 256) * 16777216 + (ui / 256 % 256) * 65536 + (ui / 65536 % 256) * 256 +
    (ui / 16777216) % 256

/-- The function `dataIsLittleEndian`. -/
def dataIsLittleEndian (hdr : APP1_HEADER) : Bool := hdr.tiff.byteOrder = 0x4949

/-- The function `fix_short`; `sysLE` is the value of `systemIsLittleEndian()`. -/
def fix_short (sysLE : Bool) (hdr : APP1_HEADER) (us : Nat) : Nat :=
  if dataIsLittleEndian hdr != sysLE then swab16 us else us

/-- The function `fix_int`; `sysLE` is the value of `systemIsLittleEndian()`. -/
def fix_int (sysLE : Bool) (hdr : APP1_HEADER) (ui : Nat) : Nat :=
  if dataIsLittleEndian hdr != sysLE then swab32 ui else ui

/-- The two bytes a `uint16_t` occupies in host memory (what `fwrite(&us, 1, 2, fp)`
emits). -/
def mem16 (sysLE : Bool) (v : Nat) : List Nat :=
  if sysLE then [v % 256, v / 256 % 256] else [v / 256 % 256, v % 256]

/-- The four bytes an `unsigned int` occupies in host memory. -/
def mem32 (sysLE : Bool) (v : Nat) : List Nat :=
  if sysLE then [v % 256, v / 256 % 256, v / 65536 % 256, v / 16777216 % 256]
  else [v / 16777216 % 256, v / 65536 % 256, v / 256 % 256, v % 256]

/-- The `uint16_t` that two bytes in host memory denote (what `fread(&us, 1, 2, fp)`
stores). -/
def val16 (sysLE : Bool) (b : List Nat) : Nat :=
  if sysLE then b.getD 0 0 + 256 * b.getD 1 0 else 256 * b.getD 0 0 + b.getD 1 0

/-- The `unsigned int` that four bytes in host memory denote. -/
def val32 (sysLE : Bool) (b : List Nat) : Nat :=
  if sysLE then b.getD 0 0 + 256 * b.getD 1 0 + 65536 * b.getD 2 0 + 16777216 * b.getD 3 0
  else 16777216 * b.getD 0 0 + 65536 * b.getD 1 0 + 256 * b.getD 2 0 + b.getD 3 0

/-- The function `setDefaultApp1SegmentHader`: the header of a fresh segment. -/
def setDefaultApp1SegmentHader (sysLE : Bool) : APP1_HEADER :=
  { marker := if sysLE then 0xE1FF else 0xFFE1,
    length := 0,
    id := [0x45, 0x78, 0x69, 0x66, 0, 0],
    tiff := { byteOrder := 0x4949, reserved := 0x002A, Ifd0thOffset := 0x00000008 } }

/-! ## ExifWriter: `writeExifSegment` -/

/-- The first `switch` of `writeExifSegment` for one tag: the four bytes of the union
`packed` in memory, and the value of `ofs` after the tag. -/
def packTag (sysLE : Bool) (hdr : APP1_HEADER) (tag : TagNode) (ofs : Nat) :
    List Nat × Nat :=
  if tag.type = TYPE_ASCII ∨ tag.type = TYPE_UNDEFINED then
    if tag.count ≤ 4 then
      ((List.range 4).map (fun i => if i < tag.count then tag.byte i else 0), ofs)
    else
      (mem32 sysLE (fix_int sysLE hdr ofs),
       ofs + tag.count + (if tag.count % 2 ≠ 0 then 1 else 0))
  else if tag.type = TYPE_BYTE ∨ tag.type = TYPE_SBYTE then
    if tag.count ≤ 4 then
      ((List.range 4).map (fun i => if i < tag.count then tag.num i % 256 else 0), ofs)
    else
      (mem32 sysLE (fix_int sysLE hdr ofs),
       ofs + tag.count + (if tag.count % 2 ≠ 0 then 1 else 0))
  else if tag.type = TYPE_SHORT ∨ tag.type = TYPE_SSHORT then
    if tag.count ≤ 2 then
      ((List.range 2).flatMap (fun i =>
          if i < tag.count then mem16 sysLE (fix_short sysLE hdr (tag.num i % 65536))
          else [0, 0]), ofs)
    else
      (mem32 sysLE (fix_int sysLE hdr ofs), ofs + tag.count * 2)
  else if tag.type = TYPE_LONG ∨ tag.type = TYPE_SLONG then
    if tag.count ≤ 1 then
      (mem32 sysLE (fix_int sysLE hdr (tag.num 0)), ofs)
    else
      (mem32 sysLE (fix_int sysLE hdr ofs), ofs + tag.count * 2)
  else if tag.type = TYPE_RATIONAL ∨ tag.type = TYPE_SRATIONAL then
    (mem32 sysLE (fix_int sysLE hdr ofs), ofs + tag.count * 4 * 2)
  else
    ([0, 0, 0, 0], ofs)

/-- The twelve bytes of the struct `IFD_TAG` written for one tag. -/
def tagFieldBytes (sysLE : Bool) (hdr : APP1_HEADER) (tag : TagNode) (ofs : Nat) :
    List Nat :=
  mem16 sysLE (fix_short sysLE hdr tag.tagId) ++
  mem16 sysLE (fix_short sysLE hdr tag.type) ++
  mem32 sysLE (fix_int sysLE hdr tag.count) ++
  (packTag sysLE hdr tag ofs).1

/-- The loop that writes the tag fields of one IFD: error tags are skipped, `ofs` runs
through the tags. The result is the bytes written and the final `ofs`. -/
def writeTagFields (sysLE : Bool) (hdr : APP1_HEADER) (tags : List TagNode) (ofs : Nat) :
    List Nat × Nat :=
  match tags with
  | [] => ([], ofs)
  | tag :: rest =>
      if tag.error ≠ 0 then writeTagFields sysLE hdr rest ofs
      else
        let r := writeTagFields sysLE hdr rest (packTag sysLE hdr tag ofs).2
        (tagFieldBytes sysLE hdr tag ofs ++ r.1, r.2)

/-- The second `switch` of `writeExifSegment` for one tag: the bytes written to the
value area. -/
def tagValueBytes (sysLE : Bool) (hdr : APP1_HEADER) (tag : TagNode) : List Nat :=
  if tag.type = TYPE_ASCII ∨ tag.type = TYPE_UNDEFINED then
    if tag.count > 4 then
      copyCells tag.count (tag.byteData.getD []) ++ (if tag.count % 2 ≠ 0 then [0] else [])
    else []
  else if tag.type = TYPE_BYTE ∨ tag.type = TYPE_SBYTE then
    if tag.count > 4 then
      (List.range tag.count).map (fun i => tag.num i % 256) ++
        (if tag.count % 2 ≠ 0 then [0] else [])
    else []
  else if tag.type = TYPE_SHORT ∨ tag.type = TYPE_SSHORT then
    if tag.count > 2 then
      (List.range tag.count).flatMap (fun i =>
        mem16 sysLE (fix_short sysLE hdr (tag.num i % 65536)))
    else []
  else if tag.type = TYPE_LONG ∨ tag.type = TYPE_SLONG then
    if tag.count > 1 then
      (List.range tag.count).flatMap (fun i => mem32 sysLE (fix_int sysLE hdr (tag.num i)))
    else []
  else if tag.type = TYPE_RATIONAL ∨ tag.type = TYPE_SRATIONAL then
    (List.range (tag.count * 2)).flatMap (fun i => mem32 sysLE (fix_int sysLE hdr (tag.num i)))
  else []

/-- The loop that writes the value area of one IFD; error tags are skipped. -/
def writeTagValues (sysLE : Bool) (hdr : APP1_HEADER) (tags : List TagNode) : List Nat :=
  (liveTags tags).flatMap (tagValueBytes sysLE hdr)

/-- The thumbnail bytes written at the end of the 1st IFD. -/
def thumbnailBytes (ifd : IfdTable) : List Nat :=
  if ifd.ifdType = IFD_1ST then
    match ifd.p with
    | some p =>
        match getTagNodePtrFromIfd ifd TAG_JPEGInterchangeFormatLength with
        | some tag => if tag.num 0 > 0 then copyCells (tag.num 0) p else []
        | none => []
    | none => []
  else []

/-- The value of `ofs` once the tag fields of the IFD are accounted for: the start of
its value area. -/
def valueAreaStart (ifd : IfdTable) (ofs : Nat) : Nat := ofs + (2 + 12 * ifd.tagCount + 4)

/-- The body of the main loop of `writeExifSegment` for one IFD that is present: the
bytes written and the value of `ofs` afterwards. -/
def writeIfd (sysLE : Bool) (hdr : APP1_HEADER) (ifd : IfdTable) (ofs : Nat) :
    List Nat × Nat :=
  let fields := writeTagFields sysLE hdr ifd.tags (valueAreaStart ifd ofs)
  (mem16 sysLE (fix_short sysLE hdr ((liveTags ifd.tags).length % 65536)) ++
   fields.1 ++
   mem32 sysLE (fix_int sysLE hdr ifd.nextIfdOffset) ++
   writeTagValues sysLE hdr ifd.tags ++
   thumbnailBytes ifd, fields.2)

/-- The main loop of `writeExifSegment` over the IFDs that are present. -/
def writeIfds (sysLE : Bool) (hdr : APP1_HEADER) (ifds : List IfdTable) (ofs : Nat) :
    List Nat :=
  match ifds with
  | [] => []
  | ifd :: rest =>
      (writeIfd sysLE hdr ifd ofs).1 ++ writeIfds sysLE hdr rest (writeIfd sysLE hdr ifd ofs).2

/-- The array `ifds` of `writeExifSegment` without its `NULL` entries: the tables of
the five kinds in the order 0th, Exif, Interoperability, GPS, 1st. -/
def ifdsToWrite (ifdTableArray : List IfdTable) : List IfdTable :=
  [IFD_0TH, IFD_EXIF, IFD_IO, IFD_GPS, IFD_1ST].filterMap
    (getIfdTableFromIfdTableArray ifdTableArray)

/-- The eighteen bytes of the struct `APP1_HEADER` that `writeExifSegment` writes. -/
def app1HeaderBytes (sysLE : Bool) (hdr : APP1_HEADER) (ifds : List IfdTable) : List Nat :=
  let us := (16 + (ifds.map (fun ifd => ifd.length)).sum) % 65536
  mem16 sysLE hdr.marker ++
  mem16 sysLE (if sysLE then swab16 us else us) ++
  copyCells 6 hdr.id ++
  mem16 sysLE hdr.tiff.byteOrder ++
  mem16 sysLE (fix_short sysLE hdr hdr.tiff.reserved) ++
  mem32 sysLE (fix_int sysLE hdr hdr.tiff.Ifd0thOffset)

/-- The function `writeExifSegment`: its return value and the bytes it writes (every
`fwrite` is taken to succeed). `hdr` is the global `App1Header`. -/
def writeExifSegment (sysLE : Bool) (hdr : APP1_HEADER) (ifdTableArray : List IfdTable) :
    Int × List Nat :=
  match getIfdTableFromIfdTableArray ifdTableArray IFD_0TH with
  | none => (0, [])
  | some _ =>
      (0, app1HeaderBytes sysLE hdr (ifdsToWrite ifdTableArray) ++
          writeIfds sysLE hdr (ifdsToWrite ifdTableArray) 8)

/-! ## JpegScanner and App1Header: `getApp1StartOffset`, `readApp1SegmentHeader`, `init` -/

/-- The bytes `fread(buf, 1, n, fp)` stores when the stream is at position `pos`. -/
def fread (file : List Nat) (pos n : Nat) : List Nat := (file.drop pos).take n

/-- A 16-bit marker or segment length: two bytes are read into a `uint16_t`, which is
passed through `swab16` on a little-endian host. `none` when the read is short. -/
def readBE16 (sysLE : Bool) (file : List Nat) (pos : Nat) : Option Nat :=
  let b := fread file pos 2
  if b.length < 2 then none
  else some (if sysLE then swab16 (val16 sysLE b) else val16 sysLE b)

/-- What `getApp1StartOffset` hands back: its return value and the value stored through
`pDQTOffset` (`none` when nothing is stored). -/
structure ScanResult where
  sts : Int
  dqt : Option Nat
  deriving DecidableEq, Repr

/-- The `for (;;)` loop of `getApp1StartOffset`. `marker` is the marker read last, `pos`
the stream position after it, `exif_pos` the offset recorded so far; `none` when `fuel`
iterations did not leave the loop. -/
def scanLoop (sysLE : Bool) (file : List Nat) (App1IDString : List Nat) (fuel : Nat)
    (marker pos exif_pos : Nat) : Option ScanResult :=
  match fuel with
  | 0 => none
  | n + 1 =>
      if ¬ (marker ≥ 0xFFE0 ∧ marker ≤ 0xFFEF) then
        some { sts := exif_pos, dqt := if marker = 0xFFDB then some (pos - 2) else none }
      else
        match readBE16 sysLE file pos with
        | none => some { sts := ERR_READ_FILE, dqt := none }
        | some len =>
            if marker ≠ 0xFFE1 then
              if exif_pos ≠ 0 then some { sts := exif_pos, dqt := none }
              else
                match readBE16 sysLE file (pos + len) with
                | none => some { sts := ERR_READ_FILE, dqt := none }
                | some next =>
                    scanLoop sysLE file App1IDString n next (pos + len + 2) exif_pos
            else
              let buf := fread file (pos + 2) (App1IDString.length + 4)
              if buf.length < App1IDString.length then
                some { sts := ERR_READ_FILE, dqt := none }
              else
                let exif_pos1 :=
                  if buf.take App1IDString.length = App1IDString then pos - 2 else exif_pos
                match readBE16 sysLE file (pos + len) with
                | none => some { sts := ERR_READ_FILE, dqt := none }
                | some next =>
                    scanLoop sysLE file App1IDString n next (pos + len + 2) exif_pos1

/-- The function `getApp1StartOffset` for a stream that is not `NULL` and a `pDQTOffset`
that is not `NULL`. The loop is given one iteration per byte of the file. -/
def getApp1StartOffset (sysLE : Bool) (file : List Nat) (App1IDString : List Nat) :
    Option ScanResult :=
  match readBE16 sysLE file 0 with
  | none => some { sts := ERR_READ_FILE, dqt := none }
  | some soi =>
      if soi ≠ 0xFFD8 then some { sts := ERR_INVALID_JPEG, dqt := none }
      else
        match readBE16 sysLE file 2 with
        | none => some { sts := ERR_READ_FILE, dqt := none }
        | some marker =>
            if marker = 0xFFDB then some { sts := 0, dqt := some 2 }
            else scanLoop sysLE file App1IDString (file.length + 1) marker 4 0

/-- The identifier `EXIF_ID_STR` with its length `EXIF_ID_STR_LEN`: the bytes of
"Exif" and one zero byte. -/
def EXIF_ID_STR : List Nat := [0x45, 0x78, 0x69, 0x66, 0]

/-- The function `readApp1SegmentHeader`: the header it leaves in `App1Header` when it
returns 1, `none` when it returns 0. -/
def readApp1SegmentHeader (sysLE : Bool) (file : List Nat) (App1StartOffset : Nat) :
    Option APP1_HEADER :=
  let b := fread file App1StartOffset 18
  if b.length < 18 then none
  else
    let length0 := val16 sysLE (b.drop 2)
    let hdr0 : APP1_HEADER :=
      { marker := val16 sysLE b,
        length := if sysLE then swab16 length0 else length0,
        id := (b.drop 4).take 6,
        tiff := { byteOrder := val16 sysLE (b.drop 10),
                  reserved := val16 sysLE (b.drop 12),
                  Ifd0thOffset := val32 sysLE (b.drop 14) } }
    if hdr0.tiff.byteOrder ≠ 0x4D4D ∧ hdr0.tiff.byteOrder ≠ 0x4949 then none
    else
      let reserved := fix_short sysLE hdr0 hdr0.tiff.reserved
      if reserved ≠ 0x002A then none
      else
        some { hdr0 with tiff := { hdr0.tiff with
                 reserved := reserved,
                 Ifd0thOffset := fix_int sysLE hdr0 hdr0.tiff.Ifd0thOffset } }

/-- The file-scope variables `App1StartOffset`, `JpegDQTOffset` and `App1Header`. -/
structure Globals where
  App1StartOffset : Int
  JpegDQTOffset : Int
  App1Header : APP1_HEADER
  deriving DecidableEq, Repr

/-- The function `init`: its return value and the file-scope variables afterwards
(the two offsets start at their initial value -1). -/
def init (sysLE : Bool) (file : List Nat) : Option (Int × Globals) :=
  match getApp1StartOffset sysLE file EXIF_ID_STR with
  | none => none
  | some r =>
      let hdr := setDefaultApp1SegmentHader sysLE
      if r.sts < 0 then
        some (r.sts, { App1StartOffset := -1, JpegDQTOffset := -1, App1Header := hdr })
      else
        let dqt : Int := match r.dqt with
          | some d => (d : Int)
          | none => -1
        if r.sts = 0 then
          some (0, { App1StartOffset := 0, JpegDQTOffset := dqt, App1Header := hdr })
        else
          match readApp1SegmentHeader sysLE file r.sts.toNat with
          | none =>
              some (ERR_INVALID_APP1HEADER,
                    { App1StartOffset := r.sts, JpegDQTOffset := dqt, App1Header := hdr })
          | some h =>
              some (1, { App1StartOffset := r.sts, JpegDQTOffset := dqt, App1Header := h })

/-! ## FileEditor: `removeExifSegmentFromJPEGFile`, `updateExifSegmentInJPEGFile` -/

/-- The outcome of a file operation: the return value and the bytes of the output file
(`none` when the output file was never opened). -/
structure FileResult where
  sts : Int
  out : Option (List Nat)
  deriving DecidableEq, Repr

/-- The function `removeExifSegmentFromJPEGFile` on an input file that can be opened
(output files can always be opened and written). -/
def removeExifSegmentFromJPEGFile (sysLE : Bool) (file : List Nat) : Option FileResult :=
  match init sysLE file with
  | none => none
  | some (sts, g) =>
      if sts ≤ 0 then some { sts := sts, out := none }
      else
        let start := g.App1StartOffset.toNat
        if (fread file 0 start).length < start then
          some { sts := ERR_READ_FILE, out := some [] }
        else
          let ofs := start + 2 + g.App1Header.length
          some { sts := 1, out := some (fread file 0 start ++ file.drop ofs) }

/-- The function `updateExifSegmentInJPEGFile` on an input file that can be opened.
`ifdTableArray` is `none` for the `NULL` array; the second component is the array as
`fixLengthAndOffsetInIfdTables` leaves it. -/
def updateExifSegmentInJPEGFile (sysLE : Bool) (fuel : Nat) (file : List Nat)
    (ifdTableArray : Option (List IfdTable)) : Option (FileResult × Option (List IfdTable)) :=
  match ifdTableArray with
  | none => some ({ sts := ERR_INVALID_POINTER, out := none }, none)
  | some arr0 =>
      match fixLengthAndOffsetInIfdTables fuel arr0 with
      | none => none
      | some (fsts, arr) =>
          if fsts ≠ 0 then some ({ sts := fsts, out := none }, some arr)
          else
            match init sysLE file with
            | none => none
            | some (sts, g) =>
                if sts < 0 then some ({ sts := sts, out := none }, some arr)
                else
                  let hasExifSegment := sts ≠ 0
                  let ofs := (if hasExifSegment then g.App1StartOffset
                              else g.JpegDQTOffset).toNat
                  if (fread file 0 ofs).length < ofs then
                    some ({ sts := ERR_READ_FILE, out := some [] }, some arr)
                  else
                    let w := writeExifSegment sysLE g.App1Header arr
                    if w.1 ≠ 0 then
                      some ({ sts := w.1, out := some (fread file 0 ofs ++ w.2) }, some arr)
                    else
                      let rest := if hasExifSegment then
                                    g.App1StartOffset.toNat + 2 + g.App1Header.length
                                  else ofs
                      some ({ sts := 1,
                              out := some (fread file 0 ofs ++ w.2 ++ file.drop rest) },
                            some arr)

/-! ## IfdParser: `parseIFD`, and the graph construction `fillIfdTableArray` -/

/-- The stream position `seekToRelativeOffset(fp, ofs)` moves to: the sum is an
`unsigned int`, and `offsetof(APP1_HEADER, tiff)` is 10. -/
def seekToRelativeOffset (g : Globals) (ofs : Nat) : Nat :=
  (g.App1StartOffset.toNat + 10 + ofs) % 4294967296

/-- The struct `IFD_TAG` after the four calls of `fix_short` / `fix_int`. -/
structure IFD_TAG where
  tag : Nat
  type : Nat
  count : Nat
  offset : Nat
  deriving DecidableEq, Repr

/-- The twelve bytes of a tag field read into the struct `IFD_TAG` and corrected for
the byte order of the data. -/
def readIfdTag (sysLE : Bool) (hdr : APP1_HEADER) (b : List Nat) : IFD_TAG :=
  { tag := fix_short sysLE hdr (val16 sysLE b),
    type := fix_short sysLE hdr (val16 sysLE (b.drop 2)),
    count := fix_int sysLE hdr (val32 sysLE (b.drop 4)),
    offset := fix_int sysLE hdr (val32 sysLE (b.drop 8)) }

/-- The statement `memcpy(&val, &buf[i*size], size)`: the first `size` bytes that `val`
occupies in host memory are overwritten, the others stay. -/
def pokeVal (sysLE : Bool) (val : Nat) (chunk : List Nat) (size : Nat) : Nat :=
  val32 sysLE (copyCells size chunk ++ (mem32 sysLE val).drop size)

/-- The loop that decodes `count` numbers of `size` bytes from `buf` through the
variable `val`: the cells stored in `array` and the final value of `val`. -/
def decodeCells (sysLE : Bool) (hdr : APP1_HEADER) (buf : List Nat) (size : Nat)
    (count : Nat) (i : Nat) (val : Nat) : List Nat × Nat :=
  match count with
  | 0 => ([], val)
  | n + 1 =>
      let val1 := pokeVal sysLE val (buf.drop (i * size)) size
      let val2 := if size = 4 then fix_int sysLE hdr val1
                  else if size = 2 then fix_short sysLE hdr (val1 % 65536)
                  else val1
      let r := decodeCells sysLE hdr buf size n (i + 1) val2
      (val2 :: r.1, r.2)

/-- What the body of the tag loop of `parseIFD` leaves behind for one tag field: the
node added to the IFD (`none` when the type is none of the ten and nothing is added),
the value of the local variable `val`, and the stream position the value was read
from (`none` when the body did not call `seekToRelativeOffset`). -/
structure TagParse where
  node : Option TagNode
  val : Nat
  seek : Option Nat
  deriving DecidableEq, Repr

/-- The body of the tag loop of `parseIFD` after the tag field is read. `data` are the
four raw bytes of the offset area, `val` is the local variable `val` before the body.
The function describes the C code for the tag fields of `tagReadDefined`. For the other
ones the C code writes past a buffer: a value of an integer type of more than 8192 bytes
that passes the test on `allocSize` is read into the local `uint8_t buf[8192]`, which is
taken here to be large enough; and where a count of `2 ^ 30` or more passes that test
with a wrapped `allocSize`, `array` is too short for the count and the product
`size * tag.count`, which wraps in C, is taken here as it is. -/
def parseTag (sysLE : Bool) (g : Globals) (file : List Nat) (tag : IFD_TAG)
    (data : List Nat) (val : Nat) : TagParse :=
  let hdr := g.App1Header
  let errorNode := newTagNode tag.tag tag.type tag.count none none
  if tag.type = TYPE_ASCII ∨ tag.type = TYPE_UNDEFINED then
    if tag.count ≤ 4 then
      { node := some (newTagNode tag.tag tag.type tag.count none (some data)),
        val := val, seek := none }
    else if tag.count > 8192 ∧ tag.count ≥ hdr.length then
      { node := some errorNode, val := val, seek := none }
    else
      let at_ := seekToRelativeOffset g tag.offset
      let p := fread file at_ tag.count
      if p.length < tag.count then
        { node := some errorNode, val := val, seek := some at_ }
      else
        { node := some (newTagNode tag.tag tag.type tag.count none (some p)),
          val := val, seek := some at_ }
  else if tag.type = TYPE_RATIONAL ∨ tag.type = TYPE_SRATIONAL then
    let realCount := (tag.count * 2) % 4294967296
    let len := realCount * 4
    if len ≥ hdr.length then
      { node := some errorNode, val := val, seek := none }
    else
      let at_ := seekToRelativeOffset g tag.offset
      let b := fread file at_ len
      if b.length < len then
        { node := some errorNode, val := val, seek := some at_ }
      else
        let array := (List.range realCount).map
          (fun i => fix_int sysLE hdr (val32 sysLE (b.drop (i * 4))))
        { node := some (newTagNode tag.tag tag.type tag.count (some array) none),
          val := val, seek := some at_ }
  else if tag.type = TYPE_BYTE ∨ tag.type = TYPE_SHORT ∨ tag.type = TYPE_LONG ∨
          tag.type = TYPE_SBYTE ∨ tag.type = TYPE_SSHORT ∨ tag.type = TYPE_SLONG then
    if tag.count ≤ 1 then
      let val1 :=
        if tag.type = TYPE_BYTE ∨ tag.type = TYPE_SBYTE then data.getD 0 0
        else if tag.type = TYPE_SHORT ∨ tag.type = TYPE_SSHORT then
          fix_short sysLE hdr (val16 sysLE data)
        else tag.offset
      { node := some (newTagNode tag.tag tag.type tag.count (some [val1]) none),
        val := val1, seek := none }
    else
      let size := if tag.type = TYPE_BYTE ∨ tag.type = TYPE_SBYTE then 1
                  else if tag.type = TYPE_SHORT ∨ tag.type = TYPE_SSHORT then 2
                  else 4
      let allocSize := (4 * tag.count) % 4294967296
      if allocSize ≥ hdr.length then
        { node := some errorNode, val := val, seek := none }
      else
        let len := size * tag.count
        if len ≤ 4 then
          let array :=
            if size = 1 then (List.range tag.count).map (fun i => data.getD i 0)
            else if size = 2 then
              (List.range 2).map
                (fun i => fix_short sysLE hdr (val16 sysLE (data.drop (i * 2))))
            else []
          { node := some (newTagNode tag.tag tag.type tag.count (some array) none),
            val := val, seek := none }
        else
          let at_ := seekToRelativeOffset g tag.offset
          let buf := fread file at_ len
          if buf.length < len then
            { node := some errorNode, val := val, seek := some at_ }
          else
            let r := decodeCells sysLE hdr buf size tag.count 0 val
            { node := some (newTagNode tag.tag tag.type tag.count (some r.1) none),
              val := r.2, seek := some at_ }
  else { node := none, val := val, seek := none }

/-- The tag loop of `parseIFD`: `n` tag fields remain, the next one is at stream
position `pos`; `none` when a tag field cannot be read (the label `ERR`). -/
def parseTags (sysLE : Bool) (g : Globals) (file : List Nat) (n : Nat) (pos : Nat)
    (val : Nat) (tags : List TagNode) : Option (List TagNode) :=
  match n with
  | 0 => some tags
  | k + 1 =>
      let b := fread file pos 12
      if b.length < 12 then none
      else
        let r := parseTag sysLE g file (readIfdTag sysLE g.App1Header b)
                   ((b.drop 8).take 4) val
        match r.node with
        | some node => parseTags sysLE g file k (pos + 12) r.val (tags ++ [node])
        | none => parseTags sysLE g file k (pos + 12) r.val tags

/-- The thumbnail buffer `parseIFD` attaches to a 1st IFD. The C code reads
`tag->numData[0]` of the two thumbnail tags without testing `numData` or the error flag;
`thumbnailReadsDefined` says when the cells exist. -/
def readThumbnail (g : Globals) (file : List Nat) (ifd : IfdTable) : Option (List Nat) :=
  let thumbnail_ofs := match getTagNodePtrFromIfd ifd TAG_JPEGInterchangeFormat with
    | some tag => tag.num 0
    | none => 0
  if thumbnail_ofs > 0 then
    match getTagNodePtrFromIfd ifd TAG_JPEGInterchangeFormatLength with
    | some tag =>
        let thumbnail_len := tag.num 0
        if thumbnail_len > 0 then
          let b := fread file (seekToRelativeOffset g thumbnail_ofs) thumbnail_len
          if b.length ≠ thumbnail_len then none else some b
        else none
    | none => none
  else none

/-- The function `parseIFD`; `none` is its `NULL` result. `val0` is the value the
uninitialised local variable `val` happens to hold. -/
def parseIFD (sysLE : Bool) (g : Globals) (file : List Nat) (startOffset : Nat)
    (ifdType : IFD_TYPE) (val0 : Nat) : Option IfdTable :=
  let hdr := g.App1Header
  let b := fread file (seekToRelativeOffset g startOffset) 2
  if b.length < 2 then none
  else
    let tagCount := fix_short sysLE hdr (val16 sysLE b)
    let pos := seekToRelativeOffset g startOffset + 2
    let next : Option Nat :=
      if ifdType = IFD_0TH then
        let nb := fread file (seekToRelativeOffset g (8 + 2 + 12 * tagCount)) 4
        if nb.length < 4 then none else some (fix_int sysLE hdr (val32 sysLE nb))
      else some 0
    match next with
    | none => none
    | some nextOffset =>
        match parseTags sysLE g file tagCount pos val0 [] with
        | none => none
        | some tags =>
            let ifd := { createIfdTable ifdType tagCount nextOffset with tags := tags }
            if ifdType = IFD_1ST then some { ifd with p := readThumbnail g file ifd }
            else some ifd

/-- The pointer test of `fillIfdTableArray`: the offset held by a pointer tag, when the
tag exists, has no error and holds an offset other than zero. The C code reads
`tag->numData[0]` of a tag without error flag without testing `numData`, which is `NULL`
for a tag of a type other than the integer and rational types; `pointerReadDefined`
says when the cell exists. -/
def pointerOffset (ifd : IfdTable) (tagId : Nat) : Option Nat :=
  match getTagNodePtrFromIfd ifd tagId with
  | some tag => if tag.error = 0 ∧ tag.num 0 ≠ 0 then some (tag.num 0) else none
  | none => none

/-- The part of `fillIfdTableArray` after the 0th IFD is parsed: the status and the
tables stored after it. `junk k` is what the uninitialised `val` of the call of
`parseIFD` for kind `k` holds. -/
def fillChildren (sysLE : Bool) (g : Globals) (file : List Nat) (junk : IFD_TYPE → Nat)
    (ifd_0th : IfdTable) : Int × List IfdTable :=
  let r1 : Int × List IfdTable :=
    match pointerOffset ifd_0th TAG_ExifIFDPointer with
    | some ifdOffset =>
        match parseIFD sysLE g file ifdOffset IFD_EXIF (junk IFD_EXIF) with
        | some ifd_exif =>
            match pointerOffset ifd_exif TAG_InteroperabilityIFDPointer with
            | some ioOffset =>
                match parseIFD sysLE g file ioOffset IFD_IO (junk IFD_IO) with
                | some ifd_io => (1, [ifd_exif, ifd_io])
                | none => (ERR_INVALID_IFD, [ifd_exif])
            | none => (1, [ifd_exif])
        | none => (ERR_INVALID_IFD, [])
    | none => (1, [])
  let r2 : Int × List IfdTable :=
    match pointerOffset ifd_0th TAG_GPSInfoIFDPointer with
    | some ifdOffset =>
        match parseIFD sysLE g file ifdOffset IFD_GPS (junk IFD_GPS) with
        | some ifd_gps => (r1.1, r1.2 ++ [ifd_gps])
        | none => (ERR_INVALID_IFD, r1.2)
    | none => r1
  if ifd_0th.nextIfdOffset ≠ 0 then
    match parseIFD sysLE g file ifd_0th.nextIfdOffset IFD_1ST (junk IFD_1ST) with
    | some ifd_1st => (r2.1, r2.2 ++ [ifd_1st])
    | none => (ERR_INVALID_IFD, r2.2)
  else r2

/-- The function `fillIfdTableArray` on a file that can be opened: its return value
and the tables it leaves in `ifdArray`, together with the file-scope variables. -/
def fillIfdTableArray (sysLE : Bool) (file : List Nat) (junk : IFD_TYPE → Nat) :
    Option (Int × List IfdTable × Globals) :=
  match init sysLE file with
  | none => none
  | some (sts, g) =>
      if sts ≤ 0 then some (sts, [], g)
      else
        match parseIFD sysLE g file g.App1Header.tiff.Ifd0thOffset IFD_0TH (junk IFD_0TH) with
        | none => some (ERR_INVALID_IFD, [], g)
        | some ifd_0th =>
            let r := fillChildren sysLE g file junk ifd_0th
            some (if r.1 ≤ 0 then r.1 else ((ifd_0th :: r.2).length : Int),
                  ifd_0th :: r.2, g)

/-- The function `createIfdTableArray`: the value stored in `result` and the array
returned (`none` for `NULL`), together with the file-scope variables. -/
def createIfdTableArray (sysLE : Bool) (file : List Nat) (junk : IFD_TYPE → Nat) :
    Option (Int × Option (List IfdTable) × Globals) :=
  match fillIfdTableArray sysLE file junk with
  | none => none
  | some (count, ifdTable, g) =>
      some (count, if count > 0 then some ifdTable else none, g)

/-! ## Edit operations on the graph -/

/-- The search loop of `removeIfdTableFromIfdTableArray`: the index of the first table
of the kind. -/
def findIfdIndex (ifdTableArray : List IfdTable) (ifdType : IFD_TYPE) : Option Nat :=
  ifdTableArray.findIdx? (fun ifd => ifd.ifdType == ifdType)

/-- The outer loop of `removeIfdTableFromIfdTableArray`: while a table of the kind is
found it is freed and the later entries move one place to the left. -/
def removeIfdLoop (fuel : Nat) (ifdTableArray : List IfdTable) (ifdType : IFD_TYPE)
    (ret : Nat) : Nat × List IfdTable :=
  match fuel with
  | 0 => (ret, ifdTableArray)
  | n + 1 =>
      match findIfdIndex ifdTableArray ifdType with
      | none => (ret, ifdTableArray)
      | some i => removeIfdLoop n (ifdTableArray.eraseIdx i) ifdType (ret + 1)

/-- The function `removeIfdTableFromIfdTableArray` on an array that is not `NULL`: the
number of tables removed and the array afterwards. Every iteration but the last
removes a table, so one iteration more than there are tables ends the loop. -/
def removeIfdTableFromIfdTableArray (ifdTableArray : List IfdTable) (ifdType : IFD_TYPE) :
    Nat × List IfdTable :=
  removeIfdLoop (ifdTableArray.length + 1) ifdTableArray ifdType 0

/-- The function `getThumbnailDataOnIfdTableArray` on an array and a `pLength` that
are not `NULL` (allocation succeeds): the status stored in `pResult`, the value stored
in `pLength` and the buffer returned. -/
def getThumbnailDataOnIfdTableArray (ifdTableArray : List IfdTable) :
    Int × Option (Nat × List Nat) :=
  match getIfdTableFromIfdTableArray ifdTableArray IFD_1ST with
  | none => (ERR_NOT_EXIST, none)
  | some ifd =>
      match ifd.p with
      | none => (ERR_NOT_EXIST, none)
      | some p =>
          match getTagNodePtrFromIfd ifd TAG_JPEGInterchangeFormatLength with
          | none => (ERR_NOT_EXIST, none)
          | some tag =>
              if tag.error ≠ 0 then (ERR_NOT_EXIST, none)
              else
                let len := tag.num 0
                if len ≤ 0 then (ERR_NOT_EXIST, none)
                else (0, some (len, copyCells len p))

/-- The part of `setThumbnailDataOnIfdTableArray` that works on the 1st IFD once it is
found or created. -/
def setThumbnailOnIfd (ifd : IfdTable) (pData : List Nat) (length : Nat) : IfdTable :=
  let ifd1 :=
    match getTagNodePtrFromIfd ifd TAG_JPEGInterchangeFormatLength with
    | some _ => setTagValue ifd TAG_JPEGInterchangeFormatLength length
    | none => addTagNodeToIfd ifd TAG_JPEGInterchangeFormatLength TYPE_LONG 1
                (some [length]) none
  let ifd2 :=
    match getTagNodePtrFromIfd ifd1 TAG_JPEGInterchangeFormat with
    | some _ => setTagValue ifd1 TAG_JPEGInterchangeFormat 0
    | none => addTagNodeToIfd ifd1 TAG_JPEGInterchangeFormat TYPE_LONG 1 (some [0]) none
  { ifd2 with p := some (copyCells length pData) }

/-- The function `setThumbnailDataOnIfdTableArray` on an array that is not `NULL`
(`pData` is `none` for `NULL`; allocation succeeds): the return value and the array
afterwards. A 1st IFD that is missing is stored in the slot of the terminating `NULL`
(`ifdTableArray[count] = ifd1st`); the list describes the array afterwards when that slot
is followed by another `NULL` slot, which `setThumbnailDefined` says. The arrays that
`createIfdTableArray` and `insertIfdTableToIfdTableArray` return have no such slot: the
C code leaves them without terminating `NULL`. -/
def setThumbnailDataOnIfdTableArray (ifdTableArray : List IfdTable)
    (pData : Option (List Nat)) (length : Nat) : Int × List IfdTable :=
  match pData with
  | none => (ERR_INVALID_POINTER, ifdTableArray)
  | some data =>
      if length ≤ 0 then (ERR_INVALID_POINTER, ifdTableArray)
      else
        let arr :=
          match getIfdTableFromIfdTableArray ifdTableArray IFD_1ST with
          | some _ => ifdTableArray
          | none => ifdTableArray ++ [createIfdTable IFD_1ST 0 0]
        match getIfdTableFromIfdTableArray arr IFD_1ST with
        | none => (ERR_NOT_EXIST, arr)
        | some ifd => (0, putIfd arr IFD_1ST (setThumbnailOnIfd ifd data length))

/-! ## The inline encoding rule in the words of the spec -/

/-- The size `payload_bytes(type, count)` as the spec states it: `count` for BYTE, SBYTE,
ASCII and UNDEFINED, `2 * count` for SHORT and SSHORT, `4 * count` for LONG and SLONG,
`8 * count` for RATIONAL and SRATIONAL. -/
def spec_payload_bytes (type count : Nat) : Nat :=
  if type = TYPE_BYTE ∨ type = TYPE_SBYTE ∨ type = TYPE_ASCII ∨ type = TYPE_UNDEFINED then
    count
  else if type = TYPE_SHORT ∨ type = TYPE_SSHORT then 2 * count
  else if type = TYPE_LONG ∨ type = TYPE_SLONG then 4 * count
  else if type = TYPE_RATIONAL ∨ type = TYPE_SRATIONAL then 8 * count
  else 0

/-! ## Sample inputs -/

/-- A small JPEG file used to instantiate the properties: SOI, an Exif APP1 segment
(little-endian TIFF header, a 0th IFD with a LONG tag of count 2 and an ASCII tag of
count 6, both out of line), a DQT marker and EOI. -/
def sampleJpeg : List Nat :=
  [0xFF, 0xD8, 0xFF, 0xE1, 0x00, 60, 0x45, 0x78, 0x69, 0x66, 0, 0,
   0x49, 0x49, 0x2A, 0, 8, 0, 0, 0,
   2, 0,
   0x00, 0x01, 4, 0, 2, 0, 0, 0, 38, 0, 0, 0,
   0x0F, 0x01, 2, 0, 6, 0, 0, 0, 46, 0, 0, 0,
   0, 0, 0, 0,
   1, 0, 0, 0, 2, 0, 0, 0,
   65, 66, 67, 68, 69, 0,
   0xFF, 0xDB, 0, 2, 0xFF, 0xD9]


/-- The 0th IFD that `fillIfdTableArray` builds from `sampleJpeg`. -/
def sampleIfd0 : IfdTable :=
  { ifdType := IFD_0TH, tagCount := 2,
    tags := [{ tagId := 0x0100, type := TYPE_LONG, count := 2, numData := some [1, 2],
               byteData := none, error := 0 },
             { tagId := 0x010F, type := TYPE_ASCII, count := 6, numData := none,
               byteData := some [65, 66, 67, 68, 69, 0], error := 0 }],
    nextIfdOffset := 0, offset := 0, length := 0, p := none }

/-- The file `updateExifSegmentInJPEGFile` writes for `sampleJpeg` and its own graph. -/
def sampleUpdated : List Nat :=
  [0xFF, 0xD8, 0xFF, 0xE1, 0x00, 60, 0x45, 0x78, 0x69, 0x66, 0, 0,
   0x49, 0x49, 0x2A, 0, 8, 0, 0, 0,
   2, 0,
   0x00, 0x01, 4, 0, 2, 0, 0, 0, 38, 0, 0, 0,
   0x0F, 0x01, 2, 0, 6, 0, 0, 0, 42, 0, 0, 0,
   0, 0, 0, 0,
   1, 0, 0, 0, 2, 0, 0, 0,
   65, 66, 67, 68, 69, 0,
   0xFF, 0xDB, 0, 2, 0xFF, 0xD9]

/-- The file-scope variables after `init` on `sampleJpeg`. -/
def sampleGlobals : Globals :=
  { App1StartOffset := 2, JpegDQTOffset := 64,
    App1Header := { marker := 0xE1FF, length := 60, id := [0x45, 0x78, 0x69, 0x66, 0, 0],
                    tiff := { byteOrder := 0x4949, reserved := 0x2A, Ifd0thOffset := 8 } } }

/-- The six integer types for which `setSingleNumDataToTag` writes. -/
def isIntType (type : Nat) : Prop :=
  type = TYPE_BYTE ∨ type = TYPE_SHORT ∨ type = TYPE_LONG ∨
  type = TYPE_SBYTE ∨ type = TYPE_SSHORT ∨ type = TYPE_SLONG

instance (type : Nat) : Decidable (isIntType type) := by unfold isIntType; infer_instance

/-- A 1st IFD whose `JPEGInterchangeFormatLength` tag has the type RATIONAL, as
`parseIFD` builds it from a file with such a tag field. -/
def sampleIfd1Rational : IfdTable :=
  { ifdType := IFD_1ST, tagCount := 1,
    tags := [{ tagId := TAG_JPEGInterchangeFormatLength, type := TYPE_RATIONAL, count := 1,
               numData := some [1, 1], byteData := none, error := 0 }],
    nextIfdOffset := 0, offset := 0, length := 0, p := none }

/-- The kinds of the tables the local pointers of a pass refer to. -/
def FixState.shape (s : FixState) :
    IFD_TYPE × Option IFD_TYPE × Option IFD_TYPE × Option IFD_TYPE × Option IFD_TYPE :=
  (s.ifd0th.ifdType, s.ifdExif.map (fun i => i.ifdType), s.ifdIo.map (fun i => i.ifdType),
   s.ifdGps.map (fun i => i.ifdType), s.ifd1st.map (fun i => i.ifdType))

/-- The local pointers of a pass refer to tables of the right kinds, and to those kinds
of which the array holds a table. -/
def FixState.Fits (arr : List IfdTable) (s : FixState) : Prop :=
  s.shape = (IFD_0TH,
    (getIfdTableFromIfdTableArray arr IFD_EXIF).map (fun i => i.ifdType),
    (getIfdTableFromIfdTableArray arr IFD_IO).map (fun i => i.ifdType),
    (getIfdTableFromIfdTableArray arr IFD_GPS).map (fun i => i.ifdType),
    (getIfdTableFromIfdTableArray arr IFD_1ST).map (fun i => i.ifdType))

/-- The local variables of a pass right after the five look-ups, with
`ifd0th->offset = ofsBase` done. -/
def fixStart (arr : List IfdTable) (ifd0th : IfdTable) : FixState :=
  { ifd0th := { ifd0th with offset := 8 },
    ifdExif := getIfdTableFromIfdTableArray arr IFD_EXIF,
    ifdIo := getIfdTableFromIfdTableArray arr IFD_IO,
    ifdGps := getIfdTableFromIfdTableArray arr IFD_GPS,
    ifd1st := getIfdTableFromIfdTableArray arr IFD_1ST,
    again := false }

/-- The local variables of a pass at its end. -/
def fixEnd (arr : List IfdTable) (ifd0th : IfdTable) : FixState :=
  fixGps (fixExif (fix1st (fixStart arr ifd0th)))

/-- The array a pass leaves behind, whichever way the pass ends. -/
def FixPass.arr (p : FixPass) : List IfdTable :=
  match p with
  | FixPass.ret _ a => a
  | FixPass.again a => a

/-- A graph whose 0th IFD is too large for 16-bit offsets: an ASCII tag of 65500 bytes
and `ExifIFDPointer`, followed by an empty Exif IFD. -/
def sampleLargeGraph : List IfdTable :=
  [{ ifdType := IFD_0TH, tagCount := 2,
     tags := [{ tagId := 0x010F, type := TYPE_ASCII, count := 65500, numData := none,
                byteData := some (List.replicate 65500 0x41), error := 0 },
              { tagId := TAG_ExifIFDPointer, type := TYPE_LONG, count := 1,
                numData := some [0], byteData := none, error := 0 }],
     nextIfdOffset := 0, offset := 0, length := 0, p := none },
   createIfdTable IFD_EXIF 0 0]

/-- A graph with the 0th IFD of `sampleJpeg` and an empty Exif IFD. -/
def sampleGraphExif : List IfdTable := [sampleIfd0, createIfdTable IFD_EXIF 0 0]

/-- The graph `fixLengthAndOffsetInIfdTables` makes of `sampleGraphExif`. -/
def sampleGraphExifFixed : List IfdTable :=
  [{ ifdType := IFD_0TH, tagCount := 3,
     tags := [{ tagId := 0x0100, type := TYPE_LONG, count := 2, numData := some [1, 2],
                byteData := none, error := 0 },
              { tagId := 0x010F, type := TYPE_ASCII, count := 6, numData := none,
                byteData := some [65, 66, 67, 68, 69, 0], error := 0 },
              { tagId := TAG_ExifIFDPointer, type := TYPE_LONG, count := 1,
                numData := some [64], byteData := none, error := 0 }],
     nextIfdOffset := 0, offset := 8, length := 56, p := none },
   { ifdType := IFD_EXIF, tagCount := 0, tags := [], nextIfdOffset := 0, offset := 64,
     length := 6, p := none }]

/-- A graph with a GPS IFD whose pointer tag in the 0th IFD has the type `type` and the
numbers `numData`. -/
def sampleGraphGps (type : Nat) (numData : List Nat) : List IfdTable :=
  [{ ifdType := IFD_0TH, tagCount := 1,
     tags := [{ tagId := TAG_GPSInfoIFDPointer, type := type, count := 1,
                numData := some numData, byteData := none, error := 0 }],
     nextIfdOffset := 0, offset := 0, length := 0, p := none },
   createIfdTable IFD_GPS 0 0]

/-- The 0th IFD of `sampleGraphGps TYPE_LONG` after the GPS IFD is removed and the
offsets are fixed. -/
def sampleGpsRemovedIfd0 : IfdTable :=
  { ifdType := IFD_0TH, tagCount := 1,
    tags := [{ tagId := TAG_GPSInfoIFDPointer, type := TYPE_LONG, count := 1,
               numData := some [0], byteData := none, error := 0 }],
    nextIfdOffset := 0, offset := 8, length := 18, p := none }

/-- A graph whose 0th IFD holds `ExifIFDPointer` as a LONG tag of count 2, as `parseIFD`
builds it from a tag field with that count. -/
def sampleGraphPointerCount2 : List IfdTable :=
  [{ ifdType := IFD_0TH, tagCount := 1,
     tags := [{ tagId := TAG_ExifIFDPointer, type := TYPE_LONG, count := 2,
                numData := some [5, 6], byteData := none, error := 0 }],
     nextIfdOffset := 0, offset := 0, length := 0, p := none }]

/-- The graph `fixLengthAndOffsetInIfdTables` makes of the graph of `sampleJpeg`. -/
def sampleIfd0Fixed : IfdTable := { sampleIfd0 with offset := 8, length := 44 }

/-- The 0th IFD that `fillIfdTableArray` builds from `sampleUpdated`. -/
def sampleIfd0Reparsed : IfdTable :=
  { ifdType := IFD_0TH, tagCount := 2,
    tags := [{ tagId := 0x0100, type := TYPE_LONG, count := 2, numData := some [1, 2],
               byteData := none, error := 0 },
             { tagId := 0x010F, type := TYPE_ASCII, count := 6, numData := none,
               byteData := some [2, 0, 0, 0, 65, 66], error := 0 }],
    nextIfdOffset := 0, offset := 0, length := 0, p := none }

/-- Every tag of the list has its error flag clear. -/
def TagsLive (tags : List TagNode) : Prop := ∀ t ∈ tags, t.error = 0

/-- The ids of the tags that `fixLengthAndOffsetInIfdTables` writes through
`setSingleNumDataToTag` in an IFD of the given kind. -/
def fixedTagIds (ifdType : IFD_TYPE) : List Nat :=
  match ifdType with
  | IFD_0TH => [TAG_ExifIFDPointer, TAG_GPSInfoIFDPointer]
  | IFD_EXIF => [TAG_InteroperabilityIFDPointer]
  | IFD_1ST => [TAG_JPEGInterchangeFormat]
  | _ => []

/-- The tags without error flag that the fixer writes in an IFD of the kind and that
have an integer type have count 1. -/
def PointerTagsSingle (ifdType : IFD_TYPE) (tags : List TagNode) : Prop :=
  ∀ t ∈ tags, t.error = 0 → t.tagId ∈ fixedTagIds ifdType → isIntType t.type → t.count = 1

/-- The tags of the table are live and its pointer tags have count 1. -/
def IfdWf (x : IfdTable) : Prop := TagsLive x.tags ∧ PointerTagsSingle x.ifdType x.tags

/-- The recorded length of the table is what `calcIfdSize` computes for it. -/
def IfdExact (x : IfdTable) : Prop := x.length = calcIfdSize x

/-- The tables the local pointers of a pass refer to are well formed and of the right
kinds. -/
def StateWf (s : FixState) : Prop :=
  (IfdWf s.ifd0th ∧ s.ifd0th.ifdType = IFD_0TH) ∧
  (∀ e, s.ifdExif = some e → IfdWf e ∧ e.ifdType = IFD_EXIF) ∧
  (∀ i, s.ifdIo = some i → IfdWf i) ∧
  (∀ g, s.ifdGps = some g → IfdWf g) ∧
  (∀ f, s.ifd1st = some f → IfdWf f ∧ f.ifdType = IFD_1ST)

/-- The tables the local pointers of a pass refer to have exact lengths. -/
def StateExact (s : FixState) : Prop :=
  IfdExact s.ifd0th ∧
  (∀ e, s.ifdExif = some e → IfdExact e) ∧
  (∀ i, s.ifdIo = some i → IfdExact i) ∧
  (∀ g, s.ifdGps = some g → IfdExact g) ∧
  (∀ f, s.ifd1st = some f → IfdExact f)

/-- The pointer tags of every table a look-up finds in the array have count 1. -/
def GraphWf (a : List IfdTable) : Prop :=
  ∀ k x, getIfdTableFromIfdTableArray a k = some x → PointerTagsSingle k x.tags

/-- The property `P` of tables survives every write a pass makes to a table. -/
structure PassClosed (P : IfdTable → Prop) : Prop where
  set : ∀ x id v, P x → P (setTagValue x id v)
  add : ∀ x id, P x → P (addDummyTag x id)
  off : ∀ (x : IfdTable) (o : Nat), P x → P { x with offset := o }
  next : ∀ (x : IfdTable) (n : Nat), P x → P { x with nextIfdOffset := n }

/-- The property `P` holds of every table a local pointer of the pass refers to. -/
def StateAll (P : IfdTable → Prop) (s : FixState) : Prop :=
  P s.ifd0th ∧ (∀ e, s.ifdExif = some e → P e) ∧ (∀ i, s.ifdIo = some i → P i) ∧
  (∀ g, s.ifdGps = some g → P g) ∧ (∀ f, s.ifd1st = some f → P f)

/-- Every pointer tag a pass would have to create is there already. -/
def FixState.Complete (s : FixState) : Prop :=
  (∀ f, s.ifd1st = some f → f.p.isSome →
    (getTagNodePtrFromIfd f TAG_JPEGInterchangeFormatLength).isSome →
    (getTagNodePtrFromIfd f TAG_JPEGInterchangeFormat).isSome) ∧
  (s.ifdExif.isSome → (getTagNodePtrFromIfd s.ifd0th TAG_ExifIFDPointer).isSome) ∧
  (∀ e, s.ifdExif = some e → s.ifdIo.isSome →
    (getTagNodePtrFromIfd e TAG_InteroperabilityIFDPointer).isSome) ∧
  (s.ifdGps.isSome → (getTagNodePtrFromIfd s.ifd0th TAG_GPSInfoIFDPointer).isSome)

/-- The number of bytes `writeExifSegment` writes for one IFD. -/
def ifdEmitSize (x : IfdTable) : Nat :=
  2 + 12 * (liveTags x.tags).length + 4 + ((liveTags x.tags).map tagValueSize).sum +
    (thumbnailBytes x).length

/-- The two tags of a 1st IFD that `setThumbnailDataOnIfdTableArray` has created: the
thumbnail length `len` and the thumbnail offset `ofs`, both LONG with count 1. -/
def thumbTags (len ofs : Nat) : List TagNode :=
  [{ tagId := TAG_JPEGInterchangeFormatLength, type := TYPE_LONG, count := 1,
     numData := some [len], byteData := none, error := 0 },
   { tagId := TAG_JPEGInterchangeFormat, type := TYPE_LONG, count := 1,
     numData := some [ofs], byteData := none, error := 0 }]

/-- The 1st IFD of the array holds the thumbnail `b` and nothing but the two thumbnail
tags. -/
def ThumbInv (b : List Nat) (a : List IfdTable) : Prop :=
  ∃ f v, getIfdTableFromIfdTableArray a IFD_1ST = some f ∧ f.p = some b ∧
    f.tags = thumbTags b.length v

/-- The sum `ofsBase + ifd0th->length + ...` that a pass stores as the offset of the
1st IFD. -/
def nextOffset (s : FixState) : Nat :=
  8 + s.ifd0th.length + lengthOr0 s.ifdExif + lengthOr0 s.ifdIo + lengthOr0 s.ifdGps

/-- The lengths a pass reads through its local pointers to the first four tables. -/
def FixState.lens (s : FixState) : Nat × Nat × Nat × Nat :=
  (s.ifd0th.length, lengthOr0 s.ifdExif, lengthOr0 s.ifdIo, lengthOr0 s.ifdGps)

/-- The exact size of a table that may be absent: 0 for `NULL`. -/
def sizeOr0 (ifd : Option IfdTable) : Nat :=
  match ifd with
  | some i => ifdSizeExact i
  | none => 0

/-- A four-byte thumbnail. -/
def sampleThumb : List Nat := [0xFF, 0xD8, 0xFF, 0xD9]

/-- The recorded offset and length of the 1st IFD of a graph and `numData[0]` of its
`JPEGInterchangeFormat` tag. -/
def firstIfdFields (arr : List IfdTable) : Option (Nat × Nat × Option Nat) :=
  (getIfdTableFromIfdTableArray arr IFD_1ST).map
    (fun f => (f.offset, f.length,
      (getTagNodePtrFromIfd f TAG_JPEGInterchangeFormat).map (fun t => t.num 0)))

/-- The graph `fixLengthAndOffsetInIfdTables` makes of `[sampleIfd0]` once
`setThumbnailDataOnIfdTableArray` has stored `sampleThumb`. -/
def sampleGraphThumbFixed : List IfdTable :=
  [{ sampleIfd0 with nextIfdOffset := 52, offset := 8, length := 44 },
   { ifdType := IFD_1ST, tagCount := 2,
     tags := [{ tagId := TAG_JPEGInterchangeFormatLength, type := TYPE_LONG, count := 1,
                numData := some [4], byteData := none, error := 0 },
              { tagId := TAG_JPEGInterchangeFormat, type := TYPE_LONG, count := 1,
                numData := some [82], byteData := none, error := 0 }],
     nextIfdOffset := 0, offset := 52, length := 34, p := some sampleThumb }]

/-- The graph `fixLengthAndOffsetInIfdTables` makes of `sampleGraphPointerCount2` once
`setThumbnailDataOnIfdTableArray` has stored `sampleThumb`. -/
def sampleGraphThumbStale : List IfdTable :=
  [{ ifdType := IFD_0TH, tagCount := 1,
     tags := [{ tagId := TAG_ExifIFDPointer, type := TYPE_LONG, count := 1,
                numData := some [0, 6], byteData := none, error := 0 }],
     nextIfdOffset := 34, offset := 8, length := 26, p := none },
   { ifdType := IFD_1ST, tagCount := 2,
     tags := [{ tagId := TAG_JPEGInterchangeFormatLength, type := TYPE_LONG, count := 1,
                numData := some [4], byteData := none, error := 0 },
              { tagId := TAG_JPEGInterchangeFormat, type := TYPE_LONG, count := 1,
                numData := some [64], byteData := none, error := 0 }],
     nextIfdOffset := 0, offset := 34, length := 34, p := some sampleThumb }]

/-- An ASCII tag of five bytes. -/
def sampleAscii5 : TagNode :=
  { tagId := 0x010F, type := TYPE_ASCII, count := 5, numData := none,
    byteData := some [65, 66, 67, 68, 0], error := 0 }

/-- A JPEG file whose 0th IFD holds `ExifIFDPointer` = 200, an offset past the end of the
file: SOI, an Exif APP1 segment (little-endian TIFF header, one LONG tag), DQT, EOI. -/
def sampleJpegBadExif : List Nat :=
  [0xFF, 0xD8, 0xFF, 0xE1, 0x00, 34, 0x45, 0x78, 0x69, 0x66, 0, 0,
   0x49, 0x49, 0x2A, 0, 8, 0, 0, 0,
   1, 0,
   0x69, 0x87, 4, 0, 1, 0, 0, 0, 200, 0, 0, 0,
   0, 0, 0, 0,
   0xFF, 0xDB, 0, 2, 0xFF, 0xD9]

/-- The 0th IFD that `parseIFD` builds from `sampleJpegBadExif`. -/
def sampleIfd0BadExif : IfdTable :=
  { ifdType := IFD_0TH, tagCount := 1,
    tags := [{ tagId := TAG_ExifIFDPointer, type := TYPE_LONG, count := 1,
               numData := some [200], byteData := none, error := 0 }],
    nextIfdOffset := 0, offset := 0, length := 0, p := none }

/-- The file-scope variables `init` leaves for `sampleJpegBadExif`. -/
def sampleGlobalsBadExif : Globals :=
  { App1StartOffset := 2, JpegDQTOffset := 38,
    App1Header := { marker := 0xE1FF, length := 34, id := [0x45, 0x78, 0x69, 0x66, 0, 0],
                    tiff := { byteOrder := 0x4949, reserved := 0x2A, Ifd0thOffset := 8 } } }

/-- Some call of `parseIFD` that `fillIfdTableArray` makes for a child of the 0th IFD
`z` returns `NULL`: the one for the Exif IFD, for the Interoperability IFD (made when the
Exif IFD is parsed), for the GPS IFD or for the 1st IFD. -/
def childParseFails (sysLE : Bool) (g : Globals) (file : List Nat) (junk : IFD_TYPE → Nat)
    (z : IfdTable) : Prop :=
  (∃ o, pointerOffset z TAG_ExifIFDPointer = some o ∧
    parseIFD sysLE g file o IFD_EXIF (junk IFD_EXIF) = none) ∨
  (∃ o e o2, pointerOffset z TAG_ExifIFDPointer = some o ∧
    parseIFD sysLE g file o IFD_EXIF (junk IFD_EXIF) = some e ∧
    pointerOffset e TAG_InteroperabilityIFDPointer = some o2 ∧
    parseIFD sysLE g file o2 IFD_IO (junk IFD_IO) = none) ∨
  (∃ o, pointerOffset z TAG_GPSInfoIFDPointer = some o ∧
    parseIFD sysLE g file o IFD_GPS (junk IFD_GPS) = none) ∨
  (z.nextIfdOffset ≠ 0 ∧
    parseIFD sysLE g file z.nextIfdOffset IFD_1ST (junk IFD_1ST) = none)

/-- The list holds every child of the 0th IFD `z` that a call of `parseIFD` made by
`fillIfdTableArray` returns. -/
def holdsParsedChildren (sysLE : Bool) (g : Globals) (file : List Nat)
    (junk : IFD_TYPE → Nat) (z : IfdTable) (rest : List IfdTable) : Prop :=
  (∀ o e, pointerOffset z TAG_ExifIFDPointer = some o →
    parseIFD sysLE g file o IFD_EXIF (junk IFD_EXIF) = some e → e ∈ rest) ∧
  (∀ o e o2 i, pointerOffset z TAG_ExifIFDPointer = some o →
    parseIFD sysLE g file o IFD_EXIF (junk IFD_EXIF) = some e →
    pointerOffset e TAG_InteroperabilityIFDPointer = some o2 →
    parseIFD sysLE g file o2 IFD_IO (junk IFD_IO) = some i → i ∈ rest) ∧
  (∀ o x, pointerOffset z TAG_GPSInfoIFDPointer = some o →
    parseIFD sysLE g file o IFD_GPS (junk IFD_GPS) = some x → x ∈ rest) ∧
  (∀ f, z.nextIfdOffset ≠ 0 →
    parseIFD sysLE g file z.nextIfdOffset IFD_1ST (junk IFD_1ST) = some f → f ∈ rest)

/-- The function `duplicateTagNode` for a node that is not `NULL` (`none` is its `NULL`
result). -/
def duplicateTagNode (src : TagNode) : Option TagNode :=
  if src.count ≤ 0 then none
  else
    match src.numData with
    | some nd =>
        let cells := if src.type = TYPE_RATIONAL ∨ src.type = TYPE_SRATIONAL
                     then src.count * 2 else src.count
        some { tagId := src.tagId, type := src.type, count := src.count,
               numData := some (copyCells cells nd), byteData := none, error := src.error }
    | none =>
        match src.byteData with
        | some bd =>
            some { tagId := src.tagId, type := src.type, count := src.count,
                   numData := none, byteData := some (copyCells src.count bd),
                   error := src.error }
        | none =>
            some { tagId := src.tagId, type := src.type, count := src.count,
                   numData := none, byteData := none, error := src.error }

/-- The function `getTagInfo`; the array is `none` for `NULL`. The struct `TagNodeInfo`
of `exif.h` is the struct `_tagNode` up to its list links (the code casts between the
two), so it is a `TagNode` here. -/
def getTagInfo (ifdArray : Option (List IfdTable)) (ifdType : IFD_TYPE) (tagId : Nat) :
    Option TagNode :=
  match ifdArray with
  | none => none
  | some arr =>
      match arr.find? (fun ifd => ifd.ifdType == ifdType) with
      | none => none
      | some ifd =>
          match getTagNodePtrFromIfd ifd tagId with
          | none => none
          | some targetTag => duplicateTagNode targetTag

/-- The function `insertTagNodeToIfdTableArray` (allocation succeeds): its return value
and the array afterwards; the array and `tagNodeInfo` are `none` for `NULL`. -/
def insertTagNodeToIfdTableArray (ifdTableArray : Option (List IfdTable))
    (ifdType : IFD_TYPE) (tagNodeInfo : Option TagNode) : Int × Option (List IfdTable) :=
  match ifdTableArray with
  | none => (ERR_INVALID_POINTER, none)
  | some arr =>
      match tagNodeInfo with
      | none => (ERR_INVALID_POINTER, some arr)
      | some info =>
          match getIfdTableFromIfdTableArray arr ifdType with
          | none => (ERR_NOT_EXIST, some arr)
          | some ifd =>
              if (getTagNodePtrFromIfd ifd info.tagId).isSome then
                (ERR_ALREADY_EXIST, some arr)
              else
                let ifd1 := addTagNodeToIfd ifd info.tagId info.type info.count
                              info.numData info.byteData
                (0, some (putIfd arr ifdType
                            { ifd1 with tagCount := (ifd1.tagCount + 1) % 65536 }))

/-- A tag info with count 0, as a caller may fill the struct `TagNodeInfo`. -/
def sampleInfoCount0 : TagNode :=
  { tagId := 0x0110, type := TYPE_ASCII, count := 0, numData := none,
    byteData := some [], error := 0 }

/-- The tag info holds what `createTagInfo` builds and a caller fills in: a count of at
least 1 and exactly one buffer, of `count` bytes, or of `count` numbers (`2 * count` for
RATIONAL and SRATIONAL). -/
def infoWellFormed (info : TagNode) : Prop :=
  1 ≤ info.count ∧
  ((∃ nd, info.numData = some nd ∧ info.byteData = none ∧
      nd.length = (if info.type = TYPE_RATIONAL ∨ info.type = TYPE_SRATIONAL
                   then info.count * 2 else info.count)) ∨
   (∃ bd, info.numData = none ∧ info.byteData = some bd ∧ bd.length = info.count))

/-- A 0th IFD whose `tagCount` is 65535 (the count read from a file) and that holds no
tag node. -/
def sampleIfd0Full : IfdTable := createIfdTable IFD_0TH 65535 0

/-- The tag info `Make` = "ABCDE" that `sample_updateTagData` builds. -/
def sampleInfoMake : TagNode :=
  { tagId := 0x010F, type := TYPE_ASCII, count := 6, numData := none,
    byteData := some [65, 66, 67, 68, 69, 0], error := 0 }

/-- The `for (;;)` loop of `removeTagOnIfd`: while `getTagNodePtrFromIfd` finds a node
with the id, that node is unlinked and `tagCount` (a `uint16_t`) is decremented; `num`
counts the nodes removed. -/
def removeTagLoop (fuel : Nat) (ifd : IfdTable) (tagId : Nat) (num : Nat) :
    Nat × IfdTable :=
  match fuel with
  | 0 => (num, ifd)
  | n + 1 =>
      match getTagNodePtrFromIfd ifd tagId with
      | none => (num, ifd)
      | some _ =>
          removeTagLoop n
            { ifd with tags := ifd.tags.eraseP (fun t => t.tagId == tagId),
                       tagCount := (ifd.tagCount + 65535) % 65536 }
            tagId (num + 1)

/-- The function `removeTagOnIfd` for an IFD that is not `NULL`: the number of nodes
removed and the IFD afterwards. Every iteration but the last removes a node, so one
iteration more than there are nodes ends the loop. -/
def removeTagOnIfd (ifd : IfdTable) (tagId : Nat) : Nat × IfdTable :=
  removeTagLoop (ifd.tags.length + 1) ifd tagId 0

/-- The function `removeTagNodeFromIfdTableArray`: its return value and the array
afterwards; the array is `none` for `NULL`. -/
def removeTagNodeFromIfdTableArray (ifdTableArray : Option (List IfdTable))
    (ifdType : IFD_TYPE) (tagId : Nat) : Nat × Option (List IfdTable) :=
  match ifdTableArray with
  | none => (0, none)
  | some arr =>
      match getIfdTableFromIfdTableArray arr ifdType with
      | none => (0, some arr)
      | some ifd =>
          ((removeTagOnIfd ifd tagId).1, some (putIfd arr ifdType (removeTagOnIfd ifd tagId).2))

/-- The function `queryTagNodeIsExist`; the array is `none` for `NULL`. -/
def queryTagNodeIsExist (ifdTableArray : Option (List IfdTable)) (ifdType : IFD_TYPE)
    (tagId : Nat) : Int :=
  match ifdTableArray with
  | none => 0
  | some arr =>
      match getIfdTableFromIfdTableArray arr ifdType with
      | none => 0
      | some ifd =>
          match getTagNodePtrFromIfd ifd tagId with
          | none => 0
          | some _ => 1

/-- The graph `setThumbnailDataOnIfdTableArray` makes of `[sampleIfd0]` and
`sampleThumb`: the new 1st IFD has two tags and `tagCount` 0. -/
def sampleGraphThumbSet : List IfdTable :=
  [sampleIfd0,
   { ifdType := IFD_1ST, tagCount := 0,
     tags := [{ tagId := TAG_JPEGInterchangeFormatLength, type := TYPE_LONG, count := 1,
                numData := some [4], byteData := none, error := 0 },
              { tagId := TAG_JPEGInterchangeFormat, type := TYPE_LONG, count := 1,
                numData := some [0], byteData := none, error := 0 }],
     nextIfdOffset := 0, offset := 0, length := 0, p := some sampleThumb }]

/-- What `insertIfdTableToIfdTableArray` leaves behind: the value stored in `*pResult`,
the array returned (`none` for `NULL`) and the array that was passed in as the caller
still has it (`none` when it was `NULL` or has been freed). -/
structure InsertIfdResult where
  result : Int
  returned : Option (List IfdTable)
  old : Option (List IfdTable)
  deriving DecidableEq, Repr

/-- The function `insertIfdTableToIfdTableArray` with a `pResult` that is not `NULL`
(allocation succeeds); the array is `none` for `NULL`. -/
def insertIfdTableToIfdTableArray (ifdTableArray : Option (List IfdTable))
    (ifdType : IFD_TYPE) : InsertIfdResult :=
  let num := match ifdTableArray with
    | none => 0
    | some arr => countIfdTableOnIfdTableArray arr
  let found := match ifdTableArray with
    | none => false
    | some arr => (getIfdTableFromIfdTableArray arr ifdType).isSome
  if num > 0 ∧ found = true then
    { result := ERR_ALREADY_EXIST, returned := none, old := ifdTableArray }
  else
    let newIfd := createIfdTable ifdType 0 0
    let kept := match ifdTableArray with
      | none => []
      | some arr => arr.take num
    { result := 0, returned := some (kept ++ [newIfd]), old := none }

/-- The file `sampleJpeg` with a big-endian TIFF header: the same tags, every 16-bit and
32-bit field byte-swapped. -/
def sampleJpegBE : List Nat :=
  [0xFF, 0xD8, 0xFF, 0xE1, 0x00, 60, 0x45, 0x78, 0x69, 0x66, 0, 0,
   0x4D, 0x4D, 0, 0x2A, 0, 0, 0, 8,
   0, 2,
   0x01, 0x00, 0, 4, 0, 0, 0, 2, 0, 0, 0, 38,
   0x01, 0x0F, 0, 2, 0, 0, 0, 6, 0, 0, 0, 46,
   0, 0, 0, 0,
   0, 0, 0, 1, 0, 0, 0, 2,
   65, 66, 67, 68, 69, 0,
   0xFF, 0xDB, 0, 2, 0xFF, 0xD9]

/-- The file `updateExifSegmentInJPEGFile` writes for `sampleJpegBE` and the graph
`[sampleIfd0]`. -/
def sampleUpdatedBE : List Nat :=
  [0xFF, 0xD8, 0xFF, 0xE1, 0x00, 60, 0x45, 0x78, 0x69, 0x66, 0, 0,
   0x4D, 0x4D, 0, 0x2A, 0, 0, 0, 8,
   0, 2,
   0x01, 0x00, 0, 4, 0, 0, 0, 2, 0, 0, 0, 38,
   0x01, 0x0F, 0, 2, 0, 0, 0, 6, 0, 0, 0, 42,
   0, 0, 0, 0,
   0, 0, 0, 1, 0, 0, 0, 2,
   65, 66, 67, 68, 69, 0,
   0xFF, 0xDB, 0, 2, 0xFF, 0xD9]

/-- The 0th IFD that `fillIfdTableArray` builds from `sampleUpdatedBE`. -/
def sampleIfd0ReparsedBE : IfdTable :=
  { ifdType := IFD_0TH, tagCount := 2,
    tags := [{ tagId := 0x0100, type := TYPE_LONG, count := 2, numData := some [1, 2],
               byteData := none, error := 0 },
             { tagId := 0x010F, type := TYPE_ASCII, count := 6, numData := none,
               byteData := some [0, 0, 0, 2, 65, 66], error := 0 }],
    nextIfdOffset := 0, offset := 0, length := 0, p := none }

/-- The tag `ComponentsConfiguration` of the spec's example: UNDEFINED, count 4, bytes
`01 02 03 00`. -/
def sampleComponentsConfiguration : TagNode :=
  { tagId := 0x9101, type := TYPE_UNDEFINED, count := 4, numData := none,
    byteData := some [1, 2, 3, 0], error := 0 }

/-- The graph `fixLengthAndOffsetInIfdTables` makes of `sampleGraphPointerCount2`: the
pointer tag has count 1, the length 26 still counts the eight value bytes of count 2. -/
def sampleGraphPointerFixed : List IfdTable :=
  [{ ifdType := IFD_0TH, tagCount := 1,
     tags := [{ tagId := TAG_ExifIFDPointer, type := TYPE_LONG, count := 1,
                numData := some [0, 6], byteData := none, error := 0 }],
     nextIfdOffset := 0, offset := 8, length := 26, p := none }]

/-- The graph of the spec's example after `fixLengthAndOffsetInIfdTables`: a 0th IFD
with the single tag `Make`, ASCII of count 6. -/
def sampleGraphMakeFixed : List IfdTable :=
  [{ ifdType := IFD_0TH, tagCount := 1, tags := [sampleInfoMake],
     nextIfdOffset := 0, offset := 8, length := 24, p := none }]

/-- The out-of-line size of a tag in the words of the spec: `count` rounded up to even
for ASCII, UNDEFINED, BYTE and SBYTE with `count > 4`, `2 * count` for SHORT and SSHORT
with `count > 2`, `4 * count` for LONG and SLONG with `count > 1`, `8 * count` for
RATIONAL and SRATIONAL, and 0 otherwise. -/
def spec_out_of_line_size (type count : Nat) : Nat :=
  if (type = TYPE_ASCII ∨ type = TYPE_UNDEFINED ∨ type = TYPE_BYTE ∨ type = TYPE_SBYTE) ∧
      count > 4 then count + count % 2
  else if (type = TYPE_SHORT ∨ type = TYPE_SSHORT) ∧ count > 2 then 2 * count
  else if (type = TYPE_LONG ∨ type = TYPE_SLONG) ∧ count > 1 then 4 * count
  else if type = TYPE_RATIONAL ∨ type = TYPE_SRATIONAL then 8 * count
  else 0

/-- The length of an IFD in the words of the spec: `2 + 12 * n + 4`, the out-of-line
sizes of the `n` tags without error flag, and for a 1st IFD that has a thumbnail and a
`JPEGInterchangeFormatLength` tag the thumbnail length that tag holds. -/
def spec_ifd_length (ifd : IfdTable) : Nat :=
  2 + 12 * (ifd.tags.filter (fun t => t.error == 0)).length + 4 +
    ((ifd.tags.filter (fun t => t.error == 0)).map
      (fun t => spec_out_of_line_size t.type t.count)).sum +
    (if ifd.ifdType = IFD_1ST then
       match ifd.p, getTagNodePtrFromIfd ifd TAG_JPEGInterchangeFormatLength with
       | some _, some tag => tag.num 0
       | _, _ => 0
     else 0)

/-- A 0th IFD with two ASCII tags of 40000 bytes each. -/
def sampleGraphTwoLargeTags : List IfdTable :=
  [{ ifdType := IFD_0TH, tagCount := 2,
     tags := [{ tagId := 0x010E, type := TYPE_ASCII, count := 40000, numData := none,
                byteData := some (List.replicate 40000 0x41), error := 0 },
              { tagId := 0x010F, type := TYPE_ASCII, count := 40000, numData := none,
                byteData := some (List.replicate 40000 0x41), error := 0 }],
     nextIfdOffset := 0, offset := 0, length := 0, p := none }]

/-- The id and the type of a tag: what identifies an entry of an IFD. -/
def tagKey (t : TagNode) : Nat × Nat := (t.tagId, t.type)

/-- The recorded `tagCount` of the table is the number of nodes of its list, as a
16-bit value, and no node of the list has its error flag set. -/
def TagsCounted (x : IfdTable) : Prop :=
  TagsLive x.tags ∧ x.tagCount = x.tags.length % 65536

/-- One BYTE tag for each of the tag ids below `n`, in the order of the ids. -/
def allIdTags (n : Nat) : List TagNode :=
  (List.range n).map (fun i =>
    { tagId := i, type := TYPE_BYTE, count := 1, numData := some [0],
      byteData := none, error := 0 })

/-- A 0th IFD that holds one BYTE tag for each of the 65536 tag ids, in the order of
the ids (every id occurs once, as `insertTagNodeToIfdTableArray` requires). -/
def sampleIfd0AllIds : IfdTable :=
  { ifdType := IFD_0TH, tagCount := 0, tags := allIdTags 65536,
    nextIfdOffset := 0, offset := 0, length := 0, p := none }

/-- The property `P` of tables survives the writes of a pass that create no tag. -/
structure SetClosed (P : IfdTable → Prop) : Prop where
  set : ∀ x id v, P x → P (setTagValue x id v)
  off : ∀ (x : IfdTable) (o : Nat), P x → P { x with offset := o }
  next : ∀ (x : IfdTable) (n : Nat), P x → P { x with nextIfdOffset := n }

/-- The entries of the table of the same kind in `a`, without those with an error flag,
are the first entries of the table, in the same order. -/
def KeepsKeys (a : List IfdTable) (y : IfdTable) : Prop :=
  ∀ x, getIfdTableFromIfdTableArray a y.ifdType = some x →
    (liveTags x.tags).map tagKey <+: y.tags.map tagKey

/-- The links a pass holds: `nextIfdOffset` of the five tables and `offset` of the 1st
IFD. -/
def FixState.links (s : FixState) :
    Nat × Option Nat × Option Nat × Option Nat × Option (Nat × Nat) :=
  (s.ifd0th.nextIfdOffset, s.ifdExif.map (fun i => i.nextIfdOffset),
   s.ifdIo.map (fun i => i.nextIfdOffset), s.ifdGps.map (fun i => i.nextIfdOffset),
   s.ifd1st.map (fun i => (i.nextIfdOffset, i.offset)))

/-- A graph whose 0th IFD has 65530 bytes (one ASCII tag of 65512 bytes), followed by an
empty 1st IFD. -/
def sampleGraphFarFirst : List IfdTable :=
  [{ ifdType := IFD_0TH, tagCount := 1,
     tags := [{ tagId := 0x010F, type := TYPE_ASCII, count := 65512, numData := none,
                byteData := some (List.replicate 65512 0x41), error := 0 }],
     nextIfdOffset := 0, offset := 0, length := 0, p := none },
   createIfdTable IFD_1ST 0 0]

/-- An application segment `APPn` of a JPEG file: the number `n` of its marker `FF En`
and its payload, the bytes that follow the length field. -/
structure AppSegment where
  n : Nat
  payload : List Nat
  deriving DecidableEq, Repr

/-- The bytes of an application segment: the marker, the length field (payload plus the
two bytes of the field itself, most significant byte first) and the payload. -/
def AppSegment.bytes (s : AppSegment) : List Nat :=
  [0xFF, 0xE0 + s.n, (s.payload.length + 2) / 256, (s.payload.length + 2) % 256] ++
    s.payload

/-- The marker is one of `APP0` .. `APP15` and the length fits its 16-bit field. -/
def AppSegment.WellFormed (s : AppSegment) : Prop :=
  s.n ≤ 15 ∧ s.payload.length + 2 < 65536

/-- The segment is an `APP1` segment whose payload starts with `id`. -/
def AppSegment.Matches (id : List Nat) (s : AppSegment) : Prop :=
  s.n = 1 ∧ id <+: s.payload

instance (s : AppSegment) : Decidable s.WellFormed := by
  unfold AppSegment.WellFormed
  infer_instance

instance (id : List Nat) (s : AppSegment) : Decidable (s.Matches id) := by
  unfold AppSegment.Matches
  infer_instance

/-- The bytes of a chain of application segments. -/
def chainBytes (segs : List AppSegment) : List Nat :=
  match segs with
  | [] => []
  | s :: rest => s.bytes ++ chainBytes rest

/-- The marker a chain that is followed by the marker `FF c` begins with. -/
def chainMarker (segs : List AppSegment) (c : Nat) : Nat :=
  match segs with
  | [] => 0xFF00 + c
  | s :: _ => 0xFFE0 + s.n

/-- The scan of `getApp1StartOffset`, told segment by segment, over a chain that starts
at the offset `off` and is followed by the marker `FF c`; `exif` is the offset recorded
so far. -/
def scanChain (id : List Nat) (segs : List AppSegment) (c off exif : Nat) : ScanResult :=
  match segs with
  | [] => { sts := exif, dqt := if c = 0xDB then some off else none }
  | s :: rest =>
      if s.n ≠ 1 then
        if exif ≠ 0 then { sts := exif, dqt := none }
        else scanChain id rest c (off + s.bytes.length) exif
      else
        scanChain id rest c (off + s.bytes.length)
          (if s.payload.take id.length = id then off else exif)

/-- An `APP1` segment with the payload `Exif\0\0`. -/
def sampleExifSegment : AppSegment := { n := 1, payload := [0x45, 0x78, 0x69, 0x66, 0, 0] }

/-- An `APP1` segment that is not an Exif segment: its payload is one byte. -/
def sampleOtherApp1 : AppSegment := { n := 1, payload := [0x68] }

/-- An `APP2` segment without payload. -/
def sampleApp2 : AppSegment := { n := 2, payload := [] }

/-- An `APP0` segment with a payload of two bytes. -/
def sampleApp0 : AppSegment := { n := 0, payload := [0x4A, 0x46] }

/-- A file with two Exif `APP1` segments in a row, followed by a DQT segment and EOI. -/
def sampleJpegTwoExif : List Nat :=
  [0xFF, 0xD8,
   0xFF, 0xE1, 0, 8, 0x45, 0x78, 0x69, 0x66, 0, 0,
   0xFF, 0xE1, 0, 8, 0x45, 0x78, 0x69, 0x66, 0, 0,
   0xFF, 0xDB, 0, 2, 0xFF, 0xD9]

/-- A file with an Exif `APP1` segment, an empty `APP2` segment, a DQT segment and EOI. -/
def sampleJpegExifApp2 : List Nat :=
  [0xFF, 0xD8,
   0xFF, 0xE1, 0, 8, 0x45, 0x78, 0x69, 0x66, 0, 0,
   0xFF, 0xE2, 0, 2,
   0xFF, 0xDB, 0, 2, 0xFF, 0xD9]

/-- A file that ends with the DQT marker, after an `APP1` segment without payload. -/
def sampleJpegEndsAtDqt : List Nat :=
  [0xFF, 0xD8, 0xFF, 0xE1, 0, 2, 0xFF, 0xDB]

/-- A file without an Exif segment: an `APP0` segment and an `APP1` segment that is not
an Exif segment, a DQT segment and EOI. -/
def sampleJpegNoExif : List Nat :=
  [0xFF, 0xD8,
   0xFF, 0xE0, 0, 4, 0x4A, 0x46,
   0xFF, 0xE1, 0, 3, 0x68,
   0xFF, 0xDB, 0, 2, 0xFF, 0xD9]

/-- The 16-bit number the first two bytes of `b` denote when read in the given byte
order, as the spec words it: least significant byte first for little-endian data, most
significant byte first for big-endian data. -/
def spec_u16 (littleEndian : Bool) (b : List Nat) : Nat :=
  if littleEndian then b.getD 0 0 + 256 * b.getD 1 0 else 256 * b.getD 0 0 + b.getD 1 0

/-- The 32-bit number the first four bytes of `b` denote when read in the given byte
order. -/
def spec_u32 (littleEndian : Bool) (b : List Nat) : Nat :=
  if littleEndian then
    b.getD 0 0 + 256 * b.getD 1 0 + 65536 * b.getD 2 0 + 16777216 * b.getD 3 0
  else 16777216 * b.getD 0 0 + 65536 * b.getD 1 0 + 256 * b.getD 2 0 + b.getD 3 0

/-- The byte-order mark of the eighteen header bytes `b` (bytes 10 and 11). -/
def spec_byte_order_mark (b : List Nat) : Nat := spec_u16 false (b.drop 10)

/-- The validation of the spec fails for the eighteen header bytes `b`: the byte-order
mark is neither `0x4949` nor `0x4D4D`, or the reserved field (bytes 12 and 13), read in
the byte order the mark announces, is not `0x002A`. -/
def spec_header_invalid (b : List Nat) : Prop :=
  (spec_byte_order_mark b ≠ 0x4949 ∧ spec_byte_order_mark b ≠ 0x4D4D) ∨
  spec_u16 (spec_byte_order_mark b = 0x4949) (b.drop 12) ≠ 0x002A

instance (b : List Nat) : Decidable (spec_header_invalid b) := by
  unfold spec_header_invalid
  infer_instance

/-- A little-endian file whose TIFF header gives 10 as the offset of the 0th IFD: two
padding bytes follow the header, then the 0th IFD with the one tag `ImageWidth`
(LONG, count 1, value `0x01020304`) and the next-IFD offset 0, stored at the TIFF
offset `10 + 2 + 12 = 24`. -/
def sampleJpegIfdAt10 : List Nat :=
  [0xFF, 0xD8, 0xFF, 0xE1, 0x00, 36, 0x45, 0x78, 0x69, 0x66, 0, 0,
   0x49, 0x49, 0x2A, 0, 10, 0, 0, 0,
   0, 0,
   1, 0,
   0x00, 0x01, 4, 0, 1, 0, 0, 0, 4, 3, 2, 1,
   0, 0, 0, 0,
   0xFF, 0xDB, 0, 2, 0xFF, 0xD9]

/-- The file-scope variables `init` leaves for `sampleJpegIfdAt10`. -/
def sampleGlobalsIfdAt10 : Globals :=
  { App1StartOffset := 2, JpegDQTOffset := 40,
    App1Header := { marker := 0xE1FF, length := 36, id := [0x45, 0x78, 0x69, 0x66, 0, 0],
                    tiff := { byteOrder := 0x4949, reserved := 0x2A, Ifd0thOffset := 10 } } }

/-- The 0th IFD that `parseIFD` builds from `sampleJpegIfdAt10`. -/
def sampleIfd0At10 : IfdTable :=
  { ifdType := IFD_0TH, tagCount := 1,
    tags := [{ tagId := 0x0100, type := TYPE_LONG, count := 1,
               numData := some [0x01020304], byteData := none, error := 0 }],
    nextIfdOffset := 258, offset := 0, length := 0, p := none }

/-- The test `parseIFD` makes before it allocates the buffer of a value: it compares
with `App1Header.length` the count of an ASCII or UNDEFINED tag (only when the count
exceeds the 8192 bytes of the local buffer), `8 * count` for RATIONAL and SRATIONAL, and
`4 * count`, whatever the size of an element, for the six integer types with a count
above 1. -/
def allocGuardFires (length type count : Nat) : Prop :=
  if type = TYPE_ASCII ∨ type = TYPE_UNDEFINED then 8192 < count ∧ length ≤ count
  else if type = TYPE_RATIONAL ∨ type = TYPE_SRATIONAL then length ≤ 8 * count
  else 1 < count ∧ length ≤ 4 * count

instance (length type count : Nat) : Decidable (allocGuardFires length type count) := by
  unfold allocGuardFires
  infer_instance

/-- The bytes of the value of a tag field can be read: they are the offset area of the
field (a value of at most four bytes), or they lie in the file at the offset the field
gives. -/
def payloadReadable (g : Globals) (file : List Nat) (tag : IFD_TAG) : Prop :=
  spec_payload_bytes tag.type tag.count ≤ 4 ∨
  seekToRelativeOffset g tag.offset + spec_payload_bytes tag.type tag.count ≤ file.length

instance (g : Globals) (file : List Nat) (tag : IFD_TAG) :
    Decidable (payloadReadable g file tag) := by
  unfold payloadReadable
  infer_instance

/-- The size in bytes of an element of a value of an integer type, as the spec gives it:
1 for BYTE and SBYTE, 2 for SHORT and SSHORT, 4 for LONG and SLONG. -/
def spec_element_size (type : Nat) : Nat :=
  if type = TYPE_BYTE ∨ type = TYPE_SBYTE then 1
  else if type = TYPE_SHORT ∨ type = TYPE_SSHORT then 2
  else 4

/-- The number the first `size` bytes of `b` denote in the given byte order: the on-disk
element, zero-extended. -/
def spec_read_element (littleEndian : Bool) (size : Nat) (b : List Nat) : Nat :=
  if size = 1 then b.getD 0 0
  else if size = 2 then spec_u16 littleEndian b
  else spec_u32 littleEndian b

/-- The sign extension to 32 bits of an element of `size` bytes, as the spec words the
decoding of SBYTE, SSHORT and SLONG. -/
def spec_sign_widen (size v : Nat) : Nat :=
  if size < 4 ∧ 2 ^ (8 * size - 1) ≤ v then v + (4294967296 - 2 ^ (8 * size)) else v

/-- The bytes the elements of an integer value are decoded from: the offset area of the
tag field when the value has at most four bytes, the bytes of the file at the offset of
the field otherwise. -/
def elementBytes (g : Globals) (file : List Nat) (tag : IFD_TAG) (data : List Nat) :
    List Nat :=
  if spec_element_size tag.type * tag.count ≤ 4 then data
  else fread file (seekToRelativeOffset g tag.offset) (spec_element_size tag.type * tag.count)

/-- A little-endian tag field: an SSHORT value of count 1 with the on-disk bytes
`FF FF`. -/
def sampleFieldSShort : List Nat := [0x00, 0x01, 8, 0, 1, 0, 0, 0, 0xFF, 0xFF, 0, 0]

/-- A little-endian tag field: an SBYTE value of count 1 with the on-disk byte `80`. -/
def sampleFieldSByte : List Nat := [0x00, 0x01, 6, 0, 1, 0, 0, 0, 0x80, 0, 0, 0]

/-- A little-endian file whose 0th IFD holds `ImageWidth` (LONG, count 1, value
`0x11223344`) and after it a BYTE tag of count 5 whose payload `01 02 03 04 05` stands
at the TIFF offset 38 (file offset 50). -/
def sampleJpegByteArray : List Nat :=
  [0xFF, 0xD8, 0xFF, 0xE1, 0x00, 52, 0x45, 0x78, 0x69, 0x66, 0, 0,
   0x49, 0x49, 0x2A, 0, 8, 0, 0, 0,
   2, 0,
   0x00, 0x01, 4, 0, 1, 0, 0, 0, 0x44, 0x33, 0x22, 0x11,
   0x00, 0x02, 1, 0, 5, 0, 0, 0, 38, 0, 0, 0,
   0, 0, 0, 0,
   1, 2, 3, 4, 5, 0,
   0xFF, 0xDB, 0, 2, 0xFF, 0xD9]

/-- The file-scope variables `init` leaves for `sampleJpegByteArray`. -/
def sampleGlobalsByteArray : Globals :=
  { App1StartOffset := 2, JpegDQTOffset := 56,
    App1Header := { marker := 0xE1FF, length := 52, id := [0x45, 0x78, 0x69, 0x66, 0, 0],
                    tiff := { byteOrder := 0x4949, reserved := 0x2A, Ifd0thOffset := 8 } } }

/-- The 0th IFD that `parseIFD` builds from `sampleJpegByteArray` on a little-endian
host. -/
def sampleIfd0ByteArray : IfdTable :=
  { ifdType := IFD_0TH, tagCount := 2,
    tags := [{ tagId := 0x0100, type := TYPE_LONG, count := 1, numData := some [0x11223344],
               byteData := none, error := 0 },
             { tagId := 0x0200, type := TYPE_BYTE, count := 5,
               numData := some [0x11223301, 0x11223302, 0x11223303, 0x11223304, 0x11223305],
               byteData := none, error := 0 }],
    nextIfdOffset := 0, offset := 0, length := 0, p := none }

/-- The twelve bytes of tag field `i` of an IFD whose first tag field is at the stream
position `pos`. -/
def entryBytes (file : List Nat) (pos i : Nat) : List Nat := fread file (pos + 12 * i) 12

/-- Tag field `i` as the parser reads it, corrected for the byte order of the data. -/
def entryTag (sysLE : Bool) (g : Globals) (file : List Nat) (pos i : Nat) : IFD_TAG :=
  readIfdTag sysLE g.App1Header (entryBytes file pos i)

/-- The four raw bytes of the offset area of tag field `i`. -/
def entryData (file : List Nat) (pos i : Nat) : List Nat :=
  ((entryBytes file pos i).drop 8).take 4

/-- The value of the local variable `val` of `parseIFD` when the tag loop comes to
tag field `i`; `val0` is its value before the loop. -/
def valBefore (sysLE : Bool) (g : Globals) (file : List Nat) (pos val0 : Nat) : Nat → Nat
  | 0 => val0
  | i + 1 =>
      (parseTag sysLE g file (entryTag sysLE g file pos i) (entryData file pos i)
        (valBefore sysLE g file pos val0 i)).val

/-- The node the tag loop of `parseIFD` adds for tag field `i` (`none` when it adds
none). -/
def entryNode (sysLE : Bool) (g : Globals) (file : List Nat) (pos val0 i : Nat) :
    Option TagNode :=
  (parseTag sysLE g file (entryTag sysLE g file pos i) (entryData file pos i)
    (valBefore sysLE g file pos val0 i)).node

/-- The count of tag fields `parseIFD` reads at the offset `startOffset`. -/
def ifdTagCount (sysLE : Bool) (g : Globals) (file : List Nat) (startOffset : Nat) : Nat :=
  fix_short sysLE g.App1Header (val16 sysLE (fread file (seekToRelativeOffset g startOffset) 2))

/-- The count and all the tag fields of the IFD at `startOffset` can be read. -/
def EntriesReadable (sysLE : Bool) (g : Globals) (file : List Nat) (startOffset : Nat) :
    Prop :=
  seekToRelativeOffset g startOffset + 2 + 12 * ifdTagCount sysLE g file startOffset ≤
    file.length

/-- The four bytes `parseIFD` reads as the next-IFD offset of a 0th IFD can be read
(for another kind nothing is read). -/
def NextReadable (sysLE : Bool) (g : Globals) (file : List Nat) (startOffset : Nat)
    (ifdType : IFD_TYPE) : Prop :=
  ifdType = IFD_0TH →
    seekToRelativeOffset g (8 + 2 + 12 * ifdTagCount sysLE g file startOffset) + 4 ≤
      file.length

instance (sysLE : Bool) (g : Globals) (file : List Nat) (startOffset : Nat) :
    Decidable (EntriesReadable sysLE g file startOffset) := by
  unfold EntriesReadable
  infer_instance

instance (sysLE : Bool) (g : Globals) (file : List Nat) (startOffset : Nat)
    (ifdType : IFD_TYPE) : Decidable (NextReadable sysLE g file startOffset ifdType) := by
  unfold NextReadable
  infer_instance

/-- The id, the type and the count of a node. -/
def tagTriple (t : TagNode) : Nat × Nat × Nat := (t.tagId, t.type, t.count)

/-- The id, the type and the count of a tag field. -/
def fieldTriple (t : IFD_TAG) : Nat × Nat × Nat := (t.tag, t.type, t.count)

/-- The type of tag field `i` is one of the ten value types. -/
def entryTypeKnown (sysLE : Bool) (g : Globals) (file : List Nat) (pos i : Nat) : Prop :=
  1 ≤ (entryTag sysLE g file pos i).type ∧ (entryTag sysLE g file pos i).type ≤ 10

instance (sysLE : Bool) (g : Globals) (file : List Nat) (pos i : Nat) :
    Decidable (entryTypeKnown sysLE g file pos i) := by
  unfold entryTypeKnown
  infer_instance

/-- A little-endian file whose 0th IFD holds `ImageWidth` (LONG, count 1) and after it a
tag field of the type 12 (DOUBLE), which is none of the ten types. -/
def sampleJpegDouble : List Nat :=
  [0xFF, 0xD8, 0xFF, 0xE1, 0x00, 54, 0x45, 0x78, 0x69, 0x66, 0, 0,
   0x49, 0x49, 0x2A, 0, 8, 0, 0, 0,
   2, 0,
   0x00, 0x01, 4, 0, 1, 0, 0, 0, 0x40, 0, 0, 0,
   0x9A, 0x82, 12, 0, 1, 0, 0, 0, 38, 0, 0, 0,
   0, 0, 0, 0,
   0, 0, 0, 0, 0, 0, 0, 0,
   0xFF, 0xDB, 0, 2, 0xFF, 0xD9]

/-- The file-scope variables `init` leaves for `sampleJpegDouble`. -/
def sampleGlobalsDouble : Globals :=
  { App1StartOffset := 2, JpegDQTOffset := 58,
    App1Header := { marker := 0xE1FF, length := 54, id := [0x45, 0x78, 0x69, 0x66, 0, 0],
                    tiff := { byteOrder := 0x4949, reserved := 0x2A, Ifd0thOffset := 8 } } }

/-- The 0th IFD that `parseIFD` builds from `sampleJpegDouble`: one node, `tagCount` 2. -/
def sampleIfd0Double : IfdTable :=
  { ifdType := IFD_0TH, tagCount := 2,
    tags := [{ tagId := 0x0100, type := TYPE_LONG, count := 1, numData := some [0x40],
               byteData := none, error := 0 }],
    nextIfdOffset := 0, offset := 0, length := 0, p := none }

/-- A little-endian file whose 0th IFD holds a LONG tag of count 2 with the payload
`11 22 33 44 55 66 77 88` at the TIFF offset 44 (file offset 56, the last eight bytes of
the segment) and after it a BYTE tag of count 5 with the payload `01 02 03 04 05` at the
TIFF offset 38 (file offset 50). -/
def sampleJpegTwoArrays : List Nat :=
  [0xFF, 0xD8, 0xFF, 0xE1, 0x00, 60, 0x45, 0x78, 0x69, 0x66, 0, 0,
   0x49, 0x49, 0x2A, 0, 8, 0, 0, 0,
   2, 0,
   0x00, 0x01, 4, 0, 2, 0, 0, 0, 44, 0, 0, 0,
   0x01, 0x01, 1, 0, 5, 0, 0, 0, 38, 0, 0, 0,
   0, 0, 0, 0,
   1, 2, 3, 4, 5, 0,
   0x11, 0x22, 0x33, 0x44, 0x55, 0x66, 0x77, 0x88,
   0xFF, 0xDB, 0, 2, 0xFF, 0xD9]

/-- The file-scope variables `init` leaves for `sampleJpegTwoArrays`. -/
def sampleGlobalsTwoArrays : Globals :=
  { App1StartOffset := 2, JpegDQTOffset := 64,
    App1Header := { marker := 0xE1FF, length := 60, id := [0x45, 0x78, 0x69, 0x66, 0, 0],
                    tiff := { byteOrder := 0x4949, reserved := 0x2A, Ifd0thOffset := 8 } } }

/-- The 0th IFD that `parseIFD` builds from `sampleJpegTwoArrays`. -/
def sampleIfd0TwoArrays : IfdTable :=
  { ifdType := IFD_0TH, tagCount := 2,
    tags := [{ tagId := 0x0100, type := TYPE_LONG, count := 2,
               numData := some [0x44332211, 0x88776655], byteData := none, error := 0 },
             { tagId := 0x0101, type := TYPE_BYTE, count := 5,
               numData := some [0x88776601, 0x88776602, 0x88776603, 0x88776604,
                 0x88776605],
               byteData := none, error := 0 }],
    nextIfdOffset := 0, offset := 0, length := 0, p := none }

/-- The number of bytes the tag loop reads from the file for the value of a tag field
(the variable `len`, or the count of an ASCII or UNDEFINED value). -/
def valueLength (tag : IFD_TAG) : Nat :=
  if tag.type = TYPE_ASCII ∨ tag.type = TYPE_UNDEFINED then tag.count
  else if tag.type = TYPE_RATIONAL ∨ tag.type = TYPE_SRATIONAL then
    ((tag.count * 2) % 4294967296) * 4
  else if tag.type = TYPE_BYTE ∨ tag.type = TYPE_SBYTE then tag.count
  else if tag.type = TYPE_SHORT ∨ tag.type = TYPE_SSHORT then 2 * tag.count
  else if tag.type = TYPE_LONG ∨ tag.type = TYPE_SLONG then 4 * tag.count
  else 0

/-- The bytes the tag loop gets when it reads the value of a tag field from the file at
the offset the field gives. -/
def valueBytes (g : Globals) (file : List Nat) (tag : IFD_TAG) : List Nat :=
  fread file (seekToRelativeOffset g tag.offset) (valueLength tag)

/-- The tag fields whose decoding reads the local variable `val` of `parseIFD` as the
earlier fields left it: an out-of-line BYTE or SBYTE value, and on a big-endian host an
out-of-line SHORT or SSHORT value. -/
def dependsOnVal (sysLE : Bool) (tag : IFD_TAG) : Prop :=
  ((tag.type = TYPE_BYTE ∨ tag.type = TYPE_SBYTE) ∧ 4 < tag.count) ∨
  ((tag.type = TYPE_SHORT ∨ tag.type = TYPE_SSHORT) ∧ 2 < tag.count ∧ sysLE = false)

instance (sysLE : Bool) (tag : IFD_TAG) : Decidable (dependsOnVal sysLE tag) := by
  unfold dependsOnVal
  infer_instance

/-- The node of a tag field that could not be decoded: the id, type and count of the
field, no payload, the error flag set. -/
def errorTag (tag : IFD_TAG) : TagNode :=
  { tagId := tag.tag, type := tag.type, count := tag.count, numData := none,
    byteData := none, error := 1 }

/-- The table `fixLengthAndOffsetInIfdTables` makes of `sampleIfd0At10`: the offset 8,
the length 18 and no link to a 1st IFD. -/
def sampleIfd0At10Fixed : IfdTable :=
  { sampleIfd0At10 with nextIfdOffset := 0, offset := 8, length := 18 }

/-- The file `updateExifSegmentInJPEGFile` writes for `sampleJpegIfdAt10` and the graph
`[sampleIfd0At10]`: the TIFF header gives 10 as the offset of the 0th IFD, and the 0th
IFD follows the header at once, at the TIFF offset 8. -/
def sampleUpdatedIfdAt10 : List Nat :=
  [0xFF, 0xD8, 0xFF, 0xE1, 0x00, 34, 0x45, 0x78, 0x69, 0x66, 0, 0,
   0x49, 0x49, 0x2A, 0, 10, 0, 0, 0,
   1, 0,
   0x00, 0x01, 4, 0, 1, 0, 0, 0, 4, 3, 2, 1,
   0, 0, 0, 0,
   0xFF, 0xDB, 0, 2, 0xFF, 0xD9]

/-- A file without an application segment whose first segment is a comment (COM,
`FF FE`), followed by a DQT segment and EOI. -/
def sampleJpegComFirst : List Nat :=
  [0xFF, 0xD8, 0xFF, 0xFE, 0, 4, 0x68, 0x69, 0xFF, 0xDB, 0, 2, 0xFF, 0xD9]

/-- An edit operation on the graph, with its arguments: a call of
`insertIfdTableToIfdTableArray`, `removeIfdTableFromIfdTableArray`,
`insertTagNodeToIfdTableArray`, `removeTagNodeFromIfdTableArray`,
`setThumbnailDataOnIfdTableArray` (`pData` is `none` for `NULL`) or
`fixLengthAndOffsetInIfdTables`. -/
inductive GraphOp where
  | insertIfd (ifdType : IFD_TYPE)
  | removeIfd (ifdType : IFD_TYPE)
  | insertTag (ifdType : IFD_TYPE) (tagNodeInfo : TagNode)
  | removeTag (ifdType : IFD_TYPE) (tagId : Nat)
  | setThumbnail (pData : Option (List Nat)) (length : Nat)
  | fixOffsets

/-- The array the caller holds after an edit operation (`none` for `NULL`). When
`insertIfdTableToIfdTableArray` returns `NULL` the caller keeps the array it passed in;
the other operations work on the array in place. The loop of the fixer ends within two
passes (`fixLoop_enough`). -/
def applyOp (ifdTableArray : Option (List IfdTable)) (op : GraphOp) :
    Option (List IfdTable) :=
  match op with
  | GraphOp.insertIfd ifdType =>
      match (insertIfdTableToIfdTableArray ifdTableArray ifdType).returned with
      | some arr => some arr
      | none => (insertIfdTableToIfdTableArray ifdTableArray ifdType).old
  | GraphOp.removeIfd ifdType =>
      match ifdTableArray with
      | none => none
      | some arr => some (removeIfdTableFromIfdTableArray arr ifdType).2
  | GraphOp.insertTag ifdType info =>
      (insertTagNodeToIfdTableArray ifdTableArray ifdType (some info)).2
  | GraphOp.removeTag ifdType tagId =>
      (removeTagNodeFromIfdTableArray ifdTableArray ifdType tagId).2
  | GraphOp.setThumbnail pData length =>
      match ifdTableArray with
      | none => none
      | some arr => some (setThumbnailDataOnIfdTableArray arr pData length).2
  | GraphOp.fixOffsets =>
      match ifdTableArray with
      | none => none
      | some arr =>
          match fixLengthAndOffsetInIfdTables 2 arr with
          | some r => some r.2
          | none => some arr

/-- The array after a sequence of edit operations. -/
def runOps (ifdTableArray : Option (List IfdTable)) (ops : List GraphOp) :
    Option (List IfdTable) :=
  ops.foldl applyOp ifdTableArray

/-- The graph holds no IFD: the array is `NULL` or has no table. -/
def graphEmpty (ifdTableArray : Option (List IfdTable)) : Prop :=
  ifdTableArray = none ∨ ifdTableArray = some []

instance (ifdTableArray : Option (List IfdTable)) : Decidable (graphEmpty ifdTableArray) := by
  unfold graphEmpty
  infer_instance

/-- The invariant of the spec: a graph that holds an IFD holds a 0th IFD. -/
def zerothExists (ifdTableArray : Option (List IfdTable)) : Prop :=
  ∀ arr, ifdTableArray = some arr → arr ≠ [] →
    (getIfdTableFromIfdTableArray arr IFD_0TH).isSome = true

instance (ifdTableArray : Option (List IfdTable)) :
    Decidable (zerothExists ifdTableArray) :=
  match ifdTableArray with
  | none => isTrue (by intro arr h; cases h)
  | some a =>
      if h : a ≠ [] → (getIfdTableFromIfdTableArray a IFD_0TH).isSome = true then
        isTrue (by intro arr ha; cases ha; exact h)
      else isFalse (by intro hz; exact h (hz a rfl))

/-- The edit operations under which the invariant is kept: the 0th IFD is not removed,
the first IFD inserted into an empty graph is the 0th IFD, and no thumbnail is set on an
array without a table. -/
def opKeepsZeroth (ifdTableArray : Option (List IfdTable)) (op : GraphOp) : Prop :=
  match op with
  | GraphOp.insertIfd ifdType => graphEmpty ifdTableArray → ifdType = IFD_0TH
  | GraphOp.removeIfd ifdType => ifdType ≠ IFD_0TH
  | GraphOp.setThumbnail _ _ => ifdTableArray ≠ some []
  | _ => True

instance (ifdTableArray : Option (List IfdTable)) (op : GraphOp) :
    Decidable (opKeepsZeroth ifdTableArray op) := by
  unfold opKeepsZeroth
  cases op <;> infer_instance

/-- Every operation of the sequence is one of `opKeepsZeroth` for the graph it is applied
to. -/
def opsKeepZeroth (ifdTableArray : Option (List IfdTable)) (ops : List GraphOp) : Prop :=
  match ops with
  | [] => True
  | op :: rest =>
      opKeepsZeroth ifdTableArray op ∧ opsKeepZeroth (applyOp ifdTableArray op) rest

instance opsKeepZeroth_dec (ifdTableArray : Option (List IfdTable)) (ops : List GraphOp) :
    Decidable (opsKeepZeroth ifdTableArray ops) :=
  match ops with
  | [] => isTrue trivial
  | op :: rest =>
      have := opsKeepZeroth_dec (applyOp ifdTableArray op) rest
      by unfold opsKeepZeroth; infer_instance

/-- No two tags of the table have the same tag id. -/
def uniqueIds (x : IfdTable) : Prop := (x.tags.map (fun t => t.tagId)).Nodup

instance (x : IfdTable) : Decidable (uniqueIds x) := by
  unfold uniqueIds
  infer_instance

/-- The tag fields of an IFD whose type is one of the ten have pairwise distinct tag
ids. -/
def entryIdsDistinct (sysLE : Bool) (g : Globals) (file : List Nat) (startOffset : Nat) :
    Prop :=
  (((List.range (ifdTagCount sysLE g file startOffset)).filter
      (fun i => decide (entryTypeKnown sysLE g file
        (seekToRelativeOffset g startOffset + 2) i))).map
    (fun i => (entryTag sysLE g file (seekToRelativeOffset g startOffset + 2) i).tag)).Nodup

instance (sysLE : Bool) (g : Globals) (file : List Nat) (startOffset : Nat) :
    Decidable (entryIdsDistinct sysLE g file startOffset) := by
  unfold entryIdsDistinct
  infer_instance

/-- A little-endian file whose 0th IFD holds two tag fields with the tag id `0x0100`
(LONG, count 1, values 1 and 2). -/
def sampleJpegDupId : List Nat :=
  [0xFF, 0xD8, 0xFF, 0xE1, 0x00, 46, 0x45, 0x78, 0x69, 0x66, 0, 0,
   0x49, 0x49, 0x2A, 0, 8, 0, 0, 0,
   2, 0,
   0x00, 0x01, 4, 0, 1, 0, 0, 0, 1, 0, 0, 0,
   0x00, 0x01, 4, 0, 1, 0, 0, 0, 2, 0, 0, 0,
   0, 0, 0, 0,
   0xFF, 0xDB, 0, 2, 0xFF, 0xD9]

/-- The file-scope variables `init` leaves for `sampleJpegDupId`. -/
def sampleGlobalsDupId : Globals :=
  { App1StartOffset := 2, JpegDQTOffset := 50,
    App1Header := { marker := 0xE1FF, length := 46, id := [0x45, 0x78, 0x69, 0x66, 0, 0],
                    tiff := { byteOrder := 0x4949, reserved := 0x2A, Ifd0thOffset := 8 } } }

/-- The 0th IFD that `parseIFD` builds from `sampleJpegDupId`: two tags with the id
`0x0100`. -/
def sampleIfd0DupId : IfdTable :=
  { ifdType := IFD_0TH, tagCount := 2,
    tags := [{ tagId := 0x0100, type := TYPE_LONG, count := 1, numData := some [1],
               byteData := none, error := 0 },
             { tagId := 0x0100, type := TYPE_LONG, count := 1, numData := some [2],
               byteData := none, error := 0 }],
    nextIfdOffset := 0, offset := 0, length := 0, p := none }

/-- The property `P` of tables survives every write a pass makes to a table, where a tag
is created only under an id the table does not hold. -/
structure PassClosedFresh (P : IfdTable → Prop) : Prop where
  set : ∀ x id v, P x → P (setTagValue x id v)
  add : ∀ x id, getTagNodePtrFromIfd x id = none → P x → P (addDummyTag x id)
  off : ∀ (x : IfdTable) (o : Nat), P x → P { x with offset := o }
  next : ∀ (x : IfdTable) (n : Nat), P x → P { x with nextIfdOffset := n }

/-- Every table of the graph has pairwise distinct tag ids. -/
def graphUniqueIds (ifdTableArray : Option (List IfdTable)) : Prop :=
  ∀ arr, ifdTableArray = some arr → ∀ x ∈ arr, uniqueIds x

instance (ifdTableArray : Option (List IfdTable)) :
    Decidable (graphUniqueIds ifdTableArray) :=
  match ifdTableArray with
  | none => isTrue (by intro arr h; cases h)
  | some a =>
      if h : ∀ x ∈ a, uniqueIds x then
        isTrue (by intro arr ha; cases ha; exact h)
      else isFalse (by intro hz; exact h (hz a rfl))

/-! ## Where the C code has defined behaviour -/

/-- The tag loop of `parseIFD` handles the tag field without writing past a buffer.
For a RATIONAL or SRATIONAL value that passes the test on `len`, the product
`tag.count * 2` has not wrapped, so the array of `len` bytes holds the `count * 2` cells
`addTagNodeToIfd` copies. For a value of an integer type with a count above 1 that
passes the test on `allocSize`, the product `sizeof(int) * tag.count` has not wrapped
(the array holds `count` cells, and `size * tag.count` has not wrapped either), and the
bytes `fread(buf, 1, len, fp)` stores in the local `uint8_t buf[8192]` are at most 8192.
Every other tag field is read into `data`, into `buf` with a count of at most 8192, or
into a buffer allocated for it. -/
def tagReadDefined (g : Globals) (file : List Nat) (tag : IFD_TAG) : Prop :=
  if tag.type = TYPE_RATIONAL ∨ tag.type = TYPE_SRATIONAL then
    ((tag.count * 2) % 4294967296) * 4 < g.App1Header.length → tag.count < 2147483648
  else if (tag.type = TYPE_BYTE ∨ tag.type = TYPE_SHORT ∨ tag.type = TYPE_LONG ∨
           tag.type = TYPE_SBYTE ∨ tag.type = TYPE_SSHORT ∨ tag.type = TYPE_SLONG) ∧
          1 < tag.count then
    (4 * tag.count) % 4294967296 < g.App1Header.length →
      tag.count < 1073741824 ∧ (valueBytes g file tag).length ≤ 8192
  else True

instance (g : Globals) (file : List Nat) (tag : IFD_TAG) :
    Decidable (tagReadDefined g file tag) := by
  unfold tagReadDefined
  infer_instance

/-- The cell `tag->numData[0]` exists: `numData` is not `NULL` and the buffer it points
to has at least one cell. -/
def TagNode.hasNum0 (t : TagNode) : Prop := 0 < (t.numData.getD []).length

instance (t : TagNode) : Decidable t.hasNum0 := by
  unfold TagNode.hasNum0
  infer_instance

/-- The statement `tag->numData[0] = value` of `setSingleNumDataToTag` writes a cell that
exists: the function returns before the statement (the type is none of the six integer
types), or `numData` is `NULL` and a buffer of one cell is allocated for it, or the
buffer `numData` points to has at least one cell. -/
def setSingleNumDataDefined (tag : TagNode) : Prop :=
  if tag.type ≠ TYPE_BYTE ∧ tag.type ≠ TYPE_SHORT ∧ tag.type ≠ TYPE_LONG ∧
     tag.type ≠ TYPE_SBYTE ∧ tag.type ≠ TYPE_SSHORT ∧ tag.type ≠ TYPE_SLONG then True
  else
    match tag.numData with
    | some nd => 0 < nd.length
    | none => True

instance (tag : TagNode) : Decidable (setSingleNumDataDefined tag) := by
  unfold setSingleNumDataDefined
  split
  · infer_instance
  · split <;> infer_instance

/-- The reads `tag->numData[0]` at the end of `parseIFD` for a 1st IFD are made on cells
that exist: the `JPEGInterchangeFormat` node, when there is such a node, has a cell 0,
and when the offset it holds is above 0 the same is true of the
`JPEGInterchangeFormatLength` node. -/
def thumbnailReadsDefined (ifd : IfdTable) : Prop :=
  match getTagNodePtrFromIfd ifd TAG_JPEGInterchangeFormat with
  | none => True
  | some tag =>
      tag.hasNum0 ∧
      (tag.num 0 > 0 →
        match getTagNodePtrFromIfd ifd TAG_JPEGInterchangeFormatLength with
        | none => True
        | some tagLen => tagLen.hasNum0)

instance (ifd : IfdTable) : Decidable (thumbnailReadsDefined ifd) := by
  unfold thumbnailReadsDefined
  split
  · infer_instance
  · have : Decidable (match getTagNodePtrFromIfd ifd TAG_JPEGInterchangeFormatLength with
        | none => True
        | some tagLen => tagLen.hasNum0) := by
      split <;> infer_instance
    infer_instance

/-- The call of `parseIFD` has defined behaviour: every tag field of the IFD is one of
`tagReadDefined`, and for a 1st IFD that the tag loop has built the reads of
`thumbnailReadsDefined` are made on buffers that exist. Where this fails the C code
writes past `buf` or an array, or reads through a `NULL` pointer, and the functions of
this file say nothing about it. -/
def parseIFDDefined (sysLE : Bool) (g : Globals) (file : List Nat) (startOffset : Nat)
    (ifdType : IFD_TYPE) (val0 : Nat) : Prop :=
  (∀ i, i < ifdTagCount sysLE g file startOffset →
    tagReadDefined g file (entryTag sysLE g file (seekToRelativeOffset g startOffset + 2) i)) ∧
  (ifdType = IFD_1ST →
    match parseIFD sysLE g file startOffset ifdType val0 with
    | some ifd => thumbnailReadsDefined ifd
    | none => True)

instance (sysLE : Bool) (g : Globals) (file : List Nat) (startOffset : Nat)
    (ifdType : IFD_TYPE) (val0 : Nat) :
    Decidable (parseIFDDefined sysLE g file startOffset ifdType val0) := by
  unfold parseIFDDefined
  have : Decidable (match parseIFD sysLE g file startOffset ifdType val0 with
      | some ifd => thumbnailReadsDefined ifd
      | none => True) := by
    split <;> infer_instance
  infer_instance

/-- The read `tag->numData[0]` that `fillIfdTableArray` makes for a pointer tag it finds
without error flag is made on a cell that exists. -/
def pointerReadDefined (ifd : IfdTable) (tagId : Nat) : Prop :=
  match getTagNodePtrFromIfd ifd tagId with
  | some tag => tag.error = 0 → tag.hasNum0
  | none => True

instance (ifd : IfdTable) (tagId : Nat) : Decidable (pointerReadDefined ifd tagId) := by
  unfold pointerReadDefined
  split <;> infer_instance

/-- The part of `fillIfdTableArray` after the 0th IFD is parsed has defined behaviour:
every pointer read is one of `pointerReadDefined` and every call of `parseIFD` it makes
is one of `parseIFDDefined`. -/
def fillChildrenDefined (sysLE : Bool) (g : Globals) (file : List Nat)
    (junk : IFD_TYPE → Nat) (ifd_0th : IfdTable) : Prop :=
  pointerReadDefined ifd_0th TAG_ExifIFDPointer ∧
  (match pointerOffset ifd_0th TAG_ExifIFDPointer with
    | some ifdOffset =>
        parseIFDDefined sysLE g file ifdOffset IFD_EXIF (junk IFD_EXIF) ∧
        (match parseIFD sysLE g file ifdOffset IFD_EXIF (junk IFD_EXIF) with
          | some ifd_exif =>
              pointerReadDefined ifd_exif TAG_InteroperabilityIFDPointer ∧
              (match pointerOffset ifd_exif TAG_InteroperabilityIFDPointer with
                | some ioOffset => parseIFDDefined sysLE g file ioOffset IFD_IO (junk IFD_IO)
                | none => True)
          | none => True)
    | none => True) ∧
  pointerReadDefined ifd_0th TAG_GPSInfoIFDPointer ∧
  (match pointerOffset ifd_0th TAG_GPSInfoIFDPointer with
    | some ifdOffset => parseIFDDefined sysLE g file ifdOffset IFD_GPS (junk IFD_GPS)
    | none => True) ∧
  (ifd_0th.nextIfdOffset ≠ 0 →
    parseIFDDefined sysLE g file ifd_0th.nextIfdOffset IFD_1ST (junk IFD_1ST))

instance (sysLE : Bool) (g : Globals) (file : List Nat) (junk : IFD_TYPE → Nat)
    (ifd_0th : IfdTable) : Decidable (fillChildrenDefined sysLE g file junk ifd_0th) := by
  unfold fillChildrenDefined
  have h1 : Decidable (match pointerOffset ifd_0th TAG_ExifIFDPointer with
    | some ifdOffset =>
        parseIFDDefined sysLE g file ifdOffset IFD_EXIF (junk IFD_EXIF) ∧
        (match parseIFD sysLE g file ifdOffset IFD_EXIF (junk IFD_EXIF) with
          | some ifd_exif =>
              pointerReadDefined ifd_exif TAG_InteroperabilityIFDPointer ∧
              (match pointerOffset ifd_exif TAG_InteroperabilityIFDPointer with
                | some ioOffset => parseIFDDefined sysLE g file ioOffset IFD_IO (junk IFD_IO)
                | none => True)
          | none => True)
    | none => True) := by
    split
    · rename_i ifdOffset _
      have h2 : Decidable (match parseIFD sysLE g file ifdOffset IFD_EXIF (junk IFD_EXIF) with
          | some ifd_exif =>
              pointerReadDefined ifd_exif TAG_InteroperabilityIFDPointer ∧
              (match pointerOffset ifd_exif TAG_InteroperabilityIFDPointer with
                | some ioOffset => parseIFDDefined sysLE g file ioOffset IFD_IO (junk IFD_IO)
                | none => True)
          | none => True) := by
        split
        · rename_i ifd_exif _
          have h3 : Decidable (match pointerOffset ifd_exif TAG_InteroperabilityIFDPointer with
              | some ioOffset => parseIFDDefined sysLE g file ioOffset IFD_IO (junk IFD_IO)
              | none => True) := by
            split <;> infer_instance
          infer_instance
        · infer_instance
      infer_instance
    · infer_instance
  have h4 : Decidable (match pointerOffset ifd_0th TAG_GPSInfoIFDPointer with
    | some ifdOffset => parseIFDDefined sysLE g file ifdOffset IFD_GPS (junk IFD_GPS)
    | none => True) := by
    split <;> infer_instance
  infer_instance

/-- The call of `fillIfdTableArray` has defined behaviour: when `init` finds an Exif
segment, the call of `parseIFD` for the 0th IFD is one of `parseIFDDefined` and, when it
returns a table, the rest is one of `fillChildrenDefined`. -/
def fillIfdTableArrayDefined (sysLE : Bool) (file : List Nat) (junk : IFD_TYPE → Nat) :
    Prop :=
  match init sysLE file with
  | none => True
  | some (sts, g) =>
      0 < sts →
        parseIFDDefined sysLE g file g.App1Header.tiff.Ifd0thOffset IFD_0TH (junk IFD_0TH) ∧
        (match parseIFD sysLE g file g.App1Header.tiff.Ifd0thOffset IFD_0TH
            (junk IFD_0TH) with
          | some ifd_0th => fillChildrenDefined sysLE g file junk ifd_0th
          | none => True)

instance (sysLE : Bool) (file : List Nat) (junk : IFD_TYPE → Nat) :
    Decidable (fillIfdTableArrayDefined sysLE file junk) := by
  unfold fillIfdTableArrayDefined
  split
  · infer_instance
  · rename_i sts g _
    have : Decidable (match parseIFD sysLE g file g.App1Header.tiff.Ifd0thOffset IFD_0TH
        (junk IFD_0TH) with
      | some ifd_0th => fillChildrenDefined sysLE g file junk ifd_0th
      | none => True) := by
      split <;> infer_instance
    infer_instance

/-- The read `tag->numData[0]` of `calcIfdSize` is made on a cell that exists: for a
1st IFD that owns a thumbnail buffer, the `JPEGInterchangeFormatLength` node, when there
is such a node, has a cell 0. -/
def calcIfdSizeDefined (ifd : IfdTable) : Prop :=
  ifd.ifdType = IFD_1ST → ifd.p.isSome = true →
    match getTagNodePtrFromIfd ifd TAG_JPEGInterchangeFormatLength with
    | some tag => tag.hasNum0
    | none => True

instance (ifd : IfdTable) : Decidable (calcIfdSizeDefined ifd) := by
  unfold calcIfdSizeDefined
  have : Decidable (match getTagNodePtrFromIfd ifd TAG_JPEGInterchangeFormatLength with
      | some tag => tag.hasNum0
      | none => True) := by
    split <;> infer_instance
  infer_instance

/-- The statement `setSingleNumDataToTag(tag, ..)` for the tag found under `tagId`, when
there is one, writes a cell that exists. -/
def setTagDefined (ifd : IfdTable) (tagId : Nat) : Prop :=
  match getTagNodePtrFromIfd ifd tagId with
  | some tag => setSingleNumDataDefined tag
  | none => True

instance (ifd : IfdTable) (tagId : Nat) : Decidable (setTagDefined ifd tagId) := by
  unfold setTagDefined
  split <;> infer_instance

/-- The statement `setSingleNumDataToTag(tag, ..)` for a pointer tag and the read
`tag->numData[0]` that follows it are made on a cell that exists: the write is one of
`setSingleNumDataDefined`, and after it the node has a cell 0 (its type is an integer
type, for which `setSingleNumDataToTag` leaves a buffer, or it had a cell 0 before). -/
def pointerSetDefined (ifd : IfdTable) (tagId : Nat) : Prop :=
  match getTagNodePtrFromIfd ifd tagId with
  | some tag => setSingleNumDataDefined tag ∧ (setSingleNumDataToTag tag 0).hasNum0
  | none => True

instance (ifd : IfdTable) (tagId : Nat) : Decidable (pointerSetDefined ifd tagId) := by
  unfold pointerSetDefined
  split <;> infer_instance

/-- The block on the 1st IFD has defined behaviour: for a 1st IFD that owns a thumbnail
buffer, the read `len = tag->numData[0]` is made on a cell that exists, and so is the
write of `setSingleNumDataToTag` to the `JPEGInterchangeFormat` node; `s` holds the
local variables after the five look-ups. -/
def fix1stDefined (s : FixState) : Prop :=
  match s.ifd1st with
  | some f =>
      f.p.isSome = true →
        (match getTagNodePtrFromIfd f TAG_JPEGInterchangeFormatLength with
          | some tag => tag.hasNum0
          | none => True) ∧
        setTagDefined f TAG_JPEGInterchangeFormat
  | none => True

instance (s : FixState) : Decidable (fix1stDefined s) := by
  unfold fix1stDefined
  split
  · rename_i f _
    have : Decidable (match getTagNodePtrFromIfd f TAG_JPEGInterchangeFormatLength with
        | some tag => tag.hasNum0
        | none => True) := by
      split <;> infer_instance
    infer_instance
  · infer_instance

/-- The block on `ExifIFDPointer` and `InteroperabilityIFDPointer` has defined
behaviour: every write of `setSingleNumDataToTag` and every read of `numData[0]` after
it is made on a cell that exists; `s` holds the local variables after the block on the
1st IFD. -/
def fixExifDefined (s : FixState) : Prop :=
  match s.ifdExif with
  | some e =>
      pointerSetDefined s.ifd0th TAG_ExifIFDPointer ∧
      (if s.ifdIo.isSome = true then pointerSetDefined e TAG_InteroperabilityIFDPointer
       else setTagDefined e TAG_InteroperabilityIFDPointer)
  | none => setTagDefined s.ifd0th TAG_ExifIFDPointer

instance (s : FixState) : Decidable (fixExifDefined s) := by
  unfold fixExifDefined
  split <;> infer_instance

/-- The block on `GPSInfoIFDPointer` has defined behaviour: the write of
`setSingleNumDataToTag` and the read of `numData[0]` after it are made on a cell that
exists; `s` holds the local variables after the block on `ExifIFDPointer`. -/
def fixGpsDefined (s : FixState) : Prop :=
  if s.ifdGps.isSome = true then pointerSetDefined s.ifd0th TAG_GPSInfoIFDPointer
  else setTagDefined s.ifd0th TAG_GPSInfoIFDPointer

instance (s : FixState) : Decidable (fixGpsDefined s) := by
  unfold fixGpsDefined
  infer_instance

/-- One pass of `fixLengthAndOffsetInIfdTables` has defined behaviour: `calcIfdSize` is
called on every table, once its error tags are unlinked, with a read that is defined,
and so are the reads of the three blocks that follow when there is a 0th IFD. -/
def fixPassDefined (ifdTableArray : List IfdTable) : Prop :=
  (∀ x ∈ ifdTableArray, calcIfdSizeDefined { x with tags := liveTags x.tags }) ∧
  (match getIfdTableFromIfdTableArray (ifdTableArray.map refreshIfd) IFD_0TH with
    | none => True
    | some ifd0th =>
        fix1stDefined (fixStart (ifdTableArray.map refreshIfd) ifd0th) ∧
        fixExifDefined (fix1st (fixStart (ifdTableArray.map refreshIfd) ifd0th)) ∧
        fixGpsDefined (fixExif (fix1st (fixStart (ifdTableArray.map refreshIfd) ifd0th))))

instance (ifdTableArray : List IfdTable) : Decidable (fixPassDefined ifdTableArray) := by
  unfold fixPassDefined
  have : Decidable (match getIfdTableFromIfdTableArray (ifdTableArray.map refreshIfd)
      IFD_0TH with
    | none => True
    | some ifd0th =>
        fix1stDefined (fixStart (ifdTableArray.map refreshIfd) ifd0th) ∧
        fixExifDefined (fix1st (fixStart (ifdTableArray.map refreshIfd) ifd0th)) ∧
        fixGpsDefined (fixExif (fix1st (fixStart (ifdTableArray.map refreshIfd) ifd0th)))) := by
    split <;> infer_instance
  infer_instance

/-- Every pass that `fixLengthAndOffsetInIfdTables` makes within `fuel` passes has
defined behaviour: no `numData[0]` is read or written through a `NULL` pointer or in a
buffer without cells. Where this fails
the C code does not return, and `fixLoop` says nothing about it. -/
def fixLoopDefined (fuel : Nat) (ifdTableArray : List IfdTable) : Prop :=
  match fuel with
  | 0 => True
  | n + 1 =>
      fixPassDefined ifdTableArray ∧
      (match fixPass ifdTableArray with
        | FixPass.ret _ _ => True
        | FixPass.again arr => fixLoopDefined n arr)

instance fixLoopDefined_dec (fuel : Nat) (ifdTableArray : List IfdTable) :
    Decidable (fixLoopDefined fuel ifdTableArray) :=
  match fuel with
  | 0 => isTrue trivial
  | n + 1 =>
      have h : Decidable (match fixPass ifdTableArray with
          | FixPass.ret _ _ => True
          | FixPass.again arr => fixLoopDefined n arr) :=
        match fixPass ifdTableArray with
        | FixPass.ret _ _ => isTrue trivial
        | FixPass.again arr => fixLoopDefined_dec n arr
      by unfold fixLoopDefined; infer_instance

/-- The tag ids whose `numData[0]` the fixer reads: the three pointer tags and
`JPEGInterchangeFormatLength`. -/
def readTagIds : List Nat :=
  [TAG_ExifIFDPointer, TAG_GPSInfoIFDPointer, TAG_InteroperabilityIFDPointer,
   TAG_JPEGInterchangeFormatLength]

/-- The node is fit for the accesses the fixer makes to `numData[0]`: a node whose id is
one of `readTagIds` has a cell 0, and a `JPEGInterchangeFormat` node is one of
`setSingleNumDataDefined`. -/
def numCellsReady (t : TagNode) : Prop :=
  (t.tagId ∈ readTagIds → t.hasNum0) ∧
  (t.tagId = TAG_JPEGInterchangeFormat → setSingleNumDataDefined t)

instance (t : TagNode) : Decidable (numCellsReady t) := by
  unfold numCellsReady
  infer_instance

/-- Every tag of the table without error flag is one of `numCellsReady`. -/
def numDataPresent (x : IfdTable) : Prop :=
  ∀ t ∈ x.tags, t.error = 0 → numCellsReady t

instance (x : IfdTable) : Decidable (numDataPresent x) := by
  unfold numDataPresent
  infer_instance

/-- The call of `setThumbnailDataOnIfdTableArray` has defined behaviour and leaves the
array terminated. When there is a 1st IFD, the two writes of `setSingleNumDataToTag`
are made on cells that exist. When there is none, the statement
`ifdTableArray[count] = ifd1st` overwrites the terminating `NULL`, and the array, which
has `slots` pointer slots that hold its tables and after them `NULL`, has a slot behind
the one that is overwritten. The array of 32 slots that `fillIfdTableArray` fills is so;
the arrays `createIfdTableArray` and `insertIfdTableToIfdTableArray` return have one
`NULL` slot only. -/
def setThumbnailDefined (slots : Nat) (ifdTableArray : List IfdTable) : Prop :=
  match getIfdTableFromIfdTableArray ifdTableArray IFD_1ST with
  | some ifd =>
      setTagDefined ifd TAG_JPEGInterchangeFormatLength ∧
      setTagDefined ifd TAG_JPEGInterchangeFormat
  | none => ifdTableArray.length + 2 ≤ slots

instance (slots : Nat) (ifdTableArray : List IfdTable) :
    Decidable (setThumbnailDefined slots ifdTableArray) := by
  unfold setThumbnailDefined
  split <;> infer_instance

/-- Every tag of the table is one of `numCellsReady`. -/
def numDataHeld (x : IfdTable) : Prop :=
  ∀ t ∈ x.tags, numCellsReady t

/-! ## Sample files for the parser and the fixer -/

/-- A little-endian file whose Exif segment has the length 46 and whose 0th IFD holds an
ASCII tag of 46 bytes and a BYTE tag of 12 bytes, both with the TIFF offset 0 (the value
bytes are the bytes of the file from the offset 12 on). -/
def sampleJpegGuard : List Nat :=
  [0xFF, 0xD8, 0xFF, 0xE1, 0x00, 46, 0x45, 0x78, 0x69, 0x66, 0, 0,
   0x49, 0x49, 0x2A, 0, 8, 0, 0, 0,
   2, 0,
   0x0F, 0x01, 2, 0, 46, 0, 0, 0, 0, 0, 0, 0,
   0x01, 0x01, 1, 0, 12, 0, 0, 0, 0, 0, 0, 0,
   0, 0, 0, 0,
   0xFF, 0xDB, 0, 6, 1, 2, 3, 4, 0xFF, 0xD9]

/-- The file-scope variables `init` leaves for `sampleJpegGuard`. -/
def sampleGlobalsGuard : Globals :=
  { App1StartOffset := 2, JpegDQTOffset := 50,
    App1Header := { marker := 0xE1FF, length := 46, id := [0x45, 0x78, 0x69, 0x66, 0, 0],
                    tiff := { byteOrder := 0x4949, reserved := 0x2A, Ifd0thOffset := 8 } } }

/-- The 0th IFD that `parseIFD` builds from `sampleJpegGuard`: the ASCII tag with its 46
bytes, the BYTE tag as an error tag. -/
def sampleIfd0Guard : IfdTable :=
  { ifdType := IFD_0TH, tagCount := 2,
    tags := [{ tagId := 0x010F, type := TYPE_ASCII, count := 46, numData := none,
               byteData := some (fread sampleJpegGuard 12 46), error := 0 },
             { tagId := 0x0101, type := TYPE_BYTE, count := 12, numData := none,
               byteData := none, error := 1 }],
    nextIfdOffset := 0, offset := 0, length := 0, p := none }

/-- A little-endian file of 46 bytes that ends with the second tag field of its 0th IFD
(a LONG tag of count 1 and an ASCII tag of 6 bytes at the TIFF offset 46, which lies
beyond the file). The Exif segment gives 40 as its length, so the scan reads the bytes
44 and 45, `00 00`, as the next marker and ends there. -/
def sampleJpegCut : List Nat :=
  [0xFF, 0xD8, 0xFF, 0xE1, 0x00, 40, 0x45, 0x78, 0x69, 0x66, 0, 0,
   0x49, 0x49, 0x2A, 0, 8, 0, 0, 0,
   2, 0,
   0x00, 0x01, 4, 0, 1, 0, 0, 0, 0x40, 0, 0, 0,
   0x0F, 0x01, 2, 0, 6, 0, 0, 0, 46, 0, 0, 0]

/-- The file-scope variables `init` leaves for `sampleJpegCut` (no DQT offset). -/
def sampleGlobalsCut : Globals :=
  { App1StartOffset := 2, JpegDQTOffset := -1,
    App1Header := { marker := 0xE1FF, length := 40, id := [0x45, 0x78, 0x69, 0x66, 0, 0],
                    tiff := { byteOrder := 0x4949, reserved := 0x2A, Ifd0thOffset := 8 } } }

/-- The file `sampleJpegTwoArrays` with the TIFF offset 200 in the tag field of the LONG
tag: the value of that tag lies beyond the file, everything else is the same. -/
def sampleJpegTwoArraysFar : List Nat :=
  [0xFF, 0xD8, 0xFF, 0xE1, 0x00, 60, 0x45, 0x78, 0x69, 0x66, 0, 0,
   0x49, 0x49, 0x2A, 0, 8, 0, 0, 0,
   2, 0,
   0x00, 0x01, 4, 0, 2, 0, 0, 0, 200, 0, 0, 0,
   0x01, 0x01, 1, 0, 5, 0, 0, 0, 38, 0, 0, 0,
   0, 0, 0, 0,
   1, 2, 3, 4, 5, 0,
   0x11, 0x22, 0x33, 0x44, 0x55, 0x66, 0x77, 0x88,
   0xFF, 0xDB, 0, 2, 0xFF, 0xD9]

/-- The 0th IFD that `parseIFD` builds from `sampleJpegTwoArraysFar`: the LONG tag as an
error tag, the BYTE tag with the slots 1 to 5. -/
def sampleIfd0TwoArraysFar : IfdTable :=
  { ifdType := IFD_0TH, tagCount := 2,
    tags := [{ tagId := 0x0100, type := TYPE_LONG, count := 2,
               numData := none, byteData := none, error := 1 },
             { tagId := 0x0101, type := TYPE_BYTE, count := 5,
               numData := some [1, 2, 3, 4, 5], byteData := none, error := 0 }],
    nextIfdOffset := 0, offset := 0, length := 0, p := none }

/-- A little-endian file with a 0th IFD (`ImageWidth`, LONG, count 1) and a 1st IFD at
the TIFF offset 26 whose only tag field is `JPEGInterchangeFormatLength` with the type
ASCII and the count 2. -/
def sampleJpegAsciiLength : List Nat :=
  [0xFF, 0xD8, 0xFF, 0xE1, 0x00, 52, 0x45, 0x78, 0x69, 0x66, 0, 0,
   0x49, 0x49, 0x2A, 0, 8, 0, 0, 0,
   1, 0,
   0x00, 0x01, 4, 0, 1, 0, 0, 0, 0x40, 0, 0, 0,
   26, 0, 0, 0,
   1, 0,
   0x02, 0x02, 2, 0, 2, 0, 0, 0, 0x41, 0, 0, 0,
   0, 0, 0, 0,
   0xFF, 0xDB, 0, 2, 0xFF, 0xD9]

/-- The file-scope variables `init` leaves for `sampleJpegAsciiLength`. -/
def sampleGlobalsAsciiLength : Globals :=
  { App1StartOffset := 2, JpegDQTOffset := 56,
    App1Header := { marker := 0xE1FF, length := 52, id := [0x45, 0x78, 0x69, 0x66, 0, 0],
                    tiff := { byteOrder := 0x4949, reserved := 0x2A, Ifd0thOffset := 8 } } }

/-- The array `createIfdTableArray` returns for `sampleJpegAsciiLength`. -/
def sampleGraphAsciiLength : List IfdTable :=
  [{ ifdType := IFD_0TH, tagCount := 1,
     tags := [{ tagId := 0x0100, type := TYPE_LONG, count := 1, numData := some [0x40],
                byteData := none, error := 0 }],
     nextIfdOffset := 26, offset := 0, length := 0, p := none },
   { ifdType := IFD_1ST, tagCount := 1,
     tags := [{ tagId := TAG_JPEGInterchangeFormatLength, type := TYPE_ASCII, count := 2,
                numData := none, byteData := some [0x41, 0], error := 0 }],
     nextIfdOffset := 0, offset := 0, length := 0, p := none }]

/-- The array `sampleGraphAsciiLength` after `setThumbnailDataOnIfdTableArray` with
`sampleThumb`: the ASCII tag is left as it is (`setSingleNumDataToTag` writes to tags of
integer type only), `JPEGInterchangeFormat` is added and the 1st IFD owns the
thumbnail. -/
def sampleGraphAsciiLengthThumb : List IfdTable :=
  [{ ifdType := IFD_0TH, tagCount := 1,
     tags := [{ tagId := 0x0100, type := TYPE_LONG, count := 1, numData := some [0x40],
                byteData := none, error := 0 }],
     nextIfdOffset := 26, offset := 0, length := 0, p := none },
   { ifdType := IFD_1ST, tagCount := 1,
     tags := [{ tagId := TAG_JPEGInterchangeFormatLength, type := TYPE_ASCII, count := 2,
                numData := none, byteData := some [0x41, 0], error := 0 },
              { tagId := TAG_JPEGInterchangeFormat, type := TYPE_LONG, count := 1,
                numData := some [0], byteData := none, error := 0 }],
     nextIfdOffset := 0, offset := 0, length := 0, p := some sampleThumb }]

/-! # Properties -/

/-! ## Auxiliary facts -/

theorem fread_zero (file : List Nat) (n : Nat) : fread file 0 n = file.take n := by
  simp [fread]

theorem readApp1SegmentHeader_bound (sysLE : Bool) (file : List Nat) (start : Nat)
    (hdr : APP1_HEADER) (h : readApp1SegmentHeader sysLE file start = some hdr) :
    start + 18 ≤ file.length := by
  unfold readApp1SegmentHeader at h
  by_cases hb : (fread file start 18).length < 18
  · simp [hb] at h
  · simp only [fread, List.length_take, List.length_drop] at hb
    omega

theorem writeExifSegment_sts (sysLE : Bool) (hdr : APP1_HEADER) (arr : List IfdTable) :
    (writeExifSegment sysLE hdr arr).1 = 0 := by
  unfold writeExifSegment
  cases getIfdTableFromIfdTableArray arr IFD_0TH <;> rfl

theorem fixPass_sts (arr r : List IfdTable) (sts : Int)
    (h : fixPass arr = FixPass.ret sts r) : sts = 0 := by
  unfold fixPass at h
  simp only at h
  split at h
  · simp only [FixPass.ret.injEq] at h; exact h.1.symm
  · split at h
    · simp at h
    · simp only [FixPass.ret.injEq] at h; exact h.1.symm

theorem fixLoop_sts (fuel : Nat) (arr : List IfdTable) (sts : Int) (r : List IfdTable)
    (h : fixLengthAndOffsetInIfdTables fuel arr = some (sts, r)) : sts = 0 := by
  unfold fixLengthAndOffsetInIfdTables at h
  induction fuel generalizing arr with
  | zero => simp [fixLoop] at h
  | succ n ih =>
    unfold fixLoop at h
    cases hp : fixPass arr with
    | ret s a =>
      simp only [hp, Option.some.injEq, Prod.mk.injEq] at h
      rw [← h.1]
      exact fixPass_sts arr a s hp
    | again a =>
      simp only [hp] at h
      exact ih a h

theorem copyCells_length (n : Nat) (src : List Nat) : (copyCells n src).length = n := by
  simp [copyCells]

theorem mem16_length (sysLE : Bool) (v : Nat) : (mem16 sysLE v).length = 2 := by
  unfold mem16; split <;> rfl

theorem mem32_length (sysLE : Bool) (v : Nat) : (mem32 sysLE v).length = 4 := by
  unfold mem32; split <;> rfl

theorem flatMap_length_const (l : List Nat) (f : Nat → List Nat) (k : Nat)
    (h : ∀ i, (f i).length = k) : (l.flatMap f).length = l.length * k := by
  induction l with
  | nil => simp
  | cons a as ih => simp [List.flatMap_cons, h, ih, Nat.add_mul, Nat.add_comm]

theorem tagValueBytes_length (sysLE : Bool) (hdr : APP1_HEADER) (t : TagNode) :
    (tagValueBytes sysLE hdr t).length = tagValueSize t := by
  have e2 := fun l => flatMap_length_const l
    (fun i => mem16 sysLE (fix_short sysLE hdr (t.num i % 65536))) 2 (fun i => mem16_length _ _)
  have e4 := fun l => flatMap_length_const l
    (fun i => mem32 sysLE (fix_int sysLE hdr (t.num i))) 4 (fun i => mem32_length _ _)
  unfold tagValueBytes tagValueSize
  simp only [TYPE_BYTE, TYPE_ASCII, TYPE_SHORT, TYPE_LONG, TYPE_RATIONAL, TYPE_SBYTE,
    TYPE_UNDEFINED, TYPE_SSHORT, TYPE_SLONG, TYPE_SRATIONAL]
  split_ifs <;>
    simp only [List.length_append, copyCells_length, List.length_map, List.length_range,
      List.length_nil, List.length_singleton, e2, e4] <;>
    omega

theorem tagValueSize_zero_iff (t : TagNode) (htype : 1 ≤ t.type ∧ t.type ≤ 10)
    (hcount : 1 ≤ t.count) :
    tagValueSize t = 0 ↔ spec_payload_bytes t.type t.count ≤ 4 := by
  obtain ⟨h1, h10⟩ := htype
  have hcases : t.type = 1 ∨ t.type = 2 ∨ t.type = 3 ∨ t.type = 4 ∨ t.type = 5 ∨
      t.type = 6 ∨ t.type = 7 ∨ t.type = 8 ∨ t.type = 9 ∨ t.type = 10 := by omega
  rcases hcases with h | h | h | h | h | h | h | h | h | h <;>
    simp only [tagValueSize, spec_payload_bytes, h, TYPE_BYTE,
      TYPE_ASCII, TYPE_SHORT, TYPE_LONG, TYPE_RATIONAL, TYPE_SBYTE, TYPE_UNDEFINED,
      TYPE_SSHORT, TYPE_SLONG, TYPE_SRATIONAL] <;>
    norm_num <;> omega

theorem packTag_ofs_iff (sysLE : Bool) (hdr : APP1_HEADER) (t : TagNode) (ofs : Nat)
    (htype : 1 ≤ t.type ∧ t.type ≤ 10) (hcount : 1 ≤ t.count) :
    ((packTag sysLE hdr t ofs).2 = ofs ↔ spec_payload_bytes t.type t.count ≤ 4) ∧
    (4 < spec_payload_bytes t.type t.count →
      (packTag sysLE hdr t ofs).1 = mem32 sysLE (fix_int sysLE hdr ofs)) := by
  obtain ⟨h1, h10⟩ := htype
  have hcases : t.type = 1 ∨ t.type = 2 ∨ t.type = 3 ∨ t.type = 4 ∨ t.type = 5 ∨
      t.type = 6 ∨ t.type = 7 ∨ t.type = 8 ∨ t.type = 9 ∨ t.type = 10 := by omega
  rcases hcases with h | h | h | h | h | h | h | h | h | h <;>
    simp only [packTag, spec_payload_bytes, h, TYPE_BYTE,
      TYPE_ASCII, TYPE_SHORT, TYPE_LONG, TYPE_RATIONAL, TYPE_SBYTE, TYPE_UNDEFINED,
      TYPE_SSHORT, TYPE_SLONG, TYPE_SRATIONAL] <;>
    norm_num <;> (constructor <;> (repeat' split) <;> (try simp) <;> (try omega))


theorem newTagNode_error_none (tagId type count : Nat) :
    (newTagNode tagId type count none none).error = 1 := by
  unfold newTagNode
  split <;> rfl

theorem parseTag_seek_iff (sysLE : Bool) (g : Globals) (file : List Nat) (tag : IFD_TAG)
    (data : List Nat) (val : Nat) (node : TagNode)
    (htype : 1 ≤ tag.type ∧ tag.type ≤ 10) (hcount : 1 ≤ tag.count)
    (hn : (parseTag sysLE g file tag data val).node = some node) (he : node.error = 0) :
    (parseTag sysLE g file tag data val).seek = none ↔
      spec_payload_bytes tag.type tag.count ≤ 4 := by
  obtain ⟨h1, h10⟩ := htype
  have hen := newTagNode_error_none tag.tag tag.type tag.count
  have hcases : tag.type = 1 ∨ tag.type = 2 ∨ tag.type = 3 ∨ tag.type = 4 ∨ tag.type = 5 ∨
      tag.type = 6 ∨ tag.type = 7 ∨ tag.type = 8 ∨ tag.type = 9 ∨ tag.type = 10 := by omega
  rcases hcases with h | h | h | h | h | h | h | h | h | h <;>
    simp only [parseTag, spec_payload_bytes, h, TYPE_BYTE,
      TYPE_ASCII, TYPE_SHORT, TYPE_LONG, TYPE_RATIONAL, TYPE_SBYTE, TYPE_UNDEFINED,
      TYPE_SSHORT, TYPE_SLONG, TYPE_SRATIONAL] at hn ⊢ <;>
    norm_num at hn ⊢ <;>
    split_ifs at hn ⊢ <;>
    simp_all <;> (try omega)

theorem setSingleNumDataToTag_tagId (t : TagNode) (v : Nat) :
    (setSingleNumDataToTag t v).tagId = t.tagId := by
  unfold setSingleNumDataToTag
  split <;> rfl

theorem find?_modifyTag_same (tags : List TagNode) (id : Nat) (f : TagNode → TagNode)
    (hf : ∀ t, (f t).tagId = t.tagId) :
    (modifyTag tags id f).find? (fun t => t.tagId == id) =
      (tags.find? (fun t => t.tagId == id)).map f := by
  induction tags with
  | nil => rfl
  | cons t ts ih =>
    unfold modifyTag
    by_cases h : (t.tagId == id) = true
    · simp [h, List.find?, hf]
    · simp [h, List.find?, ih]

theorem find?_modifyTag_other (tags : List TagNode) (id id2 : Nat) (f : TagNode → TagNode)
    (hf : ∀ t, (f t).tagId = t.tagId) (hne : id2 ≠ id) :
    (modifyTag tags id f).find? (fun t => t.tagId == id2) =
      tags.find? (fun t => t.tagId == id2) := by
  induction tags with
  | nil => rfl
  | cons t ts ih =>
    unfold modifyTag
    by_cases h : (t.tagId == id) = true
    · have h1 : t.tagId = id := by simpa using h
      have h2 : (id == id2) = false := by simpa using Ne.symm hne
      simp [h, List.find?, hf, h2, h1]
    · by_cases h3 : (t.tagId == id2) = true
      · simp [h, List.find?, h3]
      · simp [h, List.find?, h3, ih]

theorem getTag_setTagValue_same (ifd : IfdTable) (id v : Nat) :
    getTagNodePtrFromIfd (setTagValue ifd id v) id =
      (getTagNodePtrFromIfd ifd id).map (fun t => setSingleNumDataToTag t v) := by
  unfold getTagNodePtrFromIfd setTagValue
  exact find?_modifyTag_same _ _ _ (fun t => setSingleNumDataToTag_tagId t v)

theorem getTag_setTagValue_other (ifd : IfdTable) (id id2 v : Nat) (hne : id2 ≠ id) :
    getTagNodePtrFromIfd (setTagValue ifd id v) id2 = getTagNodePtrFromIfd ifd id2 := by
  unfold getTagNodePtrFromIfd setTagValue
  exact find?_modifyTag_other _ _ _ _ (fun t => setSingleNumDataToTag_tagId t v) hne

theorem getTag_addDummyTag_other (ifd : IfdTable) (id id2 : Nat) (hne : id2 ≠ id) :
    getTagNodePtrFromIfd (addDummyTag ifd id) id2 = getTagNodePtrFromIfd ifd id2 := by
  unfold getTagNodePtrFromIfd addDummyTag addTagNodeToIfd newTagNode
  have h2 : (id == id2) = false := by simpa using Ne.symm hne
  simp [List.find?_append, List.find?, h2]

theorem getIfd_putIfd_same (arr : List IfdTable) (k : IFD_TYPE) (new : IfdTable)
    (hk : new.ifdType = k) :
    getIfdTableFromIfdTableArray (putIfd arr k new) k =
      (getIfdTableFromIfdTableArray arr k).map (fun _ => new) := by
  unfold getIfdTableFromIfdTableArray
  induction arr with
  | nil => rfl
  | cons x xs ih =>
    unfold putIfd
    by_cases h : (x.ifdType == k) = true
    · simp [h, List.find?, hk]
    · simp [h, List.find?, ih]

theorem getIfd_putIfd_other (arr : List IfdTable) (k k2 : IFD_TYPE) (new : IfdTable)
    (hk : new.ifdType = k) (hne : k2 ≠ k) :
    getIfdTableFromIfdTableArray (putIfd arr k new) k2 =
      getIfdTableFromIfdTableArray arr k2 := by
  unfold getIfdTableFromIfdTableArray
  induction arr with
  | nil => rfl
  | cons x xs ih =>
    unfold putIfd
    by_cases h : (x.ifdType == k) = true
    · have h1 : x.ifdType = k := by simpa using h
      have h2 : (k == k2) = false := by simpa using Ne.symm hne
      simp [h, List.find?, hk, h1, h2]
    · by_cases h3 : (x.ifdType == k2) = true
      · simp [h, List.find?, h3]
      · simp [h, List.find?, h3, ih]


theorem copyCells_self (l : List Nat) : copyCells l.length l = l := by
  unfold copyCells
  apply List.ext_getElem
  · simp
  · intro i h1 h2
    simp [List.getD_eq_getElem?_getD, h2]

theorem copyCells_copyCells (n : Nat) (l : List Nat) :
    copyCells n (copyCells n l) = copyCells n l := by
  have h := copyCells_self (copyCells n l)
  rw [copyCells_length] at h
  exact h

theorem getIfd_ifdType (arr : List IfdTable) (k : IFD_TYPE) (x : IfdTable)
    (h : getIfdTableFromIfdTableArray arr k = some x) : x.ifdType = k := by
  unfold getIfdTableFromIfdTableArray at h
  have := List.find?_some h
  simpa using this

theorem setSingle_intType (t : TagNode) (v : Nat) (h : isIntType t.type) :
    setSingleNumDataToTag t v =
      { t with count := 1,
               numData := some (match t.numData with
                                | some nd => v :: nd.tail
                                | none => [v]),
               error := 0 } := by
  unfold setSingleNumDataToTag
  unfold isIntType at h
  split
  · omega
  · rfl

theorem setSingle_int_num (t : TagNode) (v : Nat) (h : isIntType t.type) :
    (setSingleNumDataToTag t v).num 0 = v ∧ (setSingleNumDataToTag t v).error = 0 ∧
      (setSingleNumDataToTag t v).count = 1 := by
  rw [setSingle_intType t v h]
  cases hn : t.numData <;> simp [TagNode.num, hn]


theorem getTag_addTag_same (ifd : IfdTable) (id type count : Nat)
    (nd bd : Option (List Nat)) (h : getTagNodePtrFromIfd ifd id = none) :
    getTagNodePtrFromIfd (addTagNodeToIfd ifd id type count nd bd) id =
      some (newTagNode id type count nd bd) := by
  unfold getTagNodePtrFromIfd at h ⊢
  unfold addTagNodeToIfd
  have hid : (newTagNode id type count nd bd).tagId = id := by
    unfold newTagNode
    split
    · split <;> rfl
    · rfl
  simp [List.find?_append, h, List.find?, hid]

theorem getTag_addTag_other (ifd : IfdTable) (id id2 type count : Nat)
    (nd bd : Option (List Nat)) (hne : id2 ≠ id) :
    getTagNodePtrFromIfd (addTagNodeToIfd ifd id type count nd bd) id2 =
      getTagNodePtrFromIfd ifd id2 := by
  unfold getTagNodePtrFromIfd addTagNodeToIfd
  have hid : (newTagNode id type count nd bd).tagId = id := by
    unfold newTagNode
    split
    · split <;> rfl
    · rfl
  have h2 : (id == id2) = false := by simpa using Ne.symm hne
  simp [List.find?_append, List.find?, hid, h2]

theorem setThumbnailOnIfd_spec (ifd : IfdTable) (b : List Nat)
    (hint : ∀ t, getTagNodePtrFromIfd ifd TAG_JPEGInterchangeFormatLength = some t →
      isIntType t.type) :
    (setThumbnailOnIfd ifd b b.length).ifdType = ifd.ifdType ∧
    (setThumbnailOnIfd ifd b b.length).p = some b ∧
    ∃ t, getTagNodePtrFromIfd (setThumbnailOnIfd ifd b b.length)
           TAG_JPEGInterchangeFormatLength = some t ∧ t.error = 0 ∧ t.num 0 = b.length := by
  have hne : TAG_JPEGInterchangeFormatLength ≠ TAG_JPEGInterchangeFormat := by decide
  refine ⟨?_, ?_, ?_⟩
  · unfold setThumbnailOnIfd
    simp only
    split <;> split <;> rfl
  · unfold setThumbnailOnIfd
    simp only [copyCells_self]
  · -- the length tag after the first step
    have h1 : ∃ t, getTagNodePtrFromIfd
        (match getTagNodePtrFromIfd ifd TAG_JPEGInterchangeFormatLength with
          | some _ => setTagValue ifd TAG_JPEGInterchangeFormatLength b.length
          | none => addTagNodeToIfd ifd TAG_JPEGInterchangeFormatLength TYPE_LONG 1
                      (some [b.length]) none)
        TAG_JPEGInterchangeFormatLength = some t ∧ t.error = 0 ∧ t.num 0 = b.length := by
      cases hl : getTagNodePtrFromIfd ifd TAG_JPEGInterchangeFormatLength with
      | none =>
        refine ⟨_, getTag_addTag_same ifd _ _ _ _ _ hl, ?_, ?_⟩ <;>
          simp [newTagNode, TagNode.num, copyCells, TYPE_LONG, TYPE_RATIONAL, TYPE_SRATIONAL]
      | some t =>
        have hi := setSingle_int_num t b.length (hint t hl)
        refine ⟨setSingleNumDataToTag t b.length, ?_, hi.2.1, hi.1⟩
        simp only [getTag_setTagValue_same, hl, Option.map_some']
    obtain ⟨t, ht, he, hn⟩ := h1
    refine ⟨t, ?_, he, hn⟩
    unfold setThumbnailOnIfd
    simp only
    split
    · show getTagNodePtrFromIfd (setTagValue _ _ _) _ = _
      rw [getTag_setTagValue_other _ _ _ _ hne]
      exact ht
    · show getTagNodePtrFromIfd (addTagNodeToIfd _ _ _ _ _ _) _ = _
      rw [getTag_addTag_other _ _ _ _ _ _ _ hne]
      exact ht


theorem getThumbnail_of (arr : List IfdTable) (f : IfdTable) (b : List Nat) (t : TagNode)
    (hf : getIfdTableFromIfdTableArray arr IFD_1ST = some f) (hp : f.p = some b)
    (ht : getTagNodePtrFromIfd f TAG_JPEGInterchangeFormatLength = some t)
    (he : t.error = 0) (hn : t.num 0 = b.length) (hb : 0 < b.length) :
    getThumbnailDataOnIfdTableArray arr = (0, some (b.length, b)) := by
  unfold getThumbnailDataOnIfdTableArray
  simp only [hf, hp, ht, he, hn, ne_eq, not_true_eq_false, if_false]
  have : ¬ b.length ≤ 0 := by omega
  simp only [this, if_false, copyCells_self]

theorem fix1st_shape (s : FixState) : (fix1st s).shape = s.shape := by
  unfold fix1st FixState.shape
  cases h1 : s.ifd1st with
  | none => rfl
  | some f =>
    simp only
    cases f.p <;> simp only
    · rfl
    · split <;> split <;> rfl

theorem fixIo_shape (s : FixState) (e : IfdTable) (he : s.ifdExif.map (fun i => i.ifdType) = some e.ifdType) :
    (fixIo s e).shape = s.shape := by
  unfold fixIo FixState.shape
  cases h1 : s.ifdIo <;> simp only <;> split <;>
    simp [setTagValue, addDummyTag, addTagNodeToIfd, he, h1]

theorem fixExif_shape (s : FixState) : (fixExif s).shape = s.shape := by
  unfold fixExif
  cases h1 : s.ifdExif with
  | none =>
    simp only
    split <;> simp [FixState.shape, h1, setTagValue]
  | some e =>
    simp only
    split
    · rw [fixIo_shape _ _ (by simp)]
      simp [FixState.shape, h1, setTagValue]
    · rw [fixIo_shape _ _ (by simp [h1])]
      simp [FixState.shape, h1, addDummyTag, addTagNodeToIfd]

theorem fixGps_shape (s : FixState) : (fixGps s).shape = s.shape := by
  unfold fixGps FixState.shape
  cases h1 : s.ifdGps <;> simp only <;> split <;> simp_all [setTagValue, addDummyTag, addTagNodeToIfd]


theorem getIfd_putOpt_same (arr : List IfdTable) (k : IFD_TYPE) (o : Option IfdTable)
    (hk : ∀ x, o = some x → x.ifdType = k)
    (hp : o.isSome = (getIfdTableFromIfdTableArray arr k).isSome) :
    getIfdTableFromIfdTableArray (putOpt arr k o) k = o := by
  cases o with
  | none =>
    simp only [putOpt]
    cases h : getIfdTableFromIfdTableArray arr k with
    | none => rfl
    | some x => simp [h] at hp
  | some x =>
    simp only [putOpt]
    rw [getIfd_putIfd_same arr k x (hk x rfl)]
    cases h : getIfdTableFromIfdTableArray arr k with
    | none => simp [h] at hp
    | some y => rfl

theorem getIfd_putOpt_other (arr : List IfdTable) (k k2 : IFD_TYPE) (o : Option IfdTable)
    (hk : ∀ x, o = some x → x.ifdType = k) (hne : k2 ≠ k) :
    getIfdTableFromIfdTableArray (putOpt arr k o) k2 =
      getIfdTableFromIfdTableArray arr k2 := by
  cases o with
  | none => rfl
  | some x => exact getIfd_putIfd_other arr k k2 x (hk x rfl) hne

theorem fits_kind (arr : List IfdTable) (k : IFD_TYPE) (o : Option IfdTable)
    (h : o.map (fun i => i.ifdType) =
      (getIfdTableFromIfdTableArray arr k).map (fun i => i.ifdType)) :
    (∀ x, o = some x → x.ifdType = k) ∧
      o.isSome = (getIfdTableFromIfdTableArray arr k).isSome := by
  cases hg : getIfdTableFromIfdTableArray arr k with
  | none =>
    rw [hg] at h
    cases o with
    | none => simp
    | some x => simp at h
  | some y =>
    rw [hg] at h
    have hy := getIfd_ifdType arr k y hg
    cases o with
    | none => simp at h
    | some x =>
      simp only [Option.map_some', Option.some.injEq] at h
      simp [h, hy]

theorem writeBack_get (arr : List IfdTable) (s : FixState) (hfit : s.Fits arr)
    (h0 : (getIfdTableFromIfdTableArray arr IFD_0TH).isSome) :
    getIfdTableFromIfdTableArray (writeBack arr s) IFD_0TH = some s.ifd0th ∧
    getIfdTableFromIfdTableArray (writeBack arr s) IFD_EXIF = s.ifdExif ∧
    getIfdTableFromIfdTableArray (writeBack arr s) IFD_IO = s.ifdIo ∧
    getIfdTableFromIfdTableArray (writeBack arr s) IFD_GPS = s.ifdGps ∧
    getIfdTableFromIfdTableArray (writeBack arr s) IFD_1ST = s.ifd1st := by
  unfold FixState.Fits FixState.shape at hfit
  simp only [Prod.mk.injEq] at hfit
  obtain ⟨hz, he, hi, hg, hf⟩ := hfit
  obtain ⟨ke, pe⟩ := fits_kind arr IFD_EXIF _ he
  obtain ⟨ki, pi⟩ := fits_kind arr IFD_IO _ hi
  obtain ⟨kg, pg⟩ := fits_kind arr IFD_GPS _ hg
  obtain ⟨kf, pf⟩ := fits_kind arr IFD_1ST _ hf
  unfold writeBack
  refine ⟨?_, ?_, ?_, ?_, ?_⟩
  · rw [getIfd_putOpt_other _ _ _ _ kf (by decide), getIfd_putOpt_other _ _ _ _ kg (by decide),
      getIfd_putOpt_other _ _ _ _ ki (by decide), getIfd_putOpt_other _ _ _ _ ke (by decide),
      getIfd_putIfd_same _ _ _ hz]
    cases h : getIfdTableFromIfdTableArray arr IFD_0TH with
    | none => simp [h] at h0
    | some z => rfl
  · rw [getIfd_putOpt_other _ _ _ _ kf (by decide), getIfd_putOpt_other _ _ _ _ kg (by decide),
      getIfd_putOpt_other _ _ _ _ ki (by decide)]
    apply getIfd_putOpt_same _ _ _ ke
    rw [getIfd_putIfd_other _ _ _ _ hz (by decide)]
    exact pe
  · rw [getIfd_putOpt_other _ _ _ _ kf (by decide), getIfd_putOpt_other _ _ _ _ kg (by decide)]
    apply getIfd_putOpt_same _ _ _ ki
    rw [getIfd_putOpt_other _ _ _ _ ke (by decide), getIfd_putIfd_other _ _ _ _ hz (by decide)]
    exact pi
  · rw [getIfd_putOpt_other _ _ _ _ kf (by decide)]
    apply getIfd_putOpt_same _ _ _ kg
    rw [getIfd_putOpt_other _ _ _ _ ki (by decide), getIfd_putOpt_other _ _ _ _ ke (by decide),
      getIfd_putIfd_other _ _ _ _ hz (by decide)]
    exact pg
  · apply getIfd_putOpt_same _ _ _ kf
    rw [getIfd_putOpt_other _ _ _ _ kg (by decide), getIfd_putOpt_other _ _ _ _ ki (by decide),
      getIfd_putOpt_other _ _ _ _ ke (by decide), getIfd_putIfd_other _ _ _ _ hz (by decide)]
    exact pf

theorem fixPass_eq (a : List IfdTable) :
    fixPass a =
      match getIfdTableFromIfdTableArray (a.map refreshIfd) IFD_0TH with
      | none => FixPass.ret 0 (a.map refreshIfd)
      | some z =>
          if (fixEnd (a.map refreshIfd) z).again
          then FixPass.again (writeBack (a.map refreshIfd) (fixEnd (a.map refreshIfd) z))
          else FixPass.ret 0 (writeBack (a.map refreshIfd) (fixEnd (a.map refreshIfd) z)) := by
  rfl

theorem fixEnd_fits (arr : List IfdTable) (z : IfdTable)
    (hz : getIfdTableFromIfdTableArray arr IFD_0TH = some z) :
    (fixEnd arr z).Fits arr := by
  unfold FixState.Fits fixEnd
  rw [fixGps_shape, fixExif_shape, fix1st_shape]
  simp [FixState.shape, fixStart, getIfd_ifdType arr _ z hz]

theorem fixGps_ifdExif (s : FixState) : (fixGps s).ifdExif = s.ifdExif := by
  unfold fixGps
  cases s.ifdGps <;> cases getTagNodePtrFromIfd s.ifd0th TAG_GPSInfoIFDPointer <;> rfl

theorem fixGps_ifdIo (s : FixState) : (fixGps s).ifdIo = s.ifdIo := by
  unfold fixGps
  cases s.ifdGps <;> cases getTagNodePtrFromIfd s.ifd0th TAG_GPSInfoIFDPointer <;> rfl

theorem fixGps_ifd1st (s : FixState) : (fixGps s).ifd1st = s.ifd1st := by
  unfold fixGps
  cases s.ifdGps <;> cases getTagNodePtrFromIfd s.ifd0th TAG_GPSInfoIFDPointer <;> rfl

theorem fixGps_again (s : FixState) (h : (fixGps s).again = false) : s.again = false := by
  unfold fixGps at h
  cases hg : s.ifdGps <;> cases ht : getTagNodePtrFromIfd s.ifd0th TAG_GPSInfoIFDPointer <;>
    simp_all

theorem fixGps_getTag_other (s : FixState) (id : Nat) (hne : id ≠ TAG_GPSInfoIFDPointer) :
    getTagNodePtrFromIfd (fixGps s).ifd0th id = getTagNodePtrFromIfd s.ifd0th id := by
  unfold fixGps
  cases hg : s.ifdGps <;> cases ht : getTagNodePtrFromIfd s.ifd0th TAG_GPSInfoIFDPointer <;>
    simp [getTag_setTagValue_other _ _ _ _ hne, getTag_addDummyTag_other _ _ _ hne]

theorem fixGps_present (s : FixState) (h : (fixGps s).again = false) (g : IfdTable)
    (hg : (fixGps s).ifdGps = some g) :
    ∃ t, getTagNodePtrFromIfd (fixGps s).ifd0th TAG_GPSInfoIFDPointer = some t ∧
      g.offset = t.num 0 % 65536 := by
  unfold fixGps at h hg ⊢
  cases hg0 : s.ifdGps <;> cases ht : getTagNodePtrFromIfd s.ifd0th TAG_GPSInfoIFDPointer <;>
    simp_all [getTag_setTagValue_same]
  subst hg
  rfl

theorem setSingle_int (t : TagNode) (v : Nat) (h : isIntType (setSingleNumDataToTag t v).type) :
    (setSingleNumDataToTag t v).count = 1 ∧ (setSingleNumDataToTag t v).num 0 = v := by
  unfold setSingleNumDataToTag at h ⊢
  unfold isIntType at h
  split
  · rename_i h2; simp [h2] at h
  · cases hn : t.numData <;> simp [TagNode.num, hn]

theorem fixGps_absent (s : FixState) (hg : (fixGps s).ifdGps = none) (t : TagNode)
    (ht : getTagNodePtrFromIfd (fixGps s).ifd0th TAG_GPSInfoIFDPointer = some t)
    (hi : isIntType t.type) : t.count = 1 ∧ t.num 0 = 0 := by
  unfold fixGps at hg ht
  cases hg0 : s.ifdGps <;> cases ht0 : getTagNodePtrFromIfd s.ifd0th TAG_GPSInfoIFDPointer <;>
    simp_all [getTag_setTagValue_same]
  subst ht
  exact setSingle_int _ _ hi


theorem fixIo_ifd0th (s : FixState) (e : IfdTable) : (fixIo s e).ifd0th = s.ifd0th := by
  unfold fixIo
  cases s.ifdIo <;> cases getTagNodePtrFromIfd e TAG_InteroperabilityIFDPointer <;> rfl

theorem fixIo_again (s : FixState) (e : IfdTable) (h : (fixIo s e).again = false) :
    s.again = false := by
  unfold fixIo at h
  cases hg : s.ifdIo <;> cases ht : getTagNodePtrFromIfd e TAG_InteroperabilityIFDPointer <;>
    simp_all

theorem fixIo_offset (s : FixState) (e : IfdTable) (hs : s.ifdExif = some e) :
    ∃ e2, (fixIo s e).ifdExif = some e2 ∧ e2.offset = e.offset := by
  unfold fixIo
  cases hg : s.ifdIo <;> cases ht : getTagNodePtrFromIfd e TAG_InteroperabilityIFDPointer <;>
    simp [hs, setTagValue, addDummyTag, addTagNodeToIfd]

theorem fixIo_present (s : FixState) (e : IfdTable) (h : (fixIo s e).again = false)
    (e2 io : IfdTable) (he : (fixIo s e).ifdExif = some e2)
    (hio : (fixIo s e).ifdIo = some io) :
    ∃ t, getTagNodePtrFromIfd e2 TAG_InteroperabilityIFDPointer = some t ∧
      io.offset = t.num 0 % 65536 := by
  unfold fixIo at h he hio
  cases hg : s.ifdIo <;> cases ht : getTagNodePtrFromIfd e TAG_InteroperabilityIFDPointer <;>
    simp_all
  subst he; subst hio
  simp [getTag_setTagValue_same, ht]

theorem fixIo_absent (s : FixState) (e : IfdTable) (hs : s.ifdExif = some e)
    (e2 : IfdTable) (he : (fixIo s e).ifdExif = some e2)
    (hio : (fixIo s e).ifdIo = none) (t : TagNode)
    (ht : getTagNodePtrFromIfd e2 TAG_InteroperabilityIFDPointer = some t)
    (hi : isIntType t.type) : t.count = 1 ∧ t.num 0 = 0 := by
  unfold fixIo at he hio
  cases hg : s.ifdIo <;> cases ht0 : getTagNodePtrFromIfd e TAG_InteroperabilityIFDPointer <;>
    simp_all
  subst he
  simp only [getTag_setTagValue_same, ht0, Option.map_some', Option.some.injEq] at ht
  subst ht
  exact setSingle_int _ _ hi

theorem fixExif_some_some (s : FixState) (e0 : IfdTable) (tag : TagNode)
    (hx : s.ifdExif = some e0)
    (ht : getTagNodePtrFromIfd s.ifd0th TAG_ExifIFDPointer = some tag) :
    fixExif s =
      fixIo { s with ifd0th := setTagValue s.ifd0th TAG_ExifIFDPointer (8 + s.ifd0th.length),
                     ifdExif := some { e0 with
                       offset := (setSingleNumDataToTag tag (8 + s.ifd0th.length)).num 0 % 65536 } }
        { e0 with offset := (setSingleNumDataToTag tag (8 + s.ifd0th.length)).num 0 % 65536 } := by
  unfold fixExif
  simp only [hx, ht]

theorem fixExif_some_none (s : FixState) (e0 : IfdTable)
    (hx : s.ifdExif = some e0)
    (ht : getTagNodePtrFromIfd s.ifd0th TAG_ExifIFDPointer = none) :
    fixExif s =
      fixIo { s with ifd0th := addDummyTag s.ifd0th TAG_ExifIFDPointer, again := true } e0 := by
  unfold fixExif
  simp only [hx, ht]

theorem fixExif_none_some (s : FixState) (tag : TagNode)
    (hx : s.ifdExif = none)
    (ht : getTagNodePtrFromIfd s.ifd0th TAG_ExifIFDPointer = some tag) :
    fixExif s = { s with ifd0th := setTagValue s.ifd0th TAG_ExifIFDPointer 0 } := by
  unfold fixExif
  simp only [hx, ht]

theorem fixExif_none_none (s : FixState)
    (hx : s.ifdExif = none)
    (ht : getTagNodePtrFromIfd s.ifd0th TAG_ExifIFDPointer = none) :
    fixExif s = s := by
  unfold fixExif
  simp only [hx, ht]

theorem fixExif_again (s : FixState) (h : (fixExif s).again = false) : s.again = false := by
  cases hx : s.ifdExif with
  | none =>
    cases ht : getTagNodePtrFromIfd s.ifd0th TAG_ExifIFDPointer with
    | none => rw [fixExif_none_none s hx ht] at h; exact h
    | some tag => rw [fixExif_none_some s tag hx ht] at h; exact h
  | some e0 =>
    cases ht : getTagNodePtrFromIfd s.ifd0th TAG_ExifIFDPointer with
    | none =>
      rw [fixExif_some_none s e0 hx ht] at h
      have := fixIo_again _ _ h
      simp at this
    | some tag =>
      rw [fixExif_some_some s e0 tag hx ht] at h
      have := fixIo_again _ _ h
      simpa using this

theorem fixExif_created (s : FixState) (e0 : IfdTable) (hx : s.ifdExif = some e0)
    (ht : getTagNodePtrFromIfd s.ifd0th TAG_ExifIFDPointer = none) :
    (fixExif s).again = true := by
  rw [fixExif_some_none s e0 hx ht]
  cases h : (fixIo { s with ifd0th := addDummyTag s.ifd0th TAG_ExifIFDPointer,
                            again := true } e0).again with
  | true => rfl
  | false =>
    have := fixIo_again _ _ h
    simp at this

theorem fixExif_present (s : FixState) (h : (fixExif s).again = false) (e : IfdTable)
    (he : (fixExif s).ifdExif = some e) :
    ∃ t, getTagNodePtrFromIfd (fixExif s).ifd0th TAG_ExifIFDPointer = some t ∧
      e.offset = t.num 0 % 65536 := by
  cases hx : s.ifdExif with
  | none =>
    cases ht : getTagNodePtrFromIfd s.ifd0th TAG_ExifIFDPointer with
    | none => rw [fixExif_none_none s hx ht] at he; simp [hx] at he
    | some tag => rw [fixExif_none_some s tag hx ht] at he; simp [hx] at he
  | some e0 =>
    cases ht : getTagNodePtrFromIfd s.ifd0th TAG_ExifIFDPointer with
    | none =>
      have := fixExif_created s e0 hx ht
      simp [this] at h
    | some tag =>
      rw [fixExif_some_some s e0 tag hx ht] at he ⊢
      rw [fixIo_ifd0th]
      obtain ⟨e2, h2, h3⟩ := fixIo_offset
        { s with ifd0th := setTagValue s.ifd0th TAG_ExifIFDPointer (8 + s.ifd0th.length),
                 ifdExif := some { e0 with
                   offset := (setSingleNumDataToTag tag (8 + s.ifd0th.length)).num 0 % 65536 } }
        { e0 with offset := (setSingleNumDataToTag tag (8 + s.ifd0th.length)).num 0 % 65536 }
        rfl
      rw [h2] at he
      simp only [Option.some.injEq] at he
      subst he
      refine ⟨setSingleNumDataToTag tag (8 + s.ifd0th.length), ?_, h3⟩
      simp [getTag_setTagValue_same, ht]

theorem fixExif_io_present (s : FixState) (h : (fixExif s).again = false) (e io : IfdTable)
    (he : (fixExif s).ifdExif = some e) (hio : (fixExif s).ifdIo = some io) :
    ∃ t, getTagNodePtrFromIfd e TAG_InteroperabilityIFDPointer = some t ∧
      io.offset = t.num 0 % 65536 := by
  cases hx : s.ifdExif with
  | none =>
    cases ht : getTagNodePtrFromIfd s.ifd0th TAG_ExifIFDPointer with
    | none => rw [fixExif_none_none s hx ht] at he; simp [hx] at he
    | some tag => rw [fixExif_none_some s tag hx ht] at he; simp [hx] at he
  | some e0 =>
    cases ht : getTagNodePtrFromIfd s.ifd0th TAG_ExifIFDPointer with
    | none =>
      rw [fixExif_some_none s e0 hx ht] at h he hio
      exact fixIo_present _ _ h e io he hio
    | some tag =>
      rw [fixExif_some_some s e0 tag hx ht] at h he hio
      exact fixIo_present _ _ h e io he hio

theorem fixExif_absent (s : FixState) (he : (fixExif s).ifdExif = none) (t : TagNode)
    (ht : getTagNodePtrFromIfd (fixExif s).ifd0th TAG_ExifIFDPointer = some t)
    (hi : isIntType t.type) : t.count = 1 ∧ t.num 0 = 0 := by
  cases hx : s.ifdExif with
  | none =>
    cases ht0 : getTagNodePtrFromIfd s.ifd0th TAG_ExifIFDPointer with
    | none =>
      rw [fixExif_none_none s hx ht0] at ht
      rw [ht0] at ht
      simp at ht
    | some tag =>
      rw [fixExif_none_some s tag hx ht0] at ht
      simp only [ht0, getTag_setTagValue_same, Option.map_some', Option.some.injEq] at ht
      subst ht
      exact setSingle_int _ _ hi
  | some e0 =>
    cases ht0 : getTagNodePtrFromIfd s.ifd0th TAG_ExifIFDPointer with
    | none =>
      rw [fixExif_some_none s e0 hx ht0] at he
      obtain ⟨e2, h2, _⟩ := fixIo_offset
        { s with ifd0th := addDummyTag s.ifd0th TAG_ExifIFDPointer, again := true } e0 hx
      rw [h2] at he
      simp at he
    | some tag =>
      rw [fixExif_some_some s e0 tag hx ht0] at he
      obtain ⟨e2, h2, _⟩ := fixIo_offset
        { s with ifd0th := setTagValue s.ifd0th TAG_ExifIFDPointer (8 + s.ifd0th.length),
                 ifdExif := some { e0 with
                   offset := (setSingleNumDataToTag tag (8 + s.ifd0th.length)).num 0 % 65536 } }
        _ rfl
      rw [h2] at he
      simp at he

theorem fixExif_io_absent (s : FixState) (e : IfdTable) (he : (fixExif s).ifdExif = some e)
    (hio : (fixExif s).ifdIo = none) (t : TagNode)
    (ht : getTagNodePtrFromIfd e TAG_InteroperabilityIFDPointer = some t)
    (hi : isIntType t.type) : t.count = 1 ∧ t.num 0 = 0 := by
  cases hx : s.ifdExif with
  | none =>
    cases ht0 : getTagNodePtrFromIfd s.ifd0th TAG_ExifIFDPointer with
    | none => rw [fixExif_none_none s hx ht0] at he; simp [hx] at he
    | some tag => rw [fixExif_none_some s tag hx ht0] at he; simp [hx] at he
  | some e0 =>
    cases ht0 : getTagNodePtrFromIfd s.ifd0th TAG_ExifIFDPointer with
    | none =>
      rw [fixExif_some_none s e0 hx ht0] at he hio
      exact fixIo_absent _ _ (by simpa using hx) e he hio t ht hi
    | some tag =>
      rw [fixExif_some_some s e0 tag hx ht0] at he hio
      exact fixIo_absent _ _ rfl e he hio t ht hi


theorem writeBack_get_unknown (arr : List IfdTable) (s : FixState) (hfit : s.Fits arr) :
    getIfdTableFromIfdTableArray (writeBack arr s) IFD_UNKNOWN =
      getIfdTableFromIfdTableArray arr IFD_UNKNOWN := by
  unfold FixState.Fits FixState.shape at hfit
  simp only [Prod.mk.injEq] at hfit
  obtain ⟨hz, he, hi, hg, hf⟩ := hfit
  obtain ⟨ke, _⟩ := fits_kind arr IFD_EXIF _ he
  obtain ⟨ki, _⟩ := fits_kind arr IFD_IO _ hi
  obtain ⟨kg, _⟩ := fits_kind arr IFD_GPS _ hg
  obtain ⟨kf, _⟩ := fits_kind arr IFD_1ST _ hf
  unfold writeBack
  rw [getIfd_putOpt_other _ _ _ _ kf (by decide), getIfd_putOpt_other _ _ _ _ kg (by decide),
    getIfd_putOpt_other _ _ _ _ ki (by decide), getIfd_putOpt_other _ _ _ _ ke (by decide),
    getIfd_putIfd_other _ _ _ _ hz (by decide)]

theorem refreshIfd_ifdType (i : IfdTable) : (refreshIfd i).ifdType = i.ifdType := rfl

theorem getIfd_map_refresh (a : List IfdTable) (k : IFD_TYPE) :
    getIfdTableFromIfdTableArray (a.map refreshIfd) k =
      (getIfdTableFromIfdTableArray a k).map refreshIfd := by
  unfold getIfdTableFromIfdTableArray
  induction a with
  | nil => rfl
  | cons x xs ih =>
    simp only [List.map_cons, List.find?_cons, refreshIfd_ifdType]
    cases (x.ifdType == k) <;> simp [ih]

theorem writeBack_presence (arr : List IfdTable) (z : IfdTable)
    (hz : getIfdTableFromIfdTableArray arr IFD_0TH = some z) (k : IFD_TYPE) :
    (getIfdTableFromIfdTableArray (writeBack arr (fixEnd arr z)) k).isSome =
      (getIfdTableFromIfdTableArray arr k).isSome := by
  have hfit := fixEnd_fits _ z hz
  have hw := writeBack_get _ _ hfit (by simp [hz])
  have hu := writeBack_get_unknown _ _ hfit
  unfold FixState.Fits FixState.shape at hfit
  simp only [Prod.mk.injEq] at hfit
  obtain ⟨_, hf1, hf2, hf3, hf4⟩ := hfit
  cases k with
  | IFD_UNKNOWN => rw [hu]
  | IFD_0TH => rw [hw.1, hz]; rfl
  | IFD_EXIF =>
    rw [hw.2.1]
    have := congrArg Option.isSome hf1
    simpa only [Option.isSome_map'] using this
  | IFD_IO =>
    rw [hw.2.2.1]
    have := congrArg Option.isSome hf2
    simpa only [Option.isSome_map'] using this
  | IFD_GPS =>
    rw [hw.2.2.2.1]
    have := congrArg Option.isSome hf3
    simpa only [Option.isSome_map'] using this
  | IFD_1ST =>
    rw [hw.2.2.2.2]
    have := congrArg Option.isSome hf4
    simpa only [Option.isSome_map'] using this

theorem fixPass_presence (a : List IfdTable) (k : IFD_TYPE) :
    (getIfdTableFromIfdTableArray (fixPass a).arr k).isSome =
      (getIfdTableFromIfdTableArray a k).isSome := by
  have hm := getIfd_map_refresh a k
  rw [fixPass_eq]
  cases hz : getIfdTableFromIfdTableArray (a.map refreshIfd) IFD_0TH with
  | none => simp [FixPass.arr, hm]
  | some z =>
    simp only
    have hw := writeBack_presence _ z hz k
    split <;> simp [FixPass.arr, hw, hm]

theorem fixLoop_final (fuel : Nat) (arr : List IfdTable) (sts : Int) (r : List IfdTable)
    (h : fixLengthAndOffsetInIfdTables fuel arr = some (sts, r)) :
    ∃ a, fixPass a = FixPass.ret sts r ∧
      ∀ k, (getIfdTableFromIfdTableArray a k).isSome =
        (getIfdTableFromIfdTableArray arr k).isSome := by
  unfold fixLengthAndOffsetInIfdTables at h
  induction fuel generalizing arr with
  | zero => simp [fixLoop] at h
  | succ n ih =>
    unfold fixLoop at h
    cases hp : fixPass arr with
    | ret s a =>
      simp only [hp, Option.some.injEq, Prod.mk.injEq] at h
      refine ⟨arr, ?_, fun k => rfl⟩
      rw [hp, h.1, h.2]
    | again a =>
      simp only [hp] at h
      obtain ⟨a2, h2, h3⟩ := ih a h
      refine ⟨a2, h2, fun k => ?_⟩
      rw [h3 k]
      have := fixPass_presence arr k
      rw [hp] at this
      exact this

theorem fixLoop_presence (fuel : Nat) (arr : List IfdTable) (sts : Int) (r : List IfdTable)
    (h : fixLengthAndOffsetInIfdTables fuel arr = some (sts, r)) (k : IFD_TYPE) :
    (getIfdTableFromIfdTableArray r k).isSome =
      (getIfdTableFromIfdTableArray arr k).isSome := by
  obtain ⟨a, hp, ha⟩ := fixLoop_final fuel arr sts r h
  rw [← ha k]
  have := fixPass_presence a k
  rw [hp] at this
  exact this

theorem fixPass_ret_0th (a r : List IfdTable) (sts : Int) (z : IfdTable)
    (h : fixPass a = FixPass.ret sts r)
    (hz : getIfdTableFromIfdTableArray r IFD_0TH = some z) :
    ∃ z1, getIfdTableFromIfdTableArray (a.map refreshIfd) IFD_0TH = some z1 ∧
      (fixEnd (a.map refreshIfd) z1).again = false ∧
      r = writeBack (a.map refreshIfd) (fixEnd (a.map refreshIfd) z1) := by
  rw [fixPass_eq] at h
  cases hz1 : getIfdTableFromIfdTableArray (a.map refreshIfd) IFD_0TH with
  | none =>
    simp only [hz1, FixPass.ret.injEq] at h
    rw [← h.2, hz1] at hz
    simp at hz
  | some z1 =>
    simp only [hz1] at h
    refine ⟨z1, rfl, ?_⟩
    cases hag : (fixEnd (a.map refreshIfd) z1).again with
    | true => simp [hag] at h
    | false =>
      simp only [hag, Bool.false_eq_true, if_false, FixPass.ret.injEq] at h
      exact ⟨rfl, h.2.symm⟩

theorem removeIfdLoop_none (fuel : Nat) (arr : List IfdTable) (k : IFD_TYPE) (ret : Nat)
    (h : arr.length < fuel) :
    getIfdTableFromIfdTableArray (removeIfdLoop fuel arr k ret).2 k = none := by
  induction fuel generalizing arr ret with
  | zero => omega
  | succ n ih =>
    unfold removeIfdLoop
    cases hi : findIfdIndex arr k with
    | none =>
      simp only
      unfold findIfdIndex at hi
      unfold getIfdTableFromIfdTableArray
      rw [List.findIdx?_eq_none_iff] at hi
      rw [List.find?_eq_none]
      intro x hx
      simpa using hi x hx
    | some i =>
      simp only
      apply ih
      unfold findIfdIndex at hi
      have hlt : i < arr.length := by
        have := List.findIdx?_eq_some_iff_findIdx_eq.mp hi
        omega
      rw [List.length_eraseIdx]
      simp only [hlt, if_true]
      omega

theorem removeIfd_none (arr : List IfdTable) (k : IFD_TYPE) :
    getIfdTableFromIfdTableArray (removeIfdTableFromIfdTableArray arr k).2 k = none :=
  removeIfdLoop_none _ arr k 0 (by omega)

theorem ifdsToWrite_kind (r : List IfdTable) (k : IFD_TYPE)
    (h : getIfdTableFromIfdTableArray r k = none) :
    ∀ x ∈ ifdsToWrite r, x.ifdType ≠ k := by
  intro x hx hk
  unfold ifdsToWrite at hx
  simp only [List.mem_filterMap, List.mem_cons, List.mem_singleton] at hx
  obtain ⟨k2, _, hk2⟩ := hx
  have := getIfd_ifdType r k2 x hk2
  rw [hk] at this
  subst this
  rw [h] at hk2
  simp at hk2

theorem liveTags_of_live (tags : List TagNode) (h : TagsLive tags) : liveTags tags = tags := by
  unfold liveTags
  rw [List.filter_eq_self]
  intro t ht
  simp [h t ht]

theorem liveTags_live (tags : List TagNode) : TagsLive (liveTags tags) := by
  intro t ht
  unfold liveTags at ht
  simpa using (List.mem_filter.mp ht).2

theorem modifyTag_mem (tags : List TagNode) (id : Nat) (f : TagNode → TagNode) (t : TagNode)
    (h : t ∈ modifyTag tags id f) : t ∈ tags ∨ ∃ t0 ∈ tags, t0.tagId = id ∧ t = f t0 := by
  induction tags with
  | nil => simp [modifyTag] at h
  | cons x xs ih =>
    unfold modifyTag at h
    by_cases hx : (x.tagId == id) = true
    · simp only [hx, if_true, List.mem_cons] at h
      rcases h with h | h
      · right; exact ⟨x, by simp, by simpa using hx, h⟩
      · left; simp [h]
    · simp only [hx, Bool.false_eq_true, if_false, List.mem_cons] at h
      rcases h with h | h
      · left; simp [h]
      · rcases ih h with h2 | ⟨t0, h3, h4, h5⟩
        · left; simp [h2]
        · right; exact ⟨t0, by simp [h3], h4, h5⟩

theorem modifyTag_map (tags : List TagNode) (id : Nat) (f : TagNode → TagNode)
    (g : TagNode → Nat) (h : ∀ t ∈ tags, t.tagId = id → g (f t) = g t) :
    (modifyTag tags id f).map g = tags.map g := by
  induction tags with
  | nil => rfl
  | cons x xs ih =>
    unfold modifyTag
    by_cases hx : (x.tagId == id) = true
    · simp only [hx, if_true, List.map_cons]
      rw [h x (by simp) (by simpa using hx)]
    · simp only [hx, Bool.false_eq_true, if_false, List.map_cons]
      rw [ih (fun t ht => h t (List.mem_cons_of_mem _ ht))]

theorem modifyTag_length (tags : List TagNode) (id : Nat) (f : TagNode → TagNode) :
    (modifyTag tags id f).length = tags.length := by
  induction tags with
  | nil => rfl
  | cons x xs ih =>
    unfold modifyTag
    split <;> simp [ih]

theorem setSingle_error (t : TagNode) (v : Nat) (h : t.error = 0) :
    (setSingleNumDataToTag t v).error = 0 := by
  unfold setSingleNumDataToTag
  split
  · exact h
  · rfl

theorem setSingle_type (t : TagNode) (v : Nat) :
    (setSingleNumDataToTag t v).type = t.type := by
  unfold setSingleNumDataToTag
  split <;> rfl

theorem setSingle_count (t : TagNode) (v : Nat) (h : isIntType t.type) :
    (setSingleNumDataToTag t v).count = 1 := by
  rw [setSingle_intType t v h]

theorem setSingle_not_int (t : TagNode) (v : Nat) (h : ¬ isIntType t.type) :
    setSingleNumDataToTag t v = t := by
  unfold setSingleNumDataToTag
  unfold isIntType at h
  split
  · rfl
  · omega

theorem tagValueSize_setSingle (t : TagNode) (v : Nat)
    (h : isIntType t.type → t.count = 1) :
    tagValueSize (setSingleNumDataToTag t v) = tagValueSize t := by
  by_cases hi : isIntType t.type
  · have hc := h hi
    have hc2 := setSingle_count t v hi
    have ht := setSingle_type t v
    unfold tagValueSize
    rw [ht, hc, hc2]
  · rw [setSingle_not_int t v hi]

theorem setTagValue_wf (x : IfdTable) (id v : Nat) (h : IfdWf x) :
    IfdWf (setTagValue x id v) := by
  obtain ⟨hl, hp⟩ := h
  constructor
  · intro t ht
    rcases modifyTag_mem _ _ _ _ ht with h1 | ⟨t0, h1, _, h3⟩
    · exact hl t h1
    · rw [h3]; exact setSingle_error t0 v (hl t0 h1)
  · intro t ht he hid hint
    rcases modifyTag_mem _ _ _ _ ht with h1 | ⟨t0, h1, _, h3⟩
    · exact hp t h1 he hid hint
    · subst h3
      rw [setSingle_type] at hint
      exact setSingle_count t0 v hint

theorem addDummyTag_wf (x : IfdTable) (id : Nat) (h : IfdWf x) :
    IfdWf (addDummyTag x id) := by
  obtain ⟨hl, hp⟩ := h
  have hnew : newTagNode id TYPE_LONG 1 (some [0]) none =
      { tagId := id, type := TYPE_LONG, count := 1, numData := some [0], byteData := none,
        error := 0 } := by
    simp [newTagNode, copyCells, TYPE_LONG, TYPE_RATIONAL, TYPE_SRATIONAL]
  constructor
  · intro t ht
    simp only [addDummyTag, addTagNodeToIfd, List.mem_append, List.mem_singleton] at ht
    rcases ht with h1 | h1
    · exact hl t h1
    · rw [h1, hnew]
  · intro t ht he hid hint
    simp only [addDummyTag, addTagNodeToIfd, List.mem_append, List.mem_singleton] at ht
    rcases ht with h1 | h1
    · exact hp t h1 he hid hint
    · rw [h1, hnew]

theorem calcIfdSize_setTagValue (x : IfdTable) (id v : Nat) (h : IfdWf x)
    (hid : id ∈ fixedTagIds x.ifdType) :
    calcIfdSize (setTagValue x id v) = calcIfdSize x := by
  obtain ⟨hl, hp⟩ := h
  have hl2 := (setTagValue_wf x id v ⟨hl, hp⟩).1
  have hne : TAG_JPEGInterchangeFormatLength ≠ id := by
    intro e
    subst e
    cases hk : x.ifdType <;> simp [hk, fixedTagIds] at hid <;> revert hid <;> decide
  unfold calcIfdSize ifdSizeExact
  rw [liveTags_of_live _ hl, liveTags_of_live _ hl2]
  have h1 : (setTagValue x id v).tags.length = x.tags.length := modifyTag_length _ _ _
  have h2 : (setTagValue x id v).tags.map tagValueSize = x.tags.map tagValueSize := by
    apply modifyTag_map
    intro t ht htid
    apply tagValueSize_setSingle
    intro hint
    exact hp t ht (hl t ht) (by rw [htid]; exact hid) hint
  have h3 : thumbnailSize (setTagValue x id v) = thumbnailSize x := by
    unfold thumbnailSize
    rw [getTag_setTagValue_other _ _ _ _ hne]
    rfl
  rw [h1, h2, h3]

theorem setTagValue_exact (x : IfdTable) (id v : Nat) (h : IfdWf x)
    (hid : id ∈ fixedTagIds x.ifdType) (he : IfdExact x) : IfdExact (setTagValue x id v) := by
  unfold IfdExact at he ⊢
  rw [calcIfdSize_setTagValue x id v h hid]
  exact he

theorem fixGps_wf (s : FixState) (h : StateWf s) : StateWf (fixGps s) := by
  obtain ⟨⟨h0, k0⟩, he, hi, hg, hf⟩ := h
  unfold fixGps
  cases hgp : s.ifdGps with
  | none =>
    cases ht : getTagNodePtrFromIfd s.ifd0th TAG_GPSInfoIFDPointer with
    | none => simp only; exact ⟨⟨h0, k0⟩, he, hi, hg, hf⟩
    | some tag =>
      simp only
      exact ⟨⟨setTagValue_wf _ _ _ h0, k0⟩, he, hi, by intro y hy; simp at hy, hf⟩
  | some g =>
    cases ht : getTagNodePtrFromIfd s.ifd0th TAG_GPSInfoIFDPointer with
    | none =>
      simp only
      exact ⟨⟨addDummyTag_wf _ _ h0, k0⟩, he, hi,
        by intro y hy; simp only [Option.some.injEq] at hy; subst hy; exact hg _ hgp, hf⟩
    | some tag =>
      simp only
      refine ⟨⟨setTagValue_wf _ _ _ h0, k0⟩, he, hi, ?_, hf⟩
      intro g2 hg2
      simp only [Option.some.injEq] at hg2
      subst hg2
      exact hg g hgp

theorem fixGps_exact (s : FixState) (h : StateWf s) (hx : StateExact s)
    (hag : (fixGps s).again = false) : StateExact (fixGps s) := by
  obtain ⟨⟨h0, k0⟩, _, _, _, _⟩ := h
  obtain ⟨x0, xe, xi, xg, xf⟩ := hx
  have hid : TAG_GPSInfoIFDPointer ∈ fixedTagIds s.ifd0th.ifdType := by
    rw [k0]; simp [fixedTagIds]
  unfold fixGps at hag ⊢
  cases hgp : s.ifdGps with
  | none =>
    cases ht : getTagNodePtrFromIfd s.ifd0th TAG_GPSInfoIFDPointer with
    | none => simp only; exact ⟨x0, xe, xi, xg, xf⟩
    | some tag =>
      simp only
      exact ⟨setTagValue_exact _ _ _ h0 hid x0, xe, xi, by intro y hy; simp at hy, xf⟩
  | some g =>
    cases ht : getTagNodePtrFromIfd s.ifd0th TAG_GPSInfoIFDPointer with
    | none => simp [hgp, ht] at hag
    | some tag =>
      simp only
      refine ⟨setTagValue_exact _ _ _ h0 hid x0, xe, xi, ?_, xf⟩
      intro g2 hg2
      simp only [Option.some.injEq] at hg2
      subst hg2
      exact xg g hgp

theorem fixIo_wf (s : FixState) (e : IfdTable) (hs : s.ifdExif = some e) (h : StateWf s) :
    StateWf (fixIo s e) := by
  obtain ⟨h0, he, hi, hg, hf⟩ := h
  obtain ⟨we, ke⟩ := he e hs
  unfold fixIo
  cases hio : s.ifdIo with
  | none =>
    cases ht : getTagNodePtrFromIfd e TAG_InteroperabilityIFDPointer with
    | none => simp only; exact ⟨h0, he, hi, hg, hf⟩
    | some tag =>
      simp only
      refine ⟨h0, ?_, by intro y hy; simp at hy, hg, hf⟩
      intro e2 he2
      simp only [Option.some.injEq] at he2
      subst he2
      exact ⟨setTagValue_wf _ _ _ we, ke⟩
  | some io =>
    cases ht : getTagNodePtrFromIfd e TAG_InteroperabilityIFDPointer with
    | none =>
      simp only
      refine ⟨h0, ?_,
        by intro y hy; simp only [Option.some.injEq] at hy; subst hy; exact hi _ hio, hg, hf⟩
      intro e2 he2
      simp only [Option.some.injEq] at he2
      subst he2
      exact ⟨addDummyTag_wf _ _ we, ke⟩
    | some tag =>
      simp only
      refine ⟨h0, ?_, ?_, hg, hf⟩
      · intro e2 he2
        simp only [Option.some.injEq] at he2
        subst he2
        exact ⟨setTagValue_wf _ _ _ we, ke⟩
      · intro i2 hi2
        simp only [Option.some.injEq] at hi2
        subst hi2
        exact hi io hio

theorem fixIo_exact (s : FixState) (e : IfdTable) (hs : s.ifdExif = some e) (h : StateWf s)
    (hx : StateExact s) (hag : (fixIo s e).again = false) : StateExact (fixIo s e) := by
  obtain ⟨_, he, _, _, _⟩ := h
  obtain ⟨we, ke⟩ := he e hs
  obtain ⟨x0, xe, xi, xg, xf⟩ := hx
  have hid : TAG_InteroperabilityIFDPointer ∈ fixedTagIds e.ifdType := by
    rw [ke]; simp [fixedTagIds]
  unfold fixIo at hag ⊢
  cases hio : s.ifdIo with
  | none =>
    cases ht : getTagNodePtrFromIfd e TAG_InteroperabilityIFDPointer with
    | none => simp only; exact ⟨x0, xe, xi, xg, xf⟩
    | some tag =>
      simp only
      refine ⟨x0, ?_, by intro y hy; simp at hy, xg, xf⟩
      intro e2 he2
      simp only [Option.some.injEq] at he2
      subst he2
      exact setTagValue_exact _ _ _ we hid (xe e hs)
  | some io =>
    cases ht : getTagNodePtrFromIfd e TAG_InteroperabilityIFDPointer with
    | none => simp [hio, ht] at hag
    | some tag =>
      simp only
      refine ⟨x0, ?_, ?_, xg, xf⟩
      · intro e2 he2
        simp only [Option.some.injEq] at he2
        subst he2
        exact setTagValue_exact _ _ _ we hid (xe e hs)
      · intro i2 hi2
        simp only [Option.some.injEq] at hi2
        subst hi2
        exact xi io hio

theorem fixExif_wf (s : FixState) (h : StateWf s) : StateWf (fixExif s) := by
  obtain ⟨⟨h0, k0⟩, he, hi, hg, hf⟩ := h
  cases hx : s.ifdExif with
  | none =>
    cases ht : getTagNodePtrFromIfd s.ifd0th TAG_ExifIFDPointer with
    | none => rw [fixExif_none_none s hx ht]; exact ⟨⟨h0, k0⟩, he, hi, hg, hf⟩
    | some tag =>
      rw [fixExif_none_some s tag hx ht]
      exact ⟨⟨setTagValue_wf _ _ _ h0, k0⟩, he, hi, hg, hf⟩
  | some e0 =>
    obtain ⟨we, ke⟩ := he e0 hx
    cases ht : getTagNodePtrFromIfd s.ifd0th TAG_ExifIFDPointer with
    | none =>
      rw [fixExif_some_none s e0 hx ht]
      apply fixIo_wf _ _ (by simpa using hx)
      exact ⟨⟨addDummyTag_wf _ _ h0, k0⟩, he, hi, hg, hf⟩
    | some tag =>
      rw [fixExif_some_some s e0 tag hx ht]
      apply fixIo_wf _ _ rfl
      refine ⟨⟨setTagValue_wf _ _ _ h0, k0⟩, ?_, hi, hg, hf⟩
      intro e2 he2
      simp only [Option.some.injEq] at he2
      subst he2
      exact ⟨we, ke⟩

theorem fixExif_exact (s : FixState) (h : StateWf s) (hx : StateExact s)
    (hag : (fixExif s).again = false) : StateExact (fixExif s) := by
  obtain ⟨⟨h0, k0⟩, he, hi, hg, hf⟩ := h
  obtain ⟨x0, xe, xi, xg, xf⟩ := hx
  have hid : TAG_ExifIFDPointer ∈ fixedTagIds s.ifd0th.ifdType := by
    rw [k0]; simp [fixedTagIds]
  cases hxe : s.ifdExif with
  | none =>
    cases ht : getTagNodePtrFromIfd s.ifd0th TAG_ExifIFDPointer with
    | none => rw [fixExif_none_none s hxe ht]; exact ⟨x0, xe, xi, xg, xf⟩
    | some tag =>
      rw [fixExif_none_some s tag hxe ht]
      exact ⟨setTagValue_exact _ _ _ h0 hid x0, xe, xi, xg, xf⟩
  | some e0 =>
    obtain ⟨we, ke⟩ := he e0 hxe
    cases ht : getTagNodePtrFromIfd s.ifd0th TAG_ExifIFDPointer with
    | none =>
      have := fixExif_created s e0 hxe ht
      simp [this] at hag
    | some tag =>
      rw [fixExif_some_some s e0 tag hxe ht] at hag ⊢
      apply fixIo_exact _ _ rfl _ _ hag
      · refine ⟨⟨setTagValue_wf _ _ _ h0, k0⟩, ?_, hi, hg, hf⟩
        intro e2 he2
        simp only [Option.some.injEq] at he2
        subst he2
        exact ⟨we, ke⟩
      · refine ⟨setTagValue_exact _ _ _ h0 hid x0, ?_, xi, xg, xf⟩
        intro e2 he2
        simp only [Option.some.injEq] at he2
        subst he2
        exact xe e0 hxe

theorem stateWf_update (s : FixState) (h : StateWf s) (z x : IfdTable) (b : Bool)
    (hz : IfdWf z ∧ z.ifdType = IFD_0TH) (hx : IfdWf x ∧ x.ifdType = IFD_1ST) :
    StateWf { s with ifd0th := z, ifd1st := some x, again := b } := by
  obtain ⟨_, he, hi, hg, _⟩ := h
  refine ⟨hz, he, hi, hg, ?_⟩
  intro f hf
  simp only [Option.some.injEq] at hf
  subst hf
  exact hx

theorem stateExact_update (s : FixState) (h : StateExact s) (z x : IfdTable) (b : Bool)
    (hz : IfdExact z) (hx : IfdExact x) :
    StateExact { s with ifd0th := z, ifd1st := some x, again := b } := by
  obtain ⟨_, he, hi, hg, _⟩ := h
  refine ⟨hz, he, hi, hg, ?_⟩
  intro f hf
  simp only [Option.some.injEq] at hf
  subst hf
  exact hx

theorem fix1st_wf (s : FixState) (h : StateWf s) : StateWf (fix1st s) := by
  have h' := h
  obtain ⟨⟨h0, k0⟩, he, hi, hg, hf⟩ := h
  unfold fix1st
  cases h1 : s.ifd1st with
  | none =>
    simp only
    refine ⟨⟨h0, k0⟩, he, hi, hg, ?_⟩
    intro f hf2
    simp [h1] at hf2
  | some f0 =>
    obtain ⟨wf, kf⟩ := hf f0 h1
    have hz : ∀ n, IfdWf { s.ifd0th with nextIfdOffset := n } ∧
        ({ s.ifd0th with nextIfdOffset := n } : IfdTable).ifdType = IFD_0TH :=
      fun n => ⟨h0, k0⟩
    have hfo : ∀ o, IfdWf { f0 with offset := o } ∧
        ({ f0 with offset := o } : IfdTable).ifdType = IFD_1ST := fun o => ⟨wf, kf⟩
    simp only
    split
    · split
      · split
        · exact stateWf_update s h' _ _ s.again (hz _)
            ⟨setTagValue_wf _ _ _ (hfo _).1, kf⟩
        · exact stateWf_update s h' _ _ true (hz _) ⟨addDummyTag_wf _ _ (hfo _).1, kf⟩
      · split
        · exact stateWf_update s h' _ _ s.again (hz _)
            ⟨setTagValue_wf _ _ _ (hfo _).1, kf⟩
        · exact stateWf_update s h' _ _ s.again (hz _) (hfo _)
    · exact stateWf_update s h' _ _ s.again (hz _) (hfo _)

theorem fix1st_exact (s : FixState) (h : StateWf s) (hx : StateExact s)
    (hag : (fix1st s).again = false) : StateExact (fix1st s) := by
  have hx' := hx
  obtain ⟨⟨h0, k0⟩, he, hi, hg, hf⟩ := h
  obtain ⟨x0, xe, xi, xg, xf⟩ := hx
  unfold fix1st at hag ⊢
  cases h1 : s.ifd1st with
  | none =>
    simp only
    refine ⟨x0, xe, xi, xg, ?_⟩
    intro f hf2
    simp [h1] at hf2
  | some f0 =>
    obtain ⟨wf, kf⟩ := hf f0 h1
    have hz : ∀ n, IfdExact { s.ifd0th with nextIfdOffset := n } := fun n => x0
    have hfo : ∀ o, IfdExact { f0 with offset := o } := fun o => xf f0 h1
    have hfw : ∀ o, IfdWf { f0 with offset := o } := fun o => wf
    have hid : ∀ o, TAG_JPEGInterchangeFormat ∈
        fixedTagIds ({ f0 with offset := o } : IfdTable).ifdType := by
      intro o
      show TAG_JPEGInterchangeFormat ∈ fixedTagIds f0.ifdType
      rw [kf]; simp [fixedTagIds]
    simp only [h1] at hag
    simp only
    split
    · split
      · split
        · exact stateExact_update s hx' _ _ s.again (hz _)
            (setTagValue_exact _ _ _ (hfw _) (hid _) (hfo _))
        · exfalso
          simp_all
      · split
        · exact stateExact_update s hx' _ _ s.again (hz _)
            (setTagValue_exact _ _ _ (hfw _) (hid _) (hfo _))
        · exact stateExact_update s hx' _ _ s.again (hz _) (hfo _)
    · exact stateExact_update s hx' _ _ s.again (hz _) (hfo _)

theorem refreshIfd_wf (x : IfdTable) (h : PointerTagsSingle x.ifdType x.tags) :
    IfdWf (refreshIfd x) ∧ IfdExact (refreshIfd x) := by
  refine ⟨⟨liveTags_live _, ?_⟩, rfl⟩
  intro t ht he hid hint
  have hm : t ∈ x.tags := by
    unfold refreshIfd liveTags at ht
    exact (List.mem_filter.mp ht).1
  exact h t hm he hid hint

theorem getIfd_refresh_wf (a : List IfdTable) (h : GraphWf a) (k : IFD_TYPE) (y : IfdTable)
    (hy : getIfdTableFromIfdTableArray (a.map refreshIfd) k = some y) :
    (IfdWf y ∧ y.ifdType = k) ∧ IfdExact y := by
  rw [getIfd_map_refresh] at hy
  cases hx : getIfdTableFromIfdTableArray a k with
  | none => simp [hx] at hy
  | some x =>
    simp only [hx, Option.map_some', Option.some.injEq] at hy
    subst hy
    have hk := getIfd_ifdType a k x hx
    have := refreshIfd_wf x (by rw [hk]; exact h k x hx)
    exact ⟨⟨this.1, hk⟩, this.2⟩

theorem fixStart_wf (a : List IfdTable) (h : GraphWf a) (z : IfdTable)
    (hz : getIfdTableFromIfdTableArray (a.map refreshIfd) IFD_0TH = some z) :
    StateWf (fixStart (a.map refreshIfd) z) ∧ StateExact (fixStart (a.map refreshIfd) z) := by
  have h0 := getIfd_refresh_wf a h IFD_0TH z hz
  constructor
  · refine ⟨h0.1, ?_, ?_, ?_, ?_⟩
    · intro e he; exact (getIfd_refresh_wf a h IFD_EXIF e he).1
    · intro e he; exact (getIfd_refresh_wf a h IFD_IO e he).1.1
    · intro e he; exact (getIfd_refresh_wf a h IFD_GPS e he).1.1
    · intro e he; exact (getIfd_refresh_wf a h IFD_1ST e he).1
  · refine ⟨h0.2, ?_, ?_, ?_, ?_⟩
    · intro e he; exact (getIfd_refresh_wf a h IFD_EXIF e he).2
    · intro e he; exact (getIfd_refresh_wf a h IFD_IO e he).2
    · intro e he; exact (getIfd_refresh_wf a h IFD_GPS e he).2
    · intro e he; exact (getIfd_refresh_wf a h IFD_1ST e he).2

theorem fixEnd_wf (a : List IfdTable) (h : GraphWf a) (z : IfdTable)
    (hz : getIfdTableFromIfdTableArray (a.map refreshIfd) IFD_0TH = some z) :
    StateWf (fixEnd (a.map refreshIfd) z) ∧
      ((fixEnd (a.map refreshIfd) z).again = false →
        StateExact (fixEnd (a.map refreshIfd) z)) := by
  obtain ⟨w0, x0⟩ := fixStart_wf a h z hz
  have w1 := fix1st_wf _ w0
  have w2 := fixExif_wf _ w1
  have w3 := fixGps_wf _ w2
  refine ⟨w3, ?_⟩
  intro hag
  unfold fixEnd at hag ⊢
  have hag2 := fixGps_again _ hag
  have hag1 := fixExif_again _ hag2
  have x1 := fix1st_exact _ w0 x0 hag1
  have x2 := fixExif_exact _ w1 x1 hag2
  exact fixGps_exact _ w2 x2 hag

theorem pointerTagsSingle_nil (k : IFD_TYPE) (tags : List TagNode) (h : fixedTagIds k = []) :
    PointerTagsSingle k tags := by
  intro t _ _ hid
  rw [h] at hid
  simp at hid

theorem fixPass_graphWf (a : List IfdTable) (h : GraphWf a) : GraphWf (fixPass a).arr := by
  rw [fixPass_eq]
  have hrefresh : GraphWf (a.map refreshIfd) := by
    intro k y hy
    have := getIfd_refresh_wf a h k y hy
    rw [← this.1.2]
    exact this.1.1.2
  cases hz : getIfdTableFromIfdTableArray (a.map refreshIfd) IFD_0TH with
  | none => simpa [FixPass.arr] using hrefresh
  | some z =>
    have hw := (fixEnd_wf a h z hz).1
    have hfit := fixEnd_fits _ z hz
    have hget := writeBack_get _ _ hfit (by simp [hz])
    have harr : (if (fixEnd (a.map refreshIfd) z).again
        then FixPass.again (writeBack (a.map refreshIfd) (fixEnd (a.map refreshIfd) z))
        else FixPass.ret 0 (writeBack (a.map refreshIfd) (fixEnd (a.map refreshIfd) z))).arr =
        writeBack (a.map refreshIfd) (fixEnd (a.map refreshIfd) z) := by
      split <;> rfl
    simp only [harr]
    obtain ⟨⟨h0, k0⟩, he, hi, hg, hf⟩ := hw
    intro k y hy
    cases k with
    | IFD_UNKNOWN => exact pointerTagsSingle_nil _ _ rfl
    | IFD_IO => exact pointerTagsSingle_nil _ _ rfl
    | IFD_GPS => exact pointerTagsSingle_nil _ _ rfl
    | IFD_0TH =>
      rw [hget.1] at hy
      simp only [Option.some.injEq] at hy
      subst hy
      rw [← k0]; exact h0.2
    | IFD_EXIF =>
      rw [hget.2.1] at hy
      have := he y hy
      rw [← this.2]; exact this.1.2
    | IFD_1ST =>
      rw [hget.2.2.2.2] at hy
      have := hf y hy
      rw [← this.2]; exact this.1.2

theorem fixGps_all (P : IfdTable → Prop) (hc : PassClosed P) (s : FixState)
    (h : StateAll P s) : StateAll P (fixGps s) := by
  obtain ⟨h0, he, hi, hg, hf⟩ := h
  unfold fixGps
  cases hgp : s.ifdGps with
  | none =>
    cases ht : getTagNodePtrFromIfd s.ifd0th TAG_GPSInfoIFDPointer with
    | none => simp only; exact ⟨h0, he, hi, hg, hf⟩
    | some tag =>
      simp only
      exact ⟨hc.set _ _ _ h0, he, hi, by intro y hy; simp at hy, hf⟩
  | some g =>
    cases ht : getTagNodePtrFromIfd s.ifd0th TAG_GPSInfoIFDPointer with
    | none =>
      simp only
      exact ⟨hc.add _ _ h0, he, hi,
        by intro y hy; simp only [Option.some.injEq] at hy; subst hy; exact hg _ hgp, hf⟩
    | some tag =>
      simp only
      refine ⟨hc.set _ _ _ h0, he, hi, ?_, hf⟩
      intro g2 hg2
      simp only [Option.some.injEq] at hg2
      subst hg2
      exact hc.off _ _ (hg g hgp)

theorem fixIo_all (P : IfdTable → Prop) (hc : PassClosed P) (s : FixState) (e : IfdTable)
    (hs : s.ifdExif = some e) (h : StateAll P s) : StateAll P (fixIo s e) := by
  obtain ⟨h0, he, hi, hg, hf⟩ := h
  have we := he e hs
  unfold fixIo
  cases hio : s.ifdIo with
  | none =>
    cases ht : getTagNodePtrFromIfd e TAG_InteroperabilityIFDPointer with
    | none => simp only; exact ⟨h0, he, hi, hg, hf⟩
    | some tag =>
      simp only
      refine ⟨h0, ?_, by intro y hy; simp at hy, hg, hf⟩
      intro e2 he2
      simp only [Option.some.injEq] at he2
      subst he2
      exact hc.set _ _ _ we
  | some io =>
    cases ht : getTagNodePtrFromIfd e TAG_InteroperabilityIFDPointer with
    | none =>
      simp only
      refine ⟨h0, ?_,
        by intro y hy; simp only [Option.some.injEq] at hy; subst hy; exact hi _ hio, hg, hf⟩
      intro e2 he2
      simp only [Option.some.injEq] at he2
      subst he2
      exact hc.add _ _ we
    | some tag =>
      simp only
      refine ⟨h0, ?_, ?_, hg, hf⟩
      · intro e2 he2
        simp only [Option.some.injEq] at he2
        subst he2
        exact hc.set _ _ _ we
      · intro i2 hi2
        simp only [Option.some.injEq] at hi2
        subst hi2
        exact hc.off _ _ (hi io hio)

theorem fixExif_all (P : IfdTable → Prop) (hc : PassClosed P) (s : FixState)
    (h : StateAll P s) : StateAll P (fixExif s) := by
  obtain ⟨h0, he, hi, hg, hf⟩ := h
  cases hx : s.ifdExif with
  | none =>
    cases ht : getTagNodePtrFromIfd s.ifd0th TAG_ExifIFDPointer with
    | none => rw [fixExif_none_none s hx ht]; exact ⟨h0, he, hi, hg, hf⟩
    | some tag =>
      rw [fixExif_none_some s tag hx ht]
      exact ⟨hc.set _ _ _ h0, he, hi, hg, hf⟩
  | some e0 =>
    have we := he e0 hx
    cases ht : getTagNodePtrFromIfd s.ifd0th TAG_ExifIFDPointer with
    | none =>
      rw [fixExif_some_none s e0 hx ht]
      apply fixIo_all P hc _ _ (by simpa using hx)
      exact ⟨hc.add _ _ h0, he, hi, hg, hf⟩
    | some tag =>
      rw [fixExif_some_some s e0 tag hx ht]
      apply fixIo_all P hc _ _ rfl
      refine ⟨hc.set _ _ _ h0, ?_, hi, hg, hf⟩
      intro e2 he2
      simp only [Option.some.injEq] at he2
      subst he2
      exact hc.off _ _ we

theorem stateAll_update (P : IfdTable → Prop) (s : FixState) (h : StateAll P s)
    (z x : IfdTable) (b : Bool) (hz : P z) (hx : P x) :
    StateAll P { s with ifd0th := z, ifd1st := some x, again := b } := by
  obtain ⟨_, he, hi, hg, _⟩ := h
  refine ⟨hz, he, hi, hg, ?_⟩
  intro f hf
  simp only [Option.some.injEq] at hf
  subst hf
  exact hx

theorem fix1st_all (P : IfdTable → Prop) (hc : PassClosed P) (s : FixState)
    (h : StateAll P s) : StateAll P (fix1st s) := by
  have h' := h
  obtain ⟨h0, he, hi, hg, hf⟩ := h
  unfold fix1st
  cases h1 : s.ifd1st with
  | none =>
    simp only
    refine ⟨hc.next _ _ h0, he, hi, hg, ?_⟩
    intro f hf2
    simp [h1] at hf2
  | some f0 =>
    have wf := hf f0 h1
    simp only
    split
    · split
      · split
        · exact stateAll_update P s h' _ _ s.again (hc.next _ _ h0)
            (hc.set _ _ _ (hc.off _ _ wf))
        · exact stateAll_update P s h' _ _ true (hc.next _ _ h0) (hc.add _ _ (hc.off _ _ wf))
      · split
        · exact stateAll_update P s h' _ _ s.again (hc.next _ _ h0)
            (hc.set _ _ _ (hc.off _ _ wf))
        · exact stateAll_update P s h' _ _ s.again (hc.next _ _ h0) (hc.off _ _ wf)
    · exact stateAll_update P s h' _ _ s.again (hc.next _ _ h0) (hc.off _ _ wf)

theorem fixEnd_all (P : IfdTable → Prop) (hc : PassClosed P) (arr : List IfdTable)
    (z : IfdTable) (hz : P z)
    (h : ∀ k x, getIfdTableFromIfdTableArray arr k = some x → P x) :
    StateAll P (fixEnd arr z) := by
  unfold fixEnd
  apply fixGps_all P hc
  apply fixExif_all P hc
  apply fix1st_all P hc
  exact ⟨hc.off _ _ hz, h IFD_EXIF, h IFD_IO, h IFD_GPS, h IFD_1ST⟩

theorem getTag_addDummyTag_same (x : IfdTable) (id : Nat) :
    (getTagNodePtrFromIfd (addDummyTag x id) id).isSome := by
  cases h : getTagNodePtrFromIfd x id with
  | none =>
    unfold addDummyTag
    rw [getTag_addTag_same x id _ _ _ _ h]
    rfl
  | some t =>
    unfold getTagNodePtrFromIfd at h ⊢
    unfold addDummyTag addTagNodeToIfd
    simp [List.find?_append, h]

theorem getTag_setTagValue_isSome (x : IfdTable) (id id2 v : Nat) :
    (getTagNodePtrFromIfd (setTagValue x id v) id2).isSome =
      (getTagNodePtrFromIfd x id2).isSome := by
  by_cases h : id2 = id
  · subst h
    rw [getTag_setTagValue_same]
    simp
  · rw [getTag_setTagValue_other _ _ _ _ h]

theorem getTag_addDummyTag_isSome (x : IfdTable) (id id2 : Nat)
    (h : (getTagNodePtrFromIfd x id2).isSome) :
    (getTagNodePtrFromIfd (addDummyTag x id) id2).isSome := by
  unfold getTagNodePtrFromIfd at h ⊢
  unfold addDummyTag addTagNodeToIfd
  cases hf : List.find? (fun t => t.tagId == id2) x.tags with
  | none => simp [hf] at h
  | some t => simp [List.find?_append, hf]

theorem fix1st_ifdExif (s : FixState) : (fix1st s).ifdExif = s.ifdExif := by
  unfold fix1st
  cases s.ifd1st with
  | none => rfl
  | some f => simp only; split <;> (try split) <;> (try split) <;> rfl

theorem fix1st_ifdIo (s : FixState) : (fix1st s).ifdIo = s.ifdIo := by
  unfold fix1st
  cases s.ifd1st with
  | none => rfl
  | some f => simp only; split <;> (try split) <;> (try split) <;> rfl

theorem fix1st_ifdGps (s : FixState) : (fix1st s).ifdGps = s.ifdGps := by
  unfold fix1st
  cases s.ifd1st with
  | none => rfl
  | some f => simp only; split <;> (try split) <;> (try split) <;> rfl

theorem fix1st_ifd0th_tags (s : FixState) : (fix1st s).ifd0th.tags = s.ifd0th.tags := by
  unfold fix1st
  cases s.ifd1st with
  | none => rfl
  | some f => simp only; split <;> (try split) <;> (try split) <;> rfl

theorem fix1st_getTag (s : FixState) (id : Nat) :
    getTagNodePtrFromIfd (fix1st s).ifd0th id = getTagNodePtrFromIfd s.ifd0th id := by
  unfold getTagNodePtrFromIfd
  rw [fix1st_ifd0th_tags]

theorem fixIo_ifd1st (s : FixState) (e : IfdTable) : (fixIo s e).ifd1st = s.ifd1st := by
  unfold fixIo
  cases s.ifdIo <;> cases getTagNodePtrFromIfd e TAG_InteroperabilityIFDPointer <;> rfl

theorem fixIo_ifdGps (s : FixState) (e : IfdTable) : (fixIo s e).ifdGps = s.ifdGps := by
  unfold fixIo
  cases s.ifdIo <;> cases getTagNodePtrFromIfd e TAG_InteroperabilityIFDPointer <;> rfl

theorem fixExif_ifd1st (s : FixState) : (fixExif s).ifd1st = s.ifd1st := by
  cases hx : s.ifdExif with
  | none =>
    cases ht : getTagNodePtrFromIfd s.ifd0th TAG_ExifIFDPointer with
    | none => rw [fixExif_none_none s hx ht]
    | some tag => rw [fixExif_none_some s tag hx ht]
  | some e0 =>
    cases ht : getTagNodePtrFromIfd s.ifd0th TAG_ExifIFDPointer with
    | none => rw [fixExif_some_none s e0 hx ht, fixIo_ifd1st]
    | some tag => rw [fixExif_some_some s e0 tag hx ht, fixIo_ifd1st]

theorem fixExif_ifdGps (s : FixState) : (fixExif s).ifdGps = s.ifdGps := by
  cases hx : s.ifdExif with
  | none =>
    cases ht : getTagNodePtrFromIfd s.ifd0th TAG_ExifIFDPointer with
    | none => rw [fixExif_none_none s hx ht]
    | some tag => rw [fixExif_none_some s tag hx ht]
  | some e0 =>
    cases ht : getTagNodePtrFromIfd s.ifd0th TAG_ExifIFDPointer with
    | none => rw [fixExif_some_none s e0 hx ht, fixIo_ifdGps]
    | some tag => rw [fixExif_some_some s e0 tag hx ht, fixIo_ifdGps]

theorem fixExif_getTag_isSome (s : FixState) (id : Nat)
    (h : (getTagNodePtrFromIfd s.ifd0th id).isSome) :
    (getTagNodePtrFromIfd (fixExif s).ifd0th id).isSome := by
  cases hx : s.ifdExif with
  | none =>
    cases ht : getTagNodePtrFromIfd s.ifd0th TAG_ExifIFDPointer with
    | none => rw [fixExif_none_none s hx ht]; exact h
    | some tag =>
      rw [fixExif_none_some s tag hx ht]
      simp only [getTag_setTagValue_isSome]
      exact h
  | some e0 =>
    cases ht : getTagNodePtrFromIfd s.ifd0th TAG_ExifIFDPointer with
    | none =>
      rw [fixExif_some_none s e0 hx ht, fixIo_ifd0th]
      exact getTag_addDummyTag_isSome _ _ _ h
    | some tag =>
      rw [fixExif_some_some s e0 tag hx ht, fixIo_ifd0th]
      simp only [getTag_setTagValue_isSome]
      exact h

theorem fixGps_getTag_isSome (s : FixState) (id : Nat)
    (h : (getTagNodePtrFromIfd s.ifd0th id).isSome) :
    (getTagNodePtrFromIfd (fixGps s).ifd0th id).isSome := by
  unfold fixGps
  cases hg : s.ifdGps <;> cases ht : getTagNodePtrFromIfd s.ifd0th TAG_GPSInfoIFDPointer <;>
    simp only [getTag_setTagValue_isSome]
  · exact h
  · exact h
  · exact getTag_addDummyTag_isSome _ _ _ h
  · exact h

theorem fix1st_complete (s : FixState) (f : IfdTable) (hf : (fix1st s).ifd1st = some f)
    (_ : f.p.isSome)
    (hl : (getTagNodePtrFromIfd f TAG_JPEGInterchangeFormatLength).isSome) :
    (getTagNodePtrFromIfd f TAG_JPEGInterchangeFormat).isSome := by
  unfold fix1st at hf
  cases h1 : s.ifd1st with
  | none => simp [h1] at hf
  | some f0 =>
    simp only [h1] at hf
    split at hf
    · split at hf
      · split at hf
        · simp only [Option.some.injEq] at hf
          subst hf
          rw [getTag_setTagValue_isSome]
          simp_all
        · simp only [Option.some.injEq] at hf
          subst hf
          exact getTag_addDummyTag_same _ _
      · split at hf
        · simp only [Option.some.injEq] at hf
          subst hf
          rw [getTag_setTagValue_isSome] at hl
          simp_all
        · simp only [Option.some.injEq] at hf
          subst hf
          simp_all
    · simp only [Option.some.injEq] at hf
      subst hf
      simp_all

theorem fix1st_again_of (s : FixState)
    (h : ∀ f, s.ifd1st = some f → f.p.isSome →
      (getTagNodePtrFromIfd f TAG_JPEGInterchangeFormatLength).isSome →
      (getTagNodePtrFromIfd f TAG_JPEGInterchangeFormat).isSome) :
    (fix1st s).again = s.again := by
  unfold fix1st
  cases h1 : s.ifd1st with
  | none => rfl
  | some f0 =>
    have h2 := h f0 h1
    simp only
    split
    · split
      · split
        · rfl
        · exfalso
          rename_i hp _ _ hl _ hfm
          have hl2 : getTagNodePtrFromIfd f0 TAG_JPEGInterchangeFormatLength = some _ := hl
          have hfm2 : getTagNodePtrFromIfd f0 TAG_JPEGInterchangeFormat = none := hfm
          have hp2 : f0.p = some _ := hp
          rw [hl2, hfm2, hp2] at h2
          simp at h2
      · split <;> rfl
    · rfl

theorem fixIo_complete (s : FixState) (e e2 : IfdTable) (he : (fixIo s e).ifdExif = some e2)
    (hio : (fixIo s e).ifdIo.isSome) :
    (getTagNodePtrFromIfd e2 TAG_InteroperabilityIFDPointer).isSome := by
  unfold fixIo at he hio
  cases hg : s.ifdIo <;> cases ht : getTagNodePtrFromIfd e TAG_InteroperabilityIFDPointer <;>
    simp_all
  · subst he
    exact getTag_addDummyTag_same _ _
  · subst he
    rw [getTag_setTagValue_isSome]
    simp [ht]

theorem fixIo_again_of (s : FixState) (e : IfdTable)
    (h : s.ifdIo.isSome → (getTagNodePtrFromIfd e TAG_InteroperabilityIFDPointer).isSome) :
    (fixIo s e).again = s.again := by
  unfold fixIo
  cases hg : s.ifdIo <;> cases ht : getTagNodePtrFromIfd e TAG_InteroperabilityIFDPointer <;>
    simp_all

theorem fixIo_ifdIo_isSome (s : FixState) (e : IfdTable) :
    (fixIo s e).ifdIo.isSome = s.ifdIo.isSome := by
  unfold fixIo
  cases hg : s.ifdIo <;> cases ht : getTagNodePtrFromIfd e TAG_InteroperabilityIFDPointer <;>
    simp [hg]

theorem fixExif_complete (s : FixState) :
    ((fixExif s).ifdExif.isSome →
      (getTagNodePtrFromIfd (fixExif s).ifd0th TAG_ExifIFDPointer).isSome) ∧
    (∀ e, (fixExif s).ifdExif = some e → (fixExif s).ifdIo.isSome →
      (getTagNodePtrFromIfd e TAG_InteroperabilityIFDPointer).isSome) := by
  cases hx : s.ifdExif with
  | none =>
    cases ht : getTagNodePtrFromIfd s.ifd0th TAG_ExifIFDPointer with
    | none => rw [fixExif_none_none s hx ht]; simp [hx]
    | some tag => rw [fixExif_none_some s tag hx ht]; simp [hx]
  | some e0 =>
    cases ht : getTagNodePtrFromIfd s.ifd0th TAG_ExifIFDPointer with
    | none =>
      rw [fixExif_some_none s e0 hx ht]
      refine ⟨fun _ => ?_, fun e he hio => fixIo_complete _ _ e he hio⟩
      rw [fixIo_ifd0th]
      exact getTag_addDummyTag_same _ _
    | some tag =>
      rw [fixExif_some_some s e0 tag hx ht]
      refine ⟨fun _ => ?_, fun e he hio => fixIo_complete _ _ e he hio⟩
      rw [fixIo_ifd0th]
      simp only [getTag_setTagValue_isSome, ht, Option.isSome_some]

theorem fixExif_again_of (s : FixState)
    (h2 : s.ifdExif.isSome → (getTagNodePtrFromIfd s.ifd0th TAG_ExifIFDPointer).isSome)
    (h3 : ∀ e, s.ifdExif = some e → s.ifdIo.isSome →
      (getTagNodePtrFromIfd e TAG_InteroperabilityIFDPointer).isSome) :
    (fixExif s).again = s.again := by
  cases hx : s.ifdExif with
  | none =>
    cases ht : getTagNodePtrFromIfd s.ifd0th TAG_ExifIFDPointer with
    | none => rw [fixExif_none_none s hx ht]
    | some tag => rw [fixExif_none_some s tag hx ht]
  | some e0 =>
    cases ht : getTagNodePtrFromIfd s.ifd0th TAG_ExifIFDPointer with
    | none => simp [hx, ht] at h2
    | some tag =>
      rw [fixExif_some_some s e0 tag hx ht]
      rw [fixIo_again_of]
      exact h3 e0 hx

theorem fixExif_ifdIo_isSome (s : FixState) : (fixExif s).ifdIo.isSome = s.ifdIo.isSome := by
  cases hx : s.ifdExif with
  | none =>
    cases ht : getTagNodePtrFromIfd s.ifd0th TAG_ExifIFDPointer with
    | none => rw [fixExif_none_none s hx ht]
    | some tag => rw [fixExif_none_some s tag hx ht]
  | some e0 =>
    cases ht : getTagNodePtrFromIfd s.ifd0th TAG_ExifIFDPointer with
    | none => rw [fixExif_some_none s e0 hx ht, fixIo_ifdIo_isSome]
    | some tag => rw [fixExif_some_some s e0 tag hx ht, fixIo_ifdIo_isSome]

theorem fixGps_complete (s : FixState) (h : (fixGps s).ifdGps.isSome) :
    (getTagNodePtrFromIfd (fixGps s).ifd0th TAG_GPSInfoIFDPointer).isSome := by
  unfold fixGps at h ⊢
  cases hg : s.ifdGps <;> cases ht : getTagNodePtrFromIfd s.ifd0th TAG_GPSInfoIFDPointer <;>
    simp_all
  · exact getTag_addDummyTag_same _ _
  · rw [getTag_setTagValue_isSome]
    simp [ht]

theorem fixGps_again_of (s : FixState)
    (h : s.ifdGps.isSome → (getTagNodePtrFromIfd s.ifd0th TAG_GPSInfoIFDPointer).isSome) :
    (fixGps s).again = s.again := by
  unfold fixGps
  cases hg : s.ifdGps <;> cases ht : getTagNodePtrFromIfd s.ifd0th TAG_GPSInfoIFDPointer <;>
    simp_all

theorem fixEnd_complete (arr : List IfdTable) (z : IfdTable) : (fixEnd arr z).Complete := by
  unfold fixEnd
  refine ⟨?_, ?_, ?_, ?_⟩
  · intro f hf hp hl
    rw [fixGps_ifd1st, fixExif_ifd1st] at hf
    exact fix1st_complete _ f hf hp hl
  · intro he
    rw [fixGps_ifdExif] at he
    exact fixGps_getTag_isSome _ _ ((fixExif_complete _).1 he)
  · intro e he hio
    rw [fixGps_ifdExif] at he
    rw [fixGps_ifdIo] at hio
    exact (fixExif_complete _).2 e he hio
  · intro hg
    exact fixGps_complete _ hg

theorem fixEnd_again_of (arr : List IfdTable) (z : IfdTable)
    (h : (fixStart arr z).Complete) : (fixEnd arr z).again = false := by
  obtain ⟨h1, h2, h3, h4⟩ := h
  unfold fixEnd
  rw [fixGps_again_of, fixExif_again_of, fix1st_again_of _ h1]
  · rfl
  · intro he
    rw [fix1st_ifdExif] at he
    rw [fix1st_getTag]
    exact h2 he
  · intro e he hio
    rw [fix1st_ifdExif] at he
    rw [fix1st_ifdIo] at hio
    exact h3 e he hio
  · intro hg
    rw [fixExif_ifdGps, fix1st_ifdGps] at hg
    apply fixExif_getTag_isSome
    rw [fix1st_getTag]
    exact h4 hg

theorem passClosed_live : PassClosed (fun x => TagsLive x.tags) where
  set := by
    intro x id v h t ht
    rcases modifyTag_mem _ _ _ _ ht with h1 | ⟨t0, h1, _, h3⟩
    · exact h t h1
    · rw [h3]; exact setSingle_error t0 v (h t0 h1)
  add := by
    intro x id h t ht
    simp only [addDummyTag, addTagNodeToIfd, List.mem_append, List.mem_singleton] at ht
    rcases ht with h1 | h1
    · exact h t h1
    · rw [h1]
      simp [newTagNode, TYPE_LONG, TYPE_RATIONAL, TYPE_SRATIONAL]
  off := fun _ _ h => h
  next := fun _ _ h => h

theorem getIfd_refresh_live (a : List IfdTable) (k : IFD_TYPE) (y : IfdTable)
    (hy : getIfdTableFromIfdTableArray (a.map refreshIfd) k = some y) : TagsLive y.tags := by
  rw [getIfd_map_refresh] at hy
  cases hx : getIfdTableFromIfdTableArray a k with
  | none => simp [hx] at hy
  | some x =>
    simp only [hx, Option.map_some', Option.some.injEq] at hy
    subst hy
    exact liveTags_live _

theorem fixEnd_live (a : List IfdTable) (z : IfdTable)
    (hz : getIfdTableFromIfdTableArray (a.map refreshIfd) IFD_0TH = some z) :
    StateAll (fun x => TagsLive x.tags) (fixEnd (a.map refreshIfd) z) :=
  fixEnd_all _ passClosed_live _ z (getIfd_refresh_live a _ z hz)
    (fun k x hx => getIfd_refresh_live a k x hx)

theorem getTag_refresh_live (x : IfdTable) (id : Nat) (h : TagsLive x.tags) :
    getTagNodePtrFromIfd (refreshIfd x) id = getTagNodePtrFromIfd x id := by
  unfold getTagNodePtrFromIfd refreshIfd
  simp only [liveTags_of_live _ h]

theorem fixPass_twice (a a2 : List IfdTable) (h : fixPass a = FixPass.again a2) :
    ∃ r, fixPass a2 = FixPass.ret 0 r := by
  rw [fixPass_eq] at h
  cases hz : getIfdTableFromIfdTableArray (a.map refreshIfd) IFD_0TH with
  | none => simp [hz] at h
  | some z =>
    simp only [hz] at h
    have ha2 : a2 = writeBack (a.map refreshIfd) (fixEnd (a.map refreshIfd) z) := by
      split at h
      · simp only [FixPass.again.injEq] at h
        exact h.symm
      · simp at h
    have hw := writeBack_get _ _ (fixEnd_fits _ z hz) (by simp [hz])
    rw [← ha2] at hw
    obtain ⟨w0, w1, w2, w3, w4⟩ := hw
    obtain ⟨l0, l1, l2, l3, l4⟩ := fixEnd_live a z hz
    obtain ⟨c1, c2, c3, c4⟩ := fixEnd_complete (a.map refreshIfd) z
    have hm := fun k => getIfd_map_refresh a2 k
    have hz2 : getIfdTableFromIfdTableArray (a2.map refreshIfd) IFD_0TH =
        some (refreshIfd (fixEnd (a.map refreshIfd) z).ifd0th) := by
      rw [hm, w0]; rfl
    have hcomp : (fixStart (a2.map refreshIfd)
        (refreshIfd (fixEnd (a.map refreshIfd) z).ifd0th)).Complete := by
      have g0 : ∀ id, getTagNodePtrFromIfd (fixStart (a2.map refreshIfd)
          (refreshIfd (fixEnd (a.map refreshIfd) z).ifd0th)).ifd0th id =
          getTagNodePtrFromIfd (fixEnd (a.map refreshIfd) z).ifd0th id := by
        intro id
        exact getTag_refresh_live _ id l0
      refine ⟨?_, ?_, ?_, ?_⟩
      · intro f hf hp hl
        simp only [fixStart, hm, w4] at hf
        cases h4 : (fixEnd (a.map refreshIfd) z).ifd1st with
        | none => simp [h4] at hf
        | some f3 =>
          simp only [h4, Option.map_some', Option.some.injEq] at hf
          subst hf
          rw [getTag_refresh_live _ _ (l4 f3 h4)] at hl ⊢
          exact c1 f3 h4 hp hl
      · intro he
        rw [g0]
        apply c2
        simpa [fixStart, hm, w1] using he
      · intro e he hio
        simp only [fixStart, hm, w1] at he
        simp only [fixStart, hm, w2, Option.isSome_map'] at hio
        cases h1 : (fixEnd (a.map refreshIfd) z).ifdExif with
        | none => simp [h1] at he
        | some e3 =>
          simp only [h1, Option.map_some', Option.some.injEq] at he
          subst he
          rw [getTag_refresh_live _ _ (l1 e3 h1)]
          exact c3 e3 h1 hio
      · intro hg
        rw [g0]
        apply c4
        simpa [fixStart, hm, w3] using hg
    have hag := fixEnd_again_of _ _ hcomp
    refine ⟨writeBack (a2.map refreshIfd) (fixEnd (a2.map refreshIfd)
      (refreshIfd (fixEnd (a.map refreshIfd) z).ifd0th)), ?_⟩
    rw [fixPass_eq, hz2]
    simp only [hag, Bool.false_eq_true, if_false]

theorem fixLoop_total (n : Nat) (arr : List IfdTable) :
    ∃ r, fixLengthAndOffsetInIfdTables (n + 2) arr = some (0, r) ∧
      ∀ m, fixLengthAndOffsetInIfdTables (m + 2) arr = some (0, r) := by
  unfold fixLengthAndOffsetInIfdTables
  cases hp : fixPass arr with
  | ret sts r =>
    have h0 := fixPass_sts arr r sts hp
    subst h0
    exact ⟨r, by simp [fixLoop, hp], fun m => by simp [fixLoop, hp]⟩
  | again a2 =>
    obtain ⟨r, hr⟩ := fixPass_twice arr a2 hp
    exact ⟨r, by simp [fixLoop, hp, hr], fun m => by simp [fixLoop, hp, hr]⟩

theorem packTag_length (sysLE : Bool) (hdr : APP1_HEADER) (t : TagNode) (ofs : Nat) :
    (packTag sysLE hdr t ofs).1.length = 4 := by
  have e2 := flatMap_length_const (List.range 2)
    (fun i => if i < t.count then mem16 sysLE (fix_short sysLE hdr (t.num i % 65536))
              else [0, 0]) 2
    (fun i => by simp only; split <;> simp [mem16_length])
  unfold packTag
  split_ifs
  all_goals first
    | rfl
    | simp only [List.length_map, List.length_range, mem32_length, e2]

theorem tagFieldBytes_length (sysLE : Bool) (hdr : APP1_HEADER) (t : TagNode) (ofs : Nat) :
    (tagFieldBytes sysLE hdr t ofs).length = 12 := by
  unfold tagFieldBytes
  simp only [List.length_append, mem16_length, mem32_length, packTag_length]

theorem writeTagFields_length (sysLE : Bool) (hdr : APP1_HEADER) (tags : List TagNode)
    (ofs : Nat) :
    (writeTagFields sysLE hdr tags ofs).1.length = 12 * (liveTags tags).length := by
  induction tags generalizing ofs with
  | nil => rfl
  | cons t ts ih =>
    unfold writeTagFields
    by_cases he : t.error = 0
    · have hl : liveTags (t :: ts) = t :: liveTags ts := by simp [liveTags, he]
      simp only [he, ne_eq, not_true_eq_false, if_false, List.length_append,
        tagFieldBytes_length, ih, hl, List.length_cons]
      omega
    · have hl : liveTags (t :: ts) = liveTags ts := by simp [liveTags, he]
      simp only [he, ne_eq, not_false_eq_true, if_true, ih, hl]

theorem writeTagValues_length (sysLE : Bool) (hdr : APP1_HEADER) (tags : List TagNode) :
    (writeTagValues sysLE hdr tags).length = ((liveTags tags).map tagValueSize).sum := by
  unfold writeTagValues
  induction liveTags tags with
  | nil => rfl
  | cons t ts ih =>
    simp only [List.flatMap_cons, List.length_append, tagValueBytes_length, ih, List.map_cons,
      List.sum_cons]

theorem writeIfd_length (sysLE : Bool) (hdr : APP1_HEADER) (x : IfdTable) (ofs : Nat) :
    (writeIfd sysLE hdr x ofs).1.length = ifdEmitSize x := by
  unfold writeIfd ifdEmitSize
  simp only [List.length_append, mem16_length, mem32_length, writeTagFields_length,
    writeTagValues_length]

theorem writeIfds_length (sysLE : Bool) (hdr : APP1_HEADER) (xs : List IfdTable) (ofs : Nat) :
    (writeIfds sysLE hdr xs ofs).length = (xs.map ifdEmitSize).sum := by
  induction xs generalizing ofs with
  | nil => rfl
  | cons x xs ih =>
    unfold writeIfds
    simp only [List.length_append, writeIfd_length, ih, List.map_cons, List.sum_cons]

theorem writeIfds_append_last (sysLE : Bool) (hdr : APP1_HEADER) (xs : List IfdTable)
    (f : IfdTable) (ofs : Nat) :
    ∃ ofs2, writeIfds sysLE hdr (xs ++ [f]) ofs =
      writeIfds sysLE hdr xs ofs ++ (writeIfd sysLE hdr f ofs2).1 := by
  induction xs generalizing ofs with
  | nil => exact ⟨ofs, by simp [writeIfds]⟩
  | cons x xs ih =>
    obtain ⟨ofs2, h⟩ := ih (writeIfd sysLE hdr x ofs).2
    refine ⟨ofs2, ?_⟩
    show writeIfds sysLE hdr (x :: (xs ++ [f])) ofs = _
    rw [writeIfds, h, writeIfds, List.append_assoc]

theorem app1HeaderBytes_length (sysLE : Bool) (hdr : APP1_HEADER) (ifds : List IfdTable) :
    (app1HeaderBytes sysLE hdr ifds).length = 18 := by
  unfold app1HeaderBytes
  simp only [List.length_append, mem16_length, mem32_length, copyCells_length]

theorem ifdEmitSize_of_kind (x : IfdTable) (h : x.ifdType ≠ IFD_1ST) :
    ifdEmitSize x = ifdSizeExact x := by
  unfold ifdEmitSize ifdSizeExact thumbnailBytes thumbnailSize
  simp [h]

theorem putIfd_append_none (arr : List IfdTable) (k : IFD_TYPE) (c new : IfdTable)
    (h : getIfdTableFromIfdTableArray arr k = none) (hc : c.ifdType = k) :
    putIfd (arr ++ [c]) k new = arr ++ [new] := by
  unfold getIfdTableFromIfdTableArray at h
  induction arr with
  | nil => simp [putIfd, hc]
  | cons x xs ih =>
    simp only [List.find?_cons] at h
    cases hx : (x.ifdType == k) with
    | true => simp [hx] at h
    | false =>
      simp only [hx] at h
      have h2 := ih h
      show putIfd (x :: (xs ++ [c])) k new = x :: (xs ++ [new])
      rw [putIfd, hx, ← h2]
      rfl

theorem getIfd_append_none (arr : List IfdTable) (k : IFD_TYPE) (c : IfdTable)
    (h : getIfdTableFromIfdTableArray arr k = none) :
    getIfdTableFromIfdTableArray (arr ++ [c]) k = if c.ifdType = k then some c else none := by
  unfold getIfdTableFromIfdTableArray at h ⊢
  simp only [List.find?_append, h, Option.none_or, List.find?_cons, List.find?_nil]
  by_cases hc : c.ifdType = k
  · simp [hc]
  · have : (c.ifdType == k) = false := by simpa using hc
    simp [hc, this]

theorem getIfd_append_other (arr : List IfdTable) (k : IFD_TYPE) (c : IfdTable)
    (hc : c.ifdType ≠ k) :
    getIfdTableFromIfdTableArray (arr ++ [c]) k = getIfdTableFromIfdTableArray arr k := by
  unfold getIfdTableFromIfdTableArray
  have : (c.ifdType == k) = false := by simpa using hc
  simp [List.find?_append, List.find?_cons, this]

theorem copyCells_one (x : Nat) : copyCells 1 [x] = [x] := rfl

theorem setThumbnailOnIfd_fresh (b : List Nat) :
    setThumbnailOnIfd (createIfdTable IFD_1ST 0 0) b b.length =
      { createIfdTable IFD_1ST 0 0 with tags := thumbTags b.length 0, p := some b } := by
  simp [setThumbnailOnIfd, createIfdTable, getTagNodePtrFromIfd, addTagNodeToIfd, newTagNode,
    copyCells_self, copyCells_one, thumbTags, TYPE_LONG, TYPE_RATIONAL, TYPE_SRATIONAL,
    TAG_JPEGInterchangeFormat, TAG_JPEGInterchangeFormatLength]

theorem setThumbnail_fresh (arr : List IfdTable) (b : List Nat) (hb : 0 < b.length)
    (h1 : getIfdTableFromIfdTableArray arr IFD_1ST = none) :
    setThumbnailDataOnIfdTableArray arr (some b) b.length =
      (0, arr ++ [{ createIfdTable IFD_1ST 0 0 with
                    tags := thumbTags b.length 0, p := some b }]) := by
  have hb0 : ¬ b.length ≤ 0 := by omega
  unfold setThumbnailDataOnIfdTableArray
  simp only [hb0, if_false, h1]
  rw [getIfd_append_none _ _ _ h1]
  simp only [createIfdTable, if_true]
  rw [putIfd_append_none _ _ _ _ h1 rfl]
  have := setThumbnailOnIfd_fresh b
  simp only [createIfdTable] at this
  rw [this]

theorem getTag_thumb_length (f : IfdTable) (len v : Nat) (h : f.tags = thumbTags len v) :
    getTagNodePtrFromIfd f TAG_JPEGInterchangeFormatLength =
      some { tagId := TAG_JPEGInterchangeFormatLength, type := TYPE_LONG, count := 1,
             numData := some [len], byteData := none, error := 0 } := by
  simp [getTagNodePtrFromIfd, h, thumbTags]

theorem getTag_thumb_format (f : IfdTable) (len v : Nat) (h : f.tags = thumbTags len v) :
    getTagNodePtrFromIfd f TAG_JPEGInterchangeFormat =
      some { tagId := TAG_JPEGInterchangeFormat, type := TYPE_LONG, count := 1,
             numData := some [v], byteData := none, error := 0 } := by
  simp [getTagNodePtrFromIfd, h, thumbTags, TAG_JPEGInterchangeFormat,
    TAG_JPEGInterchangeFormatLength]

theorem setTagValue_thumb (f : IfdTable) (len v w : Nat) (h : f.tags = thumbTags len v) :
    (setTagValue f TAG_JPEGInterchangeFormat w).tags = thumbTags len w := by
  simp [setTagValue, h, thumbTags, modifyTag, setSingleNumDataToTag, TYPE_LONG, TYPE_BYTE,
    TYPE_SHORT, TYPE_SBYTE, TYPE_SSHORT, TYPE_SLONG, TAG_JPEGInterchangeFormat,
    TAG_JPEGInterchangeFormatLength]

theorem fix1st_thumb (s : FixState) (f0 : IfdTable) (b : List Nat) (v : Nat)
    (h1 : s.ifd1st = some f0) (hp : f0.p = some b) (ht : f0.tags = thumbTags b.length v) :
    (fix1st s).ifd1st =
      some (setTagValue { f0 with offset := nextOffset s % 65536 } TAG_JPEGInterchangeFormat
        ((nextOffset s % 65536 + f0.length + (4294967296 - b.length % 4294967296))
          % 4294967296)) ∧
    (fix1st s).again = s.again := by
  obtain ⟨ty, tc, tags, nx, off, len, p⟩ := f0
  simp only at hp ht
  subst hp
  subst ht
  simp [fix1st, h1, getTagNodePtrFromIfd, thumbTags, nextOffset, TagNode.num,
    TAG_JPEGInterchangeFormat, TAG_JPEGInterchangeFormatLength]

theorem thumbTags_live (len v : Nat) : liveTags (thumbTags len v) = thumbTags len v := by
  simp [liveTags, thumbTags]

theorem fix1st_lens (s : FixState) : (fix1st s).lens = s.lens := by
  unfold fix1st FixState.lens
  cases s.ifd1st with
  | none => rfl
  | some f => simp only; split <;> (try split) <;> (try split) <;> rfl

theorem fixIo_lens (s : FixState) (e : IfdTable) (hs : s.ifdExif = some e) :
    (fixIo s e).lens = s.lens := by
  unfold fixIo FixState.lens
  cases hio : s.ifdIo <;> cases ht : getTagNodePtrFromIfd e TAG_InteroperabilityIFDPointer <;>
    simp [hs, hio, lengthOr0, setTagValue, addDummyTag, addTagNodeToIfd]

theorem fixExif_lens (s : FixState) : (fixExif s).lens = s.lens := by
  cases hx : s.ifdExif with
  | none =>
    cases ht : getTagNodePtrFromIfd s.ifd0th TAG_ExifIFDPointer with
    | none => rw [fixExif_none_none s hx ht]
    | some tag => rw [fixExif_none_some s tag hx ht]; simp [FixState.lens, setTagValue]
  | some e0 =>
    cases ht : getTagNodePtrFromIfd s.ifd0th TAG_ExifIFDPointer with
    | none =>
      rw [fixExif_some_none s e0 hx ht, fixIo_lens _ _ (by simpa using hx)]
      simp [FixState.lens, addDummyTag, addTagNodeToIfd]
    | some tag =>
      rw [fixExif_some_some s e0 tag hx ht, fixIo_lens _ _ rfl]
      simp [FixState.lens, setTagValue, hx, lengthOr0]

theorem fixGps_lens (s : FixState) : (fixGps s).lens = s.lens := by
  unfold fixGps FixState.lens
  cases hg : s.ifdGps <;> cases ht : getTagNodePtrFromIfd s.ifd0th TAG_GPSInfoIFDPointer <;>
    simp [hg, lengthOr0, setTagValue, addDummyTag, addTagNodeToIfd]

theorem fixEnd_lens (arr : List IfdTable) (z : IfdTable) :
    (fixEnd arr z).lens = (fixStart arr z).lens := by
  unfold fixEnd
  rw [fixGps_lens, fixExif_lens, fix1st_lens]

theorem nextOffset_eq_lens (s t : FixState) (h : s.lens = t.lens) :
    nextOffset s = nextOffset t := by
  unfold FixState.lens at h
  simp only [Prod.mk.injEq] at h
  unfold nextOffset
  rw [h.1, h.2.1, h.2.2.1, h.2.2.2]

theorem fixEnd_first (a : List IfdTable) (z1 f : IfdTable) (b : List Nat) (v : Nat)
    (hf : getIfdTableFromIfdTableArray a IFD_1ST = some f) (hp : f.p = some b)
    (ht : f.tags = thumbTags b.length v) :
    (fixEnd (a.map refreshIfd) z1).ifd1st =
      some (setTagValue
        { refreshIfd f with offset := nextOffset (fixEnd (a.map refreshIfd) z1) % 65536 }
        TAG_JPEGInterchangeFormat
        ((nextOffset (fixEnd (a.map refreshIfd) z1) % 65536 + (refreshIfd f).length +
            (4294967296 - b.length % 4294967296)) % 4294967296)) := by
  have h1 : (fixStart (a.map refreshIfd) z1).ifd1st = some (refreshIfd f) := by
    simp only [fixStart, getIfd_map_refresh, hf, Option.map_some']
  have ht2 : (refreshIfd f).tags = thumbTags b.length v := by
    simp only [refreshIfd, ht, thumbTags_live]
  have := (fix1st_thumb _ (refreshIfd f) b v h1 hp ht2).1
  rw [nextOffset_eq_lens _ _ (fixEnd_lens _ _)]
  unfold fixEnd
  rw [fixGps_ifd1st, fixExif_ifd1st]
  exact this

theorem fixPass_thumb (a : List IfdTable) (b : List Nat) (h : ThumbInv b a) :
    ThumbInv b (fixPass a).arr := by
  obtain ⟨f, v, hf, hp, ht⟩ := h
  rw [fixPass_eq]
  cases hz : getIfdTableFromIfdTableArray (a.map refreshIfd) IFD_0TH with
  | none =>
    simp only [FixPass.arr]
    refine ⟨refreshIfd f, v, ?_, hp, ?_⟩
    · rw [getIfd_map_refresh, hf]; rfl
    · simp only [refreshIfd, ht, thumbTags_live]
  | some z =>
    have harr : (if (fixEnd (a.map refreshIfd) z).again
        then FixPass.again (writeBack (a.map refreshIfd) (fixEnd (a.map refreshIfd) z))
        else FixPass.ret 0 (writeBack (a.map refreshIfd) (fixEnd (a.map refreshIfd) z))).arr =
        writeBack (a.map refreshIfd) (fixEnd (a.map refreshIfd) z) := by
      split <;> rfl
    simp only [harr]
    have hget := writeBack_get _ _ (fixEnd_fits _ z hz) (by simp [hz])
    have h1 := fixEnd_first a z f b v hf hp ht
    have h2 := hget.2.2.2.2
    rw [h1] at h2
    have h3 := setTagValue_thumb
      { refreshIfd f with offset := nextOffset (fixEnd (a.map refreshIfd) z) % 65536 }
      b.length v
      ((nextOffset (fixEnd (a.map refreshIfd) z) % 65536 + (refreshIfd f).length +
            (4294967296 - b.length % 4294967296)) % 4294967296)
      (by simp only [refreshIfd, ht, thumbTags_live])
    exact ⟨_, _, h2, by simpa [setTagValue, refreshIfd] using hp, h3⟩

theorem fixLoop_final_inv (P : List IfdTable → Prop)
    (hpass : ∀ a, P a → P (fixPass a).arr) (fuel : Nat) (arr : List IfdTable) (sts : Int)
    (r : List IfdTable) (h0 : P arr)
    (h : fixLengthAndOffsetInIfdTables fuel arr = some (sts, r)) :
    ∃ a, P a ∧ fixPass a = FixPass.ret sts r := by
  unfold fixLengthAndOffsetInIfdTables at h
  induction fuel generalizing arr with
  | zero => simp [fixLoop] at h
  | succ n ih =>
    unfold fixLoop at h
    cases hp : fixPass arr with
    | ret s a =>
      simp only [hp, Option.some.injEq, Prod.mk.injEq] at h
      refine ⟨arr, h0, ?_⟩
      rw [hp, h.1, h.2]
    | again a =>
      simp only [hp] at h
      have := hpass arr h0
      rw [hp] at this
      exact ih a this h

theorem ifdsToWrite_of (r : List IfdTable) (z F : IfdTable) (oe oi og : Option IfdTable)
    (h0 : getIfdTableFromIfdTableArray r IFD_0TH = some z)
    (he : getIfdTableFromIfdTableArray r IFD_EXIF = oe)
    (hi : getIfdTableFromIfdTableArray r IFD_IO = oi)
    (hg : getIfdTableFromIfdTableArray r IFD_GPS = og)
    (hf : getIfdTableFromIfdTableArray r IFD_1ST = some F) :
    ifdsToWrite r = (z :: (oe.toList ++ oi.toList ++ og.toList)) ++ [F] := by
  unfold ifdsToWrite
  subst he hi hg
  cases he : getIfdTableFromIfdTableArray r IFD_EXIF <;>
    cases hi : getIfdTableFromIfdTableArray r IFD_IO <;>
    cases hg : getIfdTableFromIfdTableArray r IFD_GPS <;>
    simp [List.filterMap, h0, he, hi, hg, hf]

theorem thumb_sizeExact (F : IfdTable) (len v : Nat) (b : List Nat)
    (ht : F.tags = thumbTags len v) (hk : F.ifdType = IFD_1ST) (hp : F.p = some b) :
    ifdSizeExact F = 30 + len := by
  have hl := getTag_thumb_length F len v ht
  have hlive : (liveTags F.tags).length = 2 := by rw [ht, thumbTags_live]; rfl
  have hvals : ((liveTags F.tags).map tagValueSize).sum = 0 := by
    rw [ht, thumbTags_live]
    simp [thumbTags, tagValueSize, TYPE_LONG, TYPE_ASCII, TYPE_UNDEFINED, TYPE_BYTE, TYPE_SBYTE,
      TYPE_SHORT, TYPE_SSHORT, TYPE_SLONG]
  unfold ifdSizeExact thumbnailSize
  rw [hl, hlive, hvals]
  simp [hk, hp, TagNode.num]

theorem thumb_bytes (F : IfdTable) (v : Nat) (b : List Nat) (hb : 0 < b.length)
    (ht : F.tags = thumbTags b.length v) (hk : F.ifdType = IFD_1ST) (hp : F.p = some b) :
    thumbnailBytes F = b := by
  have hl := getTag_thumb_length F b.length v ht
  unfold thumbnailBytes
  rw [hl]
  simp [hk, hp, TagNode.num, hb, copyCells_self]

theorem ifdsToWrite_sum (r : List IfdTable) (z F : IfdTable) (oe oi og : Option IfdTable)
    (h0 : getIfdTableFromIfdTableArray r IFD_0TH = some z)
    (he : getIfdTableFromIfdTableArray r IFD_EXIF = oe)
    (hi : getIfdTableFromIfdTableArray r IFD_IO = oi)
    (hg : getIfdTableFromIfdTableArray r IFD_GPS = og)
    (hf : getIfdTableFromIfdTableArray r IFD_1ST = some F) :
    ((ifdsToWrite r).map ifdSizeExact).sum =
      ifdSizeExact z + sizeOr0 oe + sizeOr0 oi + sizeOr0 og + ifdSizeExact F := by
  rw [ifdsToWrite_of r z F oe oi og h0 he hi hg hf]
  cases oe <;> cases oi <;> cases og <;> simp [sizeOr0] <;> omega

theorem writer_thumb_layout (sysLE : Bool) (hdr : APP1_HEADER) (r : List IfdTable)
    (z F : IfdTable) (oe oi og : Option IfdTable) (b : List Nat) (v : Nat)
    (h0 : getIfdTableFromIfdTableArray r IFD_0TH = some z)
    (he : getIfdTableFromIfdTableArray r IFD_EXIF = oe)
    (hi : getIfdTableFromIfdTableArray r IFD_IO = oi)
    (hg : getIfdTableFromIfdTableArray r IFD_GPS = og)
    (hf : getIfdTableFromIfdTableArray r IFD_1ST = some F)
    (hb : 0 < b.length) (ht : F.tags = thumbTags b.length v) (hp : F.p = some b) :
    ∃ pre, (writeExifSegment sysLE hdr r).2 = pre ++ b ∧
      pre.length = 18 + (ifdSizeExact z + sizeOr0 oe + sizeOr0 oi + sizeOr0 og) + 30 := by
  have hk := getIfd_ifdType r _ F hf
  have hlist := ifdsToWrite_of r z F oe oi og h0 he hi hg hf
  obtain ⟨ofs2, hw⟩ := writeIfds_append_last sysLE hdr
    (z :: (oe.toList ++ oi.toList ++ og.toList)) F 8
  have hkinds : ∀ x ∈ (z :: (oe.toList ++ oi.toList ++ og.toList)), x.ifdType ≠ IFD_1ST := by
    intro x hx
    simp only [List.mem_cons, List.mem_append, Option.mem_toList, Option.mem_def] at hx
    rcases hx with hx | (hx | hx) | hx
    · rw [hx, getIfd_ifdType r _ z h0]; decide
    · rw [getIfd_ifdType r IFD_EXIF x (by rw [he, hx])]; decide
    · rw [getIfd_ifdType r IFD_IO x (by rw [hi, hx])]; decide
    · rw [getIfd_ifdType r IFD_GPS x (by rw [hg, hx])]; decide
  have hsum : ((z :: (oe.toList ++ oi.toList ++ og.toList)).map ifdEmitSize).sum =
      ifdSizeExact z + sizeOr0 oe + sizeOr0 oi + sizeOr0 og := by
    have hmap : (z :: (oe.toList ++ oi.toList ++ og.toList)).map ifdEmitSize =
        (z :: (oe.toList ++ oi.toList ++ og.toList)).map ifdSizeExact :=
      List.map_congr_left (fun x hx => ifdEmitSize_of_kind x (hkinds x hx))
    rw [hmap]
    cases oe <;> cases oi <;> cases og <;> simp [sizeOr0] <;> omega
  have hlive : (liveTags F.tags).length = 2 := by rw [ht, thumbTags_live]; rfl
  have hvals : ((liveTags F.tags).map tagValueSize).sum = 0 := by
    rw [ht, thumbTags_live]
    simp [thumbTags, tagValueSize, TYPE_LONG, TYPE_ASCII, TYPE_UNDEFINED, TYPE_BYTE, TYPE_SBYTE,
      TYPE_SHORT, TYPE_SSHORT, TYPE_SLONG]
  refine ⟨app1HeaderBytes sysLE hdr (ifdsToWrite r) ++
      writeIfds sysLE hdr (z :: (oe.toList ++ oi.toList ++ og.toList)) 8 ++
      (mem16 sysLE (fix_short sysLE hdr ((liveTags F.tags).length % 65536)) ++
        (writeTagFields sysLE hdr F.tags (valueAreaStart F ofs2)).1 ++
        mem32 sysLE (fix_int sysLE hdr F.nextIfdOffset) ++
        writeTagValues sysLE hdr F.tags), ?_, ?_⟩
  · unfold writeExifSegment
    rw [h0]
    simp only
    rw [hlist, hw]
    unfold writeIfd
    simp only [thumb_bytes F v b hb ht hk hp, List.append_assoc]
  · simp only [List.length_append, app1HeaderBytes_length, writeIfds_length, hsum, mem16_length,
      mem32_length, writeTagFields_length, writeTagValues_length, hlive, hvals]

theorem lengthOr0_exact (o : Option IfdTable) (h : ∀ x, o = some x → IfdExact x)
    (hs : sizeOr0 o < 65536) : lengthOr0 o = sizeOr0 o := by
  cases o with
  | none => rfl
  | some x =>
    have := h x rfl
    unfold IfdExact calcIfdSize at this
    simp only [lengthOr0, sizeOr0] at hs ⊢
    rw [this, Nat.mod_eq_of_lt hs]

theorem getIfd_append_same (arr : List IfdTable) (k : IFD_TYPE) (c : IfdTable)
    (h : getIfdTableFromIfdTableArray arr k = none) (hc : c.ifdType = k) :
    getIfdTableFromIfdTableArray (arr ++ [c]) k = some c := by
  rw [getIfd_append_none arr k c h, if_pos hc]

theorem graphWf_setThumbnail (arr : List IfdTable) (b : List Nat) (hb : 0 < b.length)
    (h1 : getIfdTableFromIfdTableArray arr IFD_1ST = none) (hwf : GraphWf arr) :
    GraphWf (setThumbnailDataOnIfdTableArray arr (some b) b.length).2 := by
  rw [setThumbnail_fresh arr b hb h1]
  intro k x hx
  simp only at hx
  by_cases hk : k = IFD_1ST
  · subst hk
    rw [getIfd_append_same _ _ _ h1 rfl] at hx
    simp only [Option.some.injEq] at hx
    subst hx
    intro t ht _ _ _
    simp only [thumbTags, List.mem_cons, List.mem_singleton, List.mem_nil_iff, or_false] at ht
    rcases ht with ht | ht <;> rw [ht]
  · rw [getIfd_append_other _ _ _ (by simpa [createIfdTable] using fun h => hk h.symm)] at hx
    exact hwf k x hx

theorem thumbInv_setThumbnail (arr : List IfdTable) (b : List Nat) (hb : 0 < b.length)
    (h1 : getIfdTableFromIfdTableArray arr IFD_1ST = none) :
    ThumbInv b (setThumbnailDataOnIfdTableArray arr (some b) b.length).2 := by
  rw [setThumbnail_fresh arr b hb h1]
  exact ⟨_, 0, getIfd_append_same _ _ _ h1 rfl, rfl, rfl⟩

theorem zeroth_setThumbnail (arr : List IfdTable) (b : List Nat) (hb : 0 < b.length)
    (h1 : getIfdTableFromIfdTableArray arr IFD_1ST = none)
    (h0 : (getIfdTableFromIfdTableArray arr IFD_0TH).isSome) :
    (getIfdTableFromIfdTableArray
      (setThumbnailDataOnIfdTableArray arr (some b) b.length).2 IFD_0TH).isSome := by
  rw [setThumbnail_fresh arr b hb h1]
  simp only
  rw [getIfd_append_other _ _ _ (by simp [createIfdTable])]
  exact h0

theorem fixPass_thumb_final (sysLE : Bool) (hdr : APP1_HEADER) (a r : List IfdTable)
    (b : List Nat) (sts : Int) (hwf : GraphWf a) (hinv : ThumbInv b a) (hb : 0 < b.length)
    (h0 : (getIfdTableFromIfdTableArray a IFD_0TH).isSome)
    (hp : fixPass a = FixPass.ret sts r) :
    ∃ first tl tf,
      getIfdTableFromIfdTableArray r IFD_1ST = some first ∧
      getTagNodePtrFromIfd first TAG_JPEGInterchangeFormatLength = some tl ∧
      tl.num 0 = b.length ∧
      getTagNodePtrFromIfd first TAG_JPEGInterchangeFormat = some tf ∧
      (8 + ((ifdsToWrite r).map ifdSizeExact).sum < 65536 →
        b.length ≤ first.offset + first.length ∧
        tf.num 0 = first.offset + first.length - b.length ∧
        ∃ pre, (writeExifSegment sysLE hdr r).2 = pre ++ b ∧
          pre.length = 10 + tf.num 0) := by
  obtain ⟨f, v, hf, hpf, ht⟩ := hinv
  have hr0 : (getIfdTableFromIfdTableArray r IFD_0TH).isSome := by
    have := fixPass_presence a IFD_0TH
    rw [hp] at this
    simpa [FixPass.arr, h0] using this
  obtain ⟨z, hz⟩ := Option.isSome_iff_exists.mp hr0
  obtain ⟨z1, hz1, hag, hr⟩ := fixPass_ret_0th a r sts z hp hz
  have hget := writeBack_get _ _ (fixEnd_fits _ z1 hz1) (by simp [hz1])
  rw [← hr] at hget
  obtain ⟨hw, hx⟩ := fixEnd_wf a hwf z1 hz1
  have hex := hx hag
  have h1 := fixEnd_first a z1 f b v hf hpf ht
  generalize hs3 : fixEnd (a.map refreshIfd) z1 = s3 at hget hw hex h1
  generalize hval : (nextOffset s3 % 65536 + (refreshIfd f).length +
    (4294967296 - b.length % 4294967296)) % 4294967296 = val at h1
  generalize hF : setTagValue { refreshIfd f with offset := nextOffset s3 % 65536 }
    TAG_JPEGInterchangeFormat val = F at h1
  have hFt : F.tags = thumbTags b.length val := by
    rw [← hF]
    exact setTagValue_thumb _ _ v _ (by simp only [refreshIfd, ht, thumbTags_live])
  have hFp : F.p = some b := by rw [← hF]; simpa [setTagValue, refreshIfd] using hpf
  have hFo : F.offset = nextOffset s3 % 65536 := by rw [← hF]; simp [setTagValue]
  have hFl : F.length = (refreshIfd f).length := by rw [← hF]; simp [setTagValue]
  have hFk : F.ifdType = IFD_1ST := (hw.2.2.2.2 F h1).2
  have hr1 : getIfdTableFromIfdTableArray r IFD_1ST = some F := by rw [hget.2.2.2.2]; exact h1
  refine ⟨F, _, _, hr1, getTag_thumb_length F _ _ hFt, by simp [TagNode.num],
    getTag_thumb_format F _ _ hFt, ?_⟩
  intro hfit
  rw [ifdsToWrite_sum r s3.ifd0th F s3.ifdExif s3.ifdIo s3.ifdGps hget.1 hget.2.1 hget.2.2.1
    hget.2.2.2.1 hr1, thumb_sizeExact F b.length val b hFt hFk hFp] at hfit
  have e0 : s3.ifd0th.length = ifdSizeExact s3.ifd0th := by
    have := hex.1
    unfold IfdExact calcIfdSize at this
    rw [this, Nat.mod_eq_of_lt (by omega)]
  have ee := lengthOr0_exact s3.ifdExif hex.2.1 (by omega)
  have ei := lengthOr0_exact s3.ifdIo hex.2.2.1 (by omega)
  have eg := lengthOr0_exact s3.ifdGps hex.2.2.2.1 (by omega)
  have ef : F.length = 30 + b.length := by
    have := hex.2.2.2.2 F h1
    unfold IfdExact calcIfdSize at this
    rw [this, thumb_sizeExact F b.length val b hFt hFk hFp, Nat.mod_eq_of_lt (by omega)]
  have hnx : nextOffset s3 = 8 + ifdSizeExact s3.ifd0th + sizeOr0 s3.ifdExif +
      sizeOr0 s3.ifdIo + sizeOr0 s3.ifdGps := by
    unfold nextOffset
    rw [e0, ee, ei, eg]
  have hv : val = nextOffset s3 + 30 := by
    rw [← hval, ← hFl, ef]
    omega
  have hnum : TagNode.num ⟨TAG_JPEGInterchangeFormat, TYPE_LONG, 1, some [val], none, 0⟩ 0 =
      val := rfl
  rw [hnum]
  refine ⟨by omega, by rw [hFo, ef, hv]; omega, ?_⟩
  obtain ⟨pre, hpre, hlen⟩ := writer_thumb_layout sysLE hdr r s3.ifd0th F s3.ifdExif s3.ifdIo
    s3.ifdGps b val hget.1 hget.2.1 hget.2.2.1 hget.2.2.2.1 hr1 hb hFt hFp
  exact ⟨pre, hpre, by rw [hlen, hv, hnx]; omega⟩

theorem sampleIfd0_graphWf : GraphWf [sampleIfd0] := by
  intro k x hx t ht _ hid _
  have hk := getIfd_ifdType _ k x hx
  have hx2 : x = sampleIfd0 := by
    unfold getIfdTableFromIfdTableArray at hx
    have := List.mem_of_find?_eq_some hx
    simpa using this
  subst hx2
  simp only [sampleIfd0, List.mem_cons, List.mem_singleton, List.mem_nil_iff, or_false] at ht
  rw [← hk] at hid
  rcases ht with ht | ht <;> subst ht <;> revert hid <;> decide

theorem readBE16_head (sysLE : Bool) (a b : Nat) (rest : List Nat) (ha : a < 256)
    (hb : b < 256) : readBE16 sysLE (a :: b :: rest) 0 = some (a * 256 + b) := by
  cases sysLE <;> simp [readBE16, fread, val16, swab16] <;> omega

theorem fillChildren_fail (sysLE : Bool) (g : Globals) (file : List Nat)
    (junk : IFD_TYPE → Nat) (z : IfdTable) (h : childParseFails sysLE g file junk z) :
    (fillChildren sysLE g file junk z).1 = ERR_INVALID_IFD := by
  unfold fillChildren
  rcases h with ⟨o, h1, h2⟩ | ⟨o, e, o2, h1, h2, h3, h4⟩ | ⟨o, h1, h2⟩ | ⟨h1, h2⟩
  · simp only [h1, h2]
    repeat' split
    all_goals rfl
  · simp only [h1, h2, h3, h4]
    repeat' split
    all_goals rfl
  · simp only [h1, h2]
    repeat' split
    all_goals rfl
  · simp only [h1, h2, ne_eq, not_false_eq_true, if_true]

theorem fillChildren_holds (sysLE : Bool) (g : Globals) (file : List Nat)
    (junk : IFD_TYPE → Nat) (z : IfdTable) :
    holdsParsedChildren sysLE g file junk z (fillChildren sysLE g file junk z).2 := by
  unfold holdsParsedChildren fillChildren
  refine ⟨?_, ?_, ?_, ?_⟩
  · intro o e h1 h2
    simp only [h1, h2]
    repeat' split
    all_goals simp
  · intro o e o2 i h1 h2 h3 h4
    simp only [h1, h2, h3, h4]
    repeat' split
    all_goals simp
  · intro o x h1 h2
    simp only [h1, h2]
    repeat' split
    all_goals simp
  · intro f h1 h2
    simp only [h1, h2, ne_eq, not_false_eq_true, if_true]
    simp

theorem newTagNode_wellFormed (info : TagNode) (h : infoWellFormed info) :
    newTagNode info.tagId info.type info.count info.numData info.byteData =
      { info with error := 0 } := by
  obtain ⟨hc, hbuf⟩ := h
  have hc0 : 0 < info.count := hc
  obtain ⟨id, ty, cnt, nd0, bd0, er⟩ := info
  simp only at hc0 hbuf ⊢
  rcases hbuf with ⟨nd, h1, h2, h3⟩ | ⟨bd, h1, h2, h3⟩
  · subst h1 h2
    unfold newTagNode
    simp only [hc0, if_true]
    rw [← h3, copyCells_self]
  · subst h1 h2
    unfold newTagNode
    simp only [hc0, if_true]
    rw [← h3, copyCells_self]

theorem duplicateTagNode_wellFormed (info : TagNode) (h : infoWellFormed info) :
    duplicateTagNode info = some info := by
  obtain ⟨hc, hbuf⟩ := h
  have hc0 : ¬ info.count ≤ 0 := by omega
  obtain ⟨id, ty, cnt, nd0, bd0, er⟩ := info
  simp only at hc0 hbuf ⊢
  rcases hbuf with ⟨nd, h1, h2, h3⟩ | ⟨bd, h1, h2, h3⟩
  · subst h1 h2
    unfold duplicateTagNode
    simp only [hc0, if_false]
    rw [← h3, copyCells_self]
  · subst h1 h2
    unfold duplicateTagNode
    simp only [hc0, if_false]
    rw [← h3, copyCells_self]

theorem getTag_append_new (ifd : IfdTable) (node : TagNode)
    (h : getTagNodePtrFromIfd ifd node.tagId = none) (tc : Nat) :
    getTagNodePtrFromIfd { ifd with tags := ifd.tags ++ [node], tagCount := tc }
      node.tagId = some node := by
  unfold getTagNodePtrFromIfd at h ⊢
  simp [List.find?_append, h]

theorem countP_eraseP_tag (tags : List TagNode) (id : Nat) (t : TagNode)
    (h : tags.find? (fun t => t.tagId == id) = some t) :
    (tags.eraseP (fun t => t.tagId == id)).countP (fun t => t.tagId == id) + 1 =
      tags.countP (fun t => t.tagId == id) ∧
    (tags.eraseP (fun t => t.tagId == id)).filter (fun t => !(t.tagId == id)) =
      tags.filter (fun t => !(t.tagId == id)) ∧
    (tags.eraseP (fun t => t.tagId == id)).length + 1 = tags.length := by
  induction tags with
  | nil => simp at h
  | cons x xs ih =>
    by_cases hx : x.tagId = id
    · simp [List.eraseP_cons, hx, List.countP_cons]
    · have hx2 : (x.tagId == id) = false := by simpa using hx
      rw [List.find?_cons, hx2] at h
      obtain ⟨h1, h2, h3⟩ := ih h
      simp only [List.eraseP_cons, hx2, List.countP_cons, List.filter_cons,
        Bool.not_false, if_true, cond_false, List.length_cons, Bool.false_eq_true, if_false]
      refine ⟨by omega, by rw [h2], by omega⟩

theorem decrement_iterate (n tc : Nat) :
    ((fun c => (c + 65535) % 65536)^[n] tc + n) % 65536 = tc % 65536 ∧
    (n ≤ tc → tc < 65536 → (fun c => (c + 65535) % 65536)^[n] tc = tc - n) := by
  induction n generalizing tc with
  | zero => simp
  | succ k ih =>
    rw [Function.iterate_succ_apply]
    obtain ⟨h1, h2⟩ := ih ((tc + 65535) % 65536)
    refine ⟨by omega, ?_⟩
    intro hk ht
    rw [h2 (by omega) (by omega)]
    omega

theorem removeTagLoop_spec (fuel : Nat) (ifd : IfdTable) (id num : Nat)
    (h : ifd.tags.length < fuel) :
    removeTagLoop fuel ifd id num =
      (num + ifd.tags.countP (fun t => t.tagId == id),
       { ifd with tags := ifd.tags.filter (fun t => !(t.tagId == id)),
                  tagCount := (fun c => (c + 65535) % 65536)^[
                    ifd.tags.countP (fun t => t.tagId == id)] ifd.tagCount }) := by
  induction fuel generalizing ifd num with
  | zero => omega
  | succ n ih =>
    unfold removeTagLoop
    cases hf : getTagNodePtrFromIfd ifd id with
    | none =>
      unfold getTagNodePtrFromIfd at hf
      have hall : ∀ t ∈ ifd.tags, ¬ (t.tagId == id) = true := by
        intro t ht
        have := List.find?_eq_none.mp hf t ht
        simpa using this
      have hc : ifd.tags.countP (fun t => t.tagId == id) = 0 := by
        rw [List.countP_eq_zero]
        exact hall
      have hfl : ifd.tags.filter (fun t => !(t.tagId == id)) = ifd.tags := by
        rw [List.filter_eq_self]
        intro t ht
        simpa using hall t ht
      simp only [hc, hfl, Nat.add_zero, Function.iterate_zero, id_eq]
    | some t =>
      unfold getTagNodePtrFromIfd at hf
      obtain ⟨h1, h2, h3⟩ := countP_eraseP_tag ifd.tags id t hf
      simp only
      rw [ih _ _ (by simp only; omega)]
      simp only [h2]
      rw [← h1, Function.iterate_succ_apply]
      congr 1
      omega

theorem removeTagOnIfd_spec (ifd : IfdTable) (id : Nat) :
    removeTagOnIfd ifd id =
      (ifd.tags.countP (fun t => t.tagId == id),
       { ifd with tags := ifd.tags.filter (fun t => !(t.tagId == id)),
                  tagCount := (fun c => (c + 65535) % 65536)^[
                    ifd.tags.countP (fun t => t.tagId == id)] ifd.tagCount }) := by
  unfold removeTagOnIfd
  rw [removeTagLoop_spec _ _ _ _ (by omega)]
  simp

theorem getTag_filter_none (ifd : IfdTable) (id tc : Nat) :
    getTagNodePtrFromIfd
      { ifd with tags := ifd.tags.filter (fun t => !(t.tagId == id)), tagCount := tc } id =
      none := by
  unfold getTagNodePtrFromIfd
  rw [List.find?_eq_none]
  intro t ht
  simp only [List.mem_filter] at ht
  simpa using ht.2

theorem eraseIdx_findIdx (xs : List IfdTable) (p : IfdTable → Bool) (i : Nat)
    (h : xs.findIdx? p = some i) :
    xs.eraseIdx i = xs.eraseP p ∧ (xs.eraseP p).countP p + 1 = xs.countP p ∧
      (xs.eraseP p).filter (fun x => !(p x)) = xs.filter (fun x => !(p x)) ∧
      (xs.eraseP p).length + 1 = xs.length := by
  induction xs generalizing i with
  | nil => simp at h
  | cons x xs ih =>
    rw [List.findIdx?_cons] at h
    by_cases hx : p x = true
    · simp only [hx, if_true, Option.some.injEq] at h
      subst h
      simp [List.eraseP_cons, hx, List.countP_cons]
    · have hx2 : p x = false := by simpa using hx
      simp only [hx2, Bool.false_eq_true, if_false, List.findIdx?_succ,
        Option.map_eq_some'] at h
      obtain ⟨j, hj, rfl⟩ := h
      obtain ⟨h1, h2, h3, h4⟩ := ih j hj
      simp only [List.eraseIdx_cons_succ, List.eraseP_cons, hx2, cond_false, h1,
        List.countP_cons, Bool.false_eq_true, if_false, List.filter_cons, Bool.not_false,
        if_true, List.length_cons, h3]
      refine ⟨trivial, by omega, trivial, by omega⟩

theorem removeIfdLoop_spec (fuel : Nat) (arr : List IfdTable) (k : IFD_TYPE) (ret : Nat)
    (h : arr.length < fuel) :
    removeIfdLoop fuel arr k ret =
      (ret + arr.countP (fun ifd => ifd.ifdType == k),
       arr.filter (fun ifd => !(ifd.ifdType == k))) := by
  induction fuel generalizing arr ret with
  | zero => omega
  | succ n ih =>
    unfold removeIfdLoop
    cases hi : findIfdIndex arr k with
    | none =>
      unfold findIfdIndex at hi
      rw [List.findIdx?_eq_none_iff] at hi
      have hc : arr.countP (fun ifd => ifd.ifdType == k) = 0 := by
        rw [List.countP_eq_zero]
        intro x hx
        simp [hi x hx]
      have hf : arr.filter (fun ifd => !(ifd.ifdType == k)) = arr := by
        rw [List.filter_eq_self]
        intro x hx
        simp [hi x hx]
      simp only [hc, hf, Nat.add_zero]
    | some i =>
      unfold findIfdIndex at hi
      obtain ⟨h1, h2, h3, h4⟩ := eraseIdx_findIdx arr _ i hi
      simp only
      rw [h1, ih _ _ (by omega), h3, ← h2]
      congr 1
      omega

theorem bytes32 (v : Nat) :
    v % 4294967296 =
      v % 256 + 256 * (v / 256 % 256) + 65536 * (v / 65536 % 256) +
        16777216 * (v / 16777216 % 256) := by
  have h1 : v / 65536 = v / 256 / 256 := by rw [Nat.div_div_eq_div_mul]
  have h2 : v / 16777216 = v / 256 / 256 / 256 := by
    rw [Nat.div_div_eq_div_mul, Nat.div_div_eq_div_mul]
  rw [h1, h2]
  omega

theorem val16_mem16 (sysLE : Bool) (v : Nat) (rest : List Nat) :
    val16 sysLE (mem16 sysLE v ++ rest) = v % 65536 := by
  cases sysLE <;> simp [val16, mem16] <;> omega

theorem val32_mem32 (sysLE : Bool) (v : Nat) (rest : List Nat) :
    val32 sysLE (mem32 sysLE v ++ rest) = v % 4294967296 := by
  rw [bytes32]
  cases sysLE <;> simp [val32, mem32]
  omega

theorem swab16_swab16 (v : Nat) (h : v < 65536) : swab16 (swab16 v) = v := by
  have h1 : (v % 256 * 256 + v / 256 % 256) % 256 = v / 256 % 256 := by omega
  have h2 : (v % 256 * 256 + v / 256 % 256) / 256 % 256 = v % 256 := by omega
  unfold swab16
  rw [h1, h2]
  omega

theorem swab16_lt (v : Nat) : swab16 v < 65536 := by
  unfold swab16
  omega

theorem swab32_bytes (a b c d : Nat) (ha : a < 256) (hb : b < 256) (hc : c < 256)
    (hd : d < 256) :
    swab32 (a + 256 * b + 65536 * c + 16777216 * d) =
      d + 256 * c + 65536 * b + 16777216 * a := by
  unfold swab32
  omega

theorem swab32_eq (v : Nat) :
    swab32 v = v / 16777216 % 256 + 256 * (v / 65536 % 256) + 65536 * (v / 256 % 256) +
      16777216 * (v % 256) := by
  unfold swab32
  omega

theorem swab32_swab32 (v : Nat) (h : v < 4294967296) : swab32 (swab32 v) = v := by
  have hv := bytes32 v
  rw [Nat.mod_eq_of_lt h] at hv
  rw [swab32_eq v, swab32_bytes _ _ _ _ (by omega) (by omega) (by omega) (by omega)]
  omega

theorem swab32_lt (v : Nat) : swab32 v < 4294967296 := by
  unfold swab32
  omega

theorem fix_short_roundtrip (sysLE : Bool) (hdr : APP1_HEADER) (v : Nat) (h : v < 65536) :
    fix_short sysLE hdr (fix_short sysLE hdr v % 65536) = v := by
  unfold fix_short
  split
  · rw [Nat.mod_eq_of_lt (swab16_lt v), swab16_swab16 v h]
  · exact Nat.mod_eq_of_lt h

theorem fix_int_roundtrip (sysLE : Bool) (hdr : APP1_HEADER) (v : Nat)
    (h : v < 4294967296) :
    fix_int sysLE hdr (fix_int sysLE hdr v % 4294967296) = v := by
  unfold fix_int
  split
  · rw [Nat.mod_eq_of_lt (swab32_lt v), swab32_swab32 v h]
  · exact Nat.mod_eq_of_lt h

theorem drop_mem16_append (sysLE : Bool) (v : Nat) (rest : List Nat) :
    (mem16 sysLE v ++ rest).drop 2 = rest := by
  cases sysLE <;> simp [mem16]

theorem drop_mem32_append (sysLE : Bool) (v : Nat) (rest : List Nat) :
    (mem32 sysLE v ++ rest).drop 4 = rest := by
  cases sysLE <;> simp [mem32]

theorem tagFieldBytes_drop (sysLE : Bool) (hdr : APP1_HEADER) (tag : TagNode) (ofs : Nat) :
    (tagFieldBytes sysLE hdr tag ofs).drop 2 =
      mem16 sysLE (fix_short sysLE hdr tag.type) ++
        (mem32 sysLE (fix_int sysLE hdr tag.count) ++ (packTag sysLE hdr tag ofs).1) ∧
    (tagFieldBytes sysLE hdr tag ofs).drop 4 =
      mem32 sysLE (fix_int sysLE hdr tag.count) ++ (packTag sysLE hdr tag ofs).1 ∧
    (tagFieldBytes sysLE hdr tag ofs).drop 8 = (packTag sysLE hdr tag ofs).1 := by
  have e2 : ∀ l : List Nat, l.drop 4 = (l.drop 2).drop 2 := fun l => by simp
  have e8 : ∀ l : List Nat, l.drop 8 = (l.drop 4).drop 4 := fun l => by simp
  have h2 : (tagFieldBytes sysLE hdr tag ofs).drop 2 =
      mem16 sysLE (fix_short sysLE hdr tag.type) ++
        (mem32 sysLE (fix_int sysLE hdr tag.count) ++ (packTag sysLE hdr tag ofs).1) := by
    unfold tagFieldBytes
    rw [List.append_assoc, List.append_assoc, drop_mem16_append]
  have h4 : (tagFieldBytes sysLE hdr tag ofs).drop 4 =
      mem32 sysLE (fix_int sysLE hdr tag.count) ++ (packTag sysLE hdr tag ofs).1 := by
    rw [e2, h2, drop_mem16_append]
  refine ⟨h2, h4, ?_⟩
  rw [e8, h4, drop_mem32_append]

theorem readIfdTag_tagFieldBytes (sysLE : Bool) (hdr : APP1_HEADER) (tag : TagNode)
    (ofs : Nat) (hid : tag.tagId < 65536) (hty : tag.type < 65536)
    (hc : tag.count < 4294967296) :
    (readIfdTag sysLE hdr (tagFieldBytes sysLE hdr tag ofs)).tag = tag.tagId ∧
    (readIfdTag sysLE hdr (tagFieldBytes sysLE hdr tag ofs)).type = tag.type ∧
    (readIfdTag sysLE hdr (tagFieldBytes sysLE hdr tag ofs)).count = tag.count := by
  obtain ⟨h2, h4, _⟩ := tagFieldBytes_drop sysLE hdr tag ofs
  unfold readIfdTag
  simp only [h2, h4, val16_mem16, val32_mem32]
  refine ⟨?_, fix_short_roundtrip sysLE hdr _ hty, fix_int_roundtrip sysLE hdr _ hc⟩
  unfold tagFieldBytes
  rw [List.append_assoc, List.append_assoc, val16_mem16]
  exact fix_short_roundtrip sysLE hdr _ hid

theorem take_mem16_append (sysLE : Bool) (v : Nat) (rest : List Nat) :
    (mem16 sysLE v ++ rest).take 2 = mem16 sysLE v := by
  cases sysLE <;> simp [mem16]

theorem mem16_bigEndian (sysLE : Bool) (us : Nat) (h : us < 65536) :
    mem16 sysLE (if sysLE = true then swab16 us else us) = [us / 256, us % 256] := by
  cases sysLE
  · simp only [Bool.false_eq_true, if_false, mem16, List.cons.injEq, and_true]
    omega
  · have h1 : (us % 256 * 256 + us / 256 % 256) % 256 = us / 256 % 256 := by omega
    have h2 : (us % 256 * 256 + us / 256 % 256) / 256 % 256 = us % 256 := by omega
    have h3 : us / 256 % 256 = us / 256 := Nat.mod_eq_of_lt (by omega)
    simp only [if_true, mem16, swab16, h2]
    rw [h1, h3]

theorem tagValueSize_eq_spec (t : TagNode) :
    tagValueSize t = spec_out_of_line_size t.type t.count := by
  unfold tagValueSize spec_out_of_line_size
  simp only [TYPE_ASCII, TYPE_UNDEFINED, TYPE_BYTE, TYPE_SBYTE, TYPE_SHORT, TYPE_SSHORT,
    TYPE_LONG, TYPE_SLONG, TYPE_RATIONAL, TYPE_SRATIONAL]
  split_ifs <;> omega

theorem ifdSizeExact_eq_spec (x : IfdTable) : ifdSizeExact x = spec_ifd_length x := by
  unfold ifdSizeExact spec_ifd_length thumbnailSize liveTags
  have hmap : (x.tags.filter (fun t => t.error == 0)).map tagValueSize =
      (x.tags.filter (fun t => t.error == 0)).map
        (fun t => spec_out_of_line_size t.type t.count) :=
    List.map_congr_left (fun t _ => tagValueSize_eq_spec t)
  rw [hmap]
  by_cases hk : x.ifdType = IFD_1ST
  · cases hp : x.p <;>
      cases ht : getTagNodePtrFromIfd x TAG_JPEGInterchangeFormatLength <;>
      simp [hk, hp, ht]
    all_goals omega
  · simp [hk]

theorem mem_putIfd (arr : List IfdTable) (k : IFD_TYPE) (new y : IfdTable)
    (h : y ∈ putIfd arr k new) : y = new ∨ y ∈ arr := by
  induction arr with
  | nil => simp [putIfd] at h
  | cons x xs ih =>
    unfold putIfd at h
    split at h
    · simp only [List.mem_cons] at h ⊢
      rcases h with h | h
      · exact Or.inl h
      · exact Or.inr (Or.inr h)
    · simp only [List.mem_cons] at h ⊢
      rcases h with h | h
      · exact Or.inr (Or.inl h)
      · rcases ih h with h2 | h2
        · exact Or.inl h2
        · exact Or.inr (Or.inr h2)

theorem mem_putOpt (arr : List IfdTable) (k : IFD_TYPE) (o : Option IfdTable)
    (y : IfdTable) (h : y ∈ putOpt arr k o) : o = some y ∨ y ∈ arr := by
  cases o with
  | none => exact Or.inr h
  | some n =>
    rcases mem_putIfd arr k n y h with h1 | h1
    · exact Or.inl (by rw [h1])
    · exact Or.inr h1

theorem mem_writeBack (arr : List IfdTable) (s : FixState) (y : IfdTable)
    (h : y ∈ writeBack arr s) :
    y ∈ arr ∨ y = s.ifd0th ∨ s.ifdExif = some y ∨ s.ifdIo = some y ∨ s.ifdGps = some y ∨
      s.ifd1st = some y := by
  unfold writeBack at h
  rcases mem_putOpt _ _ _ _ h with h1 | h1
  · exact Or.inr (Or.inr (Or.inr (Or.inr (Or.inr h1))))
  rcases mem_putOpt _ _ _ _ h1 with h2 | h2
  · exact Or.inr (Or.inr (Or.inr (Or.inr (Or.inl h2))))
  rcases mem_putOpt _ _ _ _ h2 with h3 | h3
  · exact Or.inr (Or.inr (Or.inr (Or.inl h3)))
  rcases mem_putOpt _ _ _ _ h3 with h4 | h4
  · exact Or.inr (Or.inr (Or.inl h4))
  rcases mem_putIfd _ _ _ _ h4 with h5 | h5
  · exact Or.inr (Or.inl h5)
  · exact Or.inl h5

/-- A property of tables that holds of every refreshed table and of every table a local
pointer refers to at the end of a pass holds of every table of the array the pass
leaves. -/
theorem fixPass_ret_forall (P : IfdTable → Prop) (a r : List IfdTable) (sts : Int)
    (h : fixPass a = FixPass.ret sts r)
    (href : ∀ x, P (refreshIfd x))
    (hstate : ∀ z, getIfdTableFromIfdTableArray (a.map refreshIfd) IFD_0TH = some z →
      (fixEnd (a.map refreshIfd) z).again = false →
      StateAll P (fixEnd (a.map refreshIfd) z)) :
    ∀ y ∈ r, P y := by
  rw [fixPass_eq] at h
  intro y hy
  have hmap : ∀ y ∈ a.map refreshIfd, P y := by
    intro y hy
    obtain ⟨x, _, rfl⟩ := List.mem_map.mp hy
    exact href x
  cases hz : getIfdTableFromIfdTableArray (a.map refreshIfd) IFD_0TH with
  | none =>
    simp only [hz, FixPass.ret.injEq] at h
    rw [← h.2] at hy
    exact hmap y hy
  | some z =>
    simp only [hz] at h
    cases hag : (fixEnd (a.map refreshIfd) z).again with
    | true => simp [hag] at h
    | false =>
      simp only [hag, Bool.false_eq_true, if_false, FixPass.ret.injEq] at h
      rw [← h.2] at hy
      obtain ⟨p0, pe, pi, pg, pf⟩ := hstate z hz hag
      rcases mem_writeBack _ _ y hy with h1 | h1 | h1 | h1 | h1 | h1
      · exact hmap y h1
      · rw [h1]; exact p0
      · exact pe y h1
      · exact pi y h1
      · exact pg y h1
      · exact pf y h1

theorem fixLoop_enough (fuel : Nat) (arr : List IfdTable) (hfuel : 2 ≤ fuel) :
    ∃ r, fixLengthAndOffsetInIfdTables fuel arr = some (0, r) := by
  obtain ⟨r, hr, _⟩ := fixLoop_total (fuel - 2) arr
  have hfe : fuel - 2 + 2 = fuel := by omega
  rw [hfe] at hr
  exact ⟨r, hr⟩

theorem fixLoop_final_graphWf (fuel : Nat) (arr r : List IfdTable) (sts : Int)
    (hwf : GraphWf arr) (h : fixLengthAndOffsetInIfdTables fuel arr = some (sts, r)) :
    ∃ a, GraphWf a ∧ fixPass a = FixPass.ret sts r :=
  fixLoop_final_inv GraphWf (fun a ha => fixPass_graphWf a ha) fuel arr sts r hwf h

theorem fixGps_keep (P : IfdTable → Prop) (hc : SetClosed P) (s : FixState)
    (h : StateAll P s) (hag : (fixGps s).again = false) : StateAll P (fixGps s) := by
  obtain ⟨h0, he, hi, hg, hf⟩ := h
  unfold fixGps at hag ⊢
  cases hgp : s.ifdGps with
  | none =>
    cases ht : getTagNodePtrFromIfd s.ifd0th TAG_GPSInfoIFDPointer with
    | none => simp only; exact ⟨h0, he, hi, hg, hf⟩
    | some tag =>
      simp only
      exact ⟨hc.set _ _ _ h0, he, hi, by intro y hy; simp at hy, hf⟩
  | some g =>
    cases ht : getTagNodePtrFromIfd s.ifd0th TAG_GPSInfoIFDPointer with
    | none => simp [hgp, ht] at hag
    | some tag =>
      simp only
      refine ⟨hc.set _ _ _ h0, he, hi, ?_, hf⟩
      intro g2 hg2
      simp only [Option.some.injEq] at hg2
      subst hg2
      exact hc.off _ _ (hg g hgp)

theorem fixIo_keep (P : IfdTable → Prop) (hc : SetClosed P) (s : FixState) (e : IfdTable)
    (hs : s.ifdExif = some e) (h : StateAll P s) (hag : (fixIo s e).again = false) :
    StateAll P (fixIo s e) := by
  obtain ⟨h0, he, hi, hg, hf⟩ := h
  have we := he e hs
  unfold fixIo at hag ⊢
  cases hio : s.ifdIo with
  | none =>
    cases ht : getTagNodePtrFromIfd e TAG_InteroperabilityIFDPointer with
    | none => simp only; exact ⟨h0, he, hi, hg, hf⟩
    | some tag =>
      simp only
      refine ⟨h0, ?_, by intro y hy; simp at hy, hg, hf⟩
      intro e2 he2
      simp only [Option.some.injEq] at he2
      subst he2
      exact hc.set _ _ _ we
  | some io =>
    cases ht : getTagNodePtrFromIfd e TAG_InteroperabilityIFDPointer with
    | none => simp [hio, ht] at hag
    | some tag =>
      simp only
      refine ⟨h0, ?_, ?_, hg, hf⟩
      · intro e2 he2
        simp only [Option.some.injEq] at he2
        subst he2
        exact hc.set _ _ _ we
      · intro i2 hi2
        simp only [Option.some.injEq] at hi2
        subst hi2
        exact hc.off _ _ (hi io hio)

theorem fixExif_keep (P : IfdTable → Prop) (hc : SetClosed P) (s : FixState)
    (h : StateAll P s) (hag : (fixExif s).again = false) : StateAll P (fixExif s) := by
  obtain ⟨h0, he, hi, hg, hf⟩ := h
  cases hx : s.ifdExif with
  | none =>
    cases ht : getTagNodePtrFromIfd s.ifd0th TAG_ExifIFDPointer with
    | none => rw [fixExif_none_none s hx ht]; exact ⟨h0, he, hi, hg, hf⟩
    | some tag =>
      rw [fixExif_none_some s tag hx ht]
      exact ⟨hc.set _ _ _ h0, he, hi, hg, hf⟩
  | some e0 =>
    have we := he e0 hx
    cases ht : getTagNodePtrFromIfd s.ifd0th TAG_ExifIFDPointer with
    | none =>
      have := fixExif_created s e0 hx ht
      simp [this] at hag
    | some tag =>
      rw [fixExif_some_some s e0 tag hx ht] at hag ⊢
      apply fixIo_keep P hc _ _ rfl _ hag
      refine ⟨hc.set _ _ _ h0, ?_, hi, hg, hf⟩
      intro e2 he2
      simp only [Option.some.injEq] at he2
      subst he2
      exact hc.off _ _ we

theorem fix1st_keep (P : IfdTable → Prop) (hc : SetClosed P) (s : FixState)
    (h : StateAll P s) (hag : (fix1st s).again = false) : StateAll P (fix1st s) := by
  have h' := h
  obtain ⟨h0, he, hi, hg, hf⟩ := h
  unfold fix1st at hag ⊢
  cases h1 : s.ifd1st with
  | none =>
    simp only
    refine ⟨hc.next _ _ h0, he, hi, hg, ?_⟩
    intro f hf2
    simp [h1] at hf2
  | some f0 =>
    have wf := hf f0 h1
    simp only [h1] at hag
    simp only
    split
    · split
      · split
        · exact stateAll_update P s h' _ _ s.again (hc.next _ _ h0)
            (hc.set _ _ _ (hc.off _ _ wf))
        · exfalso
          simp_all
      · split
        · exact stateAll_update P s h' _ _ s.again (hc.next _ _ h0)
            (hc.set _ _ _ (hc.off _ _ wf))
        · exact stateAll_update P s h' _ _ s.again (hc.next _ _ h0) (hc.off _ _ wf)
    · exact stateAll_update P s h' _ _ s.again (hc.next _ _ h0) (hc.off _ _ wf)

theorem fixEnd_keep (P : IfdTable → Prop) (hc : SetClosed P) (arr : List IfdTable)
    (z : IfdTable) (hz : P z)
    (h : ∀ k x, getIfdTableFromIfdTableArray arr k = some x → P x)
    (hag : (fixEnd arr z).again = false) : StateAll P (fixEnd arr z) := by
  unfold fixEnd at hag ⊢
  have hag2 := fixGps_again _ hag
  have hag1 := fixExif_again _ hag2
  apply fixGps_keep P hc _ _ hag
  apply fixExif_keep P hc _ _ hag2
  apply fix1st_keep P hc _ _ hag1
  exact ⟨hc.off _ _ hz, h IFD_EXIF, h IFD_IO, h IFD_GPS, h IFD_1ST⟩

theorem modifyTag_map_key (tags : List TagNode) (id : Nat) (f : TagNode → TagNode)
    (h : ∀ t, tagKey (f t) = tagKey t) :
    (modifyTag tags id f).map tagKey = tags.map tagKey := by
  induction tags with
  | nil => rfl
  | cons x xs ih =>
    unfold modifyTag
    split
    · simp only [List.map_cons, h]
    · simp only [List.map_cons, ih]

theorem setSingle_key (v : Nat) (t : TagNode) :
    tagKey (setSingleNumDataToTag t v) = tagKey t := by
  unfold setSingleNumDataToTag tagKey
  split <;> rfl

theorem passClosed_keepsKeys (a : List IfdTable) : PassClosed (KeepsKeys a) where
  set := by
    intro x id v h x0 hx0
    have := h x0 hx0
    simpa only [setTagValue, modifyTag_map_key _ _ _ (setSingle_key v)] using this
  add := by
    intro x id h x0 hx0
    have := h x0 hx0
    simp only [addDummyTag, addTagNodeToIfd, List.map_append]
    exact this.trans (List.prefix_append _ _)
  off := fun _ _ h => h
  next := fun _ _ h => h

theorem setClosed_counted : SetClosed TagsCounted where
  set := by
    intro x id v h
    refine ⟨passClosed_live.set x id v h.1, ?_⟩
    simpa only [setTagValue, modifyTag_length] using h.2
  off := fun _ _ h => h
  next := fun _ _ h => h

theorem refreshIfd_counted (x : IfdTable) : TagsCounted (refreshIfd x) :=
  ⟨liveTags_live _, rfl⟩

theorem getIfd_refresh_keeps (a : List IfdTable) (k : IFD_TYPE) (y : IfdTable)
    (hy : getIfdTableFromIfdTableArray (a.map refreshIfd) k = some y) : KeepsKeys a y := by
  have hk := getIfd_ifdType _ k y hy
  rw [getIfd_map_refresh] at hy
  cases hx : getIfdTableFromIfdTableArray a k with
  | none => simp [hx] at hy
  | some x =>
    simp only [hx, Option.map_some', Option.some.injEq] at hy
    intro x0 hx0
    rw [hk, hx] at hx0
    simp only [Option.some.injEq] at hx0
    subst hx0
    subst hy
    exact List.prefix_refl _

/-- One pass keeps, for every kind, the entries without error flag of the table a
look-up finds, in their order, at the head of the list of the table it leaves; and it
leaves no entry with an error flag. -/
theorem fixPass_keys (a : List IfdTable) (k : IFD_TYPE) (y : IfdTable)
    (hy : getIfdTableFromIfdTableArray (fixPass a).arr k = some y) :
    TagsLive y.tags ∧
    ∃ x, getIfdTableFromIfdTableArray a k = some x ∧
      (liveTags x.tags).map tagKey <+: y.tags.map tagKey := by
  have hpres := fixPass_presence a k
  rw [hy] at hpres
  have hk := getIfd_ifdType _ k y hy
  obtain ⟨x, hx⟩ := Option.isSome_iff_exists.mp hpres.symm
  have key : TagsLive y.tags ∧ KeepsKeys a y := by
    rw [fixPass_eq] at hy
    cases hz : getIfdTableFromIfdTableArray (a.map refreshIfd) IFD_0TH with
    | none =>
      simp only [hz, FixPass.arr] at hy
      exact ⟨getIfd_refresh_live a k y hy, getIfd_refresh_keeps a k y hy⟩
    | some z =>
      have harr : getIfdTableFromIfdTableArray
          (writeBack (a.map refreshIfd) (fixEnd (a.map refreshIfd) z)) k = some y := by
        simp only [hz] at hy
        split at hy <;> exact hy
      have hfit := fixEnd_fits _ z hz
      have hw := writeBack_get _ _ hfit (by simp [hz])
      have hu := writeBack_get_unknown _ _ hfit
      obtain ⟨l0, le, li, lg, lf⟩ := fixEnd_live a z hz
      obtain ⟨p0, pe, pi, pg, pf⟩ := fixEnd_all (KeepsKeys a) (passClosed_keepsKeys a)
        (a.map refreshIfd) z (getIfd_refresh_keeps a _ z hz)
        (fun k x hx => getIfd_refresh_keeps a k x hx)
      cases k with
      | IFD_UNKNOWN =>
        rw [hu] at harr
        exact ⟨getIfd_refresh_live a _ y harr, getIfd_refresh_keeps a _ y harr⟩
      | IFD_0TH =>
        rw [hw.1, Option.some.injEq] at harr
        subst harr
        exact ⟨l0, p0⟩
      | IFD_EXIF => rw [hw.2.1] at harr; exact ⟨le y harr, pe y harr⟩
      | IFD_IO => rw [hw.2.2.1] at harr; exact ⟨li y harr, pi y harr⟩
      | IFD_GPS => rw [hw.2.2.2.1] at harr; exact ⟨lg y harr, pg y harr⟩
      | IFD_1ST => rw [hw.2.2.2.2] at harr; exact ⟨lf y harr, pf y harr⟩
  refine ⟨key.1, x, hx, ?_⟩
  have := key.2 x
  rw [hk] at this
  exact this hx

/-- The whole of `fixLengthAndOffsetInIfdTables` keeps, for every kind, the entries
without error flag of the table a look-up finds at the head of the list of the table it
leaves, in their order. -/
theorem fixLoop_keys (fuel : Nat) (arr : List IfdTable) (sts : Int) (r : List IfdTable)
    (h : fixLengthAndOffsetInIfdTables fuel arr = some (sts, r)) (k : IFD_TYPE)
    (y : IfdTable) (hy : getIfdTableFromIfdTableArray r k = some y) :
    ∃ x, getIfdTableFromIfdTableArray arr k = some x ∧
      (liveTags x.tags).map tagKey <+: y.tags.map tagKey := by
  unfold fixLengthAndOffsetInIfdTables at h
  induction fuel generalizing arr with
  | zero => simp [fixLoop] at h
  | succ n ih =>
    unfold fixLoop at h
    cases hp : fixPass arr with
    | ret s a =>
      simp only [hp, Option.some.injEq, Prod.mk.injEq] at h
      have := fixPass_keys arr k y (by rw [hp, FixPass.arr, h.2]; exact hy)
      exact this.2
    | again a =>
      simp only [hp] at h
      obtain ⟨x1, hx1, hpre1⟩ := ih a h
      obtain ⟨hlive, x, hx, hpre⟩ := fixPass_keys arr k x1 (by rw [hp, FixPass.arr]; exact hx1)
      rw [liveTags_of_live _ hlive] at hpre1
      exact ⟨x, hx, hpre.trans hpre1⟩

/-- Every table of the array that `fixLengthAndOffsetInIfdTables` returns has a list
without error flags and a `tagCount` that is the 16-bit value of the list's length. -/
theorem fixLoop_counted (fuel : Nat) (arr : List IfdTable) (sts : Int) (r : List IfdTable)
    (h : fixLengthAndOffsetInIfdTables fuel arr = some (sts, r)) :
    ∀ y ∈ r, TagsCounted y := by
  obtain ⟨a, hpass, _⟩ := fixLoop_final fuel arr sts r h
  apply fixPass_ret_forall TagsCounted a r sts hpass refreshIfd_counted
  intro z hz hag
  have hall : ∀ k x, getIfdTableFromIfdTableArray (a.map refreshIfd) k = some x →
      TagsCounted x := by
    intro k x hx
    rw [getIfd_map_refresh] at hx
    cases hx0 : getIfdTableFromIfdTableArray a k with
    | none => simp [hx0] at hx
    | some x0 =>
      simp only [hx0, Option.map_some', Option.some.injEq] at hx
      subst hx
      exact refreshIfd_counted x0
  exact fixEnd_keep TagsCounted setClosed_counted _ z (hall _ z hz) hall hag

theorem writeIfd_count (sysLE : Bool) (hdr : APP1_HEADER) (y : IfdTable) (ofs : Nat)
    (h : TagsLive y.tags) :
    (writeIfd sysLE hdr y ofs).1.take 2 =
      mem16 sysLE (fix_short sysLE hdr (y.tags.length % 65536)) := by
  unfold writeIfd
  simp only [List.append_assoc, liveTags_of_live _ h]
  exact take_mem16_append sysLE _ _

theorem allIdTags_live (n : Nat) : (liveTags (allIdTags n)).length = n := by
  have h : TagsLive (allIdTags n) := by
    intro t ht
    unfold allIdTags at ht
    obtain ⟨i, _, rfl⟩ := List.mem_map.mp ht
    rfl
  rw [liveTags_of_live _ h]
  unfold allIdTags
  simp only [List.length_map, List.length_range]

theorem fix1st_links (s : FixState) :
    (fix1st s).links =
      (if s.ifd1st.isSome then nextOffset s else 0,
       s.ifdExif.map (fun i => i.nextIfdOffset),
       s.ifdIo.map (fun i => i.nextIfdOffset), s.ifdGps.map (fun i => i.nextIfdOffset),
       s.ifd1st.map (fun i => (i.nextIfdOffset, nextOffset s % 65536))) := by
  unfold fix1st FixState.links nextOffset
  cases h1 : s.ifd1st with
  | none => rfl
  | some f =>
    simp only [Option.isSome_some, if_true]
    split <;> (try split) <;> (try split) <;>
      simp [setTagValue, addDummyTag, addTagNodeToIfd]

theorem fixIo_links (s : FixState) (e : IfdTable) (hs : s.ifdExif = some e) :
    (fixIo s e).links = s.links := by
  unfold fixIo FixState.links
  cases hio : s.ifdIo <;> cases ht : getTagNodePtrFromIfd e TAG_InteroperabilityIFDPointer <;>
    simp [hs, hio, setTagValue, addDummyTag, addTagNodeToIfd]

theorem fixExif_links (s : FixState) : (fixExif s).links = s.links := by
  cases hx : s.ifdExif with
  | none =>
    cases ht : getTagNodePtrFromIfd s.ifd0th TAG_ExifIFDPointer with
    | none => rw [fixExif_none_none s hx ht]
    | some tag => rw [fixExif_none_some s tag hx ht]; simp [FixState.links, setTagValue]
  | some e0 =>
    cases ht : getTagNodePtrFromIfd s.ifd0th TAG_ExifIFDPointer with
    | none =>
      rw [fixExif_some_none s e0 hx ht, fixIo_links _ _ (by simpa using hx)]
      simp [FixState.links, addDummyTag, addTagNodeToIfd]
    | some tag =>
      rw [fixExif_some_some s e0 tag hx ht, fixIo_links _ _ rfl]
      simp [FixState.links, setTagValue, hx]

theorem fixGps_links (s : FixState) : (fixGps s).links = s.links := by
  unfold fixGps FixState.links
  cases hg : s.ifdGps <;> cases ht : getTagNodePtrFromIfd s.ifd0th TAG_GPSInfoIFDPointer <;>
    simp [hg, setTagValue, addDummyTag, addTagNodeToIfd]

theorem fixEnd_links (arr : List IfdTable) (z : IfdTable) :
    (fixEnd arr z).links = (fix1st (fixStart arr z)).links := by
  unfold fixEnd
  rw [fixGps_links, fixExif_links]

theorem refresh_next (a : List IfdTable) (k : IFD_TYPE) :
    (getIfdTableFromIfdTableArray (a.map refreshIfd) k).map (fun i => i.nextIfdOffset) =
      (getIfdTableFromIfdTableArray a k).map (fun _ => 0) := by
  rw [getIfd_map_refresh]
  cases getIfdTableFromIfdTableArray a k <;> rfl

theorem slot_next_zero (a : List IfdTable) (k : IFD_TYPE) (o : Option IfdTable)
    (y : IfdTable) (hy : o = some y)
    (h : o.map (fun i => i.nextIfdOffset) =
      (getIfdTableFromIfdTableArray (a.map refreshIfd) k).map (fun i => i.nextIfdOffset)) :
    y.nextIfdOffset = 0 := by
  rw [refresh_next, hy] at h
  cases hx : getIfdTableFromIfdTableArray a k with
  | none => simp [hx] at h
  | some x => simpa [hx] using h

/-- The links the last pass leaves: the 0th IFD points behind the tables that precede
the 1st IFD when there is one, the 1st IFD records this offset as a 16-bit value, and
no other table has a successor. -/
theorem fixPass_links (a r : List IfdTable) (sts : Int) (h : fixPass a = FixPass.ret sts r)
    (h0 : (getIfdTableFromIfdTableArray a IFD_0TH).isSome) :
    ∃ z, getIfdTableFromIfdTableArray r IFD_0TH = some z ∧
      (∀ f, getIfdTableFromIfdTableArray r IFD_1ST = some f →
        z.nextIfdOffset = 8 + z.length + lengthOr0 (getIfdTableFromIfdTableArray r IFD_EXIF) +
          lengthOr0 (getIfdTableFromIfdTableArray r IFD_IO) +
          lengthOr0 (getIfdTableFromIfdTableArray r IFD_GPS) ∧
        f.offset = z.nextIfdOffset % 65536) ∧
      (getIfdTableFromIfdTableArray r IFD_1ST = none → z.nextIfdOffset = 0) ∧
      (∀ y ∈ r, y.ifdType ≠ IFD_0TH → y.nextIfdOffset = 0) := by
  obtain ⟨x0, hx0⟩ := Option.isSome_iff_exists.mp h0
  have hz : getIfdTableFromIfdTableArray (a.map refreshIfd) IFD_0TH = some (refreshIfd x0) := by
    rw [getIfd_map_refresh, hx0]; rfl
  rw [fixPass_eq] at h
  simp only [hz] at h
  have hr : r = writeBack (a.map refreshIfd) (fixEnd (a.map refreshIfd) (refreshIfd x0)) := by
    split at h
    · simp at h
    · simp only [FixPass.ret.injEq] at h
      exact h.2.symm
  have hfit := fixEnd_fits _ _ hz
  have hw := writeBack_get _ _ hfit (by simp [hz])
  rw [← hr] at hw
  obtain ⟨w0, w1, w2, w3, w4⟩ := hw
  have hlens := nextOffset_eq_lens _ _ (fixEnd_lens (a.map refreshIfd) (refreshIfd x0))
  have hl := fixEnd_links (a.map refreshIfd) (refreshIfd x0)
  rw [fix1st_links] at hl
  unfold FixState.links at hl
  simp only [Prod.mk.injEq] at hl
  obtain ⟨e1, e2, e3, e4, e5⟩ := hl
  rw [← hlens] at e1 e5
  have h0ty : (fixEnd (a.map refreshIfd) (refreshIfd x0)).ifd0th.ifdType = IFD_0TH := by
    unfold FixState.Fits FixState.shape at hfit
    simp only [Prod.mk.injEq] at hfit
    exact hfit.1
  generalize fixEnd (a.map refreshIfd) (refreshIfd x0) = s at *
  refine ⟨s.ifd0th, w0, ?_, ?_, ?_⟩
  · intro f hf
    rw [w4] at hf
    rw [w1, w2, w3]
    rw [hf] at e5
    cases h1 : (fixStart (a.map refreshIfd) (refreshIfd x0)).ifd1st with
    | none => simp [h1] at e5
    | some f0 =>
      simp only [h1, Option.map_some', Option.some.injEq, Prod.mk.injEq] at e5
      simp only [h1, Option.isSome_some, if_true] at e1
      rw [e1, e5.2]
      exact ⟨rfl, rfl⟩
  · intro hf
    rw [w4] at hf
    rw [hf] at e5
    cases h1 : (fixStart (a.map refreshIfd) (refreshIfd x0)).ifd1st with
    | none => simpa [h1] using e1
    | some f0 => simp [h1] at e5
  · intro y hy hty
    rw [hr] at hy
    rcases mem_writeBack _ _ y hy with h1 | h1 | h1 | h1 | h1 | h1
    · obtain ⟨x, _, rfl⟩ := List.mem_map.mp h1
      rfl
    · rw [h1] at hty
      exact absurd h0ty hty
    · exact slot_next_zero a IFD_EXIF _ y h1 e2
    · exact slot_next_zero a IFD_IO _ y h1 e3
    · exact slot_next_zero a IFD_GPS _ y h1 e4
    · rw [h1] at e5
      cases h2 : getIfdTableFromIfdTableArray a IFD_1ST with
      | none => simp [fixStart, getIfd_map_refresh, h2] at e5
      | some x =>
        simp only [fixStart, getIfd_map_refresh, h2, Option.map_some', Option.some.injEq,
          Prod.mk.injEq] at e5
        rw [e5.1]
        rfl

theorem readBE16_at (sysLE : Bool) (pre : List Nat) (a b : Nat) (rest : List Nat)
    (ha : a < 256) (hb : b < 256) :
    readBE16 sysLE (pre ++ a :: b :: rest) pre.length = some (a * 256 + b) := by
  have := readBE16_head sysLE a b rest ha hb
  unfold readBE16 fread at this ⊢
  simpa only [List.drop_left, List.drop_zero] using this

theorem readBE16_at_len (sysLE : Bool) (file pre : List Nat) (a b : Nat) (rest : List Nat)
    (pos : Nat) (hf : file = pre ++ a :: b :: rest) (hp : pos = pre.length)
    (ha : a < 256) (hb : b < 256) :
    readBE16 sysLE file pos = some (a * 256 + b) := by
  rw [hf, hp]
  exact readBE16_at sysLE pre a b rest ha hb

theorem fread_at (file pre post : List Nat) (pos n : Nat) (hf : file = pre ++ post)
    (hp : pos = pre.length) : fread file pos n = post.take n := by
  unfold fread
  rw [hf, hp, List.drop_left]

theorem chainBytes_append (a b : List AppSegment) :
    chainBytes (a ++ b) = chainBytes a ++ chainBytes b := by
  induction a with
  | nil => rfl
  | cons s rest ih => simp [chainBytes, ih]

theorem bytes_length (s : AppSegment) : s.bytes.length = s.payload.length + 4 := by
  simp [AppSegment.bytes]

theorem chainBytes_length (segs : List AppSegment) : segs.length ≤ (chainBytes segs).length := by
  induction segs with
  | nil => simp
  | cons s rest ih =>
    simp only [chainBytes, List.length_cons, List.length_append, bytes_length]
    omega

/-- A chain followed by a marker begins with the byte `FF` and a second byte below 256
that make up the marker of its first segment, or the marker that follows. -/
theorem chain_head (segs : List AppSegment) (c : Nat) (rest : List Nat)
    (hwf : ∀ s ∈ segs, s.WellFormed) (hc : c < 256) :
    ∃ y post, chainBytes segs ++ 0xFF :: c :: rest = 0xFF :: y :: post ∧ y < 256 ∧
      0xFF * 256 + y = chainMarker segs c ∧ rest.length ≤ post.length := by
  cases segs with
  | nil => exact ⟨c, rest, rfl, hc, rfl, le_refl _⟩
  | cons s more =>
    have := (hwf s (by simp)).1
    refine ⟨0xE0 + s.n, _, by simp only [chainBytes, AppSegment.bytes, List.cons_append,
      List.nil_append, List.append_assoc]; rfl, by omega, by simp only [chainMarker]; omega, ?_⟩
    simp only [List.length_cons, List.length_append]
    omega

theorem take_append_marker (id payload post : List Nat) (hid : ∀ b ∈ id, b ≠ 0xFF)
    (hpost : post.head? = some 0xFF) :
    (payload ++ post).take id.length = id ↔ payload.take id.length = id := by
  by_cases h : id.length ≤ payload.length
  · rw [List.take_append_of_le_length h]
  · have hlt : payload.length < id.length := by omega
    constructor
    · intro heq
      exfalso
      have h1 : id[payload.length]? = (payload ++ post)[payload.length]? := by
        have := List.getElem?_take_of_lt (l := payload ++ post) hlt
        rw [heq] at this
        exact this
      rw [List.getElem?_append_right (le_refl _), Nat.sub_self] at h1
      have h2 : post[0]? = some 0xFF := by
        cases post with
        | nil => simp at hpost
        | cons p ps => simpa using hpost
      rw [h2] at h1
      have := List.mem_iff_getElem?.mpr ⟨_, h1⟩
      exact hid _ this rfl
    · intro heq
      exfalso
      have := congrArg List.length heq
      simp only [List.length_take] at this
      omega

theorem scanChain_app1 (id : List Nat) (s : AppSegment) (rest : List AppSegment)
    (c off exif : Nat) (h : s.n = 1) :
    scanChain id (s :: rest) c off exif =
      scanChain id rest c (off + s.bytes.length)
        (if s.payload.take id.length = id then off else exif) := by
  rw [scanChain]
  simp only [h, ne_eq, not_true_eq_false, if_false]

theorem scanChain_other (id : List Nat) (s : AppSegment) (rest : List AppSegment)
    (c off exif : Nat) (h : s.n ≠ 1) :
    scanChain id (s :: rest) c off exif =
      if exif ≠ 0 then { sts := exif, dqt := none }
      else scanChain id rest c (off + s.bytes.length) exif := by
  rw [scanChain]
  simp only [h, ne_eq, not_false_eq_true, if_true]

/-- The loop of `getApp1StartOffset`, entered with the marker of a chain of well-formed
application segments that a marker outside `FFE0 .. FFEF` follows, does what `scanChain`
tells, provided the identifier holds no byte `FF` and is no longer than what is left of
the file from that marker on. -/
theorem scanLoop_chain (sysLE : Bool) (id : List Nat) (c : Nat) (rest : List Nat)
    (hc : c < 256) (hnc : ¬ (0xE0 ≤ c ∧ c ≤ 0xEF)) (hid : ∀ b ∈ id, b ≠ 0xFF)
    (hlen : id.length ≤ rest.length + 2) (segs : List AppSegment) :
    ∀ (pre : List Nat) (exif fuel : Nat), (∀ s ∈ segs, s.WellFormed) → segs.length < fuel →
      scanLoop sysLE (pre ++ (chainBytes segs ++ 0xFF :: c :: rest)) id fuel
          (chainMarker segs c) (pre.length + 2) exif =
        some (scanChain id segs c pre.length exif) := by
  induction segs with
  | nil =>
    intro pre exif fuel _ hfuel
    cases fuel with
    | zero => simp at hfuel
    | succ n =>
      unfold scanLoop
      have h1 : ¬ (chainMarker [] c ≥ 0xFFE0 ∧ chainMarker [] c ≤ 0xFFEF) := by
        simp only [chainMarker]; omega
      have h2 : (chainMarker [] c = 0xFFDB) ↔ c = 0xDB := by
        simp only [chainMarker]; omega
      simp only [h1, not_false_eq_true, if_true, h2, scanChain, Nat.add_sub_cancel]
  | cons s more ih =>
    intro pre exif fuel hwf hfuel
    cases fuel with
    | zero => simp at hfuel
    | succ n =>
      obtain ⟨hn, hL⟩ := hwf s (by simp)
      have hwf2 : ∀ t ∈ more, t.WellFormed := fun t ht => hwf t (List.mem_cons_of_mem _ ht)
      obtain ⟨y, post, hpost, hy, hmark, hpl⟩ := chain_head more c rest hwf2 hc
      have hfile : pre ++ (chainBytes (s :: more) ++ 0xFF :: c :: rest) =
          pre ++ [0xFF, 0xE0 + s.n] ++
            ((s.payload.length + 2) / 256 :: (s.payload.length + 2) % 256 ::
              (s.payload ++ 0xFF :: y :: post)) := by
        simp only [chainBytes, AppSegment.bytes, List.append_assoc, List.cons_append,
          List.nil_append, hpost]
      have hfile2 : pre ++ (chainBytes (s :: more) ++ 0xFF :: c :: rest) =
          (pre ++ s.bytes) ++ 0xFF :: y :: post := by
        simp only [chainBytes, List.append_assoc, hpost]
      have hfile3 : pre ++ (chainBytes (s :: more) ++ 0xFF :: c :: rest) =
          (pre ++ [0xFF, 0xE0 + s.n, (s.payload.length + 2) / 256,
            (s.payload.length + 2) % 256]) ++ (s.payload ++ 0xFF :: y :: post) := by
        simp only [chainBytes, AppSegment.bytes, List.append_assoc, List.cons_append,
          List.nil_append, hpost]
      have hread : readBE16 sysLE (pre ++ (chainBytes (s :: more) ++ 0xFF :: c :: rest))
          (pre.length + 2) = some (s.payload.length + 2) := by
        have := readBE16_at_len sysLE _ _ _ _ _ (pre.length + 2) hfile (by simp)
          (Nat.div_lt_of_lt_mul (by omega)) (Nat.mod_lt _ (by decide))
        rw [this, Nat.div_add_mod']
      have hnext : readBE16 sysLE (pre ++ (chainBytes (s :: more) ++ 0xFF :: c :: rest))
          (pre.length + 2 + (s.payload.length + 2)) = some (chainMarker more c) := by
        have := readBE16_at_len sysLE _ _ _ _ _ (pre.length + 2 + (s.payload.length + 2))
          hfile2 (by simp [bytes_length]; omega) (by decide) hy
        rw [this, hmark]
      have hbuf : fread (pre ++ (chainBytes (s :: more) ++ 0xFF :: c :: rest))
          (pre.length + 2 + 2) (id.length + 4) =
          (s.payload ++ 0xFF :: y :: post).take (id.length + 4) :=
        fread_at _ _ _ _ _ hfile3 (by simp)
      have hih := ih (pre ++ s.bytes) 
      have hpos : pre.length + 2 + (s.payload.length + 2) + 2 = (pre ++ s.bytes).length + 2 := by
        simp [bytes_length]; omega
      have hfile4 : pre ++ (chainBytes (s :: more) ++ 0xFF :: c :: rest) =
          (pre ++ s.bytes) ++ (chainBytes more ++ 0xFF :: c :: rest) := by
        simp only [chainBytes, List.append_assoc]
      have hrange : chainMarker (s :: more) c ≥ 0xFFE0 ∧ chainMarker (s :: more) c ≤ 0xFFEF := by
        simp only [chainMarker]; omega
      have hm1 : chainMarker (s :: more) c ≠ 0xFFE1 ↔ s.n ≠ 1 := by
        simp only [chainMarker]; omega
      have hoff : (pre ++ s.bytes).length = pre.length + s.bytes.length := by simp
      have hfuel2 : more.length < n := by simpa using hfuel
      unfold scanLoop
      simp only [hrange, and_self, not_true_eq_false, if_false, hread, hnext, hbuf, hpos]
      rw [hfile4]
      by_cases h1 : s.n = 1
      · have hnot : ¬ (chainMarker (s :: more) c ≠ 0xFFE1) := by rw [hm1]; simpa using h1
        have hshort : ¬ ((s.payload ++ 0xFF :: y :: post).take (id.length + 4)).length <
            id.length := by
          simp only [List.length_take, List.length_append, List.length_cons]
          omega
        have htake : ((s.payload ++ 0xFF :: y :: post).take (id.length + 4)).take id.length =
            (s.payload ++ 0xFF :: y :: post).take id.length := by
          rw [List.take_take]
          congr 1
          omega
        have hiff := take_append_marker id s.payload (0xFF :: y :: post) hid rfl
        simp only [hnot, if_false, hshort, htake]
        rw [hih _ n hwf2 hfuel2, hoff, scanChain_app1 id s more c _ _ h1]
        by_cases hmatch : s.payload.take id.length = id
        · simp only [hmatch, hiff.mpr hmatch, if_true, Nat.add_sub_cancel]
        · have : ¬ (s.payload ++ 0xFF :: y :: post).take id.length = id :=
            fun h => hmatch (hiff.mp h)
          simp only [hmatch, this, if_false]
      · have hyes : chainMarker (s :: more) c ≠ 0xFFE1 := by rw [hm1]; exact h1
        simp only [hyes, ne_eq, not_false_eq_true, if_true]
        rw [scanChain_other id s more c _ _ h1]
        by_cases he : exif = 0
        · simp only [he, ne_eq, not_true_eq_false, if_false]
          rw [hih _ n hwf2 hfuel2, hoff]
        · simp only [he, ne_eq, not_false_eq_true, if_true]

/-- The function `getApp1StartOffset` on a file that consists of SOI, a chain of
well-formed application segments and a marker outside `FFE0 .. FFEF`. -/
theorem getApp1StartOffset_chain (sysLE : Bool) (id : List Nat) (c : Nat) (rest : List Nat)
    (hc : c < 256) (hnc : ¬ (0xE0 ≤ c ∧ c ≤ 0xEF)) (hid : ∀ b ∈ id, b ≠ 0xFF)
    (hlen : id.length ≤ rest.length + 2) (segs : List AppSegment)
    (hwf : ∀ s ∈ segs, s.WellFormed) :
    getApp1StartOffset sysLE ([0xFF, 0xD8] ++ (chainBytes segs ++ 0xFF :: c :: rest)) id =
      some (scanChain id segs c 2 0) := by
  obtain ⟨y, post, hpost, hy, hmark, _⟩ := chain_head segs c rest hwf hc
  have hsoi : readBE16 sysLE ([0xFF, 0xD8] ++ (chainBytes segs ++ 0xFF :: c :: rest)) 0 =
      some 0xFFD8 :=
    readBE16_head sysLE 0xFF 0xD8 _ (by decide) (by decide)
  have hfirst : readBE16 sysLE ([0xFF, 0xD8] ++ (chainBytes segs ++ 0xFF :: c :: rest)) 2 =
      some (chainMarker segs c) := by
    rw [hpost, ← hmark]
    exact readBE16_at sysLE [0xFF, 0xD8] 0xFF y post (by decide) hy
  have hloop := scanLoop_chain sysLE id c rest hc hnc hid hlen segs [0xFF, 0xD8] 0
    (([0xFF, 0xD8] ++ (chainBytes segs ++ 0xFF :: c :: rest)).length + 1) hwf (by
      have := chainBytes_length segs
      simp only [List.length_append, List.length_cons, List.length_nil]
      omega)
  unfold getApp1StartOffset
  simp only [hsoi, hfirst, ne_eq, not_true_eq_false, if_false]
  by_cases hd : chainMarker segs c = 0xFFDB
  · simp only [hd, if_true]
    cases segs with
    | nil =>
      have : c = 0xDB := by simp only [chainMarker] at hd; omega
      simp [scanChain, this]
    | cons s more =>
      have := (hwf s (by simp)).1
      simp only [chainMarker] at hd
      omega
  · simp only [hd, if_false]
    exact hloop

theorem take_eq_iff_starts (id payload : List Nat) :
    payload.take id.length = id ↔ id <+: payload := by
  rw [List.prefix_iff_eq_take]
  exact eq_comm

/-- Segments that do not match are passed over while no offset is recorded. -/
theorem scanChain_skip (id : List Nat) (c : Nat) (a r : List AppSegment)
    (h : ∀ s ∈ a, ¬ s.Matches id) (off : Nat) :
    scanChain id (a ++ r) c off 0 = scanChain id r c (off + (chainBytes a).length) 0 := by
  induction a generalizing off with
  | nil => simp [chainBytes]
  | cons s more ih =>
    have hs := h s (by simp)
    have hm : ∀ t ∈ more, ¬ t.Matches id := fun t ht => h t (List.mem_cons_of_mem _ ht)
    have hlen : off + s.bytes.length + (chainBytes more).length =
        off + (chainBytes (s :: more)).length := by
      simp only [chainBytes, List.length_append]; omega
    by_cases h1 : s.n = 1
    · have hno : ¬ s.payload.take id.length = id := fun hp =>
        hs ⟨h1, (take_eq_iff_starts id s.payload).mp hp⟩
      rw [List.cons_append, scanChain_app1 id s _ c _ _ h1]
      simp only [hno, if_false]
      rw [ih hm, hlen]
    · rw [List.cons_append, scanChain_other id s _ c _ _ h1]
      simp only [ne_eq, not_true_eq_false, if_false]
      rw [ih hm, hlen]

/-- Once an offset is recorded, the scan passes over `APP1` segments that do not match
and stops at the first segment that is not an `APP1` segment. -/
theorem scanChain_run (id : List Nat) (c exif : Nat) (b1 b2 : List AppSegment)
    (hex : exif ≠ 0) (h1 : ∀ s ∈ b1, s.n = 1 ∧ ¬ id <+: s.payload)
    (h2 : ∀ s, b2.head? = some s → s.n ≠ 1) (off : Nat) :
    scanChain id (b1 ++ b2) c off exif =
      { sts := exif,
        dqt := if b2 = [] ∧ c = 0xDB then some (off + (chainBytes b1).length) else none } := by
  induction b1 generalizing off with
  | nil =>
    cases b2 with
    | nil => simp [scanChain, chainBytes]
    | cons s more =>
      have := h2 s rfl
      rw [List.nil_append, scanChain_other id s more c _ _ this]
      simp [hex]
  | cons s more ih =>
    obtain ⟨hn, hp⟩ := h1 s (by simp)
    have hm : ∀ t ∈ more, t.n = 1 ∧ ¬ id <+: t.payload :=
      fun t ht => h1 t (List.mem_cons_of_mem _ ht)
    have hno : ¬ s.payload.take id.length = id := fun h =>
      hp ((take_eq_iff_starts id s.payload).mp h)
    have hlen : off + s.bytes.length + (chainBytes more).length =
        off + (chainBytes (s :: more)).length := by
      simp only [chainBytes, List.length_append]; omega
    rw [List.cons_append, scanChain_app1 id s _ c _ _ hn]
    simp only [hno, if_false]
    rw [ih hm, hlen]

/-- The scan of a chain whose first matching segment `m` is followed by `APP1` segments
that do not match, up to the end of the chain or to a segment that is not `APP1`. -/
theorem scanChain_first (id : List Nat) (c : Nat) (a b1 b2 : List AppSegment)
    (m : AppSegment) (ha : ∀ s ∈ a, ¬ s.Matches id) (hm : m.Matches id)
    (h1 : ∀ s ∈ b1, s.n = 1 ∧ ¬ id <+: s.payload)
    (h2 : ∀ s, b2.head? = some s → s.n ≠ 1) :
    scanChain id (a ++ m :: (b1 ++ b2)) c 2 0 =
      { sts := ((2 + (chainBytes a).length : Nat) : Int),
        dqt := if b2 = [] ∧ c = 0xDB
               then some (2 + (chainBytes (a ++ m :: b1)).length) else none } := by
  have hp : m.payload.take id.length = id := (take_eq_iff_starts id m.payload).mpr hm.2
  rw [scanChain_skip id c a _ ha, scanChain_app1 id m _ c _ _ hm.1]
  simp only [hp, if_true]
  rw [scanChain_run id c _ b1 b2 (by omega) h1 h2]
  have : 2 + (chainBytes a).length + m.bytes.length + (chainBytes b1).length =
      2 + (chainBytes (a ++ m :: b1)).length := by
    simp only [chainBytes_append, chainBytes, List.length_append]; omega
  rw [this]

theorem exif_id_no_marker : ∀ b ∈ EXIF_ID_STR, b ≠ 0xFF := by decide

/-- Once an offset is recorded, a run of `APP1` segments keeps an offset recorded, and
the DQT offset is stored when the run reaches the end of the chain. -/
theorem scanChain_run_any (id : List Nat) (c : Nat) (b1 b2 : List AppSegment)
    (h1 : ∀ s ∈ b1, s.n = 1) (h2 : ∀ s, b2.head? = some s → s.n ≠ 1) (off exif : Nat)
    (hex : exif ≠ 0) (hoff : off ≠ 0) :
    (scanChain id (b1 ++ b2) c off exif).sts ≠ 0 ∧
    (scanChain id (b1 ++ b2) c off exif).dqt =
      if b2 = [] ∧ c = 0xDB then some (off + (chainBytes b1).length) else none := by
  induction b1 generalizing off exif with
  | nil =>
    cases b2 with
    | nil => simp [scanChain, chainBytes, hex]
    | cons s more =>
      have := h2 s rfl
      rw [List.nil_append, scanChain_other id s more c _ _ this]
      simp [hex]
  | cons s more ih =>
    have hn := h1 s (by simp)
    have hm : ∀ t ∈ more, t.n = 1 := fun t ht => h1 t (List.mem_cons_of_mem _ ht)
    have hlen : off + s.bytes.length + (chainBytes more).length =
        off + (chainBytes (s :: more)).length := by
      simp only [chainBytes, List.length_append]; omega
    rw [List.cons_append, scanChain_app1 id s _ c _ _ hn, ← hlen]
    apply ih hm
    · split
      · exact hoff
      · exact hex
    · omega

theorem drop_chain (pre a post : List Nat) (n : Nat) (h : n = pre.length + a.length) :
    (pre ++ (a ++ post)).drop n = post := by
  rw [h, ← List.append_assoc, ← List.length_append, List.drop_left]

theorem take_chain (pre a post : List Nat) (n : Nat) (h : n = pre.length + a.length) :
    (pre ++ (a ++ post)).take n = pre ++ a := by
  rw [h, ← List.append_assoc, ← List.length_append, List.take_left]

theorem getD_byte (l : List Nat) (h : ∀ x ∈ l, x < 256) (i : Nat) : l.getD i 0 < 256 := by
  rw [List.getD_eq_getElem?_getD]
  cases hi : l[i]? with
  | none => simp
  | some v =>
    simp only [Option.getD_some]
    exact h v (List.mem_iff_getElem?.mpr ⟨i, hi⟩)

theorem val16_eq_spec (le : Bool) (l : List Nat) : val16 le l = spec_u16 le l := rfl

theorem val32_eq_spec (le : Bool) (l : List Nat) : val32 le l = spec_u32 le l := rfl

theorem swab16_val16 (sysLE : Bool) (l : List Nat) (h : ∀ x ∈ l, x < 256) :
    swab16 (val16 sysLE l) = val16 (!sysLE) l := by
  have h0 := getD_byte l h 0
  have h1 := getD_byte l h 1
  cases sysLE <;> simp only [val16, swab16, Bool.not_true, Bool.not_false, if_true,
    Bool.false_eq_true, if_false] <;> omega

theorem swab32_val32 (sysLE : Bool) (l : List Nat) (h : ∀ x ∈ l, x < 256) :
    swab32 (val32 sysLE l) = val32 (!sysLE) l := by
  have h0 := getD_byte l h 0
  have h1 := getD_byte l h 1
  have h2 := getD_byte l h 2
  have h3 := getD_byte l h 3
  cases sysLE
  · simp only [val32, Bool.not_false, if_true, Bool.false_eq_true, if_false]
    have := swab32_bytes _ _ _ _ h3 h2 h1 h0
    rw [← this]
    congr 1
    omega
  · simp only [val32, Bool.not_true, if_true, Bool.false_eq_true, if_false]
    have := swab32_bytes _ _ _ _ h0 h1 h2 h3
    rw [this]
    omega

theorem fix_short_val16 (sysLE : Bool) (hdr : APP1_HEADER) (l : List Nat)
    (h : ∀ x ∈ l, x < 256) :
    fix_short sysLE hdr (val16 sysLE l) = spec_u16 (dataIsLittleEndian hdr) l := by
  unfold fix_short
  rw [← val16_eq_spec]
  cases hd : dataIsLittleEndian hdr <;> cases sysLE <;>
    simp [swab16_val16 _ l h]

theorem fix_int_val32 (sysLE : Bool) (hdr : APP1_HEADER) (l : List Nat)
    (h : ∀ x ∈ l, x < 256) :
    fix_int sysLE hdr (val32 sysLE l) = spec_u32 (dataIsLittleEndian hdr) l := by
  unfold fix_int
  rw [← val32_eq_spec]
  cases hd : dataIsLittleEndian hdr <;> cases sysLE <;>
    simp [swab32_val32 _ l h]

/-- The byte-order mark: the comparison of the value in host memory with `0x4949` or
`0x4D4D` does not depend on the byte order of the host. -/
theorem val16_mark (sysLE : Bool) (l : List Nat) (h : ∀ x ∈ l, x < 256) :
    (val16 sysLE l = 0x4949 ↔ spec_u16 false l = 0x4949) ∧
    (val16 sysLE l = 0x4D4D ↔ spec_u16 false l = 0x4D4D) := by
  have h0 := getD_byte l h 0
  have h1 := getD_byte l h 1
  cases sysLE <;> simp only [val16, spec_u16, if_true, Bool.false_eq_true, if_false] <;>
    constructor <;> constructor <;> intro hh <;> omega

theorem mem_drop_byte (l : List Nat) (n : Nat) (h : ∀ x ∈ l, x < 256) :
    ∀ x ∈ l.drop n, x < 256 :=
  fun x hx => h x (List.mem_of_mem_drop hx)

theorem fread_byte (file : List Nat) (pos n : Nat) (h : ∀ x ∈ file, x < 256) :
    ∀ x ∈ fread file pos n, x < 256 :=
  fun x hx => h x (List.mem_of_mem_drop (List.mem_of_mem_take hx))

theorem fread_length (file : List Nat) (pos n : Nat) (h : pos + n ≤ file.length) :
    (fread file pos n).length = n := by
  simp only [fread, List.length_take, List.length_drop]
  omega

theorem length_val16 (sysLE : Bool) (l : List Nat) (h : ∀ x ∈ l, x < 256) :
    (if sysLE then swab16 (val16 sysLE l) else val16 sysLE l) = spec_u16 false l := by
  cases sysLE
  · rfl
  · simp only [if_true]
    rw [swab16_val16 _ l h]
    rfl

/-- The function `readApp1SegmentHeader` in the words of the spec: with eighteen bytes
to read it returns 0 exactly when the validation of the spec fails, and otherwise leaves
the header the spec describes. -/
theorem readApp1SegmentHeader_eq (sysLE : Bool) (file : List Nat) (start : Nat)
    (hb : ∀ x ∈ file, x < 256) (hlen : start + 18 ≤ file.length) :
    readApp1SegmentHeader sysLE file start =
      if spec_header_invalid (fread file start 18) then none
      else some
        { marker := val16 sysLE (fread file start 18),
          length := spec_u16 false ((fread file start 18).drop 2),
          id := ((fread file start 18).drop 4).take 6,
          tiff := { byteOrder := spec_byte_order_mark (fread file start 18),
                    reserved := 0x002A,
                    Ifd0thOffset :=
                      spec_u32 (spec_byte_order_mark (fread file start 18) = 0x4949)
                        ((fread file start 18).drop 14) } } := by
  have hbl := fread_length file start 18 hlen
  have hbb := fread_byte file start 18 hb
  unfold readApp1SegmentHeader
  simp only
  generalize fread file start 18 = b at hbl hbb ⊢
  have hm := val16_mark sysLE (b.drop 10) (mem_drop_byte b 10 hbb)
  have hl := length_val16 sysLE (b.drop 2) (mem_drop_byte b 2 hbb)
  have hlt : ¬ b.length < 18 := by omega
  simp only [hlt, if_false, hl]
  unfold spec_header_invalid spec_byte_order_mark
  by_cases h1 : val16 sysLE (b.drop 10) = 0x4949
  · have h1s := hm.1.mp h1
    rw [fix_short_val16 _ _ _ (mem_drop_byte b 12 hbb),
      fix_int_val32 _ _ _ (mem_drop_byte b 14 hbb)]
    simp only [dataIsLittleEndian, h1, h1s, ne_eq, not_true_eq_false, false_and, and_false, if_false,
      decide_True, false_or]
    split <;> simp_all
  · by_cases h2 : val16 sysLE (b.drop 10) = 0x4D4D
    · have h2s := hm.2.mp h2
      have h1s : ¬ spec_u16 false (b.drop 10) = 0x4949 := fun h => h1 (hm.1.mpr h)
      rw [fix_short_val16 _ _ _ (mem_drop_byte b 12 hbb),
        fix_int_val32 _ _ _ (mem_drop_byte b 14 hbb)]
      simp only [dataIsLittleEndian, h2, h2s, h1s, ne_eq, not_true_eq_false, false_and, and_false,
        if_false, decide_False, false_or, not_false_eq_true, true_and]
      split <;> simp_all
    · have h1s : ¬ spec_u16 false (b.drop 10) = 0x4949 := fun h => h1 (hm.1.mpr h)
      have h2s : ¬ spec_u16 false (b.drop 10) = 0x4D4D := fun h => h2 (hm.2.mpr h)
      simp [h1, h2, h1s, h2s]

theorem fread_length_le (file : List Nat) (pos n : Nat) :
    (fread file pos n).length = min n (file.length - pos) := by
  simp [fread]

theorem newTagNode_fields (tagId type count : Nat) (nd bd : Option (List Nat)) :
    (newTagNode tagId type count nd bd).tagId = tagId ∧
    (newTagNode tagId type count nd bd).type = type ∧
    (newTagNode tagId type count nd bd).count = count := by
  unfold newTagNode
  split
  · split <;> simp
  · simp

theorem newTagNode_error_num (tagId type count : Nat) (nd : List Nat)
    (bd : Option (List Nat)) (h : 0 < count) :
    (newTagNode tagId type count (some nd) bd).error = 0 := by
  simp [newTagNode, h]

theorem newTagNode_error_byte (tagId type count : Nat) (bd : List Nat) (h : 0 < count) :
    (newTagNode tagId type count none (some bd)).error = 0 := by
  simp [newTagNode, h]

theorem newTagNode_none (tagId type count : Nat) :
    (newTagNode tagId type count none none).numData = none ∧
    (newTagNode tagId type count none none).byteData = none := by
  unfold newTagNode
  split <;> simp

/-- The node of a tag field of one of the ten types. -/
theorem parseTag_node (sysLE : Bool) (g : Globals) (file : List Nat) (tag : IFD_TAG)
    (data : List Nat) (val : Nat) (htype : 1 ≤ tag.type ∧ tag.type ≤ 10) :
    ∃ n, (parseTag sysLE g file tag data val).node = some n ∧ n.tagId = tag.tag ∧
      n.type = tag.type ∧ n.count = tag.count := by
  have hcases : tag.type = 1 ∨ tag.type = 2 ∨ tag.type = 3 ∨ tag.type = 4 ∨ tag.type = 5 ∨
      tag.type = 6 ∨ tag.type = 7 ∨ tag.type = 8 ∨ tag.type = 9 ∨ tag.type = 10 := by omega
  rcases hcases with h | h | h | h | h | h | h | h | h | h <;>
    simp only [parseTag, h, TYPE_BYTE,
      TYPE_ASCII, TYPE_SHORT, TYPE_LONG, TYPE_RATIONAL, TYPE_SBYTE, TYPE_UNDEFINED,
      TYPE_SSHORT, TYPE_SLONG, TYPE_SRATIONAL] <;>
    norm_num <;>
    split_ifs <;>
    exact ⟨_, rfl, by rw [← h]; exact newTagNode_fields _ _ _ _ _⟩

/-- The guard of the parser on the size of a value and what it leaves of the tag. -/
theorem parseTag_guard (sysLE : Bool) (g : Globals) (file : List Nat) (tag : IFD_TAG)
    (data : List Nat) (val : Nat) (htype : 1 ≤ tag.type ∧ tag.type ≤ 10)
    (hcount : tag.count < 1073741824)
    (hg : allocGuardFires g.App1Header.length tag.type tag.count) :
    (parseTag sysLE g file tag data val).node =
      some (newTagNode tag.tag tag.type tag.count none none) ∧
    (parseTag sysLE g file tag data val).seek = none := by
  have hcases : tag.type = 1 ∨ tag.type = 2 ∨ tag.type = 3 ∨ tag.type = 4 ∨ tag.type = 5 ∨
      tag.type = 6 ∨ tag.type = 7 ∨ tag.type = 8 ∨ tag.type = 9 ∨ tag.type = 10 := by omega
  rcases hcases with h | h | h | h | h | h | h | h | h | h <;>
    simp only [parseTag, allocGuardFires, h, TYPE_BYTE,
      TYPE_ASCII, TYPE_SHORT, TYPE_LONG, TYPE_RATIONAL, TYPE_SBYTE, TYPE_UNDEFINED,
      TYPE_SSHORT, TYPE_SLONG, TYPE_SRATIONAL] at hg ⊢ <;>
    norm_num at hg ⊢ <;>
    split_ifs <;>
    first
      | exact ⟨rfl, rfl⟩
      | (exfalso; omega)

/-- A value that the guard lets pass and whose bytes can be read is decoded. -/
theorem parseTag_decoded (sysLE : Bool) (g : Globals) (file : List Nat) (tag : IFD_TAG)
    (data : List Nat) (val : Nat) (n : TagNode) (htype : 1 ≤ tag.type ∧ tag.type ≤ 10)
    (hcount : tag.count < 1073741824) (hpos : 0 < tag.count)
    (hg : ¬ allocGuardFires g.App1Header.length tag.type tag.count)
    (hr : payloadReadable g file tag)
    (hn : (parseTag sysLE g file tag data val).node = some n) : n.error = 0 := by
  have hcases : tag.type = 1 ∨ tag.type = 2 ∨ tag.type = 3 ∨ tag.type = 4 ∨ tag.type = 5 ∨
      tag.type = 6 ∨ tag.type = 7 ∨ tag.type = 8 ∨ tag.type = 9 ∨ tag.type = 10 := by omega
  have e1 := fun nd bd => newTagNode_error_num tag.tag tag.type tag.count nd bd hpos
  have e2 := fun bd => newTagNode_error_byte tag.tag tag.type tag.count bd hpos
  rcases hcases with h | h | h | h | h | h | h | h | h | h <;>
    simp only [parseTag, allocGuardFires, payloadReadable, spec_payload_bytes,
      fread_length_le, h, TYPE_BYTE,
      TYPE_ASCII, TYPE_SHORT, TYPE_LONG, TYPE_RATIONAL, TYPE_SBYTE, TYPE_UNDEFINED,
      TYPE_SSHORT, TYPE_SLONG, TYPE_SRATIONAL] at hg hr hn e1 e2 ⊢ <;>
    norm_num at hg hr hn ⊢ <;>
    split_ifs at hn <;>
    simp only [Option.some.injEq] at hn <;>
    first
      | (rw [← hn]; exact e1 _ _)
      | (rw [← hn]; exact e2 _)
      | (exfalso; omega)

theorem val32_copyCells (sysLE : Bool) (chunk rest : List Nat) :
    val32 sysLE (copyCells 4 chunk ++ rest) = val32 sysLE chunk := by
  simp [val32, copyCells, List.range, List.range.loop]

theorem pokeVal_long (sysLE : Bool) (val : Nat) (chunk : List Nat) :
    pokeVal sysLE val chunk 4 = val32 sysLE chunk := by
  unfold pokeVal
  exact val32_copyCells sysLE chunk _

theorem pokeVal_short (val : Nat) (chunk : List Nat) (h : ∀ x ∈ chunk, x < 256) :
    pokeVal true val chunk 2 % 65536 = val16 true chunk := by
  have h0 := getD_byte chunk h 0
  have h1 := getD_byte chunk h 1
  simp only [List.getD_eq_getElem?_getD] at h0 h1
  simp [pokeVal, val32, val16, copyCells, List.range, List.range.loop, mem32]
  omega

theorem range_succ_map {β : Type} (n : Nat) (f : Nat → β) :
    (List.range (n + 1)).map f = f 0 :: (List.range n).map (fun j => f (j + 1)) := by
  rw [List.range_succ_eq_map, List.map_cons, List.map_map]
  rfl

/-- The loop over an out-of-line LONG or SLONG value decodes each element in the byte
order of the data, whatever `val` held before. -/
theorem decodeCells_long (sysLE : Bool) (hdr : APP1_HEADER) (buf : List Nat)
    (hb : ∀ x ∈ buf, x < 256) (count i val : Nat) :
    (decodeCells sysLE hdr buf 4 count i val).1 =
      (List.range count).map
        (fun j => spec_u32 (dataIsLittleEndian hdr) (buf.drop ((i + j) * 4))) := by
  induction count generalizing i val with
  | zero => rfl
  | succ n ih =>
    rw [range_succ_map]
    unfold decodeCells
    simp only [if_true, pokeVal_long, Nat.add_zero]
    rw [ih, fix_int_val32 sysLE hdr _ (mem_drop_byte buf _ hb)]
    congr 1
    apply List.map_congr_left
    intro j _
    rw [Nat.add_assoc, Nat.add_comm 1 j]

/-- On a little-endian host the loop over an out-of-line SHORT or SSHORT value decodes
each element in the byte order of the data, whatever `val` held before. -/
theorem decodeCells_short (hdr : APP1_HEADER) (buf : List Nat)
    (hb : ∀ x ∈ buf, x < 256) (count i val : Nat) :
    (decodeCells true hdr buf 2 count i val).1 =
      (List.range count).map
        (fun j => spec_u16 (dataIsLittleEndian hdr) (buf.drop ((i + j) * 2))) := by
  induction count generalizing i val with
  | zero => rfl
  | succ n ih =>
    rw [range_succ_map]
    unfold decodeCells
    simp only [show ¬ (2 = 4) by decide, if_false, if_true, Nat.add_zero]
    rw [ih, pokeVal_short val _ (mem_drop_byte buf _ hb),
      fix_short_val16 true hdr _ (mem_drop_byte buf _ hb)]
    congr 1
    apply List.map_congr_left
    intro j _
    rw [Nat.add_assoc, Nat.add_comm 1 j]

theorem newTagNode_num (tagId type count : Nat) (slots : List Nat) (h : 0 < count)
    (ht : ¬ (type = TYPE_RATIONAL ∨ type = TYPE_SRATIONAL)) (hl : slots.length = count) :
    newTagNode tagId type count (some slots) none =
      { tagId := tagId, type := type, count := count, numData := some slots,
        byteData := none, error := 0 } := by
  unfold newTagNode
  simp only [h, if_true, ht, if_false]
  rw [← hl, copyCells_self]

theorem getD_drop_zero (l : List Nat) (i : Nat) : (l.drop i).getD 0 0 = l.getD i 0 := by
  simp [List.getD_eq_getElem?_getD]

/-- The slots of a LONG or SLONG value. -/
theorem parseTag_long (sysLE : Bool) (g : Globals) (file : List Nat) (tag : IFD_TAG)
    (data : List Nat) (val : Nat) (ht : tag.type = TYPE_LONG ∨ tag.type = TYPE_SLONG)
    (hpos : 0 < tag.count) (hcount : tag.count < 1073741824)
    (hfile : ∀ x ∈ file, x < 256)
    (hoff : tag.offset = spec_u32 (dataIsLittleEndian g.App1Header) data)
    (hguard : 1 < tag.count → 4 * tag.count < g.App1Header.length)
    (hread : 4 * tag.count ≤ 4 ∨
      seekToRelativeOffset g tag.offset + 4 * tag.count ≤ file.length) :
    (parseTag sysLE g file tag data val).node =
      some { tagId := tag.tag, type := tag.type, count := tag.count,
             numData := some ((List.range tag.count).map (fun i =>
               spec_u32 (dataIsLittleEndian g.App1Header)
                 ((if 4 * tag.count ≤ 4 then data
                   else fread file (seekToRelativeOffset g tag.offset) (4 * tag.count)).drop
                   (i * 4)))),
             byteData := none, error := 0 } := by
  have hnr : ¬ (tag.type = TYPE_RATIONAL ∨ tag.type = TYPE_SRATIONAL) := by
    rcases ht with h | h <;> simp [h, TYPE_LONG, TYPE_SLONG, TYPE_RATIONAL, TYPE_SRATIONAL]
  by_cases h1 : tag.count ≤ 1
  · have hc : tag.count = 1 := by omega
    have hnode : (parseTag sysLE g file tag data val).node =
        some (newTagNode tag.tag tag.type tag.count (some [tag.offset]) none) := by
      rcases ht with h | h <;>
        simp [parseTag, h, hc, TYPE_BYTE, TYPE_ASCII, TYPE_SHORT, TYPE_LONG, TYPE_RATIONAL,
          TYPE_SBYTE, TYPE_UNDEFINED, TYPE_SSHORT, TYPE_SLONG, TYPE_SRATIONAL]
    rw [hnode, newTagNode_num _ _ _ _ hpos hnr (by simp [hc])]
    simp [hc, hoff, show List.range 1 = [0] from rfl]
  · have hlen : ¬ 4 * tag.count ≤ 4 := by omega
    have hg := hguard (by omega)
    have hrd : seekToRelativeOffset g tag.offset + 4 * tag.count ≤ file.length := by
      rcases hread with h | h
      · omega
      · exact h
    have hfl := fread_length file (seekToRelativeOffset g tag.offset) (4 * tag.count) hrd
    have hnode : (parseTag sysLE g file tag data val).node =
        some (newTagNode tag.tag tag.type tag.count
          (some (decodeCells sysLE g.App1Header
            (fread file (seekToRelativeOffset g tag.offset) (4 * tag.count)) 4 tag.count 0
            val).1) none) := by
      have hmod : 4 * tag.count % 4294967296 = 4 * tag.count := Nat.mod_eq_of_lt (by omega)
      have hg2 : ¬ g.App1Header.length ≤ 4 * tag.count := by omega
      rcases ht with h | h <;>
        simp [parseTag, h, h1, hmod, hlen, hfl, hg2, TYPE_BYTE, TYPE_ASCII, TYPE_SHORT, TYPE_LONG,
          TYPE_RATIONAL, TYPE_SBYTE, TYPE_UNDEFINED, TYPE_SSHORT, TYPE_SLONG, TYPE_SRATIONAL]
    rw [hnode, decodeCells_long _ _ _ (fread_byte file _ _ hfile)]
    rw [newTagNode_num _ _ _ _ hpos hnr (by simp)]
    simp [hlen]

/-- The slots of a SHORT or SSHORT value; an out-of-line value on a little-endian
host. -/
theorem parseTag_short (sysLE : Bool) (g : Globals) (file : List Nat) (tag : IFD_TAG)
    (data : List Nat) (val : Nat) (ht : tag.type = TYPE_SHORT ∨ tag.type = TYPE_SSHORT)
    (hpos : 0 < tag.count) (hcount : tag.count < 1073741824)
    (hfile : ∀ x ∈ file, x < 256) (hdata : ∀ x ∈ data, x < 256)
    (hguard : 1 < tag.count → 4 * tag.count < g.App1Header.length)
    (hread : 2 * tag.count ≤ 4 ∨
      seekToRelativeOffset g tag.offset + 2 * tag.count ≤ file.length)
    (hhost : 2 < tag.count → sysLE = true) :
    (parseTag sysLE g file tag data val).node =
      some { tagId := tag.tag, type := tag.type, count := tag.count,
             numData := some ((List.range tag.count).map (fun i =>
               spec_u16 (dataIsLittleEndian g.App1Header)
                 ((if 2 * tag.count ≤ 4 then data
                   else fread file (seekToRelativeOffset g tag.offset) (2 * tag.count)).drop
                   (i * 2)))),
             byteData := none, error := 0 } := by
  have hnr : ¬ (tag.type = TYPE_RATIONAL ∨ tag.type = TYPE_SRATIONAL) := by
    rcases ht with h | h <;> simp [h, TYPE_SHORT, TYPE_SSHORT, TYPE_RATIONAL, TYPE_SRATIONAL]
  by_cases h1 : tag.count ≤ 1
  · have hc : tag.count = 1 := by omega
    have hnode : (parseTag sysLE g file tag data val).node =
        some (newTagNode tag.tag tag.type tag.count
          (some [fix_short sysLE g.App1Header (val16 sysLE data)]) none) := by
      rcases ht with h | h <;>
        simp [parseTag, h, hc, TYPE_BYTE, TYPE_ASCII, TYPE_SHORT, TYPE_LONG, TYPE_RATIONAL,
          TYPE_SBYTE, TYPE_UNDEFINED, TYPE_SSHORT, TYPE_SLONG, TYPE_SRATIONAL]
    rw [hnode, newTagNode_num _ _ _ _ hpos hnr (by simp [hc])]
    simp [hc, fix_short_val16 _ _ _ hdata, show List.range 1 = [0] from rfl]
  · have hg := hguard (by omega)
    have hg2 : ¬ g.App1Header.length ≤ 4 * tag.count := by omega
    have hmod : 4 * tag.count % 4294967296 = 4 * tag.count := Nat.mod_eq_of_lt (by omega)
    by_cases h2 : tag.count = 2
    · have hg3 : ¬ g.App1Header.length ≤ 8 := by omega
      have hnode : (parseTag sysLE g file tag data val).node =
          some (newTagNode tag.tag tag.type tag.count
            (some ((List.range 2).map (fun i =>
              fix_short sysLE g.App1Header (val16 sysLE (data.drop (i * 2)))))) none) := by
        rcases ht with h | h <;>
          simp [parseTag, h, h2, hmod, hg3, TYPE_BYTE, TYPE_ASCII, TYPE_SHORT, TYPE_LONG,
            TYPE_RATIONAL, TYPE_SBYTE, TYPE_UNDEFINED, TYPE_SSHORT, TYPE_SLONG,
            TYPE_SRATIONAL]
      rw [hnode, newTagNode_num _ _ _ _ hpos hnr (by simp [h2])]
      have hm : (List.range 2).map (fun i =>
          fix_short sysLE g.App1Header (val16 sysLE (data.drop (i * 2)))) =
          (List.range 2).map (fun i =>
            spec_u16 (dataIsLittleEndian g.App1Header) (data.drop (i * 2))) :=
        List.map_congr_left (fun i _ => fix_short_val16 _ _ _ (mem_drop_byte data _ hdata))
      rw [hm]
      simp [h2]
    · have hlen : ¬ 2 * tag.count ≤ 4 := by omega
      have hs : sysLE = true := hhost (by omega)
      subst hs
      have hrd : seekToRelativeOffset g tag.offset + 2 * tag.count ≤ file.length := by
        rcases hread with h | h
        · omega
        · exact h
      have hfl := fread_length file (seekToRelativeOffset g tag.offset) (2 * tag.count) hrd
      have hnode : (parseTag true g file tag data val).node =
          some (newTagNode tag.tag tag.type tag.count
            (some (decodeCells true g.App1Header
              (fread file (seekToRelativeOffset g tag.offset) (2 * tag.count)) 2 tag.count 0
              val).1) none) := by
        rcases ht with h | h <;>
          simp [parseTag, h, h1, hmod, hlen, hfl, hg2, TYPE_BYTE, TYPE_ASCII, TYPE_SHORT,
            TYPE_LONG, TYPE_RATIONAL, TYPE_SBYTE, TYPE_UNDEFINED, TYPE_SSHORT, TYPE_SLONG,
            TYPE_SRATIONAL]
      rw [hnode, decodeCells_short _ _ (fread_byte file _ _ hfile)]
      rw [newTagNode_num _ _ _ _ hpos hnr (by simp)]
      simp [hlen]

/-- The slots of a BYTE or SBYTE value of at most four bytes. -/
theorem parseTag_byte (sysLE : Bool) (g : Globals) (file : List Nat) (tag : IFD_TAG)
    (data : List Nat) (val : Nat) (ht : tag.type = TYPE_BYTE ∨ tag.type = TYPE_SBYTE)
    (hpos : 0 < tag.count) (hle : tag.count ≤ 4)
    (hguard : 1 < tag.count → 4 * tag.count < g.App1Header.length) :
    (parseTag sysLE g file tag data val).node =
      some { tagId := tag.tag, type := tag.type, count := tag.count,
             numData := some ((List.range tag.count).map (fun i => (data.drop (i * 1)).getD 0 0)),
             byteData := none, error := 0 } := by
  have hnr : ¬ (tag.type = TYPE_RATIONAL ∨ tag.type = TYPE_SRATIONAL) := by
    rcases ht with h | h <;> simp [h, TYPE_BYTE, TYPE_SBYTE, TYPE_RATIONAL, TYPE_SRATIONAL]
  have hm : (List.range tag.count).map (fun i => (data.drop (i * 1)).getD 0 0) =
      (List.range tag.count).map (fun i => data.getD i 0) :=
    List.map_congr_left (fun i _ => by rw [Nat.mul_one, getD_drop_zero])
  rw [hm]
  by_cases h1 : tag.count ≤ 1
  · have hc : tag.count = 1 := by omega
    have hnode : (parseTag sysLE g file tag data val).node =
        some (newTagNode tag.tag tag.type tag.count (some [data.getD 0 0]) none) := by
      rcases ht with h | h <;>
        simp [parseTag, h, hc, TYPE_BYTE, TYPE_ASCII, TYPE_SHORT, TYPE_LONG, TYPE_RATIONAL,
          TYPE_SBYTE, TYPE_UNDEFINED, TYPE_SSHORT, TYPE_SLONG, TYPE_SRATIONAL]
    rw [hnode, newTagNode_num _ _ _ _ hpos hnr (by simp [hc])]
    simp [hc, show List.range 1 = [0] from rfl]
  · have hg := hguard (by omega)
    have hg2 : ¬ g.App1Header.length ≤ 4 * tag.count := by omega
    have hmod : 4 * tag.count % 4294967296 = 4 * tag.count := Nat.mod_eq_of_lt (by omega)
    have hnode : (parseTag sysLE g file tag data val).node =
        some (newTagNode tag.tag tag.type tag.count
          (some ((List.range tag.count).map (fun i => data.getD i 0))) none) := by
      rcases ht with h | h <;>
        simp [parseTag, h, h1, hle, hmod, hg2, TYPE_BYTE, TYPE_ASCII, TYPE_SHORT, TYPE_LONG,
          TYPE_RATIONAL, TYPE_SBYTE, TYPE_UNDEFINED, TYPE_SSHORT, TYPE_SLONG, TYPE_SRATIONAL]
    rw [hnode, newTagNode_num _ _ _ _ hpos hnr (by simp)]

theorem spec_u32_take (le : Bool) (l : List Nat) :
    spec_u32 le (l.take 4) = spec_u32 le l := by
  simp [spec_u32, List.getD_eq_getElem?_getD, List.getElem?_take]

theorem readIfdTag_offset (sysLE : Bool) (hdr : APP1_HEADER) (b : List Nat)
    (hb : ∀ x ∈ b, x < 256) :
    (readIfdTag sysLE hdr b).offset =
      spec_u32 (dataIsLittleEndian hdr) ((b.drop 8).take 4) := by
  rw [spec_u32_take]
  exact fix_int_val32 sysLE hdr _ (mem_drop_byte b 8 hb)

theorem entryBytes_shift (file : List Nat) (pos i : Nat) :
    entryBytes file pos (i + 1) = entryBytes file (pos + 12) i := by
  unfold entryBytes
  congr 1
  omega

theorem valBefore_shift (sysLE : Bool) (g : Globals) (file : List Nat) (pos val0 i : Nat) :
    valBefore sysLE g file pos val0 (i + 1) =
      valBefore sysLE g file (pos + 12)
        (parseTag sysLE g file (entryTag sysLE g file pos 0) (entryData file pos 0) val0).val
        i := by
  induction i with
  | zero => rfl
  | succ k ih =>
    rw [valBefore, ih]
    simp only [valBefore, entryTag, entryData, entryBytes_shift]

theorem entryNode_shift (sysLE : Bool) (g : Globals) (file : List Nat) (pos val0 i : Nat) :
    entryNode sysLE g file pos val0 (i + 1) =
      entryNode sysLE g file (pos + 12)
        (parseTag sysLE g file (entryTag sysLE g file pos 0) (entryData file pos 0) val0).val
        i := by
  unfold entryNode
  rw [valBefore_shift]
  simp only [entryTag, entryData, entryBytes_shift]

/-- The tag loop of `parseIFD` over tag fields that can all be read: the nodes it adds,
in the order of the fields. -/
theorem parseTags_eq (sysLE : Bool) (g : Globals) (file : List Nat) (n : Nat) :
    ∀ (pos val : Nat) (tags : List TagNode), pos + 12 * n ≤ file.length →
      parseTags sysLE g file n pos val tags =
        some (tags ++ (List.range n).filterMap (entryNode sysLE g file pos val)) := by
  induction n with
  | zero =>
    intro pos val tags _
    simp [parseTags]
  | succ k ih =>
    intro pos val tags h
    have hb : ¬ (fread file pos 12).length < 12 := by
      rw [fread_length file pos 12 (by omega)]
      omega
    have hrange : (List.range (k + 1)).filterMap (entryNode sysLE g file pos val) =
        (entryNode sysLE g file pos val 0).toList ++
          (List.range k).filterMap (fun i => entryNode sysLE g file pos val (i + 1)) := by
      rw [List.range_succ_eq_map, List.filterMap_cons, List.filterMap_map]
      cases entryNode sysLE g file pos val 0 <;> rfl
    have h0 : entryNode sysLE g file pos val 0 =
        (parseTag sysLE g file (readIfdTag sysLE g.App1Header (fread file pos 12))
          (((fread file pos 12).drop 8).take 4) val).node := by
      simp [entryNode, entryTag, entryData, entryBytes, valBefore]
    have hv : (parseTag sysLE g file (entryTag sysLE g file pos 0) (entryData file pos 0)
        val).val =
        (parseTag sysLE g file (readIfdTag sysLE g.App1Header (fread file pos 12))
          (((fread file pos 12).drop 8).take 4) val).val := by
      simp [entryTag, entryData, entryBytes]
    unfold parseTags
    simp only [hb, if_false]
    rw [hrange, h0]
    simp only [entryNode_shift, hv]
    cases hn : (parseTag sysLE g file (readIfdTag sysLE g.App1Header (fread file pos 12))
        (((fread file pos 12).drop 8).take 4) val).node with
    | none =>
      simp only [Option.toList, List.nil_append]
      exact ih _ _ _ (by omega)
    | some node =>
      simp only [Option.toList]
      rw [ih _ _ _ (by omega)]
      simp

/-- When the tag loop ends without the label `ERR`, all its tag fields could be read. -/
theorem parseTags_some (sysLE : Bool) (g : Globals) (file : List Nat) (n : Nat) :
    ∀ (pos val : Nat) (tags r : List TagNode),
      parseTags sysLE g file n pos val tags = some r → n = 0 ∨ pos + 12 * n ≤ file.length := by
  induction n with
  | zero => intro _ _ _ _ _; exact Or.inl rfl
  | succ k ih =>
    intro pos val tags r h
    right
    unfold parseTags at h
    by_cases hb : (fread file pos 12).length < 12
    · simp [hb] at h
    · simp only [hb, if_false] at h
      have hlen : pos + 12 ≤ file.length := by
        rw [fread_length_le] at hb
        omega
      have hrec : ∃ v t, parseTags sysLE g file k (pos + 12) v t = some r := by
        split at h
        · exact ⟨_, _, h⟩
        · exact ⟨_, _, h⟩
      obtain ⟨v, t, hr⟩ := hrec
      rcases ih _ _ _ _ hr with h0 | h1
      · omega
      · omega

/-- The function `parseIFD` on an IFD whose count, tag fields and (for a 0th IFD)
next-IFD offset can be read: it returns a table with the count read and the nodes of the
tag loop. -/
theorem parseIFD_eq (sysLE : Bool) (g : Globals) (file : List Nat) (startOffset : Nat)
    (ifdType : IFD_TYPE) (val0 : Nat) (he : EntriesReadable sysLE g file startOffset)
    (hn : NextReadable sysLE g file startOffset ifdType) :
    ∃ ifd, parseIFD sysLE g file startOffset ifdType val0 = some ifd ∧
      ifd.ifdType = ifdType ∧ ifd.tagCount = ifdTagCount sysLE g file startOffset ∧
      ifd.tags = (List.range (ifdTagCount sysLE g file startOffset)).filterMap
        (entryNode sysLE g file (seekToRelativeOffset g startOffset + 2) val0) := by
  unfold EntriesReadable at he
  unfold NextReadable at hn
  have hb : ¬ (fread file (seekToRelativeOffset g startOffset) 2).length < 2 := by
    rw [fread_length file _ 2 (by omega)]
    omega
  have ht := parseTags_eq sysLE g file (ifdTagCount sysLE g file startOffset)
    (seekToRelativeOffset g startOffset + 2) val0 [] (by omega)
  unfold parseIFD
  simp only [hb, if_false]
  unfold ifdTagCount at hn ht ⊢
  by_cases h0 : ifdType = IFD_0TH
  · have hnb := fread_length file _ 4 (hn h0)
    simp only [h0, if_true, hnb, show ¬ (4 < 4) by decide, if_false, ht, List.nil_append,
      show ¬ (IFD_0TH = IFD_1ST) by decide]
    exact ⟨_, rfl, rfl, rfl, rfl⟩
  · simp only [h0, if_false, ht, List.nil_append]
    by_cases h1 : ifdType = IFD_1ST
    · simp only [h1, if_true]
      exact ⟨_, rfl, rfl, rfl, rfl⟩
    · simp only [h1, if_false]
      exact ⟨_, rfl, rfl, rfl, rfl⟩

/-- What `parseIFD` has read when it returns a table. -/
theorem parseIFD_some (sysLE : Bool) (g : Globals) (file : List Nat) (startOffset : Nat)
    (ifdType : IFD_TYPE) (val0 : Nat) (ifd : IfdTable)
    (h : parseIFD sysLE g file startOffset ifdType val0 = some ifd) :
    seekToRelativeOffset g startOffset + 2 ≤ file.length ∧
    (ifdTagCount sysLE g file startOffset ≠ 0 → EntriesReadable sysLE g file startOffset) ∧
    ifd.tagCount = ifdTagCount sysLE g file startOffset ∧
    ifd.tags = (List.range (ifdTagCount sysLE g file startOffset)).filterMap
      (entryNode sysLE g file (seekToRelativeOffset g startOffset + 2) val0) := by
  unfold parseIFD at h
  simp only at h
  by_cases hb : (fread file (seekToRelativeOffset g startOffset) 2).length < 2
  · simp [hb] at h
  · simp only [hb, if_false] at h
    have hc : seekToRelativeOffset g startOffset + 2 ≤ file.length := by
      rw [fread_length_le] at hb
      omega
    split at h
    · simp at h
    · rename_i nx hnx
      cases hp : parseTags sysLE g file (ifdTagCount sysLE g file startOffset)
          (seekToRelativeOffset g startOffset + 2) val0 [] with
      | none =>
        unfold ifdTagCount at hp
        simp [hp] at h
      | some tags =>
        have hsome := parseTags_some sysLE g file _ _ _ _ _ hp
        have hread : ifdTagCount sysLE g file startOffset ≠ 0 →
            EntriesReadable sysLE g file startOffset := by
          intro hne
          unfold EntriesReadable
          rcases hsome with h0 | h1
          · exact absurd h0 hne
          · omega
        have hle : seekToRelativeOffset g startOffset + 2 +
            12 * ifdTagCount sysLE g file startOffset ≤ file.length := by
          rcases hsome with h0 | h1
          · rw [h0]; omega
          · exact h1
        have heq := parseTags_eq sysLE g file _ _ val0 [] hle
        rw [hp, List.nil_append, Option.some.injEq] at heq
        unfold ifdTagCount at hp
        simp only [hp] at h
        refine ⟨hc, hread, ?_, ?_⟩
        · split at h <;> simp only [Option.some.injEq] at h <;> rw [← h] <;> rfl
        · rw [← heq]
          split at h <;> simp only [Option.some.injEq] at h <;> rw [← h]

/-- A tag field whose type is none of the ten adds no node and leaves `val` alone. -/
theorem parseTag_unknown (sysLE : Bool) (g : Globals) (file : List Nat) (tag : IFD_TAG)
    (data : List Nat) (val : Nat) (htype : ¬ (1 ≤ tag.type ∧ tag.type ≤ 10)) :
    (parseTag sysLE g file tag data val).node = none := by
  have h1 : ¬ (tag.type = 2 ∨ tag.type = 7) := by omega
  have h2 : ¬ (tag.type = 5 ∨ tag.type = 10) := by omega
  have h3 : ¬ (tag.type = 1 ∨ tag.type = 3 ∨ tag.type = 4 ∨ tag.type = 6 ∨ tag.type = 8 ∨
      tag.type = 9) := by omega
  simp only [parseTag, TYPE_BYTE, TYPE_ASCII, TYPE_SHORT, TYPE_LONG, TYPE_RATIONAL,
    TYPE_SBYTE, TYPE_UNDEFINED, TYPE_SSHORT, TYPE_SLONG, TYPE_SRATIONAL, h1, h2, h3, if_false]

theorem filterMap_ite {α β : Type} (l : List α) (p : α → Prop) [DecidablePred p]
    (f : α → β) :
    l.filterMap (fun x => if p x then some (f x) else none) =
      (l.filter (fun x => decide (p x))).map f := by
  induction l with
  | nil => rfl
  | cons x xs ih =>
    by_cases hx : p x
    · simp [List.filterMap_cons, List.filter_cons, hx, ih]
    · simp [List.filterMap_cons, List.filter_cons, hx, ih]

/-- The id, type and count of the node of a tag field: those of the field when its type
is one of the ten; no node otherwise. -/
theorem entryNode_triple (sysLE : Bool) (g : Globals) (file : List Nat) (pos val0 i : Nat) :
    (entryNode sysLE g file pos val0 i).map tagTriple =
      if entryTypeKnown sysLE g file pos i
      then some (fieldTriple (entryTag sysLE g file pos i)) else none := by
  unfold entryNode
  by_cases h : entryTypeKnown sysLE g file pos i
  · obtain ⟨n, hn, h1, h2, h3⟩ := parseTag_node sysLE g file _ (entryData file pos i)
      (valBefore sysLE g file pos val0 i) h
    rw [hn, if_pos h]
    simp [tagTriple, fieldTriple, h1, h2, h3]
  · rw [parseTag_unknown sysLE g file _ _ _ h, if_neg h]
    rfl

/-- The ids, types and counts of the nodes of the tag loop: those of the tag fields whose
type is one of the ten, in the order of the fields. -/
theorem nodes_triples (sysLE : Bool) (g : Globals) (file : List Nat) (pos val0 n : Nat) :
    ((List.range n).filterMap (entryNode sysLE g file pos val0)).map tagTriple =
      ((List.range n).filter (fun i => decide (entryTypeKnown sysLE g file pos i))).map
        (fun i => fieldTriple (entryTag sysLE g file pos i)) := by
  rw [List.map_filterMap, ← filterMap_ite]
  apply List.filterMap_congr
  intro i _
  exact entryNode_triple sysLE g file pos val0 i

theorem newTagNode_zero (tagId type : Nat) (nd bd : Option (List Nat)) :
    newTagNode tagId type 0 nd bd =
      { tagId := tagId, type := type, count := 0, numData := none, byteData := none,
        error := 1 } := by
  simp [newTagNode]

theorem newTagNode_nothing (tagId type count : Nat) :
    newTagNode tagId type count none none =
      { tagId := tagId, type := type, count := count, numData := none, byteData := none,
        error := 1 } := by
  unfold newTagNode
  split <;> rfl

theorem pokeVal_long_indep (sysLE : Bool) (val val2 : Nat) (chunk : List Nat) :
    pokeVal sysLE val chunk 4 = pokeVal sysLE val2 chunk 4 := by
  rw [pokeVal_long, pokeVal_long]

theorem pokeVal_short_indep (val val2 : Nat) (chunk : List Nat) :
    pokeVal true val chunk 2 % 65536 = pokeVal true val2 chunk 2 % 65536 := by
  simp [pokeVal, val32, copyCells, List.range, List.range.loop, mem32]
  omega

/-- The loop over an out-of-line value of four-byte elements, and on a little-endian host
of two-byte elements, decodes the same cells whatever `val` held before. -/
theorem decodeCells_indep (sysLE : Bool) (hdr : APP1_HEADER) (buf : List Nat)
    (size count i val val2 : Nat) (h : size = 4 ∨ (size = 2 ∧ sysLE = true)) :
    (decodeCells sysLE hdr buf size count i val).1 =
      (decodeCells sysLE hdr buf size count i val2).1 := by
  cases count with
  | zero => rfl
  | succ n =>
    rcases h with h | ⟨h, hs⟩
    · subst h
      unfold decodeCells
      simp only [if_true, pokeVal_long_indep sysLE val val2]
    · subst h
      subst hs
      unfold decodeCells
      simp only [show ¬ (2 = 4) by decide, if_false, if_true,
        pokeVal_short_indep val val2]

/-- The node of a tag field does not depend on what `val` held before, except for the
fields of `dependsOnVal`. -/
theorem parseTag_indep (sysLE : Bool) (g : Globals) (file : List Nat) (tag : IFD_TAG)
    (data : List Nat) (val val2 : Nat) (hd : ¬ dependsOnVal sysLE tag) :
    (parseTag sysLE g file tag data val).node = (parseTag sysLE g file tag data val2).node := by
  by_cases htype : 1 ≤ tag.type ∧ tag.type ≤ 10
  · have hcases : tag.type = 1 ∨ tag.type = 2 ∨ tag.type = 3 ∨ tag.type = 4 ∨
        tag.type = 5 ∨ tag.type = 6 ∨ tag.type = 7 ∨ tag.type = 8 ∨ tag.type = 9 ∨
        tag.type = 10 := by omega
    have h4 := fun buf => decodeCells_indep sysLE g.App1Header buf 4 tag.count 0 val val2
      (Or.inl rfl)
    have h2 := fun buf (hs : sysLE = true) =>
      decodeCells_indep sysLE g.App1Header buf 2 tag.count 0 val val2 (Or.inr ⟨rfl, hs⟩)
    rcases hcases with h | h | h | h | h | h | h | h | h | h <;>
      simp only [parseTag, dependsOnVal, h, TYPE_BYTE,
        TYPE_ASCII, TYPE_SHORT, TYPE_LONG, TYPE_RATIONAL, TYPE_SBYTE, TYPE_UNDEFINED,
        TYPE_SSHORT, TYPE_SLONG, TYPE_SRATIONAL] at hd ⊢ <;>
      norm_num at hd ⊢ <;>
      split_ifs <;>
      try first
        | rfl
        | (exfalso; omega)
        | (simp only [h4])
    all_goals
      have hs := hd (by omega)
      rw [h2 _ hs]
  · rw [parseTag_unknown sysLE g file tag data val htype,
      parseTag_unknown sysLE g file tag data val2 htype]

/-- The body of the tag loop sees of the file only the bytes of the value of the
field. -/
theorem parseTag_file (sysLE : Bool) (g : Globals) (file file2 : List Nat) (tag : IFD_TAG)
    (data : List Nat) (val : Nat) (hv : valueBytes g file2 tag = valueBytes g file tag) :
    parseTag sysLE g file2 tag data val = parseTag sysLE g file tag data val := by
  by_cases htype : 1 ≤ tag.type ∧ tag.type ≤ 10
  · have hcases : tag.type = 1 ∨ tag.type = 2 ∨ tag.type = 3 ∨ tag.type = 4 ∨
        tag.type = 5 ∨ tag.type = 6 ∨ tag.type = 7 ∨ tag.type = 8 ∨ tag.type = 9 ∨
        tag.type = 10 := by omega
    rcases hcases with h | h | h | h | h | h | h | h | h | h <;>
      simp only [parseTag, valueBytes, valueLength, h, TYPE_BYTE,
        TYPE_ASCII, TYPE_SHORT, TYPE_LONG, TYPE_RATIONAL, TYPE_SBYTE, TYPE_UNDEFINED,
        TYPE_SSHORT, TYPE_SLONG, TYPE_SRATIONAL] at hv ⊢ <;>
      norm_num at hv ⊢ <;>
      simp only [hv]
  · have h1 : ¬ (tag.type = 2 ∨ tag.type = 7) := by omega
    have h2 : ¬ (tag.type = 5 ∨ tag.type = 10) := by omega
    have h3 : ¬ (tag.type = 1 ∨ tag.type = 3 ∨ tag.type = 4 ∨ tag.type = 6 ∨ tag.type = 8 ∨
        tag.type = 9) := by omega
    simp only [parseTag, TYPE_BYTE, TYPE_ASCII, TYPE_SHORT, TYPE_LONG, TYPE_RATIONAL,
      TYPE_SBYTE, TYPE_UNDEFINED, TYPE_SSHORT, TYPE_SLONG, TYPE_SRATIONAL, h1, h2, h3,
      if_false]

/-- A tag field of one of the ten types with the count 0 is kept as an error tag. -/
theorem parseTag_zero (sysLE : Bool) (g : Globals) (file : List Nat) (tag : IFD_TAG)
    (data : List Nat) (val : Nat) (htype : 1 ≤ tag.type ∧ tag.type ≤ 10)
    (hz : tag.count = 0) :
    (parseTag sysLE g file tag data val).node = some (errorTag tag) := by
  have hcases : tag.type = 1 ∨ tag.type = 2 ∨ tag.type = 3 ∨ tag.type = 4 ∨
      tag.type = 5 ∨ tag.type = 6 ∨ tag.type = 7 ∨ tag.type = 8 ∨ tag.type = 9 ∨
      tag.type = 10 := by omega
  rcases hcases with h | h | h | h | h | h | h | h | h | h <;>
    simp only [parseTag, errorTag, hz, newTagNode_zero, h, TYPE_BYTE,
      TYPE_ASCII, TYPE_SHORT, TYPE_LONG, TYPE_RATIONAL, TYPE_SBYTE, TYPE_UNDEFINED,
      TYPE_SSHORT, TYPE_SLONG, TYPE_SRATIONAL] <;>
    norm_num <;>
    split_ifs <;>
    rfl

/-- A tag field of one of the ten types whose value cannot be read from the file is kept
as an error tag. -/
theorem parseTag_unreadable (sysLE : Bool) (g : Globals) (file : List Nat) (tag : IFD_TAG)
    (data : List Nat) (val : Nat) (htype : 1 ≤ tag.type ∧ tag.type ≤ 10)
    (hcount : tag.count < 1073741824) (hr : ¬ payloadReadable g file tag) :
    (parseTag sysLE g file tag data val).node = some (errorTag tag) := by
  have hcases : tag.type = 1 ∨ tag.type = 2 ∨ tag.type = 3 ∨ tag.type = 4 ∨
      tag.type = 5 ∨ tag.type = 6 ∨ tag.type = 7 ∨ tag.type = 8 ∨ tag.type = 9 ∨
      tag.type = 10 := by omega
  rcases hcases with h | h | h | h | h | h | h | h | h | h <;>
    simp only [parseTag, errorTag, payloadReadable, spec_payload_bytes, newTagNode_nothing,
      fread_length_le, h, TYPE_BYTE,
      TYPE_ASCII, TYPE_SHORT, TYPE_LONG, TYPE_RATIONAL, TYPE_SBYTE, TYPE_UNDEFINED,
      TYPE_SSHORT, TYPE_SLONG, TYPE_SRATIONAL] at hr ⊢ <;>
    norm_num at hr ⊢ <;>
    split_ifs <;>
    first
      | rfl
      | (exfalso; omega)

theorem getIfd_putIfd_isSome (arr : List IfdTable) (k k2 : IFD_TYPE) (new : IfdTable)
    (hk : new.ifdType = k) :
    (getIfdTableFromIfdTableArray (putIfd arr k new) k2).isSome =
      (getIfdTableFromIfdTableArray arr k2).isSome := by
  by_cases h : k2 = k
  · subst h
    rw [getIfd_putIfd_same arr k2 new hk]
    cases getIfdTableFromIfdTableArray arr k2 <;> rfl
  · rw [getIfd_putIfd_other arr k k2 new hk h]

theorem putIfd_eq_nil (arr : List IfdTable) (k : IFD_TYPE) (new : IfdTable)
    (h : putIfd arr k new = []) : arr = [] := by
  cases arr with
  | nil => rfl
  | cons x xs =>
    unfold putIfd at h
    split at h <;> simp at h

theorem getIfd_append_isSome (arr : List IfdTable) (k : IFD_TYPE) (c : IfdTable)
    (h : (getIfdTableFromIfdTableArray arr k).isSome = true) :
    (getIfdTableFromIfdTableArray (arr ++ [c]) k).isSome = true := by
  unfold getIfdTableFromIfdTableArray at h ⊢
  rw [List.find?_append]
  cases hf : List.find? (fun ifd => ifd.ifdType == k) arr with
  | none => simp [hf] at h
  | some x => rfl

theorem setThumbnailOnIfd_ifdType (ifd : IfdTable) (pData : List Nat) (length : Nat) :
    (setThumbnailOnIfd ifd pData length).ifdType = ifd.ifdType := by
  unfold setThumbnailOnIfd
  simp only
  split <;> split <;> rfl

theorem removeTagOnIfd_ifdType (ifd : IfdTable) (tagId : Nat) :
    (removeTagOnIfd ifd tagId).2.ifdType = ifd.ifdType := by
  rw [removeTagOnIfd_spec]

/-- The table `parseIFD` returns has the kind it was called for. -/
theorem parseIFD_ifdType (sysLE : Bool) (g : Globals) (file : List Nat) (startOffset : Nat)
    (ifdType : IFD_TYPE) (val0 : Nat) (ifd : IfdTable)
    (h : parseIFD sysLE g file startOffset ifdType val0 = some ifd) :
    ifd.ifdType = ifdType := by
  unfold parseIFD at h
  simp only at h
  split at h
  · simp at h
  · split at h
    · simp at h
    · split at h
      · simp at h
      · split at h <;> simp only [Option.some.injEq] at h <;> rw [← h] <;> rfl

/-- The array `createIfdTableArray` returns has the 0th IFD. -/
theorem createIfdTableArray_zeroth (sysLE : Bool) (file : List Nat) (junk : IFD_TYPE → Nat)
    (count : Int) (arr : List IfdTable) (g : Globals)
    (h : createIfdTableArray sysLE file junk = some (count, some arr, g)) :
    (getIfdTableFromIfdTableArray arr IFD_0TH).isSome = true := by
  unfold createIfdTableArray at h
  cases hf : fillIfdTableArray sysLE file junk with
  | none => simp [hf] at h
  | some r =>
    obtain ⟨c, a, g2⟩ := r
    simp only [hf, Option.some.injEq, Prod.mk.injEq] at h
    obtain ⟨hc, ha, _⟩ := h
    by_cases hpos : c > 0
    · simp only [hpos, if_true, Option.some.injEq] at ha
      subst ha
      unfold fillIfdTableArray at hf
      cases hi : init sysLE file with
      | none => simp [hi] at hf
      | some r2 =>
        obtain ⟨sts, g3⟩ := r2
        simp only [hi] at hf
        by_cases hs : sts ≤ 0
        · simp only [hs, if_true, Option.some.injEq, Prod.mk.injEq] at hf
          omega
        · simp only [hs, if_false] at hf
          cases hp : parseIFD sysLE g3 file g3.App1Header.tiff.Ifd0thOffset IFD_0TH
              (junk IFD_0TH) with
          | none =>
            simp only [hp, Option.some.injEq, Prod.mk.injEq] at hf
            have := hf.1
            simp only [ERR_INVALID_IFD] at this
            omega
          | some z =>
            simp only [hp, Option.some.injEq, Prod.mk.injEq] at hf
            have ht := parseIFD_ifdType sysLE g3 file _ _ _ z hp
            rw [← hf.2.1]
            simp [getIfdTableFromIfdTableArray, List.find?, ht]
    · simp [hpos] at ha

theorem keepsZeroth_insertIfd (g : Option (List IfdTable)) (k : IFD_TYPE)
    (hz : zerothExists g) (hk : graphEmpty g → k = IFD_0TH) :
    zerothExists (applyOp g (GraphOp.insertIfd k)) := by
  cases g with
  | none =>
    have hk2 := hk (Or.inl rfl)
    subst hk2
    intro arr harr _
    simp only [applyOp, insertIfdTableToIfdTableArray] at harr
    simp at harr
    rw [← harr]
    rfl
  | some a =>
    by_cases hfound : a.length > 0 ∧ (getIfdTableFromIfdTableArray a k).isSome = true
    · have : applyOp (some a) (GraphOp.insertIfd k) = some a := by
        simp only [applyOp, insertIfdTableToIfdTableArray, countIfdTableOnIfdTableArray,
          hfound, and_self, if_true]
      rw [this]
      exact hz
    · have : applyOp (some a) (GraphOp.insertIfd k) =
          some (a ++ [createIfdTable k 0 0]) := by
        simp only [applyOp, insertIfdTableToIfdTableArray, countIfdTableOnIfdTableArray,
          hfound, if_false, List.take_length]
      rw [this]
      intro arr harr _
      simp only [Option.some.injEq] at harr
      subst harr
      by_cases ha : a = []
      · have hk2 := hk (Or.inr (by rw [ha]))
        subst hk2
        subst ha
        rfl
      · exact getIfd_append_isSome a IFD_0TH _ (hz a rfl ha)

theorem keepsZeroth_removeIfd (g : Option (List IfdTable)) (k : IFD_TYPE)
    (hz : zerothExists g) (hk : k ≠ IFD_0TH) :
    zerothExists (applyOp g (GraphOp.removeIfd k)) := by
  cases g with
  | none => intro arr harr; simp [applyOp] at harr
  | some a =>
    intro arr harr hne
    simp only [applyOp, Option.some.injEq] at harr
    unfold removeIfdTableFromIfdTableArray at harr
    rw [removeIfdLoop_spec _ _ _ _ (by omega)] at harr
    simp only at harr
    subst harr
    have ha : a ≠ [] := by
      intro h
      rw [h] at hne
      exact hne rfl
    have h0 := hz a rfl ha
    unfold getIfdTableFromIfdTableArray at h0 ⊢
    rw [List.find?_isSome] at h0 ⊢
    obtain ⟨x, hx, hxt⟩ := h0
    refine ⟨x, ?_, hxt⟩
    rw [List.mem_filter]
    refine ⟨hx, ?_⟩
    have hx0 : x.ifdType = IFD_0TH := by simpa using hxt
    have : x.ifdType ≠ k := by
      rw [hx0]
      exact Ne.symm hk
    simpa using this

theorem keepsZeroth_insertTag (g : Option (List IfdTable)) (k : IFD_TYPE) (info : TagNode)
    (hz : zerothExists g) : zerothExists (applyOp g (GraphOp.insertTag k info)) := by
  cases g with
  | none => intro arr harr; simp [applyOp, insertTagNodeToIfdTableArray] at harr
  | some a =>
    simp only [applyOp, insertTagNodeToIfdTableArray]
    cases hg : getIfdTableFromIfdTableArray a k with
    | none => exact hz
    | some ifd =>
      simp only
      split
      · exact hz
      · intro arr harr hne
        simp only [Option.some.injEq] at harr
        subst harr
        have hk := getIfd_ifdType a k ifd hg
        rw [getIfd_putIfd_isSome a k IFD_0TH _ (by simpa [addTagNodeToIfd] using hk)]
        apply hz a rfl
        intro h
        rw [h] at hne
        exact hne rfl

theorem keepsZeroth_removeTag (g : Option (List IfdTable)) (k : IFD_TYPE) (id : Nat)
    (hz : zerothExists g) : zerothExists (applyOp g (GraphOp.removeTag k id)) := by
  cases g with
  | none => intro arr harr; simp [applyOp, removeTagNodeFromIfdTableArray] at harr
  | some a =>
    simp only [applyOp, removeTagNodeFromIfdTableArray]
    cases hg : getIfdTableFromIfdTableArray a k with
    | none => exact hz
    | some ifd =>
      simp only
      intro arr harr hne
      simp only [Option.some.injEq] at harr
      subst harr
      have hk := getIfd_ifdType a k ifd hg
      rw [getIfd_putIfd_isSome a k IFD_0TH _
        (by rw [removeTagOnIfd_ifdType]; exact hk)]
      apply hz a rfl
      intro h
      rw [h] at hne
      exact hne rfl

theorem keepsZeroth_setThumbnail (g : Option (List IfdTable)) (pData : Option (List Nat))
    (length : Nat) (hz : zerothExists g) (hne : g ≠ some []) :
    zerothExists (applyOp g (GraphOp.setThumbnail pData length)) := by
  cases g with
  | none => intro arr harr; simp [applyOp] at harr
  | some a =>
    have ha : a ≠ [] := by
      intro h
      rw [h] at hne
      exact hne rfl
    have h0 := hz a rfl ha
    intro arr harr _
    simp only [applyOp, Option.some.injEq] at harr
    subst harr
    unfold setThumbnailDataOnIfdTableArray
    cases pData with
    | none => exact h0
    | some data =>
      simp only
      split
      · exact h0
      · have hext : (getIfdTableFromIfdTableArray
            (match getIfdTableFromIfdTableArray a IFD_1ST with
              | some _ => a
              | none => a ++ [createIfdTable IFD_1ST 0 0]) IFD_0TH).isSome = true := by
          split
          · exact h0
          · exact getIfd_append_isSome a IFD_0TH _ h0
        split
        · exact hext
        · rename_i ifd hifd
          have hk := getIfd_ifdType _ _ ifd hifd
          simp only
          rw [getIfd_putIfd_isSome _ IFD_1ST IFD_0TH _
            (by rw [setThumbnailOnIfd_ifdType]; exact hk)]
          exact hext

theorem keepsZeroth_fixOffsets (g : Option (List IfdTable)) (hz : zerothExists g) :
    zerothExists (applyOp g GraphOp.fixOffsets) := by
  cases g with
  | none => intro arr harr; simp [applyOp] at harr
  | some a =>
    simp only [applyOp]
    cases hf : fixLengthAndOffsetInIfdTables 2 a with
    | none => exact hz
    | some r =>
      obtain ⟨sts, b⟩ := r
      simp only
      intro arr harr _
      simp only [Option.some.injEq] at harr
      subst harr
      rw [fixLoop_presence 2 a sts _ hf IFD_0TH]
      by_cases ha : a = []
      · subst ha
        have : fixLengthAndOffsetInIfdTables 2 [] = some (0, []) := by decide
        rw [this] at hf
        simp only [Option.some.injEq, Prod.mk.injEq] at hf
        rename_i hne
        exact absurd hf.2.symm hne
      · exact hz a rfl ha

theorem keepsZeroth_applyOp (g : Option (List IfdTable)) (op : GraphOp)
    (hz : zerothExists g) (hop : opKeepsZeroth g op) : zerothExists (applyOp g op) := by
  cases op with
  | insertIfd k => exact keepsZeroth_insertIfd g k hz hop
  | removeIfd k => exact keepsZeroth_removeIfd g k hz hop
  | insertTag k info => exact keepsZeroth_insertTag g k info hz
  | removeTag k id => exact keepsZeroth_removeTag g k id hz
  | setThumbnail d l => exact keepsZeroth_setThumbnail g d l hz hop
  | fixOffsets => exact keepsZeroth_fixOffsets g hz

theorem keepsZeroth_runOps (ops : List GraphOp) :
    ∀ g, zerothExists g → opsKeepZeroth g ops → zerothExists (runOps g ops) := by
  induction ops with
  | nil => intro g hz _; exact hz
  | cons op rest ih =>
    intro g hz hops
    unfold opsKeepZeroth at hops
    unfold runOps
    rw [List.foldl_cons]
    exact ih _ (keepsZeroth_applyOp g op hz hops.1) hops.2

theorem fixGps_fresh (P : IfdTable → Prop) (hc : PassClosedFresh P) (s : FixState)
    (h : StateAll P s) : StateAll P (fixGps s) := by
  obtain ⟨h0, he, hi, hg, hf⟩ := h
  unfold fixGps
  cases hgp : s.ifdGps with
  | none =>
    cases ht : getTagNodePtrFromIfd s.ifd0th TAG_GPSInfoIFDPointer with
    | none => simp only; exact ⟨h0, he, hi, hg, hf⟩
    | some tag =>
      simp only
      exact ⟨hc.set _ _ _ h0, he, hi, by intro y hy; simp at hy, hf⟩
  | some g =>
    cases ht : getTagNodePtrFromIfd s.ifd0th TAG_GPSInfoIFDPointer with
    | none =>
      simp only
      exact ⟨hc.add _ _ ht h0, he, hi,
        by intro y hy; simp only [Option.some.injEq] at hy; subst hy; exact hg _ hgp, hf⟩
    | some tag =>
      simp only
      refine ⟨hc.set _ _ _ h0, he, hi, ?_, hf⟩
      intro g2 hg2
      simp only [Option.some.injEq] at hg2
      subst hg2
      exact hc.off _ _ (hg g hgp)

theorem fixIo_fresh (P : IfdTable → Prop) (hc : PassClosedFresh P) (s : FixState)
    (e : IfdTable) (hs : s.ifdExif = some e) (h : StateAll P s) :
    StateAll P (fixIo s e) := by
  obtain ⟨h0, he, hi, hg, hf⟩ := h
  have we := he e hs
  unfold fixIo
  cases hio : s.ifdIo with
  | none =>
    cases ht : getTagNodePtrFromIfd e TAG_InteroperabilityIFDPointer with
    | none => simp only; exact ⟨h0, he, hi, hg, hf⟩
    | some tag =>
      simp only
      refine ⟨h0, ?_, by intro y hy; simp at hy, hg, hf⟩
      intro e2 he2
      simp only [Option.some.injEq] at he2
      subst he2
      exact hc.set _ _ _ we
  | some io =>
    cases ht : getTagNodePtrFromIfd e TAG_InteroperabilityIFDPointer with
    | none =>
      simp only
      refine ⟨h0, ?_,
        by intro y hy; simp only [Option.some.injEq] at hy; subst hy; exact hi _ hio, hg, hf⟩
      intro e2 he2
      simp only [Option.some.injEq] at he2
      subst he2
      exact hc.add _ _ ht we
    | some tag =>
      simp only
      refine ⟨h0, ?_, ?_, hg, hf⟩
      · intro e2 he2
        simp only [Option.some.injEq] at he2
        subst he2
        exact hc.set _ _ _ we
      · intro i2 hi2
        simp only [Option.some.injEq] at hi2
        subst hi2
        exact hc.off _ _ (hi io hio)

theorem fixExif_fresh (P : IfdTable → Prop) (hc : PassClosedFresh P) (s : FixState)
    (h : StateAll P s) : StateAll P (fixExif s) := by
  obtain ⟨h0, he, hi, hg, hf⟩ := h
  cases hx : s.ifdExif with
  | none =>
    cases ht : getTagNodePtrFromIfd s.ifd0th TAG_ExifIFDPointer with
    | none => rw [fixExif_none_none s hx ht]; exact ⟨h0, he, hi, hg, hf⟩
    | some tag =>
      rw [fixExif_none_some s tag hx ht]
      exact ⟨hc.set _ _ _ h0, he, hi, hg, hf⟩
  | some e0 =>
    have we := he e0 hx
    cases ht : getTagNodePtrFromIfd s.ifd0th TAG_ExifIFDPointer with
    | none =>
      rw [fixExif_some_none s e0 hx ht]
      apply fixIo_fresh P hc _ _ (by simpa using hx)
      exact ⟨hc.add _ _ ht h0, he, hi, hg, hf⟩
    | some tag =>
      rw [fixExif_some_some s e0 tag hx ht]
      apply fixIo_fresh P hc _ _ rfl
      refine ⟨hc.set _ _ _ h0, ?_, hi, hg, hf⟩
      intro e2 he2
      simp only [Option.some.injEq] at he2
      subst he2
      exact hc.off _ _ we

theorem fix1st_fresh (P : IfdTable → Prop) (hc : PassClosedFresh P) (s : FixState)
    (h : StateAll P s) : StateAll P (fix1st s) := by
  have h2 := h
  obtain ⟨h0, he, hi, hg, hf⟩ := h
  unfold fix1st
  cases h1 : s.ifd1st with
  | none =>
    simp only
    refine ⟨hc.next _ _ h0, he, hi, hg, ?_⟩
    intro f hf2
    simp [h1] at hf2
  | some f0 =>
    have wf := hf f0 h1
    simp only
    split
    · split
      · split
        · exact stateAll_update P s h2 _ _ s.again (hc.next _ _ h0)
            (hc.set _ _ _ (hc.off _ _ wf))
        · exact stateAll_update P s h2 _ _ true (hc.next _ _ h0)
            (hc.add _ _ (by assumption) (hc.off _ _ wf))
      · split
        · exact stateAll_update P s h2 _ _ s.again (hc.next _ _ h0)
            (hc.set _ _ _ (hc.off _ _ wf))
        · exact stateAll_update P s h2 _ _ s.again (hc.next _ _ h0) (hc.off _ _ wf)
    · exact stateAll_update P s h2 _ _ s.again (hc.next _ _ h0) (hc.off _ _ wf)

theorem fixEnd_fresh (P : IfdTable → Prop) (hc : PassClosedFresh P) (arr : List IfdTable)
    (z : IfdTable) (hz : P z)
    (h : ∀ k x, getIfdTableFromIfdTableArray arr k = some x → P x) :
    StateAll P (fixEnd arr z) := by
  unfold fixEnd
  apply fixGps_fresh P hc
  apply fixExif_fresh P hc
  apply fix1st_fresh P hc
  exact ⟨hc.off _ _ hz, h IFD_EXIF, h IFD_IO, h IFD_GPS, h IFD_1ST⟩

theorem getIfd_mem (arr : List IfdTable) (k : IFD_TYPE) (x : IfdTable)
    (h : getIfdTableFromIfdTableArray arr k = some x) : x ∈ arr := by
  unfold getIfdTableFromIfdTableArray at h
  exact List.mem_of_find?_eq_some h

/-- A property of tables that survives the refresh of a table and every write of a pass
holds of every table a pass leaves, when it held of every table before. -/
theorem fixPass_fresh (P : IfdTable → Prop) (hc : PassClosedFresh P)
    (href : ∀ x, P x → P (refreshIfd x)) (a : List IfdTable) (h : ∀ x ∈ a, P x) :
    ∀ y ∈ (fixPass a).arr, P y := by
  have hmap : ∀ y ∈ a.map refreshIfd, P y := by
    intro y hy
    obtain ⟨x, hx, rfl⟩ := List.mem_map.mp hy
    exact href x (h x hx)
  rw [fixPass_eq]
  cases hz : getIfdTableFromIfdTableArray (a.map refreshIfd) IFD_0TH with
  | none => exact hmap
  | some z =>
    simp only
    have hst := fixEnd_fresh P hc (a.map refreshIfd) z (hmap z (getIfd_mem _ _ _ hz))
      (fun k x hx => hmap x (getIfd_mem _ _ _ hx))
    obtain ⟨p0, pe, pi, pg, pf⟩ := hst
    have key : ∀ y ∈ writeBack (a.map refreshIfd) (fixEnd (a.map refreshIfd) z), P y := by
      intro y hy
      rcases mem_writeBack _ _ y hy with h1 | h1 | h1 | h1 | h1 | h1
      · exact hmap y h1
      · rw [h1]; exact p0
      · exact pe y h1
      · exact pi y h1
      · exact pg y h1
      · exact pf y h1
    split <;> exact key

theorem fixLoop_fresh (P : IfdTable → Prop) (hc : PassClosedFresh P)
    (href : ∀ x, P x → P (refreshIfd x)) (fuel : Nat) (arr r : List IfdTable) (sts : Int)
    (h0 : ∀ x ∈ arr, P x)
    (h : fixLengthAndOffsetInIfdTables fuel arr = some (sts, r)) :
    ∀ y ∈ r, P y := by
  obtain ⟨a, ha, hp⟩ := fixLoop_final_inv (fun l => ∀ x ∈ l, P x)
    (fun l hl => fixPass_fresh P hc href l hl) fuel arr sts r h0 h
  have := fixPass_fresh P hc href a ha
  rw [hp] at this
  exact this

theorem uniqueIds_addTag (x : IfdTable) (id type count : Nat) (nd bd : Option (List Nat))
    (h : getTagNodePtrFromIfd x id = none) (hu : uniqueIds x) :
    uniqueIds (addTagNodeToIfd x id type count nd bd) := by
  unfold uniqueIds addTagNodeToIfd at *
  simp only [List.map_append, List.map_cons, List.map_nil, (newTagNode_fields _ _ _ _ _).1]
  rw [List.nodup_append]
  refine ⟨hu, List.nodup_singleton _, ?_⟩
  unfold getTagNodePtrFromIfd at h
  rw [List.find?_eq_none] at h
  intro a ha hb
  simp only [List.mem_singleton] at hb
  subst hb
  obtain ⟨t, ht, heq⟩ := List.mem_map.mp ha
  have := h t ht
  simp [heq] at this

theorem uniqueIds_setTagValue (x : IfdTable) (id v : Nat) (hu : uniqueIds x) :
    uniqueIds (setTagValue x id v) := by
  unfold uniqueIds setTagValue at *
  simp only
  rw [modifyTag_map _ _ _ _ (fun t _ _ => setSingleNumDataToTag_tagId t v)]
  exact hu

theorem uniqueIds_refresh (x : IfdTable) (hu : uniqueIds x) : uniqueIds (refreshIfd x) := by
  unfold uniqueIds refreshIfd liveTags at *
  exact List.Nodup.sublist (List.Sublist.map _ (List.filter_sublist _)) hu

theorem passClosedFresh_uniqueIds : PassClosedFresh uniqueIds where
  set := fun x id v h => uniqueIds_setTagValue x id v h
  add := fun x id h hu => uniqueIds_addTag x id _ _ _ _ h hu
  off := fun _ _ h => h
  next := fun _ _ h => h

theorem uniqueIds_removeTag (x : IfdTable) (id : Nat) (hu : uniqueIds x) :
    uniqueIds (removeTagOnIfd x id).2 := by
  rw [removeTagOnIfd_spec]
  unfold uniqueIds at *
  exact List.Nodup.sublist (List.Sublist.map _ (List.filter_sublist _)) hu

theorem uniqueIds_setThumbnail (x : IfdTable) (pData : List Nat) (length : Nat)
    (hu : uniqueIds x) : uniqueIds (setThumbnailOnIfd x pData length) := by
  unfold setThumbnailOnIfd
  simp only
  have h1 : uniqueIds (match getTagNodePtrFromIfd x TAG_JPEGInterchangeFormatLength with
      | some _ => setTagValue x TAG_JPEGInterchangeFormatLength length
      | none => addTagNodeToIfd x TAG_JPEGInterchangeFormatLength TYPE_LONG 1
                  (some [length]) none) := by
    split
    · exact uniqueIds_setTagValue x _ _ hu
    · exact uniqueIds_addTag x _ _ _ _ _ (by assumption) hu
  split
  · exact uniqueIds_setTagValue _ _ _ h1
  · exact uniqueIds_addTag _ _ _ _ _ _ (by assumption) h1

theorem graphUnique_applyOp (g : Option (List IfdTable)) (op : GraphOp)
    (hu : graphUniqueIds g) : graphUniqueIds (applyOp g op) := by
  have hnew : ∀ k, uniqueIds (createIfdTable k 0 0) := by
    intro k
    unfold uniqueIds createIfdTable
    exact List.nodup_nil
  cases g with
  | none =>
    cases op with
    | insertIfd k =>
      intro arr harr x hx
      simp only [applyOp, insertIfdTableToIfdTableArray] at harr
      simp at harr
      rw [← harr] at hx
      simp only [List.mem_singleton] at hx
      rw [hx]
      exact hnew k
    | removeIfd k => intro arr harr; simp [applyOp] at harr
    | insertTag k info =>
      intro arr harr; simp [applyOp, insertTagNodeToIfdTableArray] at harr
    | removeTag k id =>
      intro arr harr; simp [applyOp, removeTagNodeFromIfdTableArray] at harr
    | setThumbnail d l => intro arr harr; simp [applyOp] at harr
    | fixOffsets => intro arr harr; simp [applyOp] at harr
  | some a =>
    have ha := hu a rfl
    cases op with
    | insertIfd k =>
      by_cases hfound : a.length > 0 ∧ (getIfdTableFromIfdTableArray a k).isSome = true
      · have : applyOp (some a) (GraphOp.insertIfd k) = some a := by
          simp only [applyOp, insertIfdTableToIfdTableArray, countIfdTableOnIfdTableArray,
            hfound, and_self, if_true]
        rw [this]
        exact hu
      · have : applyOp (some a) (GraphOp.insertIfd k) =
            some (a ++ [createIfdTable k 0 0]) := by
          simp only [applyOp, insertIfdTableToIfdTableArray, countIfdTableOnIfdTableArray,
            hfound, if_false, List.take_length]
        rw [this]
        intro arr harr x hx
        simp only [Option.some.injEq] at harr
        subst harr
        rcases List.mem_append.mp hx with h1 | h1
        · exact ha x h1
        · simp only [List.mem_singleton] at h1
          rw [h1]
          exact hnew k
    | removeIfd k =>
      intro arr harr x hx
      simp only [applyOp, Option.some.injEq] at harr
      unfold removeIfdTableFromIfdTableArray at harr
      rw [removeIfdLoop_spec _ _ _ _ (by omega)] at harr
      simp only at harr
      subst harr
      exact ha x (List.mem_filter.mp hx).1
    | insertTag k info =>
      simp only [applyOp, insertTagNodeToIfdTableArray]
      cases hg : getIfdTableFromIfdTableArray a k with
      | none => exact hu
      | some ifd =>
        simp only
        by_cases hex : (getTagNodePtrFromIfd ifd info.tagId).isSome = true
        · simp only [hex, if_true]
          exact hu
        · simp only [hex, if_false]
          intro arr harr x hx
          replace harr := Option.some.inj harr
          subst harr
          rcases mem_putIfd _ _ _ _ hx with h1 | h1
          · rw [h1]
            have hnone : getTagNodePtrFromIfd ifd info.tagId = none := by
              cases hq : getTagNodePtrFromIfd ifd info.tagId with
              | none => rfl
              | some t => simp [hq] at hex
            exact uniqueIds_addTag ifd _ _ _ _ _ hnone (ha ifd (getIfd_mem _ _ _ hg))
          · exact ha x h1
    | removeTag k id =>
      simp only [applyOp, removeTagNodeFromIfdTableArray]
      cases hg : getIfdTableFromIfdTableArray a k with
      | none => exact hu
      | some ifd =>
        simp only
        intro arr harr x hx
        simp only [Option.some.injEq] at harr
        subst harr
        rcases mem_putIfd _ _ _ _ hx with h1 | h1
        · rw [h1]
          exact uniqueIds_removeTag ifd id (ha ifd (getIfd_mem _ _ _ hg))
        · exact ha x h1
    | setThumbnail d l =>
      intro arr harr x hx
      simp only [applyOp, Option.some.injEq] at harr
      subst harr
      unfold setThumbnailDataOnIfdTableArray at hx
      cases d with
      | none => exact ha x hx
      | some data =>
        simp only at hx
        have hext : ∀ y ∈ (match getIfdTableFromIfdTableArray a IFD_1ST with
            | some _ => a
            | none => a ++ [createIfdTable IFD_1ST 0 0]), uniqueIds y := by
          intro y hy
          split at hy
          · exact ha y hy
          · rcases List.mem_append.mp hy with h1 | h1
            · exact ha y h1
            · simp only [List.mem_singleton] at h1
              rw [h1]
              exact hnew _
        split at hx
        · exact ha x hx
        · split at hx
          · exact hext x hx
          · rename_i ifd hifd
            simp only at hx
            rcases mem_putIfd _ _ _ _ hx with h1 | h1
            · rw [h1]
              exact uniqueIds_setThumbnail ifd data l (hext ifd (getIfd_mem _ _ _ hifd))
            · exact hext x h1
    | fixOffsets =>
      simp only [applyOp]
      cases hf : fixLengthAndOffsetInIfdTables 2 a with
      | none => exact hu
      | some r =>
        obtain ⟨sts, b⟩ := r
        simp only
        intro arr harr x hx
        simp only [Option.some.injEq] at harr
        subst harr
        exact fixLoop_fresh uniqueIds passClosedFresh_uniqueIds uniqueIds_refresh 2 a _ sts
          ha hf x hx

theorem graphUnique_runOps (ops : List GraphOp) :
    ∀ g, graphUniqueIds g → graphUniqueIds (runOps g ops) := by
  induction ops with
  | nil => intro g hu; exact hu
  | cons op rest ih =>
    intro g hu
    unfold runOps
    rw [List.foldl_cons]
    exact ih _ (graphUnique_applyOp g op hu)

/-- The table `parseIFD` returns has pairwise distinct tag ids when the tag fields
have. -/
theorem parseIFD_uniqueIds (sysLE : Bool) (g : Globals) (file : List Nat)
    (startOffset : Nat) (ifdType : IFD_TYPE) (val0 : Nat) (ifd : IfdTable)
    (h : parseIFD sysLE g file startOffset ifdType val0 = some ifd)
    (hd : entryIdsDistinct sysLE g file startOffset) : uniqueIds ifd := by
  obtain ⟨_, _, _, ht⟩ := parseIFD_some sysLE g file startOffset ifdType val0 ifd h
  have hm := nodes_triples sysLE g file (seekToRelativeOffset g startOffset + 2) val0
    (ifdTagCount sysLE g file startOffset)
  rw [← ht] at hm
  have h2 := congrArg (List.map Prod.fst) hm
  simp only [List.map_map] at h2
  unfold uniqueIds
  unfold entryIdsDistinct at hd
  have e1 : (Prod.fst ∘ tagTriple) = (fun t : TagNode => t.tagId) := rfl
  have e2 : (Prod.fst ∘ fun i => fieldTriple
      (entryTag sysLE g file (seekToRelativeOffset g startOffset + 2) i)) =
      (fun i => (entryTag sysLE g file (seekToRelativeOffset g startOffset + 2) i).tag) := rfl
  rw [e1, e2] at h2
  rw [h2]
  exact hd

theorem getTag_mem (x : IfdTable) (id : Nat) (t : TagNode)
    (h : getTagNodePtrFromIfd x id = some t) : t ∈ x.tags ∧ t.tagId = id := by
  unfold getTagNodePtrFromIfd at h
  refine ⟨List.mem_of_find?_eq_some h, ?_⟩
  have := List.find?_some h
  simpa using this

theorem hasNum0_setDefined (t : TagNode) (h : t.hasNum0) : setSingleNumDataDefined t := by
  unfold setSingleNumDataDefined
  unfold TagNode.hasNum0 at h
  split
  · trivial
  · cases hn : t.numData with
    | none => trivial
    | some nd =>
      rw [hn] at h
      exact h

theorem setSingle_cases (t : TagNode) (v : Nat) :
    setSingleNumDataToTag t v = t ∨
      ((setSingleNumDataToTag t v).hasNum0 ∧
        setSingleNumDataDefined (setSingleNumDataToTag t v)) := by
  have key : setSingleNumDataToTag t v = t ∨ (setSingleNumDataToTag t v).hasNum0 := by
    unfold setSingleNumDataToTag
    split
    · exact Or.inl rfl
    · refine Or.inr ?_
      unfold TagNode.hasNum0
      cases t.numData <;> exact Nat.zero_lt_succ _
  rcases key with h | h
  · exact Or.inl h
  · exact Or.inr ⟨h, hasNum0_setDefined _ h⟩

theorem setSingle_hasNum0 (t : TagNode) (v : Nat) (h : t.hasNum0) :
    (setSingleNumDataToTag t v).hasNum0 := by
  rcases setSingle_cases t v with h1 | h1
  · rw [h1]; exact h
  · exact h1.1

theorem setSingle_ready (t : TagNode) (v : Nat) (h : numCellsReady t) :
    numCellsReady (setSingleNumDataToTag t v) := by
  rcases setSingle_cases t v with h1 | h1
  · rw [h1]; exact h
  · exact ⟨fun _ => h1.1, fun _ => h1.2⟩

theorem addDummyTag_tags (x : IfdTable) (id : Nat) :
    (addDummyTag x id).tags =
      x.tags ++ [{ tagId := id, type := TYPE_LONG, count := 1, numData := some [0],
                   byteData := none, error := 0 }] := by
  rfl

theorem dummyTag_ready (id : Nat) :
    numCellsReady { tagId := id, type := TYPE_LONG, count := 1, numData := some [0],
                    byteData := none, error := 0 } :=
  ⟨fun _ => Nat.zero_lt_one, fun _ => hasNum0_setDefined _ Nat.zero_lt_one⟩

theorem passClosed_numDataHeld : PassClosed numDataHeld where
  set := by
    intro x id v h t ht
    unfold setTagValue at ht
    rcases modifyTag_mem _ _ _ t ht with h1 | ⟨t0, h0, _, rfl⟩
    · exact h t h1
    · exact setSingle_ready t0 v (h t0 h0)
  add := by
    intro x id h t ht
    rw [addDummyTag_tags] at ht
    rcases List.mem_append.mp ht with h1 | h1
    · exact h t h1
    · simp only [List.mem_singleton] at h1
      rw [h1]
      exact dummyTag_ready id
  off := fun _ _ h => h
  next := fun _ _ h => h

theorem passClosedFresh_numDataPresent : PassClosedFresh numDataPresent where
  set := by
    intro x id v h t ht he
    unfold setTagValue at ht
    rcases modifyTag_mem _ _ _ t ht with h1 | ⟨t0, h0, _, rfl⟩
    · exact h t h1 he
    · rcases setSingle_cases t0 v with h2 | h2
      · rw [h2] at he ⊢
        exact h t0 h0 he
      · exact ⟨fun _ => h2.1, fun _ => h2.2⟩
  add := by
    intro x id _ h t ht he
    rw [addDummyTag_tags] at ht
    rcases List.mem_append.mp ht with h1 | h1
    · exact h t h1 he
    · simp only [List.mem_singleton] at h1
      rw [h1]
      exact dummyTag_ready id
  off := fun _ _ h => h
  next := fun _ _ h => h

theorem numDataPresent_refresh (x : IfdTable) (h : numDataPresent x) :
    numDataPresent (refreshIfd x) := by
  intro t ht he
  have ht2 : t ∈ liveTags x.tags := ht
  unfold liveTags at ht2
  exact h t (List.mem_filter.mp ht2).1 he

theorem numDataHeld_live (x : IfdTable) (h : numDataPresent x) :
    ∀ t ∈ liveTags x.tags, numCellsReady t := by
  intro t ht
  unfold liveTags at ht
  have hm := List.mem_filter.mp ht
  exact h t hm.1 (by simpa using hm.2)

theorem numDataHeld_refresh (x : IfdTable) (h : numDataPresent x) :
    numDataHeld (refreshIfd x) := by
  intro t ht
  exact numDataHeld_live x h t ht

theorem pointerSetDefined_of_held (x : IfdTable) (id : Nat) (hid : id ∈ readTagIds)
    (h : numDataHeld x) : pointerSetDefined x id := by
  unfold pointerSetDefined
  split
  · rename_i tag heq
    obtain ⟨hm, hi⟩ := getTag_mem x id tag heq
    have h0 : tag.hasNum0 := (h tag hm).1 (by rw [hi]; exact hid)
    exact ⟨hasNum0_setDefined tag h0, setSingle_hasNum0 tag 0 h0⟩
  · trivial

theorem setTagDefined_of_held (x : IfdTable) (id : Nat)
    (hid : id ∈ readTagIds ∨ id = TAG_JPEGInterchangeFormat)
    (h : numDataHeld x) : setTagDefined x id := by
  unfold setTagDefined
  split
  · rename_i tag heq
    obtain ⟨hm, hi⟩ := getTag_mem x id tag heq
    rcases hid with hid | hid
    · exact hasNum0_setDefined tag ((h tag hm).1 (by rw [hi]; exact hid))
    · exact (h tag hm).2 (by rw [hi]; exact hid)
  · trivial

/-- A pass on an array whose tables are all of `numDataPresent` makes every access to
`numData[0]` on a cell that exists. -/
theorem fixPass_defined (a : List IfdTable) (h : ∀ x ∈ a, numDataPresent x) :
    fixPassDefined a := by
  have hmap : ∀ y ∈ a.map refreshIfd, numDataHeld y := by
    intro y hy
    obtain ⟨x, hx, rfl⟩ := List.mem_map.mp hy
    exact numDataHeld_refresh x (h x hx)
  refine ⟨?_, ?_⟩
  · intro x hx _ _
    split
    · rename_i tag heq
      obtain ⟨hm, hi⟩ := getTag_mem _ _ tag heq
      exact (numDataHeld_live x (h x hx) tag hm).1 (by rw [hi]; decide)
    · trivial
  · cases hz : getIfdTableFromIfdTableArray (a.map refreshIfd) IFD_0TH with
    | none => trivial
    | some z =>
      simp only
      have hs0 : StateAll numDataHeld (fixStart (a.map refreshIfd) z) :=
        ⟨passClosed_numDataHeld.off _ _ (hmap z (getIfd_mem _ _ _ hz)),
          fun e he => hmap e (getIfd_mem _ _ _ he),
          fun e he => hmap e (getIfd_mem _ _ _ he),
          fun e he => hmap e (getIfd_mem _ _ _ he),
          fun e he => hmap e (getIfd_mem _ _ _ he)⟩
      have hs1 := fix1st_all numDataHeld passClosed_numDataHeld _ hs0
      have hs2 := fixExif_all numDataHeld passClosed_numDataHeld _ hs1
      refine ⟨?_, ?_, ?_⟩
      · unfold fix1stDefined
        split
        · rename_i f hf
          intro _
          refine ⟨?_, setTagDefined_of_held _ _ (Or.inr rfl) (hs0.2.2.2.2 f hf)⟩
          split
          · rename_i tag heq
            obtain ⟨hm, hi⟩ := getTag_mem _ _ tag heq
            exact (hs0.2.2.2.2 f hf tag hm).1 (by rw [hi]; decide)
          · trivial
        · trivial
      · unfold fixExifDefined
        split
        · rename_i e he
          refine ⟨pointerSetDefined_of_held _ _ (by decide) hs1.1, ?_⟩
          split
          · exact pointerSetDefined_of_held _ _ (by decide) (hs1.2.1 e he)
          · exact setTagDefined_of_held _ _ (Or.inl (by decide)) (hs1.2.1 e he)
        · exact setTagDefined_of_held _ _ (Or.inl (by decide)) hs1.1
      · unfold fixGpsDefined
        split
        · exact pointerSetDefined_of_held _ _ (by decide) hs2.1
        · exact setTagDefined_of_held _ _ (Or.inl (by decide)) hs2.1

/-- On an array whose tables are all of `numDataPresent` every pass of
`fixLengthAndOffsetInIfdTables` makes its accesses to `numData[0]` on cells that
exist. -/
theorem fixLoop_defined (fuel : Nat) :
    ∀ a : List IfdTable, (∀ x ∈ a, numDataPresent x) → fixLoopDefined fuel a := by
  induction fuel with
  | zero => intro a _; trivial
  | succ n ih =>
    intro a h
    unfold fixLoopDefined
    refine ⟨fixPass_defined a h, ?_⟩
    have hp := fixPass_fresh numDataPresent passClosedFresh_numDataPresent
      numDataPresent_refresh a h
    cases hq : fixPass a with
    | ret sts r => trivial
    | again r =>
      simp only
      rw [hq] at hp
      exact ih r hp

theorem numDataPresent_setThumbnail (arr : List IfdTable) (b : List Nat)
    (hb : 0 < b.length) (h1 : getIfdTableFromIfdTableArray arr IFD_1ST = none)
    (h : ∀ x ∈ arr, numDataPresent x) :
    ∀ x ∈ (setThumbnailDataOnIfdTableArray arr (some b) b.length).2, numDataPresent x := by
  rw [setThumbnail_fresh arr b hb h1]
  intro x hx
  simp only at hx
  rcases List.mem_append.mp hx with h2 | h2
  · exact h x h2
  · simp only [List.mem_singleton] at h2
    rw [h2]
    intro t ht _
    simp only [thumbTags, List.mem_cons, List.mem_singleton, List.not_mem_nil, or_false]
      at ht
    rcases ht with rfl | rfl <;>
      exact ⟨fun _ => Nat.zero_lt_one, fun _ => hasNum0_setDefined _ Nat.zero_lt_one⟩

theorem allIdTags_num (n : Nat) : ∀ t ∈ allIdTags n, numCellsReady t := by
  intro t ht
  unfold allIdTags at ht
  obtain ⟨i, _, rfl⟩ := List.mem_map.mp ht
  exact ⟨fun _ => Nat.zero_lt_one, fun _ => hasNum0_setDefined _ Nat.zero_lt_one⟩

/-- On an array whose tables are all of `numDataPresent` the loop of
`fixLengthAndOffsetInIfdTables` makes every access to `numData[0]` on a cell that exists
and reaches its `return` within two passes, with the same array for every larger number
of passes. -/
theorem fixLoop_defined_returns (arr : List IfdTable) (hnum : ∀ x ∈ arr, numDataPresent x) :
    (∀ fuel, fixLoopDefined fuel arr) ∧
    ∃ r, ∀ fuel, 2 ≤ fuel → fixLengthAndOffsetInIfdTables fuel arr = some (0, r) := by
  refine ⟨fun fuel => fixLoop_defined fuel arr hnum, ?_⟩
  obtain ⟨r, _, hall⟩ := fixLoop_total 0 arr
  refine ⟨r, fun fuel hf => ?_⟩
  have := hall (fuel - 2)
  have hfe : fuel - 2 + 2 = fuel := by omega
  rwa [hfe] at this

/-! ## The claims -/

/-- Claim C2. When `updateExifSegmentInJPEGFile` succeeds (returns 1), its output is
`input[0, p) ++ W ++ input[q, end)`, where `W` are the bytes `writeExifSegment` emits for
the array left by `fixLengthAndOffsetInIfdTables`; with an Exif segment `p` is its offset
and `q = p + 2 + L` for the length field `L` of its header, without one `p = q` is the
recorded DQT offset (0 when none was recorded). -/
theorem updateExif_preserves_bytes_outside_app1 (sysLE : Bool) (fuel : Nat) (file : List Nat)
    (arr : List IfdTable) (res : FileResult) (arr1 : Option (List IfdTable))
    (h : updateExifSegmentInJPEGFile sysLE fuel file (some arr) = some (res, arr1))
    (hs : res.sts = 1) :
    ∃ fixed sts g,
      fixLengthAndOffsetInIfdTables fuel arr = some (0, fixed) ∧
      init sysLE file = some (sts, g) ∧
      (sts = 0 →
        res.out = some (file.take g.JpegDQTOffset.toNat ++
                        (writeExifSegment sysLE g.App1Header fixed).2 ++
                        file.drop g.JpegDQTOffset.toNat)) ∧
      (sts ≠ 0 →
        res.out = some (file.take g.App1StartOffset.toNat ++
                        (writeExifSegment sysLE g.App1Header fixed).2 ++
                        file.drop (g.App1StartOffset.toNat + 2 + g.App1Header.length))) := by
  unfold updateExifSegmentInJPEGFile at h
  cases hf : fixLengthAndOffsetInIfdTables fuel arr with
  | none => simp [hf] at h
  | some fr =>
    obtain ⟨fsts, fixed⟩ := fr
    have hfs : fsts = 0 := fixLoop_sts fuel arr fsts fixed hf
    subst hfs
    simp only [hf] at h
    cases hi : init sysLE file with
    | none => simp [hi] at h
    | some ig =>
      obtain ⟨sts, g⟩ := ig
      simp only [hi, ne_eq, not_true_eq_false, if_false, writeExifSegment_sts] at h
      refine ⟨fixed, sts, g, rfl, rfl, ?_⟩
      by_cases hneg : sts < 0
      · rw [if_pos hneg] at h
        simp only [Option.some.injEq, Prod.mk.injEq] at h
        rw [← h.1] at hs
        simp only at hs
        omega
      · rw [if_neg hneg] at h
        by_cases h0 : sts = 0
        · simp only [h0, not_true_eq_false, if_false] at h
          by_cases hr : (fread file 0 g.JpegDQTOffset.toNat).length < g.JpegDQTOffset.toNat
          · rw [if_pos hr] at h
            simp only [Option.some.injEq, Prod.mk.injEq] at h
            rw [← h.1] at hs
            simp [ERR_READ_FILE] at hs
          · rw [if_neg hr] at h
            simp only [Option.some.injEq, Prod.mk.injEq] at h
            rw [← h.1]
            simp [h0, fread_zero]
        · simp only [h0, not_false_eq_true, if_true] at h
          by_cases hr : (fread file 0 g.App1StartOffset.toNat).length < g.App1StartOffset.toNat
          · rw [if_pos hr] at h
            simp only [Option.some.injEq, Prod.mk.injEq] at h
            rw [← h.1] at hs
            simp [ERR_READ_FILE] at hs
          · rw [if_neg hr] at h
            simp only [Option.some.injEq, Prod.mk.injEq] at h
            rw [← h.1]
            simp [h0, fread_zero]

theorem updateExif_preserves_bytes_outside_app1_witness :
    ∃ fixed sts g,
      fixLengthAndOffsetInIfdTables 2 [sampleIfd0] = some (0, fixed) ∧
      init true sampleJpeg = some (sts, g) ∧
      (sts = 0 →
        ({ sts := 1, out := some sampleUpdated } : FileResult).out =
          some (sampleJpeg.take g.JpegDQTOffset.toNat ++
                (writeExifSegment true g.App1Header fixed).2 ++
                sampleJpeg.drop g.JpegDQTOffset.toNat)) ∧
      (sts ≠ 0 →
        ({ sts := 1, out := some sampleUpdated } : FileResult).out =
          some (sampleJpeg.take g.App1StartOffset.toNat ++
                (writeExifSegment true g.App1Header fixed).2 ++
                sampleJpeg.drop (g.App1StartOffset.toNat + 2 + g.App1Header.length))) :=
  updateExif_preserves_bytes_outside_app1 true 2 sampleJpeg [sampleIfd0]
    { sts := 1, out := some sampleUpdated }
    (some [{ sampleIfd0 with offset := 8, length := 44 }])
    (by decide) (by decide)

/-- Claim C3. When the scanner reports no Exif segment, `removeExifSegmentFromJPEGFile`
returns 0 and opens no output file; when it reports an Exif APP1 at offset `app1_off` and
the header there is valid with length field `L`, it returns 1 and the output is
`input[0, app1_off) ++ input[app1_off + 2 + L, end)`. -/
theorem removeExif_deletes_exactly_the_segment (sysLE : Bool) (file : List Nat) (r : ScanResult)
    (hscan : getApp1StartOffset sysLE file EXIF_ID_STR = some r) :
    (r.sts = 0 → removeExifSegmentFromJPEGFile sysLE file = some { sts := 0, out := none }) ∧
    (∀ hdr, 0 < r.sts → readApp1SegmentHeader sysLE file r.sts.toNat = some hdr →
      removeExifSegmentFromJPEGFile sysLE file =
        some { sts := 1,
               out := some (file.take r.sts.toNat ++
                            file.drop (r.sts.toNat + 2 + hdr.length)) }) := by
  constructor
  · intro h0
    simp [removeExifSegmentFromJPEGFile, init, hscan, h0]
  · intro hdr hpos hh
    have hb := readApp1SegmentHeader_bound sysLE file _ hdr hh
    have h1 : ¬ r.sts < 0 := by omega
    have h2 : ¬ r.sts = 0 := by omega
    have h3 : r.sts.toNat ≤ file.length := by omega
    simp [removeExifSegmentFromJPEGFile, init, hscan, h1, h2, hh, fread_zero, h3]

theorem removeExif_deletes_exactly_the_segment_witness :
    (removeExifSegmentFromJPEGFile true [0xFF, 0xD8, 0xFF, 0xDB, 0, 2, 0xFF, 0xD9] =
        some { sts := 0, out := none }) ∧
    (removeExifSegmentFromJPEGFile true sampleJpeg =
        some { sts := 1, out := some [0xFF, 0xD8, 0xFF, 0xDB, 0, 2, 0xFF, 0xD9] }) :=
  ⟨(removeExif_deletes_exactly_the_segment true [0xFF, 0xD8, 0xFF, 0xDB, 0, 2, 0xFF, 0xD9]
      { sts := 0, dqt := some 2 } (by decide)).1 (by decide),
   (removeExif_deletes_exactly_the_segment true sampleJpeg
      { sts := 2, dqt := some 64 } (by decide)).2
      { marker := 0xE1FF, length := 60, id := [0x45, 0x78, 0x69, 0x66, 0, 0],
        tiff := { byteOrder := 0x4949, reserved := 0x2A, Ifd0thOffset := 8 } }
      (by decide) (by decide)⟩

/-- Claim C10. For a tag of type 1..10 with count at least 1: `writeExifSegment` leaves
`ofs` where it is, writes no bytes to the value area, and `calcIfdSize` adds no bytes
for the tag, each if and only if `payload_bytes(type, count) ≤ 4`; otherwise the slot
holds `ofs`. For a tag field of that type and count that `parseIFD` turns into a node
without error, the parser seeks into the file for the value if and only if
`payload_bytes(type, count) > 4`, so it decodes from the four raw bytes exactly when
`payload_bytes(type, count) ≤ 4`. -/
theorem inline_encoding_rule (sysLE : Bool) (g : Globals) (type count : Nat)
    (htype : 1 ≤ type ∧ type ≤ 10) (hcount : 1 ≤ count) :
    (∀ (t : TagNode) (ofs : Nat), t.type = type → t.count = count →
      ((packTag sysLE g.App1Header t ofs).2 = ofs ↔ spec_payload_bytes type count ≤ 4) ∧
      (tagValueBytes sysLE g.App1Header t = [] ↔ spec_payload_bytes type count ≤ 4) ∧
      (tagValueSize t = 0 ↔ spec_payload_bytes type count ≤ 4) ∧
      (4 < spec_payload_bytes type count →
        (packTag sysLE g.App1Header t ofs).1 =
          mem32 sysLE (fix_int sysLE g.App1Header ofs))) ∧
    (∀ (file : List Nat) (tag : IFD_TAG) (data : List Nat) (val : Nat) (node : TagNode),
      tag.type = type → tag.count = count →
      (parseTag sysLE g file tag data val).node = some node → node.error = 0 →
      ((parseTag sysLE g file tag data val).seek = none ↔
        spec_payload_bytes type count ≤ 4)) := by
  constructor
  · intro t ofs ht hc
    subst ht; subst hc
    have hp := packTag_ofs_iff sysLE g.App1Header t ofs htype hcount
    have hs := tagValueSize_zero_iff t htype hcount
    refine ⟨hp.1, ?_, hs, hp.2⟩
    rw [← hs, ← tagValueBytes_length sysLE g.App1Header t]
    exact List.length_eq_zero.symm
  · intro file tag data val node ht hc hn he
    subst ht; subst hc
    exact parseTag_seek_iff sysLE g file tag data val node htype hcount hn he

theorem inline_encoding_rule_witness :
    ((packTag true sampleGlobals.App1Header
        { tagId := 0x9101, type := 7, count := 4, numData := none,
          byteData := some [1, 2, 3, 0], error := 0 } 38).2 = 38 ↔
      spec_payload_bytes 7 4 ≤ 4) ∧
    ((parseTag true sampleGlobals sampleJpeg
        { tag := 0x010F, type := 2, count := 6, offset := 46 } [46, 0, 0, 0] 0).seek = none ↔
      spec_payload_bytes 2 6 ≤ 4) :=
  ⟨((inline_encoding_rule true sampleGlobals 7 4 (by decide) (by decide)).1
      { tagId := 0x9101, type := 7, count := 4, numData := none,
        byteData := some [1, 2, 3, 0], error := 0 } 38 rfl rfl).1,
   (inline_encoding_rule true sampleGlobals 2 6 (by decide) (by decide)).2
      sampleJpeg { tag := 0x010F, type := 2, count := 6, offset := 46 } [46, 0, 0, 0] 0
      { tagId := 0x010F, type := 2, count := 6, numData := none,
        byteData := some [65, 66, 67, 68, 69, 0], error := 0 } rfl rfl (by decide) rfl⟩

/-- Claim C8 (amended). For every graph whose 1st IFD, if there is one, holds no
`JPEGInterchangeFormatLength` tag of a type other than the six integer types, and every
non-empty byte sequence `b`: `setThumbnailDataOnIfdTableArray` returns 0, and afterwards
`getThumbnailDataOnIfdTableArray` reports status 0, the length `len(b)` and the
bytes `b`. -/
theorem thumbnail_set_get_roundtrip (arr : List IfdTable) (b : List Nat)
    (hb : 0 < b.length)
    (hint : ∀ f t, getIfdTableFromIfdTableArray arr IFD_1ST = some f →
      getTagNodePtrFromIfd f TAG_JPEGInterchangeFormatLength = some t → isIntType t.type) :
    (setThumbnailDataOnIfdTableArray arr (some b) b.length).1 = 0 ∧
    getThumbnailDataOnIfdTableArray
        (setThumbnailDataOnIfdTableArray arr (some b) b.length).2 =
      (0, some (b.length, b)) := by
  have hb0 : ¬ b.length ≤ 0 := by omega
  unfold setThumbnailDataOnIfdTableArray
  simp only [hb0, if_false]
  cases hf : getIfdTableFromIfdTableArray arr IFD_1ST with
  | some f =>
    simp only [hf]
    obtain ⟨hk, hp, t, ht, he, hn⟩ := setThumbnailOnIfd_spec f b (fun t h => hint f t hf h)
    refine ⟨trivial, ?_⟩
    have hk2 : (setThumbnailOnIfd f b b.length).ifdType = IFD_1ST := by
      rw [hk]; exact getIfd_ifdType arr _ f hf
    have hg := getIfd_putIfd_same arr IFD_1ST _ hk2
    rw [hf] at hg
    exact getThumbnail_of _ _ b t hg hp ht he hn hb
  | none =>
    have hnew : getIfdTableFromIfdTableArray (arr ++ [createIfdTable IFD_1ST 0 0]) IFD_1ST =
        some (createIfdTable IFD_1ST 0 0) := by
      unfold getIfdTableFromIfdTableArray at hf ⊢
      simp [List.find?_append, hf, List.find?, createIfdTable]
    simp only [hnew]
    have hnone : ∀ t, getTagNodePtrFromIfd (createIfdTable IFD_1ST 0 0)
        TAG_JPEGInterchangeFormatLength = some t → isIntType t.type := by
      intro t h
      simp [getTagNodePtrFromIfd, createIfdTable] at h
    obtain ⟨hk, hp, t, ht, he, hn⟩ := setThumbnailOnIfd_spec (createIfdTable IFD_1ST 0 0) b hnone
    refine ⟨trivial, ?_⟩
    have hk2 : (setThumbnailOnIfd (createIfdTable IFD_1ST 0 0) b b.length).ifdType = IFD_1ST := by
      rw [hk]; rfl
    have hg := getIfd_putIfd_same (arr ++ [createIfdTable IFD_1ST 0 0]) IFD_1ST _ hk2
    rw [hnew] at hg
    exact getThumbnail_of _ _ b t hg hp ht he hn hb

/-- Claim C8, counterexample: on a graph whose 1st IFD holds a RATIONAL
`JPEGInterchangeFormatLength` tag, setting a thumbnail of two bytes returns 0, after which
`getThumbnailDataOnIfdTableArray` reports the length 1 and one byte. -/
theorem thumbnail_set_get_counterexample :
    (setThumbnailDataOnIfdTableArray [sampleIfd0, sampleIfd1Rational] (some [0xFF, 0xD8]) 2).1 = 0 ∧
    getThumbnailDataOnIfdTableArray
        (setThumbnailDataOnIfdTableArray [sampleIfd0, sampleIfd1Rational]
          (some [0xFF, 0xD8]) 2).2 = (0, some (1, [0xFF])) ∧
    getThumbnailDataOnIfdTableArray
        (setThumbnailDataOnIfdTableArray [sampleIfd0, sampleIfd1Rational]
          (some [0xFF, 0xD8]) 2).2 ≠ (0, some (2, [0xFF, 0xD8])) := by
  decide

theorem thumbnail_set_get_roundtrip_witness :
    (setThumbnailDataOnIfdTableArray [sampleIfd0] (some [0xFF, 0xD8]) [0xFF, 0xD8].length).1 = 0 ∧
    getThumbnailDataOnIfdTableArray
        (setThumbnailDataOnIfdTableArray [sampleIfd0] (some [0xFF, 0xD8])
          [0xFF, 0xD8].length).2 = (0, some ([0xFF, 0xD8].length, [0xFF, 0xD8])) :=
  thumbnail_set_get_roundtrip [sampleIfd0] [0xFF, 0xD8] (by decide)
    (fun f t h => by simp [getIfdTableFromIfdTableArray, sampleIfd0] at h)

/-- Claim C5 (amended). After `fixLengthAndOffsetInIfdTables` returns 0 on a graph with a
0th IFD: if an Exif IFD is present the 0th IFD holds `ExifIFDPointer`, if a GPS IFD is
present the 0th IFD holds `GPSInfoIFDPointer`, if an Exif and an Interoperability IFD are
present the Exif IFD holds `InteroperabilityIFDPointer`, and in each case `value[0]` of the
tag, reduced modulo `2 ^ 16`, is the offset recorded in the child (the field `offset` is a
`uint16_t`). -/
theorem pointer_consistency_present (fuel : Nat) (arr r : List IfdTable) (z : IfdTable)
    (h : fixLengthAndOffsetInIfdTables fuel arr = some (0, r))
    (hz : getIfdTableFromIfdTableArray r IFD_0TH = some z) :
    (∀ e, getIfdTableFromIfdTableArray r IFD_EXIF = some e →
      ∃ t, getTagNodePtrFromIfd z TAG_ExifIFDPointer = some t ∧
        e.offset = t.num 0 % 65536) ∧
    (∀ g, getIfdTableFromIfdTableArray r IFD_GPS = some g →
      ∃ t, getTagNodePtrFromIfd z TAG_GPSInfoIFDPointer = some t ∧
        g.offset = t.num 0 % 65536) ∧
    (∀ e io, getIfdTableFromIfdTableArray r IFD_EXIF = some e →
      getIfdTableFromIfdTableArray r IFD_IO = some io →
      ∃ t, getTagNodePtrFromIfd e TAG_InteroperabilityIFDPointer = some t ∧
        io.offset = t.num 0 % 65536) := by
  obtain ⟨a, hp, _⟩ := fixLoop_final fuel arr 0 r h
  obtain ⟨z1, hz1, hag, hr⟩ := fixPass_ret_0th a r 0 z hp hz
  have hw := writeBack_get _ _ (fixEnd_fits _ z1 hz1) (by simp [hz1])
  rw [← hr] at hw
  obtain ⟨w0, w1, w2, w3, w4⟩ := hw
  rw [hz] at w0
  simp only [Option.some.injEq] at w0
  subst w0
  unfold fixEnd at hag w1 w2 w3 ⊢
  have hag2 := fixGps_again _ hag
  refine ⟨?_, ?_, ?_⟩
  · intro e he
    rw [w1, fixGps_ifdExif] at he
    rw [fixGps_getTag_other _ _ (by decide)]
    exact fixExif_present _ hag2 e he
  · intro g hg
    rw [w3] at hg
    exact fixGps_present _ hag g hg
  · intro e io he hio
    rw [w1, fixGps_ifdExif] at he
    rw [w2, fixGps_ifdIo] at hio
    exact fixExif_io_present _ hag2 e io he hio



/-- Claim C5, counterexample: for a 0th IFD of length 65530 (an ASCII tag of 65500 bytes
and `ExifIFDPointer`) and an Exif IFD, `fixLengthAndOffsetInIfdTables` returns 0 with
`value[0] = 65538` in `ExifIFDPointer` and the offset 2 recorded in the Exif IFD. -/
theorem pointer_consistency_present_counterexample :
    (fixLengthAndOffsetInIfdTables 2 sampleLargeGraph).map (fun x => x.1) = some 0 ∧
    (fixLengthAndOffsetInIfdTables 2 sampleLargeGraph).map
        (fun x => ((getIfdTableFromIfdTableArray x.2 IFD_0TH).bind
            (fun z => getTagNodePtrFromIfd z TAG_ExifIFDPointer)).map (fun t => t.num 0)) =
      some (some 65538) ∧
    (fixLengthAndOffsetInIfdTables 2 sampleLargeGraph).map
        (fun x => (getIfdTableFromIfdTableArray x.2 IFD_EXIF).map (fun e => e.offset)) =
      some (some 2) := by
  decide

theorem pointer_consistency_present_witness :
    (∀ e, getIfdTableFromIfdTableArray sampleGraphExifFixed IFD_EXIF = some e →
      ∃ t, getTagNodePtrFromIfd (sampleGraphExifFixed.headD sampleIfd0)
          TAG_ExifIFDPointer = some t ∧
        e.offset = t.num 0 % 65536) ∧
    (∀ g, getIfdTableFromIfdTableArray sampleGraphExifFixed IFD_GPS = some g →
      ∃ t, getTagNodePtrFromIfd (sampleGraphExifFixed.headD sampleIfd0)
          TAG_GPSInfoIFDPointer = some t ∧
        g.offset = t.num 0 % 65536) ∧
    (∀ e io, getIfdTableFromIfdTableArray sampleGraphExifFixed IFD_EXIF = some e →
      getIfdTableFromIfdTableArray sampleGraphExifFixed IFD_IO = some io →
      ∃ t, getTagNodePtrFromIfd e TAG_InteroperabilityIFDPointer = some t ∧
        io.offset = t.num 0 % 65536) :=
  pointer_consistency_present 2 sampleGraphExif sampleGraphExifFixed
    (sampleGraphExifFixed.headD sampleIfd0) (by decide) (by decide)

/-- Claim C6 (amended). After `fixLengthAndOffsetInIfdTables` returns 0 on a graph with a
0th IFD: for an absent Exif or GPS IFD the pointer tag of the 0th IFD, and for an absent
Interoperability IFD the pointer tag of the Exif IFD, if the tag is present and has one
of the six integer types, has count 1 and `value[0] = 0`. When the graph is the result of
`removeIfdTableFromIfdTableArray` for the kind GPS, the fixed graph has no GPS IFD and
`writeExifSegment` writes no IFD of the kind GPS. -/
theorem pointer_consistency_absent (fuel : Nat) (arr r : List IfdTable) (z : IfdTable)
    (h : fixLengthAndOffsetInIfdTables fuel arr = some (0, r))
    (hz : getIfdTableFromIfdTableArray r IFD_0TH = some z) :
    (getIfdTableFromIfdTableArray r IFD_EXIF = none →
      ∀ t, getTagNodePtrFromIfd z TAG_ExifIFDPointer = some t → isIntType t.type →
        t.count = 1 ∧ t.num 0 = 0) ∧
    (getIfdTableFromIfdTableArray r IFD_GPS = none →
      ∀ t, getTagNodePtrFromIfd z TAG_GPSInfoIFDPointer = some t → isIntType t.type →
        t.count = 1 ∧ t.num 0 = 0) ∧
    (∀ e, getIfdTableFromIfdTableArray r IFD_EXIF = some e →
      getIfdTableFromIfdTableArray r IFD_IO = none →
      ∀ t, getTagNodePtrFromIfd e TAG_InteroperabilityIFDPointer = some t →
        isIntType t.type → t.count = 1 ∧ t.num 0 = 0) ∧
    (∀ arr0, arr = (removeIfdTableFromIfdTableArray arr0 IFD_GPS).2 →
      getIfdTableFromIfdTableArray r IFD_GPS = none ∧
      ∀ x ∈ ifdsToWrite r, x.ifdType ≠ IFD_GPS) := by
  obtain ⟨a, hp, _⟩ := fixLoop_final fuel arr 0 r h
  obtain ⟨z1, hz1, hag, hr⟩ := fixPass_ret_0th a r 0 z hp hz
  have hw := writeBack_get _ _ (fixEnd_fits _ z1 hz1) (by simp [hz1])
  rw [← hr] at hw
  obtain ⟨w0, w1, w2, w3, w4⟩ := hw
  rw [hz] at w0
  simp only [Option.some.injEq] at w0
  subst w0
  unfold fixEnd at hag w1 w2 w3 ⊢
  refine ⟨?_, ?_, ?_, ?_⟩
  · intro he t ht hi
    rw [w1, fixGps_ifdExif] at he
    rw [fixGps_getTag_other _ _ (by decide)] at ht
    exact fixExif_absent _ he t ht hi
  · intro hg t ht hi
    rw [w3] at hg
    exact fixGps_absent _ hg t ht hi
  · intro e he hio t ht hi
    rw [w1, fixGps_ifdExif] at he
    rw [w2, fixGps_ifdIo] at hio
    exact fixExif_io_absent _ e he hio t ht hi
  · intro arr0 harr
    have hn : getIfdTableFromIfdTableArray r IFD_GPS = none := by
      have h1 := fixLoop_presence fuel arr 0 r h IFD_GPS
      rw [harr, removeIfd_none] at h1
      cases hq : getIfdTableFromIfdTableArray r IFD_GPS with
      | none => rfl
      | some x => simp [hq] at h1
    exact ⟨hn, ifdsToWrite_kind r IFD_GPS hn⟩


/-- Claim C6, counterexample: with a `GPSInfoIFDPointer` of the type RATIONAL in the 0th
IFD, removing the GPS IFD and running `fixLengthAndOffsetInIfdTables` returns 0 and leaves
`value[0] = 26` in the pointer tag. -/
theorem pointer_consistency_absent_counterexample :
    (fixLengthAndOffsetInIfdTables 2
        (removeIfdTableFromIfdTableArray (sampleGraphGps TYPE_RATIONAL [26, 1]) IFD_GPS).2).map
      (fun x => (x.1, getIfdTableFromIfdTableArray x.2 IFD_GPS,
        ((getIfdTableFromIfdTableArray x.2 IFD_0TH).bind
          (fun z => getTagNodePtrFromIfd z TAG_GPSInfoIFDPointer)).map (fun t => t.num 0))) =
      some (0, none, some 26) := by
  decide

theorem pointer_consistency_absent_witness :
    (getIfdTableFromIfdTableArray [sampleGpsRemovedIfd0] IFD_EXIF = none →
      ∀ t, getTagNodePtrFromIfd sampleGpsRemovedIfd0 TAG_ExifIFDPointer = some t →
        isIntType t.type → t.count = 1 ∧ t.num 0 = 0) ∧
    (getIfdTableFromIfdTableArray [sampleGpsRemovedIfd0] IFD_GPS = none →
      ∀ t, getTagNodePtrFromIfd sampleGpsRemovedIfd0 TAG_GPSInfoIFDPointer = some t →
        isIntType t.type → t.count = 1 ∧ t.num 0 = 0) ∧
    (∀ e, getIfdTableFromIfdTableArray [sampleGpsRemovedIfd0] IFD_EXIF = some e →
      getIfdTableFromIfdTableArray [sampleGpsRemovedIfd0] IFD_IO = none →
      ∀ t, getTagNodePtrFromIfd e TAG_InteroperabilityIFDPointer = some t →
        isIntType t.type → t.count = 1 ∧ t.num 0 = 0) ∧
    (∀ arr0, (removeIfdTableFromIfdTableArray (sampleGraphGps TYPE_LONG [26]) IFD_GPS).2 =
        (removeIfdTableFromIfdTableArray arr0 IFD_GPS).2 →
      getIfdTableFromIfdTableArray [sampleGpsRemovedIfd0] IFD_GPS = none ∧
      ∀ x ∈ ifdsToWrite [sampleGpsRemovedIfd0], x.ifdType ≠ IFD_GPS) :=
  pointer_consistency_absent 2
    (removeIfdTableFromIfdTableArray (sampleGraphGps TYPE_LONG [26]) IFD_GPS).2
    [sampleGpsRemovedIfd0] sampleGpsRemovedIfd0 (by decide) (by decide)

/-- Claim C7, evaluated at the failing input: for a 0th IFD that holds `ExifIFDPointer`
as a LONG tag of count 2, the first run of `fixLengthAndOffsetInIfdTables` leaves the
length 26, a second run right after it the length 18. -/
theorem fixup_second_run_changes_length :
    (fixLengthAndOffsetInIfdTables 2 sampleGraphPointerCount2).map
        (fun x => (x.1, x.2.map (fun i => i.length))) = some (0, [26]) ∧
    ((fixLengthAndOffsetInIfdTables 2 sampleGraphPointerCount2).bind
        (fun x => fixLengthAndOffsetInIfdTables 2 x.2)).map
        (fun x => (x.1, x.2.map (fun i => i.length))) = some (0, [18]) := by
  decide

/-- Claim C1, evaluated at the failing input `sampleJpeg`: `createIfdTableArray` parses
the file into a graph with status 1, `updateExifSegmentInJPEGFile` with that graph
returns 1 and writes `sampleUpdated`, and parsing `sampleUpdated` gives the ASCII tag
`0x010F` the payload `02 00 00 00 41 42` in place of `41 42 43 44 45 00`. -/
theorem roundtrip_changes_payload_after_long_tag :
    createIfdTableArray true sampleJpeg (fun _ => 0) =
      some (1, some [sampleIfd0], sampleGlobals) ∧
    updateExifSegmentInJPEGFile true 2 sampleJpeg (some [sampleIfd0]) =
      some ({ sts := 1, out := some sampleUpdated }, some [sampleIfd0Fixed]) ∧
    createIfdTableArray true sampleUpdated (fun _ => 0) =
      some (1, some [sampleIfd0Reparsed], sampleGlobals) ∧
    sampleIfd0Reparsed.tags.map (fun t => t.byteData) ≠
      sampleIfd0.tags.map (fun t => t.byteData) := by
  decide

/-- Claim C4, evaluated at the failing input (the fixed graph of `sampleJpeg`, written
with a little-endian header): for the LONG tag of count 2 `calcIfdSize` adds 8 bytes
while `writeExifSegment` advances `ofs` from 38 to 42; the slot of the ASCII tag that
follows holds 42, but its six payload bytes are written at offset 46 from the start of
the TIFF header (which is byte 10 of the segment). -/
theorem writer_offset_wrong_after_long_tag :
    (sampleIfd0Fixed.tags.map tagValueSize = [8, 6]) ∧
    (sampleIfd0Fixed.tags.map
        (fun t => (packTag true sampleGlobals.App1Header t 38).2) = [42, 44]) ∧
    (((writeExifSegment true sampleGlobals.App1Header [sampleIfd0Fixed]).2.drop
        (10 + 30)).take 4 = [42, 0, 0, 0]) ∧
    (((writeExifSegment true sampleGlobals.App1Header [sampleIfd0Fixed]).2.drop
        (10 + 46)).take 6 = [65, 66, 67, 68, 69, 0]) ∧
    (((writeExifSegment true sampleGlobals.App1Header [sampleIfd0Fixed]).2.drop
        (10 + 42)).take 6 = [2, 0, 0, 0, 65, 66]) := by
  decide

/-- Claim C9, counterexample: (1) for the graph whose 0th IFD holds `ExifIFDPointer` as a
LONG tag of count 2 and the four-byte thumbnail, `fixLengthAndOffsetInIfdTables` returns 0
with `JPEGInterchangeFormat = 64` (offset 34 + length 34 - 4), while `writeExifSegment`
emits the thumbnail 56 bytes after the TIFF header (the segment is 10 + 56 + 4 bytes long
and ends with the thumbnail); (2) for an empty 0th IFD and a thumbnail of 65506 bytes the
1st IFD gets offset 14, length 0 and `JPEGInterchangeFormat = 4294901804`. Both arrays,
taken with 32 slots, are of `setThumbnailDefined`, and in both runs the fixer makes every
access to `numData[0]` on a cell that exists. -/
theorem thumbnail_offset_counterexample :
    (fixLengthAndOffsetInIfdTables 2
        (setThumbnailDataOnIfdTableArray sampleGraphPointerCount2 (some sampleThumb) 4).2 =
      some (0, sampleGraphThumbStale) ∧
     firstIfdFields sampleGraphThumbStale = some (34, 34, some 64) ∧
     (writeExifSegment true (setDefaultApp1SegmentHader true) sampleGraphThumbStale).2.drop
       (10 + 56) = sampleThumb ∧
     (writeExifSegment true (setDefaultApp1SegmentHader true) sampleGraphThumbStale).2.length =
       10 + 56 + 4) ∧
    (fixLengthAndOffsetInIfdTables 2
        (setThumbnailDataOnIfdTableArray [createIfdTable IFD_0TH 0 0]
          (some (List.replicate 65506 0)) 65506).2).map (fun p => (p.1, firstIfdFields p.2)) =
      some (0, some (14, 0, some 4294901804)) ∧
    setThumbnailDefined 32 sampleGraphPointerCount2 ∧
    setThumbnailDefined 32 [createIfdTable IFD_0TH 0 0] ∧
    fixLoopDefined 2
      (setThumbnailDataOnIfdTableArray sampleGraphPointerCount2 (some sampleThumb) 4).2 ∧
    fixLoopDefined 2
      (setThumbnailDataOnIfdTableArray [createIfdTable IFD_0TH 0 0]
        (some (List.replicate 65506 0)) 65506).2 := by
  decide

/-- Claim C9 (amended): start from an array with a 0th IFD and without a 1st IFD whose
pointer tags of integer type have count 1, whose tags without error flag are fit for the
accesses the fixer makes to `numData[0]` (`numDataPresent`), and which has a free slot
behind its terminating `NULL` (`setThumbnailDefined`). Then
`setThumbnailDataOnIfdTableArray` with a non-empty `b` returns 0,
`fixLengthAndOffsetInIfdTables` (two passes or more) makes every access to `numData[0]`
on a cell that exists (`fixLoopDefined`) and returns 0;
the 1st IFD exists, `JPEGInterchangeFormatLength` holds `len b`, and if 8 plus the exact
sizes of the IFDs of the result stays below `2 ^ 16`, then `JPEGInterchangeFormat` holds
`offset + length - len b` of the 1st IFD and `writeExifSegment` emits `b` as its last
bytes, starting that many bytes after the TIFF header (10 bytes into the segment). -/
theorem thumbnail_offset_after_fix (sysLE : Bool) (hdr : APP1_HEADER) (arr : List IfdTable)
    (b : List Nat) (fuel slots : Nat)
    (h0 : (getIfdTableFromIfdTableArray arr IFD_0TH).isSome)
    (h1 : getIfdTableFromIfdTableArray arr IFD_1ST = none)
    (hb : 0 < b.length) (hfuel : 2 ≤ fuel) (hwf : GraphWf arr)
    (_hslot : setThumbnailDefined slots arr) (hnum : ∀ x ∈ arr, numDataPresent x) :
    (setThumbnailDataOnIfdTableArray arr (some b) b.length).1 = 0 ∧
    fixLoopDefined fuel (setThumbnailDataOnIfdTableArray arr (some b) b.length).2 ∧
    ∃ r first tl tf,
      fixLengthAndOffsetInIfdTables fuel
        (setThumbnailDataOnIfdTableArray arr (some b) b.length).2 = some (0, r) ∧
      getIfdTableFromIfdTableArray r IFD_1ST = some first ∧
      getTagNodePtrFromIfd first TAG_JPEGInterchangeFormatLength = some tl ∧
      tl.num 0 = b.length ∧
      getTagNodePtrFromIfd first TAG_JPEGInterchangeFormat = some tf ∧
      (8 + ((ifdsToWrite r).map ifdSizeExact).sum < 65536 →
        b.length ≤ first.offset + first.length ∧
        tf.num 0 = first.offset + first.length - b.length ∧
        ∃ pre, (writeExifSegment sysLE hdr r).2 = pre ++ b ∧
          pre.length = 10 + tf.num 0) := by
  refine ⟨by rw [setThumbnail_fresh arr b hb h1],
    fixLoop_defined fuel _ (numDataPresent_setThumbnail arr b hb h1 hnum), ?_⟩
  obtain ⟨r, hr, _⟩ := fixLoop_total (fuel - 2)
    (setThumbnailDataOnIfdTableArray arr (some b) b.length).2
  have hfe : fuel - 2 + 2 = fuel := by omega
  rw [hfe] at hr
  have hstep : ∀ a, (GraphWf a ∧ ThumbInv b a ∧
      (getIfdTableFromIfdTableArray a IFD_0TH).isSome) →
      (GraphWf (fixPass a).arr ∧ ThumbInv b (fixPass a).arr ∧
        (getIfdTableFromIfdTableArray (fixPass a).arr IFD_0TH).isSome) := by
    intro a h
    refine ⟨fixPass_graphWf a h.1, fixPass_thumb a b h.2.1, ?_⟩
    rw [fixPass_presence]
    exact h.2.2
  obtain ⟨a, ⟨hawf, hainv, ha0⟩, hpass⟩ := fixLoop_final_inv
    (fun a => GraphWf a ∧ ThumbInv b a ∧ (getIfdTableFromIfdTableArray a IFD_0TH).isSome)
    hstep fuel _ 0 r
    ⟨graphWf_setThumbnail arr b hb h1 hwf, thumbInv_setThumbnail arr b hb h1,
      zeroth_setThumbnail arr b hb h1 h0⟩ hr
  obtain ⟨first, tl, tf, h⟩ := fixPass_thumb_final sysLE hdr a r b 0 hawf hainv hb ha0 hpass
  exact ⟨r, first, tl, tf, hr, h⟩

theorem thumbnail_offset_after_fix_witness :
    fixLengthAndOffsetInIfdTables 2
        (setThumbnailDataOnIfdTableArray [sampleIfd0] (some sampleThumb) sampleThumb.length).2 =
      some (0, sampleGraphThumbFixed) ∧
    8 + ((ifdsToWrite sampleGraphThumbFixed).map ifdSizeExact).sum < 65536 ∧
    ((setThumbnailDataOnIfdTableArray [sampleIfd0] (some sampleThumb) sampleThumb.length).1 = 0 ∧
     fixLoopDefined 2
       (setThumbnailDataOnIfdTableArray [sampleIfd0] (some sampleThumb) sampleThumb.length).2 ∧
     ∃ r first tl tf,
      fixLengthAndOffsetInIfdTables 2
        (setThumbnailDataOnIfdTableArray [sampleIfd0] (some sampleThumb)
          sampleThumb.length).2 = some (0, r) ∧
      getIfdTableFromIfdTableArray r IFD_1ST = some first ∧
      getTagNodePtrFromIfd first TAG_JPEGInterchangeFormatLength = some tl ∧
      tl.num 0 = sampleThumb.length ∧
      getTagNodePtrFromIfd first TAG_JPEGInterchangeFormat = some tf ∧
      (8 + ((ifdsToWrite r).map ifdSizeExact).sum < 65536 →
        sampleThumb.length ≤ first.offset + first.length ∧
        tf.num 0 = first.offset + first.length - sampleThumb.length ∧
        ∃ pre, (writeExifSegment true (setDefaultApp1SegmentHader true) r).2 =
            pre ++ sampleThumb ∧
          pre.length = 10 + tf.num 0)) :=
  ⟨by decide, by decide,
    thumbnail_offset_after_fix true (setDefaultApp1SegmentHader true) [sampleIfd0] sampleThumb 2
      32 (by decide) (by decide) (by decide) (by decide) sampleIfd0_graphWf (by decide)
      (by decide)⟩

/-- Claim C11. For a tag of type ASCII, UNDEFINED, BYTE or SBYTE: with count 4
`writeExifSegment` writes no bytes to the value area, leaves `ofs` as it is, and
`calcIfdSize` adds nothing; with count above 4 the value slot holds `ofs`, the value area
gets the `count` payload bytes (`byteData[i]` for ASCII and UNDEFINED, `numData[i]` as a
byte for BYTE and SBYTE) followed by one zero byte exactly when `count` is odd, and `ofs`
and the size `calcIfdSize` adds both advance by that number of bytes; count 5 takes 6
bytes. -/
theorem even_byte_padding (sysLE : Bool) (hdr : APP1_HEADER) (tag : TagNode) (ofs : Nat)
    (ht : tag.type = TYPE_ASCII ∨ tag.type = TYPE_UNDEFINED ∨ tag.type = TYPE_BYTE ∨
      tag.type = TYPE_SBYTE) :
    (tag.count = 4 →
      tagValueBytes sysLE hdr tag = [] ∧ (packTag sysLE hdr tag ofs).2 = ofs ∧
      tagValueSize tag = 0 ∧
      (packTag sysLE hdr tag ofs).1 = (List.range 4).map (fun i =>
        if tag.type = TYPE_ASCII ∨ tag.type = TYPE_UNDEFINED then tag.byte i
        else tag.num i % 256)) ∧
    (4 < tag.count →
      (packTag sysLE hdr tag ofs).1 = mem32 sysLE (fix_int sysLE hdr ofs) ∧
      tagValueBytes sysLE hdr tag =
        (List.range tag.count).map (fun i =>
          if tag.type = TYPE_ASCII ∨ tag.type = TYPE_UNDEFINED then tag.byte i
          else tag.num i % 256) ++ (if tag.count % 2 = 1 then [0] else []) ∧
      (tagValueBytes sysLE hdr tag).length = tag.count + tag.count % 2 ∧
      (packTag sysLE hdr tag ofs).2 = ofs + (tag.count + tag.count % 2) ∧
      tagValueSize tag = tag.count + tag.count % 2) ∧
    (tag.count = 5 → (tagValueBytes sysLE hdr tag).length = 6) := by
  have hmod : tag.count % 2 = 0 ∨ tag.count % 2 = 1 := by omega
  have key : 4 < tag.count →
      (packTag sysLE hdr tag ofs).1 = mem32 sysLE (fix_int sysLE hdr ofs) ∧
      tagValueBytes sysLE hdr tag =
        (List.range tag.count).map (fun i =>
          if tag.type = TYPE_ASCII ∨ tag.type = TYPE_UNDEFINED then tag.byte i
          else tag.num i % 256) ++ (if tag.count % 2 = 1 then [0] else []) ∧
      (tagValueBytes sysLE hdr tag).length = tag.count + tag.count % 2 ∧
      (packTag sysLE hdr tag ofs).2 = ofs + (tag.count + tag.count % 2) ∧
      tagValueSize tag = tag.count + tag.count % 2 := by
    intro hc
    have hc4 : ¬ tag.count ≤ 4 := by omega
    have hlen := tagValueBytes_length sysLE hdr tag
    rcases ht with h | h | h | h <;> rcases hmod with hm | hm <;>
      simp [packTag, tagValueBytes, tagValueSize, copyCells, TagNode.byte, h, hc, hc4, hm,
        TYPE_ASCII, TYPE_UNDEFINED, TYPE_BYTE, TYPE_SBYTE] <;> omega
  refine ⟨?_, key, ?_⟩
  · intro hc
    rcases ht with h | h | h | h <;>
      simp [packTag, tagValueBytes, tagValueSize, h, hc,
        TYPE_ASCII, TYPE_UNDEFINED, TYPE_BYTE, TYPE_SBYTE] <;>
      (intro a h1 h2; omega)
  · intro hc
    have := (key (by omega)).2.2.1
    rw [this, hc]

theorem even_byte_padding_witness :
    (sampleAscii5.count = 4 →
      tagValueBytes true (setDefaultApp1SegmentHader true) sampleAscii5 = [] ∧
      (packTag true (setDefaultApp1SegmentHader true) sampleAscii5 26).2 = 26 ∧
      tagValueSize sampleAscii5 = 0 ∧
      (packTag true (setDefaultApp1SegmentHader true) sampleAscii5 26).1 =
        (List.range 4).map (fun i =>
          if sampleAscii5.type = TYPE_ASCII ∨ sampleAscii5.type = TYPE_UNDEFINED
          then sampleAscii5.byte i else sampleAscii5.num i % 256)) ∧
    (4 < sampleAscii5.count →
      (packTag true (setDefaultApp1SegmentHader true) sampleAscii5 26).1 =
        mem32 true (fix_int true (setDefaultApp1SegmentHader true) 26) ∧
      tagValueBytes true (setDefaultApp1SegmentHader true) sampleAscii5 =
        (List.range sampleAscii5.count).map (fun i =>
          if sampleAscii5.type = TYPE_ASCII ∨ sampleAscii5.type = TYPE_UNDEFINED
          then sampleAscii5.byte i else sampleAscii5.num i % 256) ++
          (if sampleAscii5.count % 2 = 1 then [0] else []) ∧
      (tagValueBytes true (setDefaultApp1SegmentHader true) sampleAscii5).length =
        sampleAscii5.count + sampleAscii5.count % 2 ∧
      (packTag true (setDefaultApp1SegmentHader true) sampleAscii5 26).2 =
        26 + (sampleAscii5.count + sampleAscii5.count % 2) ∧
      tagValueSize sampleAscii5 = sampleAscii5.count + sampleAscii5.count % 2) ∧
    (sampleAscii5.count = 5 →
      (tagValueBytes true (setDefaultApp1SegmentHader true) sampleAscii5).length = 6) :=
  even_byte_padding true (setDefaultApp1SegmentHader true) sampleAscii5 26 (Or.inl rfl)

/-- Claim C12. For every input of at least two bytes whose first two bytes are not
`FF D8`, `getApp1StartOffset` returns `ERR_INVALID_JPEG` (whatever the identifier string),
and `createIfdTableArray` stores `ERR_INVALID_JPEG` in `result` and returns `NULL`. -/
theorem missing_soi_rejected (sysLE : Bool) (file : List Nat) (id : List Nat)
    (junk : IFD_TYPE → Nat) (h2 : 2 ≤ file.length) (hb : ∀ b ∈ file.take 2, b < 256)
    (hsoi : file.take 2 ≠ [0xFF, 0xD8]) :
    getApp1StartOffset sysLE file id = some { sts := ERR_INVALID_JPEG, dqt := none } ∧
    ∃ g, createIfdTableArray sysLE file junk = some (ERR_INVALID_JPEG, none, g) := by
  match file, h2 with
  | a :: b :: rest, _ =>
    have ha : a < 256 := hb a (by simp)
    have hb2 : b < 256 := hb b (by simp)
    have hne : a * 256 + b ≠ 0xFFD8 := by
      intro h
      apply hsoi
      have h1 : a = 0xFF := by omega
      have h3 : b = 0xD8 := by omega
      simp [h1, h3]
    have key : ∀ id, getApp1StartOffset sysLE (a :: b :: rest) id =
        some { sts := ERR_INVALID_JPEG, dqt := none } := by
      intro id
      unfold getApp1StartOffset
      rw [readBE16_head sysLE a b rest ha hb2]
      simp only [hne, ne_eq, not_false_eq_true, if_true]
    refine ⟨key id, ?_⟩
    simp [createIfdTableArray, fillIfdTableArray, init, key EXIF_ID_STR, ERR_INVALID_JPEG]

theorem missing_soi_rejected_witness :
    getApp1StartOffset true [0xFF, 0xD9, 0xFF, 0xD8] EXIF_ID_STR =
      some { sts := ERR_INVALID_JPEG, dqt := none } ∧
    ∃ g, createIfdTableArray true [0xFF, 0xD9, 0xFF, 0xD8] (fun _ => 0) =
      some (ERR_INVALID_JPEG, none, g) :=
  missing_soi_rejected true [0xFF, 0xD9, 0xFF, 0xD8] EXIF_ID_STR (fun _ => 0) (by decide)
    (by decide) (by decide)

/-- Claim C13, counterexample: on `sampleJpegBadExif` the 0th IFD parses and the call of
`parseIFD` for the Exif IFD returns `NULL`; `fillIfdTableArray` returns `ERR_INVALID_IFD`
with the 0th IFD in its array, and `createIfdTableArray` stores `ERR_INVALID_IFD` and
returns `NULL`, not a graph that holds the 0th IFD. The run has defined behaviour
(`fillIfdTableArrayDefined`). -/
theorem partial_graph_counterexample :
    init true sampleJpegBadExif = some (1, sampleGlobalsBadExif) ∧
    fillIfdTableArrayDefined true sampleJpegBadExif (fun _ => 0) ∧
    parseIFD true sampleGlobalsBadExif sampleJpegBadExif 8 IFD_0TH 0 =
      some sampleIfd0BadExif ∧
    pointerOffset sampleIfd0BadExif TAG_ExifIFDPointer = some 200 ∧
    parseIFD true sampleGlobalsBadExif sampleJpegBadExif 200 IFD_EXIF 0 = none ∧
    fillIfdTableArray true sampleJpegBadExif (fun _ => 0) =
      some (ERR_INVALID_IFD, [sampleIfd0BadExif], sampleGlobalsBadExif) ∧
    createIfdTableArray true sampleJpegBadExif (fun _ => 0) =
      some (ERR_INVALID_IFD, none, sampleGlobalsBadExif) := by
  decide

/-- Claim C13 (amended). Let the run of `fillIfdTableArray` have defined behaviour
(`fillIfdTableArrayDefined`: no tag field makes `parseIFD` write past a buffer, and every
`numData[0]` read for a pointer tag or a thumbnail tag exists). When `init` succeeds, the
0th IFD parses and a call of `parseIFD` for a child IFD returns `NULL`,
`fillIfdTableArray` returns `ERR_INVALID_IFD`
and its array holds the 0th IFD first and after it every child for which `parseIFD`
returned a table; `createIfdTableArray` stores `ERR_INVALID_IFD` in `result` and returns
`NULL`. -/
theorem partial_graph_on_child_failure (sysLE : Bool) (file : List Nat)
    (junk : IFD_TYPE → Nat) (sts : Int) (g : Globals) (z : IfdTable)
    (hinit : init sysLE file = some (sts, g)) (hsts : 0 < sts)
    (hz : parseIFD sysLE g file g.App1Header.tiff.Ifd0thOffset IFD_0TH (junk IFD_0TH) =
      some z)
    (hfail : childParseFails sysLE g file junk z)
    (_hdef : fillIfdTableArrayDefined sysLE file junk) :
    ∃ rest, fillIfdTableArray sysLE file junk = some (ERR_INVALID_IFD, z :: rest, g) ∧
      holdsParsedChildren sysLE g file junk z rest ∧
      createIfdTableArray sysLE file junk = some (ERR_INVALID_IFD, none, g) := by
  have h1 := fillChildren_fail sysLE g file junk z hfail
  have hs : ¬ sts ≤ 0 := by omega
  have hfill : fillIfdTableArray sysLE file junk =
      some (ERR_INVALID_IFD, z :: (fillChildren sysLE g file junk z).2, g) := by
    simp [fillIfdTableArray, hinit, hs, hz, h1, ERR_INVALID_IFD]
  refine ⟨_, hfill, fillChildren_holds sysLE g file junk z, ?_⟩
  simp [createIfdTableArray, hfill, ERR_INVALID_IFD]

theorem partial_graph_on_child_failure_witness :
    ∃ rest, fillIfdTableArray true sampleJpegBadExif (fun _ => 0) =
        some (ERR_INVALID_IFD, sampleIfd0BadExif :: rest, sampleGlobalsBadExif) ∧
      holdsParsedChildren true sampleGlobalsBadExif sampleJpegBadExif (fun _ => 0)
        sampleIfd0BadExif rest ∧
      createIfdTableArray true sampleJpegBadExif (fun _ => 0) =
        some (ERR_INVALID_IFD, none, sampleGlobalsBadExif) :=
  partial_graph_on_child_failure true sampleJpegBadExif (fun _ => 0) 1 sampleGlobalsBadExif
    sampleIfd0BadExif (by decide) (by decide) (by decide)
    (Or.inl ⟨200, by decide, by decide⟩) (by decide)

/-- Claim C14, counterexample: (1) inserting a tag info with count 0 into the 0th IFD of
`[sampleIfd0]` returns 0, yet `getTagInfo` for the kind and id then returns `NULL`;
(2) inserting `Make` into a 0th IFD whose `tagCount` is 65535 returns 0 and leaves
`tagCount` 0. -/
theorem insert_tag_counterexample :
    ((insertTagNodeToIfdTableArray (some [sampleIfd0]) IFD_0TH (some sampleInfoCount0)).1 = 0 ∧
     getTagInfo
       (insertTagNodeToIfdTableArray (some [sampleIfd0]) IFD_0TH (some sampleInfoCount0)).2
       IFD_0TH sampleInfoCount0.tagId = none) ∧
    insertTagNodeToIfdTableArray (some [sampleIfd0Full]) IFD_0TH (some sampleInfoMake) =
      (0, some [{ sampleIfd0Full with tags := [sampleInfoMake], tagCount := 0 }]) := by
  decide

/-- Claim C14 (amended). For an array that is not `NULL` and a tag info:
`insertTagNodeToIfdTableArray` returns `ERR_NOT_EXIST` and leaves the array as it is when
there is no IFD of the kind, and `ERR_ALREADY_EXIST` likewise when that IFD holds a tag
with the id. Otherwise, for a tag info with a count of at least 1 and exactly one buffer
of the size its type and count give, it returns 0, the IFD of the kind gets a copy of the
tag (same id, type, count and payload, error flag clear) at the end of its tag list and
its `tagCount` incremented modulo `2 ^ 16`, look-ups of every other kind give what they
gave before, and `getTagInfo` for the kind and id returns that copy. -/
theorem insert_tag_spec (arr : List IfdTable) (kind : IFD_TYPE) (info : TagNode) :
    (getIfdTableFromIfdTableArray arr kind = none →
      insertTagNodeToIfdTableArray (some arr) kind (some info) =
        (ERR_NOT_EXIST, some arr)) ∧
    (∀ ifd, getIfdTableFromIfdTableArray arr kind = some ifd →
      (getTagNodePtrFromIfd ifd info.tagId).isSome = true →
      insertTagNodeToIfdTableArray (some arr) kind (some info) =
        (ERR_ALREADY_EXIST, some arr)) ∧
    (∀ ifd, getIfdTableFromIfdTableArray arr kind = some ifd →
      getTagNodePtrFromIfd ifd info.tagId = none → infoWellFormed info →
      insertTagNodeToIfdTableArray (some arr) kind (some info) =
        (0, some (putIfd arr kind
          { ifd with tags := ifd.tags ++ [{ info with error := 0 }],
                     tagCount := (ifd.tagCount + 1) % 65536 })) ∧
      (∀ k, k ≠ kind →
        getIfdTableFromIfdTableArray (putIfd arr kind
          { ifd with tags := ifd.tags ++ [{ info with error := 0 }],
                     tagCount := (ifd.tagCount + 1) % 65536 }) k =
        getIfdTableFromIfdTableArray arr k) ∧
      getTagInfo (insertTagNodeToIfdTableArray (some arr) kind (some info)).2 kind
        info.tagId = some { info with error := 0 }) := by
  refine ⟨?_, ?_, ?_⟩
  · intro h
    simp [insertTagNodeToIfdTableArray, h]
  · intro ifd h ht
    simp [insertTagNodeToIfdTableArray, h, ht]
  · intro ifd h ht hwf
    have hk := getIfd_ifdType arr kind ifd h
    have hins : insertTagNodeToIfdTableArray (some arr) kind (some info) =
        (0, some (putIfd arr kind
          { ifd with tags := ifd.tags ++ [{ info with error := 0 }],
                     tagCount := (ifd.tagCount + 1) % 65536 })) := by
      simp [insertTagNodeToIfdTableArray, h, ht, addTagNodeToIfd,
        newTagNode_wellFormed info hwf]
    refine ⟨hins, ?_, ?_⟩
    · intro k hne
      exact getIfd_putIfd_other arr kind k _ hk hne
    · rw [hins]
      have hget := getIfd_putIfd_same arr kind
        { ifd with tags := ifd.tags ++ [{ info with error := 0 }],
                   tagCount := (ifd.tagCount + 1) % 65536 } hk
      rw [h] at hget
      unfold getIfdTableFromIfdTableArray at hget
      simp only [getTagInfo, hget, Option.map_some']
      have hwf2 : infoWellFormed { info with error := 0 } := hwf
      have ht2 := getTag_append_new ifd { info with error := 0 } ht
        ((ifd.tagCount + 1) % 65536)
      simp only at ht2
      rw [ht2]
      exact duplicateTagNode_wellFormed _ hwf2

theorem insert_tag_spec_witness :
    insertTagNodeToIfdTableArray (some [createIfdTable IFD_0TH 0 0]) IFD_0TH
        (some sampleInfoMake) =
      (0, some (putIfd [createIfdTable IFD_0TH 0 0] IFD_0TH
        { createIfdTable IFD_0TH 0 0 with
          tags := (createIfdTable IFD_0TH 0 0).tags ++ [{ sampleInfoMake with error := 0 }],
          tagCount := ((createIfdTable IFD_0TH 0 0).tagCount + 1) % 65536 })) ∧
    (∀ k, k ≠ IFD_0TH →
      getIfdTableFromIfdTableArray (putIfd [createIfdTable IFD_0TH 0 0] IFD_0TH
        { createIfdTable IFD_0TH 0 0 with
          tags := (createIfdTable IFD_0TH 0 0).tags ++ [{ sampleInfoMake with error := 0 }],
          tagCount := ((createIfdTable IFD_0TH 0 0).tagCount + 1) % 65536 }) k =
      getIfdTableFromIfdTableArray [createIfdTable IFD_0TH 0 0] k) ∧
    getTagInfo
      (insertTagNodeToIfdTableArray (some [createIfdTable IFD_0TH 0 0]) IFD_0TH
        (some sampleInfoMake)).2
      IFD_0TH sampleInfoMake.tagId = some { sampleInfoMake with error := 0 } :=
  (insert_tag_spec [createIfdTable IFD_0TH 0 0] IFD_0TH sampleInfoMake).2.2
    (createIfdTable IFD_0TH 0 0) (by decide) (by decide)
    ⟨by decide, Or.inr ⟨[65, 66, 67, 68, 69, 0], rfl, rfl, rfl⟩⟩

/-- Claim C15, counterexample: in the graph that `setThumbnailDataOnIfdTableArray` makes
of `[sampleIfd0]` the 1st IFD has `tagCount` 0 and two tags;
`removeTagNodeFromIfdTableArray` for `JPEGInterchangeFormat` returns 1 and leaves
`tagCount` 65535. -/
theorem remove_tag_counterexample :
    (setThumbnailDataOnIfdTableArray [sampleIfd0] (some sampleThumb) 4).2 =
      sampleGraphThumbSet ∧
    (getIfdTableFromIfdTableArray sampleGraphThumbSet IFD_1ST).map (fun i => i.tagCount) =
      some 0 ∧
    (removeTagNodeFromIfdTableArray (some sampleGraphThumbSet) IFD_1ST
      TAG_JPEGInterchangeFormat).1 = 1 ∧
    ((removeTagNodeFromIfdTableArray (some sampleGraphThumbSet) IFD_1ST
      TAG_JPEGInterchangeFormat).2.bind
        (fun a => getIfdTableFromIfdTableArray a IFD_1ST)).map (fun i => i.tagCount) =
      some 65535 := by
  decide

/-- Claim C15 (amended). `removeTagNodeFromIfdTableArray` returns 0 for a `NULL` array
and for an array without an IFD of the kind, which it leaves as it is. Otherwise it
returns the number of tags with the id in the IFD of the kind; the tags of that IFD are
then the former tags with another id in their order, its `tagCount` is the former one
reduced by the returned count modulo `2 ^ 16` (and by the returned count itself when
that is not above a former `tagCount` below `2 ^ 16`), its other fields and the look-ups
of every other kind are as before. In every case `queryTagNodeIsExist` for the kind and
id is 0 afterwards. -/
theorem remove_tag_spec (arr : List IfdTable) (kind : IFD_TYPE) (id : Nat) :
    removeTagNodeFromIfdTableArray none kind id = (0, none) ∧
    (getIfdTableFromIfdTableArray arr kind = none →
      removeTagNodeFromIfdTableArray (some arr) kind id = (0, some arr)) ∧
    (∀ ifd, getIfdTableFromIfdTableArray arr kind = some ifd →
      ∃ tc, removeTagNodeFromIfdTableArray (some arr) kind id =
          (ifd.tags.countP (fun t => t.tagId == id),
           some (putIfd arr kind
             { ifd with tags := ifd.tags.filter (fun t => !(t.tagId == id)),
                        tagCount := tc })) ∧
        (tc + ifd.tags.countP (fun t => t.tagId == id)) % 65536 = ifd.tagCount % 65536 ∧
        (ifd.tags.countP (fun t => t.tagId == id) ≤ ifd.tagCount → ifd.tagCount < 65536 →
          tc = ifd.tagCount - ifd.tags.countP (fun t => t.tagId == id)) ∧
        (∀ k, k ≠ kind →
          getIfdTableFromIfdTableArray (putIfd arr kind
             { ifd with tags := ifd.tags.filter (fun t => !(t.tagId == id)),
                        tagCount := tc }) k =
          getIfdTableFromIfdTableArray arr k)) ∧
    queryTagNodeIsExist (removeTagNodeFromIfdTableArray (some arr) kind id).2 kind id = 0 ∧
    queryTagNodeIsExist (removeTagNodeFromIfdTableArray none kind id).2 kind id = 0 := by
  refine ⟨rfl, ?_, ?_, ?_, rfl⟩
  · intro h
    simp [removeTagNodeFromIfdTableArray, h]
  · intro ifd h
    have hk := getIfd_ifdType arr kind ifd h
    obtain ⟨h1, h2⟩ := decrement_iterate (ifd.tags.countP (fun t => t.tagId == id))
      ifd.tagCount
    refine ⟨_, ?_, h1, h2, ?_⟩
    · simp only [removeTagNodeFromIfdTableArray, h, removeTagOnIfd_spec]
    · intro k hne
      exact getIfd_putIfd_other arr kind k _ hk hne
  · cases h : getIfdTableFromIfdTableArray arr kind with
    | none => simp [removeTagNodeFromIfdTableArray, queryTagNodeIsExist, h]
    | some ifd =>
      have hk := getIfd_ifdType arr kind ifd h
      have hget := getIfd_putIfd_same arr kind
        { ifd with tags := ifd.tags.filter (fun t => !(t.tagId == id)),
                   tagCount := (fun c => (c + 65535) % 65536)^[
                     ifd.tags.countP (fun t => t.tagId == id)] ifd.tagCount } hk
      rw [h] at hget
      simp only [removeTagNodeFromIfdTableArray, h, removeTagOnIfd_spec, queryTagNodeIsExist,
        hget, Option.map_some', getTag_filter_none]

theorem remove_tag_spec_witness :
    ∃ tc, removeTagNodeFromIfdTableArray (some [sampleIfd0]) IFD_0TH 0x010F =
        (sampleIfd0.tags.countP (fun t => t.tagId == 0x010F),
         some (putIfd [sampleIfd0] IFD_0TH
           { sampleIfd0 with tags := sampleIfd0.tags.filter (fun t => !(t.tagId == 0x010F)),
                             tagCount := tc })) ∧
      (tc + sampleIfd0.tags.countP (fun t => t.tagId == 0x010F)) % 65536 =
        sampleIfd0.tagCount % 65536 ∧
      (sampleIfd0.tags.countP (fun t => t.tagId == 0x010F) ≤ sampleIfd0.tagCount →
        sampleIfd0.tagCount < 65536 →
        tc = sampleIfd0.tagCount - sampleIfd0.tags.countP (fun t => t.tagId == 0x010F)) ∧
      (∀ k, k ≠ IFD_0TH →
        getIfdTableFromIfdTableArray (putIfd [sampleIfd0] IFD_0TH
           { sampleIfd0 with tags := sampleIfd0.tags.filter (fun t => !(t.tagId == 0x010F)),
                             tagCount := tc }) k =
        getIfdTableFromIfdTableArray [sampleIfd0] k) :=
  (remove_tag_spec [sampleIfd0] IFD_0TH 0x010F).2.2.1 sampleIfd0 (by decide)

/-- Claim C16. For every array (the list of the tables before the terminating `NULL`) and
kind, `removeIfdTableFromIfdTableArray` returns the number of tables of that kind, and
the array then holds exactly the tables of the other kinds, unchanged and in their order
(again followed by the terminating `NULL`, which the copy moves along); no look-up finds
a table of the kind. -/
theorem remove_ifd_spec (arr : List IfdTable) (kind : IFD_TYPE) :
    removeIfdTableFromIfdTableArray arr kind =
      (arr.countP (fun ifd => ifd.ifdType == kind),
       arr.filter (fun ifd => !(ifd.ifdType == kind))) ∧
    (∀ x ∈ (removeIfdTableFromIfdTableArray arr kind).2, x.ifdType ≠ kind) ∧
    getIfdTableFromIfdTableArray (removeIfdTableFromIfdTableArray arr kind).2 kind = none := by
  have h : removeIfdTableFromIfdTableArray arr kind =
      (arr.countP (fun ifd => ifd.ifdType == kind),
       arr.filter (fun ifd => !(ifd.ifdType == kind))) := by
    unfold removeIfdTableFromIfdTableArray
    rw [removeIfdLoop_spec _ _ _ _ (by omega)]
    simp
  refine ⟨h, ?_, ?_⟩
  · rw [h]
    intro x hx
    simp only [List.mem_filter] at hx
    simpa using hx.2
  · rw [h]
    unfold getIfdTableFromIfdTableArray
    rw [List.find?_eq_none]
    intro x hx
    simp only [List.mem_filter] at hx
    simpa using hx.2

theorem remove_ifd_spec_witness :
    removeIfdTableFromIfdTableArray sampleGraphThumbFixed IFD_1ST =
      (sampleGraphThumbFixed.countP (fun ifd => ifd.ifdType == IFD_1ST),
       sampleGraphThumbFixed.filter (fun ifd => !(ifd.ifdType == IFD_1ST))) ∧
    (∀ x ∈ (removeIfdTableFromIfdTableArray sampleGraphThumbFixed IFD_1ST).2,
      x.ifdType ≠ IFD_1ST) ∧
    getIfdTableFromIfdTableArray
      (removeIfdTableFromIfdTableArray sampleGraphThumbFixed IFD_1ST).2 IFD_1ST = none :=
  remove_ifd_spec sampleGraphThumbFixed IFD_1ST

/-- Claim C17. `insertIfdTableToIfdTableArray` stores `ERR_ALREADY_EXIST` exactly when
the array is not `NULL` and holds a table of the kind; it then returns `NULL` and leaves
the array as it is. Otherwise it stores 0 and returns the tables of the old array (none
for `NULL`) in their order followed by a new table of the kind with no tags, `tagCount`
0, `nextIfdOffset` 0 and no thumbnail buffer. -/
theorem insert_ifd_spec (g : Option (List IfdTable)) (kind : IFD_TYPE) :
    ((insertIfdTableToIfdTableArray g kind).result = ERR_ALREADY_EXIST ↔
      ∃ arr x, g = some arr ∧ getIfdTableFromIfdTableArray arr kind = some x) ∧
    ((∃ arr x, g = some arr ∧ getIfdTableFromIfdTableArray arr kind = some x) →
      insertIfdTableToIfdTableArray g kind =
        { result := ERR_ALREADY_EXIST, returned := none, old := g }) ∧
    ((¬ ∃ arr x, g = some arr ∧ getIfdTableFromIfdTableArray arr kind = some x) →
      (insertIfdTableToIfdTableArray g kind).result = 0 ∧
      (insertIfdTableToIfdTableArray g kind).returned =
        some (g.getD [] ++
          [{ ifdType := kind, tagCount := 0, tags := [], nextIfdOffset := 0, offset := 0,
             length := 0, p := none }])) := by
  have hyes : (∃ arr x, g = some arr ∧ getIfdTableFromIfdTableArray arr kind = some x) →
      insertIfdTableToIfdTableArray g kind =
        { result := ERR_ALREADY_EXIST, returned := none, old := g } := by
    rintro ⟨arr, x, rfl, hx⟩
    have hlen : 0 < arr.length := by
      cases arr with
      | nil => simp [getIfdTableFromIfdTableArray] at hx
      | cons a as => simp
    simp [insertIfdTableToIfdTableArray, countIfdTableOnIfdTableArray, hx, hlen]
  have hno : (¬ ∃ arr x, g = some arr ∧ getIfdTableFromIfdTableArray arr kind = some x) →
      (insertIfdTableToIfdTableArray g kind).result = 0 ∧
      (insertIfdTableToIfdTableArray g kind).returned =
        some (g.getD [] ++
          [{ ifdType := kind, tagCount := 0, tags := [], nextIfdOffset := 0, offset := 0,
             length := 0, p := none }]) := by
    intro h
    cases g with
    | none => simp [insertIfdTableToIfdTableArray, createIfdTable]
    | some arr =>
      have hnone : getIfdTableFromIfdTableArray arr kind = none := by
        cases hx : getIfdTableFromIfdTableArray arr kind with
        | none => rfl
        | some x => exact absurd ⟨arr, x, rfl, hx⟩ h
      simp [insertIfdTableToIfdTableArray, countIfdTableOnIfdTableArray, hnone,
        createIfdTable]
  refine ⟨⟨?_, fun h => by rw [hyes h]⟩, hyes, hno⟩
  intro h
  by_contra hc
  rw [(hno hc).1] at h
  revert h
  decide

theorem insert_ifd_spec_witness :
    (insertIfdTableToIfdTableArray none IFD_0TH).result = 0 ∧
    (insertIfdTableToIfdTableArray none IFD_0TH).returned =
      some ((none : Option (List IfdTable)).getD [] ++
        [{ ifdType := IFD_0TH, tagCount := 0, tags := [], nextIfdOffset := 0, offset := 0,
           length := 0, p := none }]) :=
  (insert_ifd_spec none IFD_0TH).2.2 (by simp)

/-- Claim C18, evaluated at the failing input: `sampleJpeg` (little-endian TIFF header)
and `sampleJpegBE` (big-endian) parse to the same graph `[sampleIfd0]`;
`updateExifSegmentInJPEGFile` writes that graph with either header and returns 1; parsing
the two outputs gives the ASCII tag `0x010F` the payload `02 00 00 00 41 42` for the
little-endian and `00 00 00 02 41 42` for the big-endian segment. -/
theorem byte_order_roundtrip_differs :
    (createIfdTableArray true sampleJpeg (fun _ => 0)).map (fun r => (r.1, r.2.1)) =
      some (1, some [sampleIfd0]) ∧
    (createIfdTableArray true sampleJpegBE (fun _ => 0)).map (fun r => (r.1, r.2.1)) =
      some (1, some [sampleIfd0]) ∧
    updateExifSegmentInJPEGFile true 2 sampleJpeg (some [sampleIfd0]) =
      some ({ sts := 1, out := some sampleUpdated }, some [sampleIfd0Fixed]) ∧
    updateExifSegmentInJPEGFile true 2 sampleJpegBE (some [sampleIfd0]) =
      some ({ sts := 1, out := some sampleUpdatedBE }, some [sampleIfd0Fixed]) ∧
    (createIfdTableArray true sampleUpdated (fun _ => 0)).map (fun r => (r.1, r.2.1)) =
      some (1, some [sampleIfd0Reparsed]) ∧
    (createIfdTableArray true sampleUpdatedBE (fun _ => 0)).map (fun r => (r.1, r.2.1)) =
      some (1, some [sampleIfd0ReparsedBE]) ∧
    sampleIfd0Reparsed.tags.map (fun t => t.byteData) =
      [none, some [2, 0, 0, 0, 65, 66]] ∧
    sampleIfd0ReparsedBE.tags.map (fun t => t.byteData) =
      [none, some [0, 0, 0, 2, 65, 66]] := by
  decide

/-- Claim C19. For an ASCII or UNDEFINED tag with `1 ≤ count ≤ 4`, whatever the byte
order of the host and of the data: the value slot of the tag field `writeExifSegment`
writes holds the `count` payload bytes in their order followed by zero bytes, nothing is
written to the value area, and the tag loop of `parseIFD` makes of that tag field a node
with the same id, type, count and payload bytes, without a seek to a value area. -/
theorem inline_bytes_roundtrip (sysLE : Bool) (g : Globals) (file : List Nat)
    (tag : TagNode) (ofs val : Nat)
    (ht : tag.type = TYPE_ASCII ∨ tag.type = TYPE_UNDEFINED)
    (hc1 : 1 ≤ tag.count) (hc4 : tag.count ≤ 4) (hid : tag.tagId < 65536) :
    (tagFieldBytes sysLE g.App1Header tag ofs).drop 8 =
      (List.range 4).map (fun i => if i < tag.count then tag.byte i else 0) ∧
    tagValueBytes sysLE g.App1Header tag = [] ∧
    (parseTag sysLE g file
        (readIfdTag sysLE g.App1Header (tagFieldBytes sysLE g.App1Header tag ofs))
        (((tagFieldBytes sysLE g.App1Header tag ofs).drop 8).take 4) val).node =
      some { tagId := tag.tagId, type := tag.type, count := tag.count, numData := none,
             byteData := some ((List.range tag.count).map tag.byte), error := 0 } ∧
    (parseTag sysLE g file
        (readIfdTag sysLE g.App1Header (tagFieldBytes sysLE g.App1Header tag ofs))
        (((tagFieldBytes sysLE g.App1Header tag ofs).drop 8).take 4) val).seek = none := by
  have hty : tag.type < 65536 := by
    rcases ht with h | h <;> rw [h] <;> decide
  obtain ⟨r1, r2, r3⟩ := readIfdTag_tagFieldBytes sysLE g.App1Header tag ofs hid hty
    (by omega)
  have hpack : (packTag sysLE g.App1Header tag ofs).1 =
      (List.range 4).map (fun i => if i < tag.count then tag.byte i else 0) := by
    unfold packTag
    simp only [ht, if_true, hc4]
  have hdrop := (tagFieldBytes_drop sysLE g.App1Header tag ofs).2.2
  have hc0 : 0 < tag.count := hc1
  have hcopy : copyCells tag.count
      (((List.range 4).map (fun i => if i < tag.count then tag.byte i else 0)).take 4) =
      (List.range tag.count).map tag.byte := by
    unfold copyCells
    apply List.map_congr_left
    intro i hi
    have hi2 : i < tag.count := List.mem_range.mp hi
    have hi4 : i < 4 := by omega
    simp [List.getD_eq_getElem?_getD, hi2, hi4]
  refine ⟨by rw [hdrop, hpack], ?_, ?_, ?_⟩
  · unfold tagValueBytes
    have : ¬ tag.count > 4 := by omega
    simp only [ht, if_true, this, if_false]
  · rw [hdrop, hpack]
    unfold parseTag
    simp only [r1, r2, r3, ht, if_true, hc4, newTagNode, hc0, hcopy]
  · rw [hdrop, hpack]
    unfold parseTag
    simp only [r1, r2, r3, ht, if_true, hc4]

theorem inline_bytes_roundtrip_witness :
    (tagFieldBytes true sampleGlobals.App1Header sampleComponentsConfiguration 26).drop 8 =
      (List.range 4).map (fun i =>
        if i < sampleComponentsConfiguration.count then sampleComponentsConfiguration.byte i
        else 0) ∧
    tagValueBytes true sampleGlobals.App1Header sampleComponentsConfiguration = [] ∧
    (parseTag true sampleGlobals sampleJpeg
        (readIfdTag true sampleGlobals.App1Header
          (tagFieldBytes true sampleGlobals.App1Header sampleComponentsConfiguration 26))
        (((tagFieldBytes true sampleGlobals.App1Header sampleComponentsConfiguration
          26).drop 8).take 4) 0).node =
      some { tagId := sampleComponentsConfiguration.tagId,
             type := sampleComponentsConfiguration.type,
             count := sampleComponentsConfiguration.count, numData := none,
             byteData := some ((List.range sampleComponentsConfiguration.count).map
               sampleComponentsConfiguration.byte), error := 0 } ∧
    (parseTag true sampleGlobals sampleJpeg
        (readIfdTag true sampleGlobals.App1Header
          (tagFieldBytes true sampleGlobals.App1Header sampleComponentsConfiguration 26))
        (((tagFieldBytes true sampleGlobals.App1Header sampleComponentsConfiguration
          26).drop 8).take 4) 0).seek = none :=
  inline_bytes_roundtrip true sampleGlobals sampleJpeg sampleComponentsConfiguration 26 0
    (Or.inr rfl) (by decide) (by decide) (by decide)

/-- Claim C20, evaluated at the failing input: `fixLengthAndOffsetInIfdTables` returns 0
on `sampleGraphPointerCount2` and records the length 26 for the 0th IFD;
`writeExifSegment` then announces `16 + 26 = 42` in the length field but emits 36 bytes
(18 for the header and 18 for the IFD), not `18 + 26 = 44`. For the spec's example graph
(a 0th IFD with `Make`, ASCII of count 6, length 24) it emits `18 + 24 = 42` bytes. -/
theorem app1_length_field_overstates :
    fixLengthAndOffsetInIfdTables 2 sampleGraphPointerCount2 =
      some (0, sampleGraphPointerFixed) ∧
    sampleGraphPointerFixed.map (fun i => i.length) = [26] ∧
    ((writeExifSegment true (setDefaultApp1SegmentHader true) sampleGraphPointerFixed).2.drop
      2).take 2 = [0, 42] ∧
    (writeExifSegment true (setDefaultApp1SegmentHader true) sampleGraphPointerFixed).2.length =
      36 ∧
    fixLengthAndOffsetInIfdTables 2
        [{ createIfdTable IFD_0TH 1 0 with tags := [sampleInfoMake] }] =
      some (0, sampleGraphMakeFixed) ∧
    ((writeExifSegment true (setDefaultApp1SegmentHader true) sampleGraphMakeFixed).2.drop
      2).take 2 = [0, 40] ∧
    (writeExifSegment true (setDefaultApp1SegmentHader true) sampleGraphMakeFixed).2.length =
      42 := by
  decide

/-- Claim C21. When the array holds a 0th IFD, bytes 2 and 3 of what `writeExifSegment`
writes are the high and the low byte of `(16 + sum) mod 2 ^ 16`, where `sum` adds the
recorded lengths of the tables the look-ups for the kinds 0th, Exif, Interoperability,
GPS and 1st find, whatever the byte order of the host and of the TIFF data. -/
theorem app1_length_field (sysLE : Bool) (hdr : APP1_HEADER) (arr : List IfdTable)
    (h0 : (getIfdTableFromIfdTableArray arr IFD_0TH).isSome) :
    ((writeExifSegment sysLE hdr arr).2.drop 2).take 2 =
      [(16 + ((ifdsToWrite arr).map (fun ifd => ifd.length)).sum) % 65536 / 256,
       (16 + ((ifdsToWrite arr).map (fun ifd => ifd.length)).sum) % 65536 % 256] ∧
    ifdsToWrite arr =
      [IFD_0TH, IFD_EXIF, IFD_IO, IFD_GPS, IFD_1ST].filterMap
        (getIfdTableFromIfdTableArray arr) := by
  refine ⟨?_, rfl⟩
  obtain ⟨z, hz⟩ := Option.isSome_iff_exists.mp h0
  unfold writeExifSegment
  rw [hz]
  simp only
  unfold app1HeaderBytes
  simp only [List.append_assoc]
  rw [drop_mem16_append, take_mem16_append]
  exact mem16_bigEndian sysLE _ (Nat.mod_lt _ (by decide))

theorem app1_length_field_witness :
    ((writeExifSegment true sampleGlobals.App1Header sampleGraphThumbFixed).2.drop 2).take 2 =
      [(16 + ((ifdsToWrite sampleGraphThumbFixed).map (fun ifd => ifd.length)).sum)
          % 65536 / 256,
       (16 + ((ifdsToWrite sampleGraphThumbFixed).map (fun ifd => ifd.length)).sum)
          % 65536 % 256] ∧
    ifdsToWrite sampleGraphThumbFixed =
      [IFD_0TH, IFD_EXIF, IFD_IO, IFD_GPS, IFD_1ST].filterMap
        (getIfdTableFromIfdTableArray sampleGraphThumbFixed) :=
  app1_length_field true sampleGlobals.App1Header sampleGraphThumbFixed (by decide)

/-- Claim C22, counterexample: (1) for a 0th IFD with two ASCII tags of 40000 bytes each
the formula gives `2 + 24 + 4 + 80000 = 80030`, and `fixLengthAndOffsetInIfdTables`
records the length `80030 - 65536 = 14494`; (2) for a 0th IFD that holds `ExifIFDPointer`
as a LONG tag of count 2 it records the length 26, while the formula gives 18 for the
tag of count 1 it leaves. In both runs the fixer makes every access to `numData[0]` on a
cell that exists. -/
theorem ifd_length_formula_counterexample :
    ((fixLengthAndOffsetInIfdTables 2 sampleGraphTwoLargeTags).map
        (fun x => (x.1, x.2.map (fun i => (i.length, spec_ifd_length i)))) =
      some (0, [(14494, 80030)])) ∧
    ((fixLengthAndOffsetInIfdTables 2 sampleGraphPointerCount2).map
        (fun x => (x.1, x.2.map (fun i => (i.length, spec_ifd_length i)))) =
      some (0, [(26, 18)])) ∧
    fixLoopDefined 2 sampleGraphTwoLargeTags ∧ fixLoopDefined 2 sampleGraphPointerCount2 := by
  decide

/-- Claim C22 (amended). When every pointer tag of integer type that a look-up in the
graph finds (`ExifIFDPointer` and `GPSInfoIFDPointer` in the 0th IFD,
`InteroperabilityIFDPointer` in the Exif IFD, `JPEGInterchangeFormat` in the 1st IFD) has
count 1, and every tag without error flag is fit for the accesses the fixer makes to
`numData[0]` (`numDataPresent`), then `fixLengthAndOffsetInIfdTables` (two passes or
more) makes every access to `numData[0]` on a cell that exists (`fixLoopDefined`),
returns 0 and the
recorded length of every IFD of the array is then the length the formula of the spec
gives, reduced modulo `2 ^ 16`; it is that length itself when this is below `2 ^ 16`. -/
theorem ifd_length_formula (fuel : Nat) (arr : List IfdTable) (hfuel : 2 ≤ fuel)
    (hwf : GraphWf arr) (hnum : ∀ x ∈ arr, numDataPresent x) :
    fixLoopDefined fuel arr ∧
    ∃ r, fixLengthAndOffsetInIfdTables fuel arr = some (0, r) ∧
      ∀ y ∈ r, y.length = spec_ifd_length y % 65536 ∧
        (spec_ifd_length y < 65536 → y.length = spec_ifd_length y) := by
  refine ⟨fixLoop_defined fuel arr hnum, ?_⟩
  obtain ⟨r, h⟩ := fixLoop_enough fuel arr hfuel
  refine ⟨r, h, ?_⟩
  obtain ⟨a, hawf, hpass⟩ := fixLoop_final_graphWf fuel arr r 0 hwf h
  have hex : ∀ y ∈ r, IfdExact y := by
    apply fixPass_ret_forall IfdExact a r 0 hpass
    · intro x; rfl
    · intro z hz hag
      exact (fixEnd_wf a hawf z hz).2 hag
  intro y hy
  have h1 : y.length = spec_ifd_length y % 65536 := by
    have := hex y hy
    unfold IfdExact calcIfdSize at this
    rw [this, ifdSizeExact_eq_spec]
  exact ⟨h1, fun hlt => by rw [h1, Nat.mod_eq_of_lt hlt]⟩

theorem ifd_length_formula_witness :
    fixLoopDefined 2
      (setThumbnailDataOnIfdTableArray [sampleIfd0] (some sampleThumb)
        sampleThumb.length).2 ∧
    ∃ r, fixLengthAndOffsetInIfdTables 2
        (setThumbnailDataOnIfdTableArray [sampleIfd0] (some sampleThumb)
          sampleThumb.length).2 = some (0, r) ∧
      ∀ y ∈ r, y.length = spec_ifd_length y % 65536 ∧
        (spec_ifd_length y < 65536 → y.length = spec_ifd_length y) :=
  ifd_length_formula 2
    (setThumbnailDataOnIfdTableArray [sampleIfd0] (some sampleThumb) sampleThumb.length).2
    (by decide)
    (graphWf_setThumbnail [sampleIfd0] sampleThumb (by decide) (by decide) sampleIfd0_graphWf)
    (by decide)

/-- Claim C23, counterexample: from a 0th IFD that holds one live tag for each of the
65536 tag ids, `fixLengthAndOffsetInIfdTables` returns 0 and leaves a table whose list
has 65536 or more tags, while its `tagCount`, a 16-bit field, is below that number; the
run makes every access to `numData[0]` on a cell that exists. -/
theorem error_tags_dropped_counterexample :
    ∃ r y, fixLoopDefined 2 [sampleIfd0AllIds] ∧
      fixLengthAndOffsetInIfdTables 2 [sampleIfd0AllIds] = some (0, r) ∧
      getIfdTableFromIfdTableArray r IFD_0TH = some y ∧
      65536 ≤ y.tags.length ∧ y.tagCount < 65536 ∧ y.tagCount ≠ y.tags.length := by
  obtain ⟨r, hr⟩ := fixLoop_enough 2 [sampleIfd0AllIds] (by decide)
  have hsome : (getIfdTableFromIfdTableArray r IFD_0TH).isSome := by
    obtain ⟨a, hpass, hpres⟩ := fixLoop_final 2 [sampleIfd0AllIds] 0 r hr
    have := fixPass_presence a IFD_0TH
    rw [hpass, FixPass.arr, hpres IFD_0TH] at this
    rw [this]
    rfl
  obtain ⟨y, hy⟩ := Option.isSome_iff_exists.mp hsome
  obtain ⟨x, hx, hpre⟩ := fixLoop_keys 2 _ 0 r hr IFD_0TH y hy
  have hxe : x = sampleIfd0AllIds := by
    have : getIfdTableFromIfdTableArray [sampleIfd0AllIds] IFD_0TH = some sampleIfd0AllIds :=
      rfl
    rw [this] at hx
    exact (Option.some.inj hx).symm
  subst hxe
  have hlen := hpre.length_le
  have hl : (liveTags sampleIfd0AllIds.tags).length = 65536 := by
    simp only [sampleIfd0AllIds, allIdTags_live]
  simp only [List.length_map, hl] at hlen
  have hc := (fixLoop_counted 2 _ 0 r hr y (List.mem_of_find?_eq_some hy)).2
  have hlt : y.tagCount < 65536 := by rw [hc]; exact Nat.mod_lt _ (by decide)
  have hdef : fixLoopDefined 2 [sampleIfd0AllIds] := by
    apply fixLoop_defined
    intro x hx t ht _
    simp only [List.mem_singleton] at hx
    rw [hx] at ht
    simp only [sampleIfd0AllIds] at ht
    exact allIdTags_num _ t ht
  exact ⟨r, y, hdef, hr, hy, hlen, hlt, by omega⟩

/-- Claim C23 (amended). On an array in which every tag without error flag is fit for the
accesses the fixer makes to `numData[0]` (`numDataPresent`),
`fixLengthAndOffsetInIfdTables` (two passes or more) makes every access to `numData[0]`
on a cell that exists (`fixLoopDefined`) and returns 0,
and in the array it leaves: no table holds a tag with its error flag set; the `tagCount`
of every table is the number of tags of its list modulo `2 ^ 16` (that number itself
when it is below `2 ^ 16`); the first two bytes `writeExifSegment` writes for the table
are this `tagCount` in the byte order of the data; and the table a look-up finds for a
kind starts with the entries (id and type) that the table of that kind had without error
flag before, in their order. -/
theorem error_tags_dropped (sysLE : Bool) (hdr : APP1_HEADER) (fuel : Nat)
    (arr : List IfdTable) (hfuel : 2 ≤ fuel) (hnum : ∀ x ∈ arr, numDataPresent x) :
    fixLoopDefined fuel arr ∧
    ∃ r, fixLengthAndOffsetInIfdTables fuel arr = some (0, r) ∧
      (∀ y ∈ r, (∀ t ∈ y.tags, t.error = 0) ∧
        y.tagCount = y.tags.length % 65536 ∧
        (y.tags.length < 65536 → y.tagCount = y.tags.length) ∧
        ∀ ofs, (writeIfd sysLE hdr y ofs).1.take 2 =
          mem16 sysLE (fix_short sysLE hdr y.tagCount)) ∧
      (∀ k y, getIfdTableFromIfdTableArray r k = some y →
        ∃ x, getIfdTableFromIfdTableArray arr k = some x ∧
          (liveTags x.tags).map tagKey <+: y.tags.map tagKey) := by
  refine ⟨fixLoop_defined fuel arr hnum, ?_⟩
  obtain ⟨r, hr⟩ := fixLoop_enough fuel arr hfuel
  refine ⟨r, hr, ?_, fun k y hy => fixLoop_keys fuel arr 0 r hr k y hy⟩
  intro y hy
  obtain ⟨hl, hc⟩ := fixLoop_counted fuel arr 0 r hr y hy
  refine ⟨hl, hc, fun hlt => by rw [hc, Nat.mod_eq_of_lt hlt], fun ofs => ?_⟩
  rw [hc]
  exact writeIfd_count sysLE hdr y ofs hl

theorem error_tags_dropped_witness :
    fixLoopDefined 2 [sampleIfd0BadExif] ∧
    ∃ r, fixLengthAndOffsetInIfdTables 2 [sampleIfd0BadExif] = some (0, r) ∧
      (∀ y ∈ r, (∀ t ∈ y.tags, t.error = 0) ∧
        y.tagCount = y.tags.length % 65536 ∧
        (y.tags.length < 65536 → y.tagCount = y.tags.length) ∧
        ∀ ofs, (writeIfd true (setDefaultApp1SegmentHader true) y ofs).1.take 2 =
          mem16 true (fix_short true (setDefaultApp1SegmentHader true) y.tagCount)) ∧
      (∀ k y, getIfdTableFromIfdTableArray r k = some y →
        ∃ x, getIfdTableFromIfdTableArray [sampleIfd0BadExif] k = some x ∧
          (liveTags x.tags).map tagKey <+: y.tags.map tagKey) :=
  error_tags_dropped true (setDefaultApp1SegmentHader true) 2 [sampleIfd0BadExif] (by decide)
    (by decide)

/-- Claim C24, evaluated at the failing input `sampleJpegAsciiLength`, a file whose 1st
IFD holds `JPEGInterchangeFormatLength` as an ASCII tag. `createIfdTableArray` parses it
with defined behaviour into `sampleGraphAsciiLength`, an array of 3 slots;
`setThumbnailDataOnIfdTableArray` (the 1st IFD exists, so no array slot is written, and
`setSingleNumDataToTag` leaves the ASCII node alone) returns 0 and leaves
`sampleGraphAsciiLengthThumb`, whose 1st IFD owns a thumbnail and whose
`JPEGInterchangeFormatLength` node has the type ASCII and no `numData` buffer. In the
first pass of `fixLengthAndOffsetInIfdTables` the call of `calcIfdSize` for the 1st IFD
reads `numData[0]` of that node: the pass is not one of `fixPassDefined`, the C code
reads through a `NULL` pointer and does not reach its `return`. -/
theorem fixer_reads_null_length :
    createIfdTableArray true sampleJpegAsciiLength (fun _ => 0) =
      some (2, some sampleGraphAsciiLength, sampleGlobalsAsciiLength) ∧
    fillIfdTableArrayDefined true sampleJpegAsciiLength (fun _ => 0) ∧
    setThumbnailDefined 3 sampleGraphAsciiLength ∧
    setThumbnailDataOnIfdTableArray sampleGraphAsciiLength (some sampleThumb) 4 =
      (0, sampleGraphAsciiLengthThumb) ∧
    (getIfdTableFromIfdTableArray sampleGraphAsciiLengthThumb IFD_1ST).map
        (fun f => (f.p.isSome,
          (getTagNodePtrFromIfd f TAG_JPEGInterchangeFormatLength).map
            (fun t => (t.error, t.type, t.numData)))) =
      some (true, some (0, TYPE_ASCII, none)) ∧
    (sampleGraphAsciiLengthThumb.map
        (fun x => decide (calcIfdSizeDefined { x with tags := liveTags x.tags }))) =
      [true, false] ∧
    ¬ fixPassDefined sampleGraphAsciiLengthThumb ∧
    ¬ fixLoopDefined 2 sampleGraphAsciiLengthThumb := by
  refine ⟨by decide, by decide, by decide, by decide, by decide, by decide, by decide,
    by decide⟩

/-- Claim C25, counterexample: for a 0th IFD of 65530 bytes followed by an empty 1st IFD,
`fixLengthAndOffsetInIfdTables` stores `nextIfdOffset = 8 + 65530 = 65538` in the 0th
IFD, and the 16-bit field `offset` of the 1st IFD gets `65538 - 65536 = 2`; the run makes
every access to `numData[0]` on a cell that exists. -/
theorem next_ifd_link_counterexample :
    (fixLengthAndOffsetInIfdTables 2 sampleGraphFarFirst).map
        (fun x => (x.1, x.2.map (fun i => (i.ifdType, i.length, i.nextIfdOffset, i.offset)))) =
      some (0, [(IFD_0TH, 65530, 65538, 8), (IFD_1ST, 6, 0, 2)]) ∧
    fixLoopDefined 2 sampleGraphFarFirst := by
  decide

/-- Claim C25 (amended). On an array with a 0th IFD in which every tag without error flag
is fit for the accesses the fixer makes to `numData[0]` (`numDataPresent`),
`fixLengthAndOffsetInIfdTables` (two passes or more) makes every access to `numData[0]`
on a cell that exists (`fixLoopDefined`), returns 0 and keeps the kinds that are
present; afterwards, when there
is a 1st IFD, `nextIfdOffset` of the 0th IFD is 8 plus its length plus the lengths of
the Exif, Interoperability and GPS IFDs that are present, and `offset` of the 1st IFD is
that value modulo `2 ^ 16` (the value itself when it is below `2 ^ 16`); without a 1st
IFD `nextIfdOffset` of the 0th IFD is 0; and `nextIfdOffset` of every table of another
kind is 0. -/
theorem next_ifd_link (fuel : Nat) (arr : List IfdTable) (hfuel : 2 ≤ fuel)
    (h0 : (getIfdTableFromIfdTableArray arr IFD_0TH).isSome)
    (hnum : ∀ x ∈ arr, numDataPresent x) :
    fixLoopDefined fuel arr ∧
    ∃ r z, fixLengthAndOffsetInIfdTables fuel arr = some (0, r) ∧
      (∀ k, (getIfdTableFromIfdTableArray r k).isSome =
        (getIfdTableFromIfdTableArray arr k).isSome) ∧
      getIfdTableFromIfdTableArray r IFD_0TH = some z ∧
      (∀ f, getIfdTableFromIfdTableArray r IFD_1ST = some f →
        z.nextIfdOffset = 8 + z.length + lengthOr0 (getIfdTableFromIfdTableArray r IFD_EXIF) +
          lengthOr0 (getIfdTableFromIfdTableArray r IFD_IO) +
          lengthOr0 (getIfdTableFromIfdTableArray r IFD_GPS) ∧
        f.offset = z.nextIfdOffset % 65536 ∧
        (z.nextIfdOffset < 65536 → f.offset = z.nextIfdOffset)) ∧
      (getIfdTableFromIfdTableArray r IFD_1ST = none → z.nextIfdOffset = 0) ∧
      (∀ y ∈ r, y.ifdType ≠ IFD_0TH → y.nextIfdOffset = 0) := by
  refine ⟨fixLoop_defined fuel arr hnum, ?_⟩
  obtain ⟨r, hr⟩ := fixLoop_enough fuel arr hfuel
  obtain ⟨a, hpass, hpres⟩ := fixLoop_final fuel arr 0 r hr
  obtain ⟨z, hz, h1, h2, h3⟩ := fixPass_links a r 0 hpass (by rw [hpres]; exact h0)
  refine ⟨r, z, hr, ?_, hz, ?_, h2, h3⟩
  · intro k
    have := fixPass_presence a k
    rw [hpass, FixPass.arr] at this
    rw [this, hpres]
  · intro f hf
    obtain ⟨g1, g2⟩ := h1 f hf
    exact ⟨g1, g2, fun hlt => by rw [g2, Nat.mod_eq_of_lt hlt]⟩

theorem next_ifd_link_witness :
    fixLoopDefined 2 sampleGraphThumbSet ∧
    ∃ r z, fixLengthAndOffsetInIfdTables 2 sampleGraphThumbSet = some (0, r) ∧
      (∀ k, (getIfdTableFromIfdTableArray r k).isSome =
        (getIfdTableFromIfdTableArray sampleGraphThumbSet k).isSome) ∧
      getIfdTableFromIfdTableArray r IFD_0TH = some z ∧
      (∀ f, getIfdTableFromIfdTableArray r IFD_1ST = some f →
        z.nextIfdOffset = 8 + z.length + lengthOr0 (getIfdTableFromIfdTableArray r IFD_EXIF) +
          lengthOr0 (getIfdTableFromIfdTableArray r IFD_IO) +
          lengthOr0 (getIfdTableFromIfdTableArray r IFD_GPS) ∧
        f.offset = z.nextIfdOffset % 65536 ∧
        (z.nextIfdOffset < 65536 → f.offset = z.nextIfdOffset)) ∧
      (getIfdTableFromIfdTableArray r IFD_1ST = none → z.nextIfdOffset = 0) ∧
      (∀ y ∈ r, y.ifdType ≠ IFD_0TH → y.nextIfdOffset = 0) :=
  next_ifd_link 2 sampleGraphThumbSet (by decide) (by decide) (by decide)

/-- Claim C26, counterexample: (1) for a file with two Exif `APP1` segments in a row,
at the offsets 2 and 12, `getApp1StartOffset` returns 12; (2) for the identifier `41 FF`
and an `APP1` segment whose payload is the one byte `41`, followed by the marker `FF D9`,
it returns 2 although the payload does not start with the identifier; (3) for a chain
that the end of the file follows, and for an `APP1` segment with fewer bytes than the
identifier up to the end of the file, it returns `ERR_READ_FILE`. -/
theorem scanner_first_match_counterexample :
    (sampleJpegTwoExif =
        [0xFF, 0xD8] ++ (chainBytes [sampleExifSegment, sampleExifSegment] ++
          [0xFF, 0xDB, 0, 2, 0xFF, 0xD9]) ∧
      getApp1StartOffset true sampleJpegTwoExif EXIF_ID_STR =
        some { sts := 12, dqt := some 22 } ∧
      getApp1StartOffset false sampleJpegTwoExif EXIF_ID_STR =
        some { sts := 12, dqt := some 22 }) ∧
    (getApp1StartOffset true
        ([0xFF, 0xD8] ++ (chainBytes [{ n := 1, payload := [0x41] }] ++
          [0xFF, 0xD9, 0, 0, 0, 0])) [0x41, 0xFF] = some { sts := 2, dqt := none } ∧
      ¬ ([0x41, 0xFF] <+: [0x41])) ∧
    (getApp1StartOffset true ([0xFF, 0xD8] ++ chainBytes [{ n := 0, payload := [] }])
        EXIF_ID_STR = some { sts := ERR_READ_FILE, dqt := none } ∧
      getApp1StartOffset true
        ([0xFF, 0xD8] ++ (chainBytes [{ n := 1, payload := [] }] ++ [0xFF, 0xD9]))
        EXIF_ID_STR = some { sts := ERR_READ_FILE, dqt := none }) := by
  decide

/-- Claim C26 (amended). Let the file be SOI, a chain of well-formed application
segments and a marker `FF c` outside `FFE0 .. FFEF` from which at least as many bytes
are left as the identifier has, and let the identifier hold no byte `FF`. When no `APP1`
segment of the chain has a payload that starts with the identifier, `getApp1StartOffset`
returns 0. When `m` is the first such segment and the `APP1` segments that follow it
directly (up to the end of the chain or the next segment that is not `APP1`) are not
such segments, it returns the offset of `m`, where the file holds the bytes of `m`. -/
theorem scanner_first_match (sysLE : Bool) (id : List Nat) (c : Nat) (rest : List Nat)
    (segs : List AppSegment) (hc : c < 256) (hnc : ¬ (0xE0 ≤ c ∧ c ≤ 0xEF))
    (hid : ∀ b ∈ id, b ≠ 0xFF) (hlen : id.length ≤ rest.length + 2)
    (hwf : ∀ s ∈ segs, s.WellFormed) :
    ((∀ s ∈ segs, ¬ s.Matches id) →
      (getApp1StartOffset sysLE ([0xFF, 0xD8] ++ (chainBytes segs ++ 0xFF :: c :: rest))
        id).map (fun r => r.sts) = some 0) ∧
    (∀ a m b1 b2, segs = a ++ m :: (b1 ++ b2) → (∀ s ∈ a, ¬ s.Matches id) →
      m.Matches id → (∀ s ∈ b1, s.n = 1 ∧ ¬ id <+: s.payload) →
      (∀ s, b2.head? = some s → s.n ≠ 1) →
      (getApp1StartOffset sysLE ([0xFF, 0xD8] ++ (chainBytes segs ++ 0xFF :: c :: rest))
        id).map (fun r => r.sts) = some ((2 + (chainBytes a).length : Nat) : Int) ∧
      ([0xFF, 0xD8] ++ (chainBytes segs ++ 0xFF :: c :: rest)).drop
          (2 + (chainBytes a).length) =
        m.bytes ++ (chainBytes (b1 ++ b2) ++ 0xFF :: c :: rest)) := by
  rw [getApp1StartOffset_chain sysLE id c rest hc hnc hid hlen segs hwf]
  constructor
  · intro hno
    have := scanChain_skip id c segs [] hno 2
    rw [List.append_nil] at this
    rw [this]
    simp [scanChain]
  · intro a m b1 b2 hsegs ha hm h1 h2
    subst hsegs
    rw [scanChain_first id c a b1 b2 m ha hm h1 h2]
    refine ⟨rfl, ?_⟩
    rw [chainBytes_append, List.append_assoc]
    rw [drop_chain [0xFF, 0xD8] (chainBytes a) _ _ (by simp)]
    simp only [chainBytes, List.append_assoc]

theorem scanner_first_match_witness :
    (getApp1StartOffset true
      ([0xFF, 0xD8] ++ (chainBytes ([sampleApp0] ++
        sampleExifSegment :: ([sampleOtherApp1] ++ [sampleApp2]))
        ++ 0xFF :: 0xDB :: [0, 2, 0xFF, 0xD9]))
      EXIF_ID_STR).map (fun r => r.sts) =
        some ((2 + (chainBytes [sampleApp0]).length : Nat) : Int) := by
  have h := scanner_first_match true EXIF_ID_STR 0xDB [0, 2, 0xFF, 0xD9]
    ([sampleApp0] ++ sampleExifSegment :: ([sampleOtherApp1] ++ [sampleApp2]))
    (by decide) (by decide) (by decide) (by decide) (by decide)
  have h2 := h.2 [sampleApp0] sampleExifSegment [sampleOtherApp1] [sampleApp2] rfl
    (by decide) (by decide) (by decide) (by decide)
  exact h2.1

/-- Claim C27, counterexample: (1) for SOI, an Exif `APP1` segment, an `APP2` segment and
a DQT segment `getApp1StartOffset` returns the Exif offset 2 and stores no DQT offset: it
leaves the loop at the `APP2` segment; (2) for SOI, an Exif `APP1` segment, an `APP1`
segment without payload and a DQT marker that ends the file it returns
`ERR_READ_FILE`. -/
theorem scan_past_exif_counterexample :
    (sampleJpegExifApp2 =
        [0xFF, 0xD8] ++ (chainBytes [sampleExifSegment, { n := 2, payload := [] }] ++
          [0xFF, 0xDB, 0, 2, 0xFF, 0xD9]) ∧
      getApp1StartOffset true sampleJpegExifApp2 EXIF_ID_STR =
        some { sts := 2, dqt := none } ∧
      getApp1StartOffset false sampleJpegExifApp2 EXIF_ID_STR =
        some { sts := 2, dqt := none }) ∧
    getApp1StartOffset true
        ([0xFF, 0xD8] ++ (chainBytes [sampleExifSegment, AppSegment.mk 1 []] ++
          [0xFF, 0xDB])) EXIF_ID_STR = some { sts := ERR_READ_FILE, dqt := none } := by
  decide

/-- Claim C27 (amended). Let the file be SOI, an Exif `APP1` segment, further well-formed
`APP1` segments `b1`, then either nothing or a segment that is not `APP1` and whatever
segments follow it (`b2`), and last a DQT marker with three bytes or more after it. Then
`getApp1StartOffset` returns an Exif offset (not 0; the offset 2 of the first segment
when no segment of `b1` is an Exif segment); it stores the offset of the DQT marker when
`b2` is empty and stores nothing when `b2` starts with a segment that is not `APP1`. -/
theorem scan_past_exif (sysLE : Bool) (m : AppSegment) (b1 b2 : List AppSegment)
    (rest : List Nat) (hm : m.Matches EXIF_ID_STR)
    (hwf : ∀ s ∈ m :: (b1 ++ b2), s.WellFormed) (h1 : ∀ s ∈ b1, s.n = 1)
    (h2 : ∀ s, b2.head? = some s → s.n ≠ 1) (hrest : 3 ≤ rest.length) :
    ∃ r, getApp1StartOffset sysLE
        ([0xFF, 0xD8] ++ (chainBytes (m :: (b1 ++ b2)) ++ 0xFF :: 0xDB :: rest))
        EXIF_ID_STR = some r ∧
      r.sts ≠ 0 ∧
      ((∀ s ∈ b1, ¬ s.Matches EXIF_ID_STR) → r.sts = 2) ∧
      r.dqt = (if b2 = [] then some (2 + (chainBytes (m :: b1)).length) else none) ∧
      (b2 = [] →
        ([0xFF, 0xD8] ++ (chainBytes (m :: (b1 ++ b2)) ++ 0xFF :: 0xDB :: rest)).drop
          (2 + (chainBytes (m :: b1)).length) = 0xFF :: 0xDB :: rest) := by
  have hlen : EXIF_ID_STR.length ≤ rest.length + 2 := by
    simp only [EXIF_ID_STR, List.length_cons, List.length_nil]; omega
  have hp : m.payload.take EXIF_ID_STR.length = EXIF_ID_STR :=
    (take_eq_iff_starts _ _).mpr hm.2
  have hstep : scanChain EXIF_ID_STR (m :: (b1 ++ b2)) 0xDB 2 0 =
      scanChain EXIF_ID_STR (b1 ++ b2) 0xDB (2 + m.bytes.length) 2 := by
    rw [scanChain_app1 _ m _ _ _ _ hm.1]
    simp only [hp, if_true]
  have hlen2 : 2 + m.bytes.length + (chainBytes b1).length =
      2 + (chainBytes (m :: b1)).length := by
    simp only [chainBytes, List.length_append]; omega
  refine ⟨_, getApp1StartOffset_chain sysLE EXIF_ID_STR 0xDB rest (by decide) (by decide)
    exif_id_no_marker hlen _ hwf, ?_, ?_, ?_, ?_⟩
  · rw [hstep]
    exact (scanChain_run_any _ _ b1 b2 h1 h2 _ 2 (by decide) (by omega)).1
  · intro hno
    rw [hstep, scanChain_run EXIF_ID_STR 0xDB 2 b1 b2 (by decide)
      (fun s hs => ⟨h1 s hs, fun hpre => hno s hs ⟨h1 s hs, hpre⟩⟩) h2]
    rfl
  · rw [hstep, (scanChain_run_any _ _ b1 b2 h1 h2 _ 2 (by decide) (by omega)).2, hlen2]
    simp
  · intro hb
    subst hb
    rw [List.append_nil]
    exact drop_chain [0xFF, 0xD8] _ _ _ (by simp)

theorem scan_past_exif_witness :
    ∃ r, getApp1StartOffset true
        ([0xFF, 0xD8] ++ (chainBytes (sampleExifSegment ::
          ([sampleOtherApp1] ++ [])) ++ 0xFF :: 0xDB :: [0, 2, 0xFF, 0xD9]))
        EXIF_ID_STR = some r ∧
      r.sts ≠ 0 ∧
      ((∀ s ∈ [sampleOtherApp1],
        ¬ s.Matches EXIF_ID_STR) → r.sts = 2) ∧
      r.dqt = (if ([] : List AppSegment) = []
        then some (2 + (chainBytes (sampleExifSegment ::
          [sampleOtherApp1])).length) else none) ∧
      (([] : List AppSegment) = [] →
        ([0xFF, 0xD8] ++ (chainBytes (sampleExifSegment ::
          ([sampleOtherApp1] ++ [])) ++
            0xFF :: 0xDB :: [0, 2, 0xFF, 0xD9])).drop
          (2 + (chainBytes (sampleExifSegment :: [sampleOtherApp1])).length) =
            0xFF :: 0xDB :: [0, 2, 0xFF, 0xD9]) :=
  scan_past_exif true sampleExifSegment [sampleOtherApp1] []
    [0, 2, 0xFF, 0xD9] (by decide) (by decide) (by decide) (by decide) (by decide)

/-- Claim C29. When `getApp1StartOffset` finds an Exif segment (returns an offset above
0) and eighteen bytes can be read there, `init` returns `ERR_INVALID_APP1HEADER` exactly
when the validation of the spec fails for these bytes (byte-order mark neither `0x4949`
nor `0x4D4D`, or reserved field, read in the byte order of the mark, not `0x002A`);
otherwise it returns 1 and `App1Header` holds the segment length read most significant
byte first and the offset of the 0th IFD read in the byte order of the mark. -/
theorem app1_header_validation (sysLE : Bool) (file : List Nat) (r : ScanResult)
    (hb : ∀ x ∈ file, x < 256)
    (hscan : getApp1StartOffset sysLE file EXIF_ID_STR = some r) (hpos : 0 < r.sts)
    (hlen : r.sts.toNat + 18 ≤ file.length) :
    ((init sysLE file).map (fun x => x.1) = some ERR_INVALID_APP1HEADER ↔
      spec_header_invalid (fread file r.sts.toNat 18)) ∧
    (¬ spec_header_invalid (fread file r.sts.toNat 18) →
      ∃ g, init sysLE file = some (1, g) ∧ g.App1StartOffset = r.sts ∧
        g.App1Header.length = spec_u16 false ((fread file r.sts.toNat 18).drop 2) ∧
        g.App1Header.tiff.byteOrder = spec_byte_order_mark (fread file r.sts.toNat 18) ∧
        g.App1Header.tiff.reserved = 0x002A ∧
        g.App1Header.tiff.Ifd0thOffset =
          spec_u32 (spec_byte_order_mark (fread file r.sts.toNat 18) = 0x4949)
            ((fread file r.sts.toNat 18).drop 14)) := by
  have heq := readApp1SegmentHeader_eq sysLE file r.sts.toNat hb hlen
  have h1 : ¬ r.sts < 0 := by omega
  have h2 : ¬ r.sts = 0 := by omega
  unfold init
  simp only [hscan, h1, h2, if_false, heq]
  by_cases hv : spec_header_invalid (fread file r.sts.toNat 18)
  · simp [hv]
  · simp [hv, ERR_INVALID_APP1HEADER]

theorem app1_header_validation_witness :
    ((init true sampleJpeg).map (fun x => x.1) = some ERR_INVALID_APP1HEADER ↔
      spec_header_invalid (fread sampleJpeg (2 : Int).toNat 18)) ∧
    (¬ spec_header_invalid (fread sampleJpeg (2 : Int).toNat 18) →
      ∃ g, init true sampleJpeg = some (1, g) ∧ g.App1StartOffset = 2 ∧
        g.App1Header.length = spec_u16 false ((fread sampleJpeg (2 : Int).toNat 18).drop 2) ∧
        g.App1Header.tiff.byteOrder =
          spec_byte_order_mark (fread sampleJpeg (2 : Int).toNat 18) ∧
        g.App1Header.tiff.reserved = 0x002A ∧
        g.App1Header.tiff.Ifd0thOffset =
          spec_u32 (spec_byte_order_mark (fread sampleJpeg (2 : Int).toNat 18) = 0x4949)
            ((fread sampleJpeg (2 : Int).toNat 18).drop 14)) :=
  app1_header_validation true sampleJpeg { sts := 2, dqt := some 64 } (by decide)
    (by decide) (by decide) (by decide)

/-- Claim C30, evaluation: for a file whose 0th IFD starts at the TIFF offset 10 and
holds one tag, the four bytes stored directly after the tag array (TIFF offset
`10 + 2 + 12`, file offset 36) are 0, but `parseIFD` reads the four bytes at the TIFF
offset `8 + 2 + 12` and returns a table with `nextIfdOffset = 258`; `fillIfdTableArray`
then fails to parse a 1st IFD there and `createIfdTableArray` returns `NULL` with
`ERR_INVALID_IFD`. -/
theorem next_ifd_offset_misread :
    init true sampleJpegIfdAt10 = some (1, sampleGlobalsIfdAt10) ∧
    seekToRelativeOffset sampleGlobalsIfdAt10 (10 + 2 + 12 * 1) = 36 ∧
    fread sampleJpegIfdAt10 36 4 = [0, 0, 0, 0] ∧
    fix_int true sampleGlobalsIfdAt10.App1Header
      (val32 true (fread sampleJpegIfdAt10 36 4)) = 0 ∧
    parseIFD true sampleGlobalsIfdAt10 sampleJpegIfdAt10 10 IFD_0TH 0 =
      some sampleIfd0At10 ∧
    sampleIfd0At10.nextIfdOffset = 258 ∧
    (createIfdTableArray true sampleJpegIfdAt10 (fun _ => 0)).map (fun x => (x.1, x.2.1)) =
      some (ERR_INVALID_IFD, none) := by
  decide

/-- Claim C31, counterexample: in `sampleJpegGuard`, which `init` accepts, the Exif
segment has the length 46 and `parseIFD` handles both tag fields of the 0th IFD with
defined behaviour. (1) The ASCII tag of 46 bytes, which can be read from the file, is
decoded with no error flag, although its 46 bytes are not fewer than the segment length;
(2) the BYTE tag of 12 bytes that can be read is kept as an error tag without payload,
although its 12 bytes are fewer than the segment length: the parser compares
`4 * 12 = 48` with the length. -/
theorem oversized_payload_guard_counterexample :
    init true sampleJpegGuard = some (1, sampleGlobalsGuard) ∧
    sampleGlobalsGuard.App1Header.length = 46 ∧
    parseIFDDefined true sampleGlobalsGuard sampleJpegGuard 8 IFD_0TH 0 ∧
    parseIFD true sampleGlobalsGuard sampleJpegGuard 8 IFD_0TH 0 = some sampleIfd0Guard ∧
    (fieldTriple (entryTag true sampleGlobalsGuard sampleJpegGuard 22 0) =
        (0x010F, TYPE_ASCII, 46) ∧
      payloadReadable sampleGlobalsGuard sampleJpegGuard
        (entryTag true sampleGlobalsGuard sampleJpegGuard 22 0) ∧
      (sampleIfd0Guard.tags.get? 0).map (fun n => (n.error, n.byteData.isSome)) =
        some (0, true)) ∧
    (fieldTriple (entryTag true sampleGlobalsGuard sampleJpegGuard 22 1) =
        (0x0101, TYPE_BYTE, 12) ∧
      payloadReadable sampleGlobalsGuard sampleJpegGuard
        (entryTag true sampleGlobalsGuard sampleJpegGuard 22 1) ∧
      (sampleIfd0Guard.tags.get? 1).map (fun n => (n.error, n.numData, n.byteData)) =
        some (1, none, none)) := by
  decide

/-- Claim C31 (amended). For a tag field of one of the ten types (count below `2 ^ 30`)
that the tag loop handles without writing past a buffer (`tagReadDefined`: an integer
value that passes the test is read into `buf` with at most 8192 bytes)
the parser adds a node with the id, the type and the count of the field. When the size
it compares with the APP1 length (`count` for ASCII and UNDEFINED with a count above
8192, `8 * count` for RATIONAL and SRATIONAL, `4 * count` for the six integer types with
a count above 1) is that length or more, the node has its error flag set and no
payload, and nothing is read from the file for it. Otherwise, when the count is not 0
and the bytes of the value can be read, the node has no error flag. -/
theorem oversized_payload_guard (sysLE : Bool) (g : Globals) (file : List Nat)
    (tag : IFD_TAG) (data : List Nat) (val : Nat)
    (htype : 1 ≤ tag.type ∧ tag.type ≤ 10) (hcount : tag.count < 1073741824)
    (_hdef : tagReadDefined g file tag) :
    ∃ n, (parseTag sysLE g file tag data val).node = some n ∧ n.tagId = tag.tag ∧
      n.type = tag.type ∧ n.count = tag.count ∧
      (allocGuardFires g.App1Header.length tag.type tag.count →
        n.error = 1 ∧ n.numData = none ∧ n.byteData = none ∧
        (parseTag sysLE g file tag data val).seek = none) ∧
      (¬ allocGuardFires g.App1Header.length tag.type tag.count → 0 < tag.count →
        payloadReadable g file tag → n.error = 0) := by
  obtain ⟨n, hn, h1, h2, h3⟩ := parseTag_node sysLE g file tag data val htype
  refine ⟨n, hn, h1, h2, h3, ?_, ?_⟩
  · intro hg
    obtain ⟨hnode, hseek⟩ := parseTag_guard sysLE g file tag data val htype hcount hg
    rw [hn, Option.some.injEq] at hnode
    rw [hnode]
    exact ⟨newTagNode_error_none _ _ _, (newTagNode_none _ _ _).1, (newTagNode_none _ _ _).2,
      hseek⟩
  · intro hg hpos hr
    exact parseTag_decoded sysLE g file tag data val n htype hcount hpos hg hr hn

theorem oversized_payload_guard_witness :
    ∃ n, (parseTag true sampleGlobalsGuard sampleJpegGuard
        (entryTag true sampleGlobalsGuard sampleJpegGuard 22 1)
        (entryData sampleJpegGuard 22 1) 0).node = some n ∧
      n.tagId = (entryTag true sampleGlobalsGuard sampleJpegGuard 22 1).tag ∧
      n.type = (entryTag true sampleGlobalsGuard sampleJpegGuard 22 1).type ∧
      n.count = (entryTag true sampleGlobalsGuard sampleJpegGuard 22 1).count ∧
      (allocGuardFires sampleGlobalsGuard.App1Header.length
          (entryTag true sampleGlobalsGuard sampleJpegGuard 22 1).type
          (entryTag true sampleGlobalsGuard sampleJpegGuard 22 1).count →
        n.error = 1 ∧ n.numData = none ∧ n.byteData = none ∧
        (parseTag true sampleGlobalsGuard sampleJpegGuard
          (entryTag true sampleGlobalsGuard sampleJpegGuard 22 1)
          (entryData sampleJpegGuard 22 1) 0).seek = none) ∧
      (¬ allocGuardFires sampleGlobalsGuard.App1Header.length
          (entryTag true sampleGlobalsGuard sampleJpegGuard 22 1).type
          (entryTag true sampleGlobalsGuard sampleJpegGuard 22 1).count →
        0 < (entryTag true sampleGlobalsGuard sampleJpegGuard 22 1).count →
        payloadReadable sampleGlobalsGuard sampleJpegGuard
          (entryTag true sampleGlobalsGuard sampleJpegGuard 22 1) →
        n.error = 0) :=
  oversized_payload_guard true sampleGlobalsGuard sampleJpegGuard
    (entryTag true sampleGlobalsGuard sampleJpegGuard 22 1)
    (entryData sampleJpegGuard 22 1) 0 (by decide) (by decide) (by decide)

/-- Claim C32, counterexample: the inline SSHORT value with the on-disk bytes `FF FF`
is decoded to the slot `0x0000FFFF`, where sign extension gives `0xFFFFFFFF`, and the
inline SBYTE value `80` to the slot `0x00000080`, where sign extension gives
`0xFFFFFF80`. -/
theorem signed_decode_counterexample :
    ((parseTag true sampleGlobals sampleJpeg
        (readIfdTag true sampleGlobals.App1Header sampleFieldSShort)
        ((sampleFieldSShort.drop 8).take 4) 0).node.map (fun n => n.numData) =
      some (some [0x0000FFFF]) ∧
     spec_sign_widen 2 (spec_read_element true 2 ((sampleFieldSShort.drop 8).take 4)) =
      0xFFFFFFFF) ∧
    ((parseTag true sampleGlobals sampleJpeg
        (readIfdTag true sampleGlobals.App1Header sampleFieldSByte)
        ((sampleFieldSByte.drop 8).take 4) 0).node.map (fun n => n.numData) =
      some (some [0x00000080]) ∧
     spec_sign_widen 1 (spec_read_element true 1 ((sampleFieldSByte.drop 8).take 4)) =
      0xFFFFFF80) := by
  decide

/-- Claim C32 (amended). For a tag field of one of the six integer types, signed or not,
with a count that is not 0, a value the guard lets pass, that goes into the buffer of
8192 bytes without writing past it (`tagReadDefined`) and whose bytes can be read, the
parser stores `count` slots, and slot `i` is element `i` of the value read in the byte
order of the data and zero-extended. This is so for every value of at most four bytes,
for every LONG and SLONG value, and on a little-endian host for every SHORT and SSHORT
value; an out-of-line BYTE or SBYTE value is left aside. -/
theorem integer_slots_zero_extended (sysLE : Bool) (g : Globals) (file b : List Nat)
    (tag : IFD_TAG) (data : List Nat) (val : Nat)
    (htag : tag = readIfdTag sysLE g.App1Header b) (hdata : data = (b.drop 8).take 4)
    (hb : ∀ x ∈ b, x < 256) (hfile : ∀ x ∈ file, x < 256)
    (hint : isIntType tag.type) (hpos : 0 < tag.count) (hcount : tag.count < 1073741824)
    (hguard : 1 < tag.count → 4 * tag.count < g.App1Header.length)
    (hread : spec_element_size tag.type * tag.count ≤ 4 ∨
      seekToRelativeOffset g tag.offset + spec_element_size tag.type * tag.count ≤
        file.length)
    (hbyte : spec_element_size tag.type = 1 → tag.count ≤ 4)
    (hshort : spec_element_size tag.type = 2 → 2 < tag.count → sysLE = true)
    (_hdef : tagReadDefined g file tag) :
    ∃ n, (parseTag sysLE g file tag data val).node = some n ∧
      n.tagId = tag.tag ∧ n.type = tag.type ∧ n.count = tag.count ∧
      n.error = 0 ∧ n.byteData = none ∧
      n.numData = some ((List.range tag.count).map (fun i =>
        spec_read_element (dataIsLittleEndian g.App1Header) (spec_element_size tag.type)
          ((elementBytes g file tag data).drop (i * spec_element_size tag.type)))) := by
  have hd : ∀ x ∈ data, x < 256 := by
    intro x hx
    rw [hdata] at hx
    exact hb x (List.mem_of_mem_drop (List.mem_of_mem_take hx))
  have hoff : tag.offset = spec_u32 (dataIsLittleEndian g.App1Header) data := by
    rw [htag, hdata]
    exact readIfdTag_offset sysLE g.App1Header b hb
  unfold isIntType at hint
  have hcls : (tag.type = TYPE_BYTE ∨ tag.type = TYPE_SBYTE) ∨
      (tag.type = TYPE_SHORT ∨ tag.type = TYPE_SSHORT) ∨
      (tag.type = TYPE_LONG ∨ tag.type = TYPE_SLONG) := by
    rcases hint with h | h | h | h | h | h <;> simp [h]
  rcases hcls with ht | ht | ht
  · have hs : spec_element_size tag.type = 1 := by
      rcases ht with h | h <;> simp [spec_element_size, h]
    have hle := hbyte hs
    have h := parseTag_byte sysLE g file tag data val ht hpos hle hguard
    refine ⟨_, h, rfl, rfl, rfl, rfl, rfl, ?_⟩
    have he : elementBytes g file tag data = data := by
      unfold elementBytes
      rw [hs, if_pos (by omega)]
    simp only [hs, he, spec_read_element, if_true]
  · have hs : spec_element_size tag.type = 2 := by
      rcases ht with h | h <;>
        simp [spec_element_size, h, TYPE_SHORT, TYPE_SSHORT, TYPE_BYTE, TYPE_SBYTE]
    rw [hs] at hread
    have h := parseTag_short sysLE g file tag data val ht hpos hcount hfile hd hguard hread
      (hshort hs)
    refine ⟨_, h, rfl, rfl, rfl, rfl, rfl, ?_⟩
    simp only [hs, elementBytes, spec_read_element, show ¬ (2 = 1) by decide, if_false,
      if_true]
  · have hs : spec_element_size tag.type = 4 := by
      rcases ht with h | h <;>
        simp [spec_element_size, h, TYPE_LONG, TYPE_SLONG, TYPE_SHORT, TYPE_SSHORT, TYPE_BYTE,
          TYPE_SBYTE]
    rw [hs] at hread
    have h := parseTag_long sysLE g file tag data val ht hpos hcount hfile hoff hguard hread
    refine ⟨_, h, rfl, rfl, rfl, rfl, rfl, ?_⟩
    simp only [hs, elementBytes, spec_read_element, show ¬ (4 = 1) by decide,
      show ¬ (4 = 2) by decide, if_false]

theorem integer_slots_zero_extended_witness :
    ∃ n, (parseTag true sampleGlobals sampleJpeg
        (readIfdTag true sampleGlobals.App1Header sampleFieldSShort)
        ((sampleFieldSShort.drop 8).take 4) 0).node = some n ∧
      n.tagId = (readIfdTag true sampleGlobals.App1Header sampleFieldSShort).tag ∧
      n.type = (readIfdTag true sampleGlobals.App1Header sampleFieldSShort).type ∧
      n.count = (readIfdTag true sampleGlobals.App1Header sampleFieldSShort).count ∧
      n.error = 0 ∧ n.byteData = none ∧
      n.numData = some ((List.range
          (readIfdTag true sampleGlobals.App1Header sampleFieldSShort).count).map (fun i =>
        spec_read_element (dataIsLittleEndian sampleGlobals.App1Header)
          (spec_element_size (readIfdTag true sampleGlobals.App1Header sampleFieldSShort).type)
          ((elementBytes sampleGlobals sampleJpeg
              (readIfdTag true sampleGlobals.App1Header sampleFieldSShort)
              ((sampleFieldSShort.drop 8).take 4)).drop
            (i * spec_element_size
              (readIfdTag true sampleGlobals.App1Header sampleFieldSShort).type)))) :=
  integer_slots_zero_extended true sampleGlobals sampleJpeg sampleFieldSShort
    (readIfdTag true sampleGlobals.App1Header sampleFieldSShort)
    ((sampleFieldSShort.drop 8).take 4) 0 rfl rfl (by decide) (by decide) (by decide)
    (by decide) (by decide) (by decide) (by decide) (by decide) (by decide) (by decide)

/-- Claim C37, evaluation: the BYTE tag of count 5 of `sampleJpegByteArray` has the
readable payload `01 02 03 04 05`, and `parseIFD` (little-endian host) stores the slots
`0x11223301 .. 0x11223305` for it: each slot keeps the three upper bytes of the value
`0x11223344` of the LONG tag decoded before it. On a big-endian host the payload byte
becomes the top byte of the slot. The same tag field decoded with `val = 0` gives the
slots 1 .. 5. -/
theorem byte_slots_keep_earlier_value :
    fread sampleJpegByteArray 50 5 = [1, 2, 3, 4, 5] ∧
    init true sampleJpegByteArray = some (1, sampleGlobalsByteArray) ∧
    parseIFD true sampleGlobalsByteArray sampleJpegByteArray 8 IFD_0TH 0 =
      some sampleIfd0ByteArray ∧
    (createIfdTableArray true sampleJpegByteArray (fun _ => 0)).map (fun x => x.2.1) =
      some (some [sampleIfd0ByteArray]) ∧
    ((parseIFD false { sampleGlobalsByteArray with
          App1Header := { sampleGlobalsByteArray.App1Header with marker := 0xFFE1 } }
        sampleJpegByteArray 8 IFD_0TH 0).map
        (fun i => (getTagNodePtrFromIfd i 0x0200).map (fun t => t.numData))) =
      some (some (some [0x01223344, 0x02223344, 0x03223344, 0x04223344, 0x05223344])) ∧
    (parseTag true sampleGlobalsByteArray sampleJpegByteArray
        { tag := 0x0200, type := TYPE_BYTE, count := 5, offset := 38 } [38, 0, 0, 0]
        0).node.map (fun t => t.numData) = some (some [1, 2, 3, 4, 5]) := by
  decide

/-- Claim C33, counterexample: `init` accepts `sampleJpegCut`, the count and the two tag
fields of its 0th IFD can be read and have the types LONG and ASCII, and `parseIFD`
handles them with defined behaviour; but the file ends where `parseIFD` reads the
next-IFD offset, so `parseIFD` returns `NULL` and `createIfdTableArray` stores
`ERR_INVALID_IFD`. -/
theorem tags_in_read_order_counterexample :
    init true sampleJpegCut = some (1, sampleGlobalsCut) ∧
    EntriesReadable true sampleGlobalsCut sampleJpegCut 8 ∧
    ifdTagCount true sampleGlobalsCut sampleJpegCut 8 = 2 ∧
    (∀ i < 2, entryTypeKnown true sampleGlobalsCut sampleJpegCut 22 i) ∧
    parseIFDDefined true sampleGlobalsCut sampleJpegCut 8 IFD_0TH 0 ∧
    parseIFD true sampleGlobalsCut sampleJpegCut 8 IFD_0TH 0 = none ∧
    (createIfdTableArray true sampleJpegCut (fun _ => 0)).map (fun r => (r.1, r.2.1)) =
      some (ERR_INVALID_IFD, none) := by
  decide

/-- Claim C33 (amended). When the count and all tag fields of an IFD can be read, every
tag field has one of the ten types, for a 0th IFD the four bytes that `parseIFD` reads
as the next-IFD offset can be read, and the call has defined behaviour
(`parseIFDDefined`: no tag field makes the loop write past a buffer, and for a 1st IFD
the thumbnail tags that are read have a cell `numData[0]`), `parseIFD` returns a table
whose list has exactly as many nodes as the count says, and the node at place `i` has the
id, the type and the count of tag field `i`. -/
theorem tags_in_read_order (sysLE : Bool) (g : Globals) (file : List Nat)
    (startOffset : Nat) (ifdType : IFD_TYPE) (val0 : Nat)
    (he : EntriesReadable sysLE g file startOffset)
    (hn : NextReadable sysLE g file startOffset ifdType)
    (htypes : ∀ i < ifdTagCount sysLE g file startOffset,
      entryTypeKnown sysLE g file (seekToRelativeOffset g startOffset + 2) i)
    (_hdef : parseIFDDefined sysLE g file startOffset ifdType val0) :
    ∃ ifd, parseIFD sysLE g file startOffset ifdType val0 = some ifd ∧
      ifd.tagCount = ifdTagCount sysLE g file startOffset ∧
      ifd.tags.length = ifdTagCount sysLE g file startOffset ∧
      ifd.tags.map tagTriple =
        (List.range (ifdTagCount sysLE g file startOffset)).map
          (fun i => fieldTriple
            (entryTag sysLE g file (seekToRelativeOffset g startOffset + 2) i)) := by
  obtain ⟨ifd, h, _, hc, ht⟩ := parseIFD_eq sysLE g file startOffset ifdType val0 he hn
  have hall : (List.range (ifdTagCount sysLE g file startOffset)).filter
      (fun i => decide (entryTypeKnown sysLE g file
        (seekToRelativeOffset g startOffset + 2) i)) =
      List.range (ifdTagCount sysLE g file startOffset) := by
    rw [List.filter_eq_self]
    intro i hi
    simpa using htypes i (List.mem_range.mp hi)
  have hm : ifd.tags.map tagTriple =
      (List.range (ifdTagCount sysLE g file startOffset)).map
        (fun i => fieldTriple
          (entryTag sysLE g file (seekToRelativeOffset g startOffset + 2) i)) := by
    rw [ht, nodes_triples, hall]
  refine ⟨ifd, h, hc, ?_, hm⟩
  have := congrArg List.length hm
  simpa using this

theorem tags_in_read_order_witness :
    ∃ ifd, parseIFD true sampleGlobals sampleJpeg 8 IFD_0TH 0 = some ifd ∧
      ifd.tagCount = ifdTagCount true sampleGlobals sampleJpeg 8 ∧
      ifd.tags.length = ifdTagCount true sampleGlobals sampleJpeg 8 ∧
      ifd.tags.map tagTriple =
        (List.range (ifdTagCount true sampleGlobals sampleJpeg 8)).map
          (fun i => fieldTriple
            (entryTag true sampleGlobals sampleJpeg
              (seekToRelativeOffset sampleGlobals 8 + 2) i)) :=
  tags_in_read_order true sampleGlobals sampleJpeg 8 IFD_0TH 0 (by decide) (by decide)
    (by decide) (by decide)

/-- Claim C38, counterexample: the 0th IFD of `sampleJpegDouble` has two tag fields that
can be read, the second of the type 12 (DOUBLE); `parseIFD` returns a table with
`tagCount = 2` whose list holds one node: the second field is skipped. -/
theorem every_entry_yields_tag_counterexample :
    init true sampleJpegDouble = some (1, sampleGlobalsDouble) ∧
    EntriesReadable true sampleGlobalsDouble sampleJpegDouble 8 ∧
    (entryTag true sampleGlobalsDouble sampleJpegDouble 22 1).type = 12 ∧
    parseIFD true sampleGlobalsDouble sampleJpegDouble 8 IFD_0TH 0 =
      some sampleIfd0Double ∧
    sampleIfd0Double.tagCount = 2 ∧ sampleIfd0Double.tags.length = 1 := by
  decide

/-- Claim C38 (amended). The table `parseIFD` returns has the count read from the file as
its `tagCount`, and its list holds one node for each tag field whose type is one of the
ten, with the id, type and count of that field, in the order of the fields; a field of
another type adds no node. So the list has at most `tagCount` nodes, and exactly
`tagCount` nodes when and only when every field has one of the ten types. -/
theorem every_entry_yields_tag (sysLE : Bool) (g : Globals) (file : List Nat)
    (startOffset : Nat) (ifdType : IFD_TYPE) (val0 : Nat) (ifd : IfdTable)
    (h : parseIFD sysLE g file startOffset ifdType val0 = some ifd) :
    ifd.tagCount = ifdTagCount sysLE g file startOffset ∧
    ifd.tags.map tagTriple =
      ((List.range ifd.tagCount).filter (fun i => decide (entryTypeKnown sysLE g file
          (seekToRelativeOffset g startOffset + 2) i))).map
        (fun i => fieldTriple
          (entryTag sysLE g file (seekToRelativeOffset g startOffset + 2) i)) ∧
    ifd.tags.length ≤ ifd.tagCount ∧
    (ifd.tags.length = ifd.tagCount ↔
      ∀ i < ifd.tagCount,
        entryTypeKnown sysLE g file (seekToRelativeOffset g startOffset + 2) i) := by
  obtain ⟨_, _, hc, ht⟩ := parseIFD_some sysLE g file startOffset ifdType val0 ifd h
  have hm : ifd.tags.map tagTriple =
      ((List.range ifd.tagCount).filter (fun i => decide (entryTypeKnown sysLE g file
          (seekToRelativeOffset g startOffset + 2) i))).map
        (fun i => fieldTriple
          (entryTag sysLE g file (seekToRelativeOffset g startOffset + 2) i)) := by
    rw [ht, nodes_triples, hc]
  have hl : ifd.tags.length =
      ((List.range ifd.tagCount).filter (fun i => decide (entryTypeKnown sysLE g file
          (seekToRelativeOffset g startOffset + 2) i))).length := by
    have := congrArg List.length hm
    simpa using this
  refine ⟨hc, hm, ?_, ?_⟩
  · rw [hl]
    have := List.length_filter_le (fun i => decide (entryTypeKnown sysLE g file
      (seekToRelativeOffset g startOffset + 2) i)) (List.range ifd.tagCount)
    simpa using this
  · rw [hl]
    have hiff := List.filter_length_eq_length (l := List.range ifd.tagCount)
      (p := fun i => decide (entryTypeKnown sysLE g file
        (seekToRelativeOffset g startOffset + 2) i))
    rw [List.length_range] at hiff
    rw [hiff]
    constructor
    · intro hh i hi
      simpa using hh i (List.mem_range.mpr hi)
    · intro hh i hi
      simpa using hh i (List.mem_range.mp hi)

theorem every_entry_yields_tag_witness :
    sampleIfd0Double.tagCount = ifdTagCount true sampleGlobalsDouble sampleJpegDouble 8 ∧
    sampleIfd0Double.tags.map tagTriple =
      ((List.range sampleIfd0Double.tagCount).filter (fun i => decide (entryTypeKnown true
          sampleGlobalsDouble sampleJpegDouble
          (seekToRelativeOffset sampleGlobalsDouble 8 + 2) i))).map
        (fun i => fieldTriple
          (entryTag true sampleGlobalsDouble sampleJpegDouble
            (seekToRelativeOffset sampleGlobalsDouble 8 + 2) i)) ∧
    sampleIfd0Double.tags.length ≤ sampleIfd0Double.tagCount ∧
    (sampleIfd0Double.tags.length = sampleIfd0Double.tagCount ↔
      ∀ i < sampleIfd0Double.tagCount,
        entryTypeKnown true sampleGlobalsDouble sampleJpegDouble
          (seekToRelativeOffset sampleGlobalsDouble 8 + 2) i) :=
  every_entry_yields_tag true sampleGlobalsDouble sampleJpegDouble 8 IFD_0TH 0
    sampleIfd0Double (by decide)

/-- Claim C34, counterexample. (1) `init` accepts `sampleJpegCut`; both tag fields of its
0th IFD can be read and the value of the second one lies beyond the end of the file;
`parseIFD` returns `NULL`, because the four bytes of the next-IFD offset cannot be read.
(2) `init` accepts `sampleJpegTwoArraysFar` and `sampleJpegTwoArrays`, which differ in
the offset of the LONG tag only. In the first the value of the LONG tag cannot be read
and the BYTE tag after it gets the slots 1 to 5; in the second, where the value of the
LONG tag can be read and the tag field and the value of the BYTE tag are the same, the
BYTE tag gets the slots `0x88776601` to `0x88776605`. All three calls of `parseIFD` have
defined behaviour. -/
theorem decode_failures_isolated_counterexample :
    (init true sampleJpegCut = some (1, sampleGlobalsCut) ∧
      EntriesReadable true sampleGlobalsCut sampleJpegCut 8 ∧
      ¬ payloadReadable sampleGlobalsCut sampleJpegCut
          (entryTag true sampleGlobalsCut sampleJpegCut 22 1) ∧
      parseIFDDefined true sampleGlobalsCut sampleJpegCut 8 IFD_0TH 0 ∧
      parseIFD true sampleGlobalsCut sampleJpegCut 8 IFD_0TH 0 = none) ∧
    (init true sampleJpegTwoArraysFar = some (1, sampleGlobalsTwoArrays) ∧
      init true sampleJpegTwoArrays = some (1, sampleGlobalsTwoArrays) ∧
      EntriesReadable true sampleGlobalsTwoArrays sampleJpegTwoArraysFar 8 ∧
      ¬ payloadReadable sampleGlobalsTwoArrays sampleJpegTwoArraysFar
          (entryTag true sampleGlobalsTwoArrays sampleJpegTwoArraysFar 22 0) ∧
      payloadReadable sampleGlobalsTwoArrays sampleJpegTwoArrays
          (entryTag true sampleGlobalsTwoArrays sampleJpegTwoArrays 22 0) ∧
      entryBytes sampleJpegTwoArraysFar 22 1 = entryBytes sampleJpegTwoArrays 22 1 ∧
      valueBytes sampleGlobalsTwoArrays sampleJpegTwoArraysFar
          (entryTag true sampleGlobalsTwoArrays sampleJpegTwoArrays 22 1) =
        valueBytes sampleGlobalsTwoArrays sampleJpegTwoArrays
          (entryTag true sampleGlobalsTwoArrays sampleJpegTwoArrays 22 1) ∧
      parseIFDDefined true sampleGlobalsTwoArrays sampleJpegTwoArraysFar 8 IFD_0TH 0 ∧
      parseIFDDefined true sampleGlobalsTwoArrays sampleJpegTwoArrays 8 IFD_0TH 0 ∧
      parseIFD true sampleGlobalsTwoArrays sampleJpegTwoArraysFar 8 IFD_0TH 0 =
        some sampleIfd0TwoArraysFar ∧
      parseIFD true sampleGlobalsTwoArrays sampleJpegTwoArrays 8 IFD_0TH 0 =
        some sampleIfd0TwoArrays ∧
      sampleIfd0TwoArraysFar.tags.get? 1 ≠ sampleIfd0TwoArrays.tags.get? 1) := by
  decide

/-- Claim C34 (amended). When the count and all tag fields of an IFD can be read, for a
0th IFD the four bytes that `parseIFD` reads as the next-IFD offset can be read, and the
call has defined behaviour (`parseIFDDefined`: no tag field makes the loop write past a
buffer, and for a 1st IFD the thumbnail tags that are read have a cell `numData[0]`),
`parseIFD` returns a table, also when the value of some field cannot be read or its
count is 0. The list of the table holds the nodes of the fields in their order; a field
of one of the ten types (count below `2 ^ 30`) whose count is 0 or whose value cannot be
read is kept as a node with the error flag set and no payload; and the node of every
field other than an out-of-line BYTE or SBYTE value (and, on a big-endian host, an
out-of-line SHORT or SSHORT value) is fixed by the twelve bytes of the field and the
bytes of its own value alone: it is the same in every file that agrees on them, whether
the values of the other fields can be read there or not. -/
theorem decode_failures_isolated (sysLE : Bool) (g : Globals) (file : List Nat)
    (startOffset : Nat) (ifdType : IFD_TYPE) (val0 : Nat)
    (he : EntriesReadable sysLE g file startOffset)
    (hn : NextReadable sysLE g file startOffset ifdType)
    (_hdef : parseIFDDefined sysLE g file startOffset ifdType val0) :
    ∃ ifd, parseIFD sysLE g file startOffset ifdType val0 = some ifd ∧
      ifd.tags = (List.range (ifdTagCount sysLE g file startOffset)).filterMap
        (entryNode sysLE g file (seekToRelativeOffset g startOffset + 2) val0) ∧
      (∀ i, entryTypeKnown sysLE g file (seekToRelativeOffset g startOffset + 2) i →
        (entryTag sysLE g file (seekToRelativeOffset g startOffset + 2) i).count <
          1073741824 →
        ((entryTag sysLE g file (seekToRelativeOffset g startOffset + 2) i).count = 0 ∨
          ¬ payloadReadable g file
            (entryTag sysLE g file (seekToRelativeOffset g startOffset + 2) i)) →
        entryNode sysLE g file (seekToRelativeOffset g startOffset + 2) val0 i =
          some (errorTag
            (entryTag sysLE g file (seekToRelativeOffset g startOffset + 2) i))) ∧
      (∀ i file2 val2,
        ¬ dependsOnVal sysLE
            (entryTag sysLE g file (seekToRelativeOffset g startOffset + 2) i) →
        entryBytes file2 (seekToRelativeOffset g startOffset + 2) i =
          entryBytes file (seekToRelativeOffset g startOffset + 2) i →
        valueBytes g file2
            (entryTag sysLE g file (seekToRelativeOffset g startOffset + 2) i) =
          valueBytes g file
            (entryTag sysLE g file (seekToRelativeOffset g startOffset + 2) i) →
        entryNode sysLE g file2 (seekToRelativeOffset g startOffset + 2) val2 i =
          entryNode sysLE g file (seekToRelativeOffset g startOffset + 2) val0 i) := by
  obtain ⟨ifd, h, _, _, ht⟩ := parseIFD_eq sysLE g file startOffset ifdType val0 he hn
  refine ⟨ifd, h, ht, ?_, ?_⟩
  · intro i hk hc hf
    unfold entryNode
    rcases hf with hz | hr
    · exact parseTag_zero sysLE g file _ _ _ hk hz
    · exact parseTag_unreadable sysLE g file _ _ _ hk hc hr
  · intro i file2 val2 hd hb hv
    have htag : entryTag sysLE g file2 (seekToRelativeOffset g startOffset + 2) i =
        entryTag sysLE g file (seekToRelativeOffset g startOffset + 2) i := by
      unfold entryTag
      rw [hb]
    have hdata : entryData file2 (seekToRelativeOffset g startOffset + 2) i =
        entryData file (seekToRelativeOffset g startOffset + 2) i := by
      unfold entryData
      rw [hb]
    unfold entryNode
    rw [htag, hdata, parseTag_file sysLE g file file2 _ _ _ hv]
    exact parseTag_indep sysLE g file _ _ _ _ hd

theorem decode_failures_isolated_witness :
    ∃ ifd, parseIFD true sampleGlobalsTwoArrays sampleJpegTwoArraysFar 8 IFD_0TH 0 =
        some ifd ∧
      ifd.tags = (List.range (ifdTagCount true sampleGlobalsTwoArrays
          sampleJpegTwoArraysFar 8)).filterMap
        (entryNode true sampleGlobalsTwoArrays sampleJpegTwoArraysFar
          (seekToRelativeOffset sampleGlobalsTwoArrays 8 + 2) 0) ∧
      (∀ i, entryTypeKnown true sampleGlobalsTwoArrays sampleJpegTwoArraysFar
          (seekToRelativeOffset sampleGlobalsTwoArrays 8 + 2) i →
        (entryTag true sampleGlobalsTwoArrays sampleJpegTwoArraysFar
          (seekToRelativeOffset sampleGlobalsTwoArrays 8 + 2) i).count < 1073741824 →
        ((entryTag true sampleGlobalsTwoArrays sampleJpegTwoArraysFar
            (seekToRelativeOffset sampleGlobalsTwoArrays 8 + 2) i).count = 0 ∨
          ¬ payloadReadable sampleGlobalsTwoArrays sampleJpegTwoArraysFar
            (entryTag true sampleGlobalsTwoArrays sampleJpegTwoArraysFar
              (seekToRelativeOffset sampleGlobalsTwoArrays 8 + 2) i)) →
        entryNode true sampleGlobalsTwoArrays sampleJpegTwoArraysFar
            (seekToRelativeOffset sampleGlobalsTwoArrays 8 + 2) 0 i =
          some (errorTag
            (entryTag true sampleGlobalsTwoArrays sampleJpegTwoArraysFar
              (seekToRelativeOffset sampleGlobalsTwoArrays 8 + 2) i))) ∧
      (∀ i file2 val2,
        ¬ dependsOnVal true
            (entryTag true sampleGlobalsTwoArrays sampleJpegTwoArraysFar
              (seekToRelativeOffset sampleGlobalsTwoArrays 8 + 2) i) →
        entryBytes file2 (seekToRelativeOffset sampleGlobalsTwoArrays 8 + 2) i =
          entryBytes sampleJpegTwoArraysFar
            (seekToRelativeOffset sampleGlobalsTwoArrays 8 + 2) i →
        valueBytes sampleGlobalsTwoArrays file2
            (entryTag true sampleGlobalsTwoArrays sampleJpegTwoArraysFar
              (seekToRelativeOffset sampleGlobalsTwoArrays 8 + 2) i) =
          valueBytes sampleGlobalsTwoArrays sampleJpegTwoArraysFar
            (entryTag true sampleGlobalsTwoArrays sampleJpegTwoArraysFar
              (seekToRelativeOffset sampleGlobalsTwoArrays 8 + 2) i) →
        entryNode true sampleGlobalsTwoArrays file2
            (seekToRelativeOffset sampleGlobalsTwoArrays 8 + 2) val2 i =
          entryNode true sampleGlobalsTwoArrays sampleJpegTwoArraysFar
            (seekToRelativeOffset sampleGlobalsTwoArrays 8 + 2) 0 i) :=
  decode_failures_isolated true sampleGlobalsTwoArrays sampleJpegTwoArraysFar 8
    IFD_0TH 0 (by decide) (by decide) (by decide)

/-- Claim C39, evaluated at the failing input `sampleJpegIfdAt10`, whose TIFF header
gives 10 as the offset of the 0th IFD. For the graph `[sampleIfd0At10]` the fixer sets
the offset of the 0th IFD to 8 and `updateExifSegmentInJPEGFile` writes
`sampleUpdatedIfdAt10`: the offset field of the TIFF header written (file offset 16) is
10, the value of the input, while the 0th IFD is written at the TIFF offset 8 (file
offset 20). `createIfdTableArray` on the file written returns `NULL` with
`ERR_INVALID_IFD`. -/
theorem written_ifd0_offset_stale :
    init true sampleJpegIfdAt10 = some (1, sampleGlobalsIfdAt10) ∧
    sampleGlobalsIfdAt10.App1Header.tiff.Ifd0thOffset = 10 ∧
    updateExifSegmentInJPEGFile true 2 sampleJpegIfdAt10 (some [sampleIfd0At10]) =
      some ({ sts := 1, out := some sampleUpdatedIfdAt10 }, some [sampleIfd0At10Fixed]) ∧
    sampleIfd0At10Fixed.offset = 8 ∧
    val32 true (fread sampleUpdatedIfdAt10 16 4) = 10 ∧
    fread sampleUpdatedIfdAt10 (12 + 8) 18 =
      (writeIfd true sampleGlobalsIfdAt10.App1Header sampleIfd0At10Fixed 8).1 ∧
    (createIfdTableArray true sampleUpdatedIfdAt10 (fun _ => 0)).map
        (fun r => (r.1, r.2.1)) = some (ERR_INVALID_IFD, none) := by
  decide

/-- Claim C40, evaluated at the failing input `sampleJpegComFirst`, which begins with
SOI and whose first marker after it is COM: `init` returns 0 (no Exif segment) and
leaves `JpegDQTOffset` at -1, which is no position in the file, and
`updateExifSegmentInJPEGFile` returns 1 and writes the new segment in front of the
whole input, so the output begins with `FF E1`, not with `FF D8`. -/
theorem insertion_point_missing :
    sampleJpegComFirst.take 2 = [0xFF, 0xD8] ∧
    (init true sampleJpegComFirst).map (fun x => (x.1, x.2.JpegDQTOffset)) =
      some (0, -1) ∧
    (updateExifSegmentInJPEGFile true 2 sampleJpegComFirst (some [sampleIfd0])).map
        (fun r => (r.1.sts, r.1.out.map (fun o => o.take 2),
          r.1.out.map (fun o => o.drop (o.length - sampleJpegComFirst.length)))) =
      some (1, some [0xFF, 0xE1], some sampleJpegComFirst) := by
  decide

end Exif
